import Mathlib

/-!
# Instance panel of the management console (`ui/new/scripts/cloud.core.instance.js`)

A shallow embedding of one activation of `clickInstanceGroupHeader`: the mid-menu
list of instance elements, the selection set `selectedItemIds`, the action-link
click handler (bulk dispatch), the timer-driven polling of asynchronous jobs for
bulk actions and for the deploy wizard, the annotation area of the right panel, the
grouping of the listed instances by label, and the deploy wizard: its template filter, its
template list, its step counter and the request string it sends.

Conventions of the embedding.

* The browser runs one callback at a time, so every callback is a function on `State`.
* A JavaScript exception leaves the running callback at the statement that raised it;
  the effects made before that statement stay.  The source contains no `try`.  For a
  callback of an asynchronous request the function returns the state reached at the
  raise.  The bulk submission is issued with `async: false`, so its callbacks run while
  the `for` loop of the click handler waits in `$.ajax`.  What a raise of such a callback
  does to the loop depends on the jQuery in use and is a parameter (`syncRaise`): with
  jQuery 1.4.2 the callback runs in the `readystatechange` event that the browser
  dispatches inside `xhr.send()`, the raise is reported and `$.ajax` returns; with a jQuery
  that calls the callback on its own stack the raise leaves `$.ajax` and the click handler
  (the result is then `Except.error` carrying the state reached at the raise).
* The order in which `for (var id in selectedItemIds)` visits the keys is chosen by the
  engine; it is a parameter (`forInKeys`) of which only this is assumed: every key is
  visited once.
* `undefined` is `none`; `jsString` is its rendering in a string concatenation or as a
  property key.  The value of a list box without option is null; for the zone list of the
  wizard `none` stands for it and `jsNullString` is its rendering.
* The right panel is taken to be loaded (`$rightPanelContent` is set), and ids are taken
  not to name an inherited property of `Object`.  Group labels are free text; for them the
  test `g in instanceGroupMap` is modelled with the inherited properties (`inherited`).
* A bound `$spinningWheel` and the external `handleError` are taken not to touch the
  elements of the mid menu.
* The markup is not part of the source.  The wizard is taken to be part of the loaded
  panel, so each of its handlers is bound once; the four filter buttons, the search input
  and the disk offering sections are taken to exist; a click in the filter area may hit any
  element of it, and a click in the template list the container, a box or a child of a box.
* `requests` and `reconciled` are history variables: the first records the argument of
  every `createURL` call that is sent, the second every execution of one of the four
  statements that store the terminal annotation `afterActionInfo`.
-/

namespace CloudInstance

/-! ## Values exchanged with the control plane -/

/-- Rendering of a possibly undefined string inside a concatenation or as a property key. -/
def jsString : Option String → String
  | some v => v
  | none => "undefined"

/-- One record of `listvirtualmachinesresponse.virtualmachine` (also the entity carried by
a job result). -/
structure Instance where
  id : String
  name : String
  displayname : String
  ipaddress : String
  state : String
  group : Option String
  zonename : String
  templatename : String
  serviceofferingname : String
  haenable : String
  created : String
  account : String
  domain : String
  hostname : String
  isoid : Option String
  deriving DecidableEq, Repr

/-- The object found under the response key of an asynchronous command; `jobid` may be absent. -/
structure JobEnvelope where
  jobid : Option String
  deriving DecidableEq, Repr

/-- Body of the response to a submission: the top-level keys with their envelopes. -/
abbrev SubmitJson := List (String × JobEnvelope)

/-- The object `json.queryasyncjobresultresponse`. -/
structure JobResult where
  jobstatus : Int
  virtualmachine : Option (List Instance)
  jobresult : Option String
  deriving DecidableEq, Repr

/-- Outcome of an `$.ajax` call: the `success` callback with the parsed body, or the
`error` callback. -/
inductive AjaxResult (α : Type) where
  | success (json : α)
  | error
  deriving DecidableEq, Repr

/-! ## Collaborators that live outside this source file -/

/-- Visible state of the hidden markup fragment `#midmenu_item_vm` that is cloned for every
mid-menu element. -/
structure ItemMarkup where
  vmName : String
  ipAddress : String
  ipLabelHidden : Bool
  statusIcon : String
  spinningWheel : Bool
  infoIcon : Bool
  infoIconError : Bool
  contentSelected : Bool
  deriving DecidableEq, Repr

/-- What becomes of an exception that a callback of a synchronous request raises. -/
inductive SyncRaise where
  /-- The callback runs in the `readystatechange` event that the browser dispatches inside
  `xhr.send()`: the raise ends the callback, the browser reports it and `$.ajax` returns
  (jQuery 1.4.2). -/
  | reported
  /-- The callback runs on the stack of `$.ajax`: the raise leaves the call and with it the
  function that made the call. -/
  | leaves
  /-- As `leaves`, but a raise of the `success` callback is caught by jQuery and handed to
  the `error` callback first. -/
  | toError
  deriving DecidableEq, Repr

/-- Functions, globals and markup the source uses but does not define. -/
structure Ext where
  /-- The string `"" + sanitizeXSS(v)`. -/
  sanitizeXSS : Option String → String
  /-- The helper `getVmName(name, displayname)`. -/
  getVmName : String → String → String
  /-- Whether some other script binds the global `$spinningWheel`, which this file reads
  in two error callbacks and never declares. -/
  spinningWheelBound : Bool
  /-- What the jQuery in use does with an exception raised by a callback of a synchronous
  request. -/
  syncRaise : SyncRaise
  /-- The order in which the engine visits the keys of an object in a `for`-`in` loop, given
  in the order of their insertion. -/
  forInKeys : List String → List String
  /-- Every key is visited once. -/
  forInKeys_perm : ∀ keys : List String, (forInKeys keys).Perm keys
  /-- The markup of `#midmenu_item_vm`. -/
  template : ItemMarkup

/-! ## View state -/

/-- Click handlers that the source binds on a mid-menu element. -/
inductive ClickHandler where
  /-- The handler bound by `setMidmenuItemVm` (lines 59-83). -/
  | vmClick
  /-- The handler bound when a deploy job fails (lines 862-868). -/
  | addingFailedClick
  deriving DecidableEq, Repr

/-- One child of `#midmenu_container`. `node` is the identity of the DOM node, which the
deploy callbacks hold as `$t`. -/
structure MidmenuItem where
  node : Nat
  attrId : String
  dataId : Option String
  dataJsonObj : Option Instance
  dataJobId : Option (Option String)
  afterActionInfo : Option String
  vmName : String
  ipAddress : String
  ipLabelHidden : Bool
  statusIcon : String
  spinningWheel : Bool
  infoIcon : Bool
  infoIconError : Bool
  contentSelected : Bool
  clickHandlers : List ClickHandler
  deriving DecidableEq, Repr

/-- An element with a class list and a display flag (`#ha`, `#iso`). -/
structure Flag where
  classes : List String
  shown : Bool
  deriving DecidableEq, Repr

/-- The parts of the right panel this file writes. -/
structure Panel where
  afterActionInfo : String
  afterActionInfoErrorbox : Bool
  afterActionInfoShown : Bool
  vmName : String
  stateText : String
  stateClasses : List String
  ipAddress : String
  zoneName : String
  templateName : String
  serviceOfferingName : String
  ha : Flag
  created : String
  account : String
  domain : String
  hostName : String
  group : String
  iso : Flag
  deriving DecidableEq, Repr

/-- The closure of a poll callback. A bulk job holds the number of the dispatch whose
`jobIdMap` it shares, its `jobId` and the action label; a deploy job holds the node `$t`
and its `jobId`. -/
inductive PollCtx where
  | bulk (dispatch : Nat) (jobId : Option String) (label : String)
  | deploy (node : Nat) (jobId : Option String)
  deriving DecidableEq, Repr

/-- A repeating timer registered on `body` by `everyTime`. -/
structure Timer where
  key : String
  ctx : PollCtx
  deriving DecidableEq, Repr

/-- One assignment `jobIdMap[jobId] = id` of the dispatch numbered `dispatch`. -/
structure JobIdEntry where
  dispatch : Nat
  jobKey : String
  itemId : String
  deriving DecidableEq, Repr

/-- An asynchronous request that has been sent and not yet answered. -/
inductive Pending where
  | poll (key : String) (ctx : PollCtx)
  | deploy (node : Nat)
  | listVms
  deriving DecidableEq, Repr

/-- One execution of a statement that stores a terminal annotation (lines 233, 238, 840,
861): the timer key of the job, the DOM node the annotation is stored on (none when the
selector matched no element), whether it is the failure annotation, and the text. -/
structure Reconciliation where
  key : String
  node : Option Nat
  failed : Bool
  text : String
  deriving DecidableEq, Repr

/-- State of one activation of `clickInstanceGroupHeader`. -/
structure State where
  selectedItemIds : List String
  midmenu : List MidmenuItem
  panel : Panel
  actionMenuShown : Bool
  wizardShown : Bool
  timers : List Timer
  jobIdMap : List JobIdEntry
  dispatches : Nat
  nextNode : Nat
  pending : List Pending
  requests : List String
  reconciled : List Reconciliation
  deriving DecidableEq, Repr

/-- An entry of `actionMap` as stored on an action link. -/
structure ActionInfo where
  api : String
  label : String
  isAsyncJob : Bool
  asyncJobResponse : String
  deriving DecidableEq, Repr

/-- The table `actionMap` (lines 20-31). -/
def actionMap : List ActionInfo :=
  [ { api := "stopVirtualMachine", label := "Stop", isAsyncJob := true,
      asyncJobResponse := "stopvirtualmachineresponse" },
    { api := "startVirtualMachine", label := "Start", isAsyncJob := true,
      asyncJobResponse := "startvirtualmachineresponse" } ]

/-! ## DOM helpers -/

/-- The jQuery call `removeClass` with a list of names. -/
def removeClass (names : List String) (classes : List String) : List String :=
  classes.filter (fun c => !(names.contains c))

/-- The jQuery call `addClass` with one name. -/
def addClass (name : String) (classes : List String) : List String :=
  if classes.contains name then classes else classes ++ [name]

/-- Apply `f` to the first element whose `id` attribute is `domId`, which is what the
selector `$("#" + domId)` addresses; no element, no effect. -/
def updateById (domId : String) (f : MidmenuItem → MidmenuItem) :
    List MidmenuItem → List MidmenuItem
  | [] => []
  | t :: ts => if t.attrId = domId then f t :: ts else t :: updateById domId f ts

/-- Apply `f` to the element that is the DOM node `node`. -/
def updateNode (node : Nat) (f : MidmenuItem → MidmenuItem) (items : List MidmenuItem) :
    List MidmenuItem :=
  items.map (fun t => if t.node = node then f t else t)

/-- The element addressed by `$("#" + domId)`. -/
def findById (domId : String) (items : List MidmenuItem) : Option MidmenuItem :=
  items.find? (fun t => t.attrId = domId)

/-- The element that is the DOM node `node`. -/
def findNode (node : Nat) (items : List MidmenuItem) : Option MidmenuItem :=
  items.find? (fun t => t.node = node)

/-- A fresh clone of `#midmenu_item_vm`: the markup without data and without handlers.
The selector is taken to address the markup fragment itself, not a placeholder that still
carries the cloned id. -/
def cloneTemplate (ext : Ext) (node : Nat) : MidmenuItem :=
  { node := node, attrId := "midmenu_item_vm", dataId := none, dataJsonObj := none,
    dataJobId := none, afterActionInfo := none,
    vmName := ext.template.vmName, ipAddress := ext.template.ipAddress,
    ipLabelHidden := ext.template.ipLabelHidden, statusIcon := ext.template.statusIcon,
    spinningWheel := ext.template.spinningWheel, infoIcon := ext.template.infoIcon,
    infoIconError := ext.template.infoIconError,
    contentSelected := ext.template.contentSelected, clickHandlers := [] }

/-! ## Status indicator (lines 33-49) -/

/-- The function `updateVirtualMachineStateInRightPanel`. -/
def updateVirtualMachineStateInRightPanel (state : String) (p : Panel) : Panel :=
  if state = "Running" then
    { p with stateText := state, stateClasses := addClass "green" (removeClass ["red", "gray"] p.stateClasses) }
  else if state = "Stopped" then
    { p with stateText := state, stateClasses := addClass "red" (removeClass ["green", "gray"] p.stateClasses) }
  else
    { p with stateText := state, stateClasses := addClass "gray" (removeClass ["green", "red"] p.stateClasses) }

/-- The function `updateVirtualMachineStateInMidMenu`. -/
def updateVirtualMachineStateInMidMenu (state : String) (t : MidmenuItem) : MidmenuItem :=
  if state = "Running" then { t with statusIcon := "images/status_green.png" }
  else if state = "Stopped" then { t with statusIcon := "images/status_red.png" }
  else { t with statusIcon := "images/status_gray.png" }

/-! ## Right panel (lines 86-123) -/

/-- The function `vmJsonToRightPanel`. The call `.text(v)` with `v` null or undefined is
the getter, so an absent group leaves the group text as it is. -/
def vmJsonToRightPanel (ext : Ext) (o : Instance) (p : Panel) : Panel :=
  let p1 := updateVirtualMachineStateInRightPanel o.state
    { p with vmName := ext.getVmName o.name o.displayname }
  { p1 with
    ipAddress := o.ipaddress
    zoneName := o.zonename
    templateName := o.templatename
    serviceOfferingName := o.serviceofferingname
    ha :=
      if o.haenable = "true" then
        { classes := addClass "tick_icon" (removeClass ["cross_icon"] p1.ha.classes), shown := true }
      else
        { classes := addClass "cross_icon" (removeClass ["tick_icon"] p1.ha.classes), shown := true }
    created := o.created
    account := o.account
    domain := o.domain
    hostName := o.hostname
    group :=
      match o.group with
      | some g => g
      | none => p1.group
    iso :=
      match o.isoid with
      | some v =>
        if v.length > 0 then
          { classes := addClass "tick_icon" (removeClass ["cross_icon"] p1.iso.classes), shown := true }
        else
          { classes := addClass "cross_icon" (removeClass ["tick_icon"] p1.iso.classes), shown := true }
      | none =>
        { classes := addClass "cross_icon" (removeClass ["tick_icon"] p1.iso.classes), shown := true } }

/-- The function `vmClearRightPanel`. -/
def vmClearRightPanel (p : Panel) : Panel :=
  let p1 := updateVirtualMachineStateInRightPanel "" { p with vmName := "" }
  { p1 with
    ipAddress := "", zoneName := "", templateName := "", serviceOfferingName := "",
    ha := { p1.ha with shown := false }, created := "", account := "", domain := "",
    hostName := "", group := "", iso := { p1.iso with shown := false } }

/-! ## Selection and the element click handlers (lines 51-84, 862-868) -/

/-- The statement `if(!(id in selectedItemIds)) selectedItemIds[id] = null;`. Keys are kept
in insertion order; ids are taken not to name an inherited property of `Object`. -/
def select (id : String) (selectedItemIds : List String) : List String :=
  if id ∈ selectedItemIds then selectedItemIds else selectedItemIds ++ [id]

/-- The annotation part of the click handler (lines 67-78). The call `.text(v)` with `v`
undefined is the getter and writes nothing. -/
def showAfterActionInfo (t : MidmenuItem) (p : Panel) : Panel :=
  if t.infoIcon then
    { p with
      afterActionInfo := match t.afterActionInfo with
        | some a => a
        | none => p.afterActionInfo
      afterActionInfoErrorbox := t.infoIconError
      afterActionInfoShown := true }
  else
    { p with afterActionInfo := "", afterActionInfoShown := false }

/-- The click handler bound by `setMidmenuItemVm`, run on the clicked node `t`. -/
def vmClick (ext : Ext) (t : MidmenuItem) (s : State) : State :=
  let s1 : State :=
    { s with
      midmenu := updateNode t.node (fun u => { u with contentSelected := true }) s.midmenu
      selectedItemIds := select (jsString t.dataId) s.selectedItemIds
      panel := showAfterActionInfo t s.panel }
  match t.dataJsonObj with
  | some o => { s1 with panel := vmJsonToRightPanel ext o s1.panel }
  | none => s1

/-- The click handler bound on a placeholder whose deploy job failed. -/
def addingFailedClick (t : MidmenuItem) (s : State) : State :=
  { s with
    panel := vmClearRightPanel
      { s.panel with
        afterActionInfo := match t.afterActionInfo with
          | some a => a
          | none => s.panel.afterActionInfo
        afterActionInfoErrorbox := true
        afterActionInfoShown := true } }

/-- Run one bound handler on the clicked node. -/
def runHandler (ext : Ext) (node : Nat) (h : ClickHandler) (s : State) : State :=
  match findNode node s.midmenu with
  | none => s
  | some t =>
    match h with
    | .vmClick => vmClick ext t s
    | .addingFailedClick => addingFailedClick t s

/-- A click on the mid-menu element `node`: its handlers run in the order they were bound. -/
def itemClick (ext : Ext) (node : Nat) (s : State) : State :=
  match findNode node s.midmenu with
  | none => s
  | some t => t.clickHandlers.foldl (fun acc h => runHandler ext node h acc) s

/-- The function `setMidmenuItemVm`. -/
def setMidmenuItemVm (ext : Ext) (o : Instance) (t : MidmenuItem) : MidmenuItem :=
  let t1 : MidmenuItem :=
    { t with
      dataJsonObj := some o
      attrId := "midmenuItemVm_" ++ o.id
      dataId := some o.id
      vmName := ext.getVmName o.name o.displayname
      ipAddress := o.ipaddress }
  let t2 := updateVirtualMachineStateInMidMenu o.state t1
  { t2 with clickHandlers := t2.clickHandlers ++ [ClickHandler.vmClick] }

/-! ## Timers (jQuery timers plug-in) -/

/-- The call `$("body").everyTime(10000, key, fn, 0)`: one more repeating timer under `key`. -/
def everyTime (key : String) (ctx : PollCtx) (timers : List Timer) : List Timer :=
  timers ++ [{ key := key, ctx := ctx }]

/-- The call `$("body").stopTime(key)`: every timer registered under `key` is removed. -/
def stopTime (key : String) (timers : List Timer) : List Timer :=
  timers.filter (fun tm => tm.key != key)

/-- Whether a timer is registered under `key`. -/
def timerRegistered (key : String) (timers : List Timer) : Bool :=
  timers.any (fun tm => tm.key == key)

/-- The `jobId` a poll closure holds. -/
def PollCtx.jobId : PollCtx → Option String
  | .bulk _ j _ => j
  | .deploy _ j => j

/-- The query sent by a poll (lines 220 and 828). -/
def pollRequest (jobId : Option String) : String :=
  "command=queryAsyncJobResult&jobId=" ++ jsString jobId ++ "&response=json"

/-- The timer key of a bulk-action job (line 214). -/
def bulkTimerKey (jobId : Option String) : String := "asyncJob_" ++ jsString jobId

/-- The timer key of a deploy job (line 820). -/
def deployTimerKey (jobId : Option String) : String := "vmNew" ++ jsString jobId

/-! ## Bulk dispatch (lines 195-265) -/

/-- The request of one bulk submission (line 208). -/
def submitRequest (api id : String) : String :=
  "command=" ++ api ++ "&id=" ++ id ++ "&response=json"

/-- The expression `jobIdMap[jobId]` evaluated in a callback of dispatch `d`. The newest
assignment is first. -/
def jobIdMapGet (d : Nat) (jobId : Option String) (m : List JobIdEntry) : Option String :=
  (m.find? (fun e => e.dispatch = d ∧ e.jobKey = jsString jobId)).map (fun e => e.itemId)

/-- Lines 204-205: the element of `id` shows its progress indicator and hides its info icon. -/
def markBusy (id : String) (items : List MidmenuItem) : List MidmenuItem :=
  updateById ("midmenuItemVm_" ++ id)
    (fun t => { t with spinningWheel := true, infoIcon := false }) items

/-- The `success` callback of a submission (lines 211-251). Reading `.jobid` of a missing
envelope raises. -/
def submitSuccess (a : ActionInfo) (d : Nat) (id : String) (json : SubmitJson) (s : State) :
    Except State State :=
  match json.lookup a.asyncJobResponse with
  | none => .error s
  | some env =>
    .ok { s with
      jobIdMap := { dispatch := d, jobKey := jsString env.jobid, itemId := id } :: s.jobIdMap
      timers := everyTime (bulkTimerKey env.jobid) (.bulk d env.jobid a.label) s.timers }

/-- The `error` callback of a submission (lines 253-256). Reading the unbound global
`$spinningWheel` raises. -/
def submitError (ext : Ext) (s : State) : Except State State :=
  if ext.spinningWheelBound then .ok s else .error s

/-- The state a callback or handler leaves, whether it returned or raised. -/
def finalState : Except State State → State
  | .ok s => s
  | .error s => s

/-- The call `$.ajax` with `async: false`: the callback for the outcome runs before the
call returns. A raise of the callback is reported by the browser and the call returns
(`reported`), or it leaves the call (`leaves`), or a raise of `success` is first handed to
`error` (`toError`). -/
def ajaxSync {α : Type} (ext : Ext) (success : α → State → Except State State)
    (error : State → Except State State) (r : AjaxResult α) (s : State) : Except State State :=
  match ext.syncRaise with
  | .reported =>
    match r with
    | .success json => .ok (finalState (success json s))
    | .error => .ok (finalState (error s))
  | .leaves =>
    match r with
    | .success json => success json s
    | .error => error s
  | .toError =>
    match r with
    | .success json =>
      match success json s with
      | .ok s1 => .ok s1
      | .error s1 => error s1
    | .error => error s

/-- One iteration of the loop `for (var id in selectedItemIds)`. -/
def dispatchStep (ext : Ext) (a : ActionInfo) (d : Nat) (server : String → AjaxResult SubmitJson)
    (id : String) (s : State) : Except State State :=
  let s1 : State := { s with midmenu := markBusy id s.midmenu }
  if a.isAsyncJob then
    let s2 : State := { s1 with requests := s1.requests ++ [submitRequest a.api id] }
    ajaxSync ext (submitSuccess a d id) (submitError ext) (server id) s2
  else
    .ok s1

/-- The loop over the keys in the order the engine visits them; a raise that leaves an
iteration ends the loop. -/
def dispatchLoop (ext : Ext) (a : ActionInfo) (d : Nat) (server : String → AjaxResult SubmitJson) :
    List String → State → Except State State
  | [], s => .ok s
  | id :: ids, s =>
    match dispatchStep ext a d server id s with
    | .ok s1 => dispatchLoop ext a d server ids s1
    | .error s1 => .error s1

/-- The click handler of an action link. `server id` is the answer of the control plane to
the submission for `id`. The statement `selectedItemIds = {}` follows the loop. -/
def dispatch (ext : Ext) (a : ActionInfo) (server : String → AjaxResult SubmitJson) (s : State) :
    State :=
  let s0 : State := { s with actionMenuShown := false, dispatches := s.dispatches + 1 }
  match dispatchLoop ext a s.dispatches server (ext.forInKeys s.selectedItemIds) s0 with
  | .ok s1 => { s1 with selectedItemIds := [] }
  | .error s1 => s1

/-! ## Polling of a bulk-action job (lines 218-248) -/

/-- What the poll `success` callback does to the subject element `$item` for a finished job
(lines 230-239). With an empty `virtualmachine` array the callback raises at `[0].state`,
after the annotation is stored. -/
def bulkReconcileItem (ext : Ext) (label : String) (result : JobResult) (t : MidmenuItem) :
    MidmenuItem :=
  let t1 : MidmenuItem := { t with spinningWheel := false }
  if result.jobstatus = 1 then
    let t2 : MidmenuItem :=
      { t1 with infoIconError := false, infoIcon := true,
                afterActionInfo := some (label ++ " action succeeded.") }
    match result.virtualmachine with
    | none => t2
    | some vms =>
      match vms.head? with
      | none => t2
      | some vm => updateVirtualMachineStateInMidMenu vm.state t2
  else if result.jobstatus = 2 then
    { t1 with infoIconError := true, infoIcon := true,
              afterActionInfo :=
                some (label ++ " action failed. Reason: " ++ ext.sanitizeXSS result.jobresult) }
  else
    t1

/-- The executions of an annotation statement a job result causes: the success text for
`jobstatus` 1, the failure text for `jobstatus` 2, none otherwise. -/
def reconciliationOf (key : String) (node : Option Nat) (succeeded failed : String)
    (result : JobResult) : List Reconciliation :=
  if result.jobstatus = 1 then [{ key := key, node := node, failed := false, text := succeeded }]
  else if result.jobstatus = 2 then [{ key := key, node := node, failed := true, text := failed }]
  else []

/-- The poll `success` callback of a bulk-action job (lines 222-241). A body without
`queryasyncjobresultresponse` raises at `result.jobstatus`. -/
def bulkPollSuccess (ext : Ext) (key : String) (d : Nat) (jobId : Option String) (label : String)
    (json : Option JobResult) (s : State) : State :=
  match json with
  | none => s
  | some result =>
    if result.jobstatus = 0 then s
    else
      { s with
        timers := stopTime key s.timers
        midmenu := updateById ("midmenuItemVm_" ++ jsString (jobIdMapGet d jobId s.jobIdMap))
          (bulkReconcileItem ext label result) s.midmenu
        reconciled := s.reconciled ++
          reconciliationOf key
            ((findById ("midmenuItemVm_" ++ jsString (jobIdMapGet d jobId s.jobIdMap))
              s.midmenu).map (fun t => t.node))
            (label ++ " action succeeded.")
            (label ++ " action failed. Reason: " ++ ext.sanitizeXSS result.jobresult) result }

/-- The poll `error` callback of a bulk-action job (lines 242-246). -/
def bulkPollError (ext : Ext) (key : String) (s : State) : State :=
  if ext.spinningWheelBound then { s with timers := stopTime key s.timers } else s

/-! ## Deploy job (lines 806-900) -/

/-- Lines 806-815: the wizard closes, a placeholder is appended and the deploy request is
sent. `moreCriteria` is the joined parameter list built by the wizard. -/
def deployClick (ext : Ext) (moreCriteria : String) (s : State) : State :=
  let t : MidmenuItem :=
    { cloneTemplate ext s.nextNode with
      vmName := "Adding....", ipLabelHidden := true, spinningWheel := true }
  { s with
    wizardShown := false
    midmenu := s.midmenu ++ [t]
    nextNode := s.nextNode + 1
    requests := s.requests ++ ["command=deployVirtualMachine" ++ moreCriteria ++ "&response=json"]
    pending := s.pending ++ [Pending.deploy t.node] }

/-- The `success` callback of the deploy submission (lines 817-894). -/
def deploySubmitSuccess (node : Nat) (json : SubmitJson) (s : State) : State :=
  match json.lookup "deployvirtualmachineresponse" with
  | none => s
  | some env =>
    { s with
      midmenu := updateNode node
        (fun t => { t with attrId := "vmNew" ++ jsString env.jobid, dataJobId := some env.jobid })
        s.midmenu
      timers := everyTime (deployTimerKey env.jobid) (.deploy node env.jobid) s.timers }

/-- The `error` callback of the deploy submission (lines 895-899). -/
def deploySubmitError (node : Nat) (s : State) : State :=
  { s with
    midmenu := updateNode node
      (fun t => { t with infoIconError := true, infoIcon := true, vmName := "Adding failed" })
      s.midmenu }

/-- What the deploy poll `success` callback does to the placeholder for a finished job. -/
def deployReconcileItem (ext : Ext) (result : JobResult) (t : MidmenuItem) : MidmenuItem :=
  let t1 : MidmenuItem := { t with spinningWheel := false }
  if result.jobstatus = 1 then
    let t2 : MidmenuItem :=
      { t1 with infoIconError := false, infoIcon := true,
                afterActionInfo := some "Adding succeeded." }
    match result.virtualmachine with
    | none => t2
    | some vms =>
      match vms.head? with
      | none => t2
      | some vm => setMidmenuItemVm ext vm t2
  else if result.jobstatus = 2 then
    { t1 with vmName := "Adding failed", infoIconError := true, infoIcon := true,
              afterActionInfo := some ("Adding failed. Reason: " ++ ext.sanitizeXSS result.jobresult),
              clickHandlers := t1.clickHandlers ++ [ClickHandler.addingFailedClick] }
  else
    t1

/-- The poll `success` callback of a deploy job (lines 830-883). -/
def deployPollSuccess (ext : Ext) (key : String) (node : Nat) (json : Option JobResult)
    (s : State) : State :=
  match json with
  | none => s
  | some result =>
    if result.jobstatus = 0 then s
    else
      { s with
        timers := stopTime key s.timers
        midmenu := updateNode node (deployReconcileItem ext result) s.midmenu
        reconciled := s.reconciled ++
          reconciliationOf key (some node) "Adding succeeded."
            ("Adding failed. Reason: " ++ ext.sanitizeXSS result.jobresult) result }

/-- The poll `error` callback of a deploy job (lines 884-889). -/
def deployPollError (key : String) (node : Nat) (s : State) : State :=
  { s with
    timers := stopTime key s.timers
    midmenu := updateNode node
      (fun t => { t with infoIconError := true, infoIcon := true, vmName := "Adding failed" })
      s.midmenu }

/-! ## Listing a group (lines 157-178) -/

/-- The click on a group header: the container is emptied and the list is requested. -/
def groupClick (s : State) : State :=
  { s with
    midmenu := []
    requests := s.requests ++ ["command=listVirtualMachines&response=json"]
    pending := s.pending ++ [Pending.listVms] }

/-- The loop of lines 168-173: one clone per instance, filled by `setMidmenuItemVm`. -/
def appendInstances (ext : Ext) : List Instance → State → State
  | [], s => s
  | o :: os, s =>
    appendInstances ext os
      { s with
        midmenu := s.midmenu ++ [setMidmenuItemVm ext o (cloneTemplate ext s.nextNode)]
        nextNode := s.nextNode + 1 }

/-- The `success` callback of the list request; a body without the instance array raises at
`instances.length`. -/
def listSuccess (ext : Ext) (json : Option (List Instance)) (s : State) : State :=
  match json with
  | none => s
  | some instances => appendInstances ext instances s

/-! ## The event loop -/

/-- The callbacks the browser may run. An index names a registered timer or an outstanding
request by its position. -/
inductive Event where
  | groupClick
  | itemClick (node : Nat)
  | actionClick (a : ActionInfo) (server : String → AjaxResult SubmitJson)
  | deployClick (moreCriteria : String)
  | timerFire (i : Nat)
  | pollDone (i : Nat) (r : AjaxResult (Option JobResult))
  | deployDone (i : Nat) (r : AjaxResult SubmitJson)
  | listDone (i : Nat) (json : Option (List Instance))

/-- The timer callback (lines 218-248 and 826-891): the poll request is sent. -/
def timerFire (i : Nat) (s : State) : State :=
  match s.timers[i]? with
  | none => s
  | some tm =>
    { s with
      requests := s.requests ++ [pollRequest tm.ctx.jobId]
      pending := s.pending ++ [Pending.poll tm.key tm.ctx] }

/-- The answer to an outstanding poll reaches its callback. -/
def pollDone (ext : Ext) (i : Nat) (r : AjaxResult (Option JobResult)) (s : State) : State :=
  match s.pending[i]? with
  | some (Pending.poll key ctx) =>
    let s1 : State := { s with pending := s.pending.eraseIdx i }
    match ctx, r with
    | .bulk d jobId label, .success json => bulkPollSuccess ext key d jobId label json s1
    | .bulk _ _ _, .error => bulkPollError ext key s1
    | .deploy node _, .success json => deployPollSuccess ext key node json s1
    | .deploy node _, .error => deployPollError key node s1
  | _ => s

/-- The answer to an outstanding deploy submission reaches its callback. -/
def deployDone (i : Nat) (r : AjaxResult SubmitJson) (s : State) : State :=
  match s.pending[i]? with
  | some (Pending.deploy node) =>
    let s1 : State := { s with pending := s.pending.eraseIdx i }
    match r with
    | .success json => deploySubmitSuccess node json s1
    | .error => deploySubmitError node s1
  | _ => s

/-- The answer to an outstanding list request reaches its callback. -/
def listDone (ext : Ext) (i : Nat) (json : Option (List Instance)) (s : State) : State :=
  match s.pending[i]? with
  | some Pending.listVms => listSuccess ext json { s with pending := s.pending.eraseIdx i }
  | _ => s

/-- One turn of the event loop. -/
def step (ext : Ext) (s : State) : Event → State
  | .groupClick => groupClick s
  | .itemClick node => itemClick ext node s
  | .actionClick a server => dispatch ext a server s
  | .deployClick moreCriteria => deployClick ext moreCriteria s
  | .timerFire i => timerFire i s
  | .pollDone i r => pollDone ext i r s
  | .deployDone i r => deployDone i r s
  | .listDone i json => listDone ext i json s

/-- The state after a sequence of turns. -/
def run (ext : Ext) (s : State) (evs : List Event) : State :=
  evs.foldl (step ext) s

/-! ## Initial state, reachable states and sample values -/

/-- A right panel with nothing displayed. -/
def Panel.blank : Panel :=
  { afterActionInfo := "", afterActionInfoErrorbox := false, afterActionInfoShown := false,
    vmName := "", stateText := "", stateClasses := [], ipAddress := "", zoneName := "",
    templateName := "", serviceOfferingName := "", ha := { classes := [], shown := false },
    created := "", account := "", domain := "", hostName := "", group := "",
    iso := { classes := [], shown := false } }

/-- The state when the activation starts: `selectedItemIds = {}` (line 19), an empty
container, no timer, no outstanding request. -/
def State.initial (p : Panel) : State :=
  { selectedItemIds := [], midmenu := [], panel := p, actionMenuShown := false,
    wizardShown := false, timers := [], jobIdMap := [], dispatches := 0, nextNode := 0,
    pending := [], requests := [], reconciled := [] }

/-- The states the event loop can reach. -/
def Reachable (ext : Ext) (s : State) : Prop :=
  ∃ p evs, s = run ext (State.initial p) evs

/-- A sample environment: identity sanitizer, display name preferred, markup with all
indicators hidden, jQuery 1.4.2, keys visited in the order of their insertion. -/
def Ext.sample : Ext :=
  { sanitizeXSS := jsString
    getVmName := fun name displayname => if displayname = "" then name else displayname
    spinningWheelBound := false
    syncRaise := .reported
    forInKeys := fun keys => keys
    forInKeys_perm := fun keys => List.Perm.refl keys
    template :=
      { vmName := "", ipAddress := "", ipLabelHidden := false, statusIcon := "",
        spinningWheel := false, infoIcon := false, infoIconError := false,
        contentSelected := false } }

/-- A sample instance record with the given id and state. -/
def Instance.sample (id state : String) : Instance :=
  { id := id, name := "i-" ++ id, displayname := "", ipaddress := "10.0.0.1", state := state,
    group := none, zonename := "z", templatename := "t", serviceofferingname := "so",
    haenable := "false", created := "", account := "admin", domain := "ROOT", hostname := "h",
    isoid := none }

/-- The `actionMap` entry of `stopVirtualMachine`. -/
def stopAction : ActionInfo :=
  { api := "stopVirtualMachine", label := "Stop", isAsyncJob := true,
    asyncJobResponse := "stopvirtualmachineresponse" }

/-- A control plane that answers every stop submission for id `i` with job id `"j" ++ i`. -/
def serverOk : String → AjaxResult SubmitJson :=
  fun id => .success [("stopvirtualmachineresponse", { jobid := some ("j" ++ id) })]

/-- A control plane whose answers lack the response key. -/
def serverNoKey : String → AjaxResult SubmitJson :=
  fun _ => .success []

/-- A control plane that cannot be reached: every submission fails in transport. -/
def serverDown : String → AjaxResult SubmitJson :=
  fun _ => .error

/-- The list of two running instances, ids 1 and 2, shown and both clicked. -/
def twoSelected : State :=
  run Ext.sample (State.initial Panel.blank)
    [ .groupClick, .listDone 0 (some [Instance.sample "1" "Running", Instance.sample "2" "Running"]),
      .itemClick 0, .itemClick 1 ]

/-! ## Derived descriptions of a dispatch, used to state its effects -/

/-- Whether a raise leaves the iteration for `id`, and with it the click handler: a body
without the response key (line 212) raises in `success`, and the `error` callback raises
when `$spinningWheel` is unbound (line 254). No raise leaves the iteration when the browser
reports it and `$.ajax` returns; a raise of `success` that jQuery hands to an `error`
callback that returns does not leave it either. -/
def raises (ext : Ext) (a : ActionInfo) (server : String → AjaxResult SubmitJson) (id : String) :
    Bool :=
  a.isAsyncJob && ext.syncRaise != SyncRaise.reported &&
    match server id with
    | .success json =>
      (json.lookup a.asyncJobResponse).isNone &&
        !(ext.syncRaise == SyncRaise.toError && ext.spinningWheelBound)
    | .error => !ext.spinningWheelBound

/-- The ids whose iteration starts: all up to and including the first whose raise leaves
the loop. -/
def visitedIds (ext : Ext) (a : ActionInfo) (server : String → AjaxResult SubmitJson) :
    List String → List String
  | [] => []
  | id :: ids => if raises ext a server id then [id] else id :: visitedIds ext a server ids

/-- The ids for which a submission request is sent. -/
def submittedIds (ext : Ext) (a : ActionInfo) (server : String → AjaxResult SubmitJson)
    (ids : List String) : List String :=
  if a.isAsyncJob then visitedIds ext a server ids else []

/-- The jobs whose `success` callback ran to its end, with the id they were submitted for. -/
def registeredJobs (ext : Ext) (a : ActionInfo) (server : String → AjaxResult SubmitJson) :
    List String → List (String × Option String)
  | [] => []
  | id :: ids =>
    if raises ext a server id then []
    else if a.isAsyncJob then
      match server id with
      | .success json =>
        match json.lookup a.asyncJobResponse with
        | some env => (id, env.jobid) :: registeredJobs ext a server ids
        | none => registeredJobs ext a server ids
      | .error => registeredJobs ext a server ids
    else registeredJobs ext a server ids

/-- The timer registered for a job of dispatch `d`. -/
def bulkTimer (d : Nat) (label : String) (job : String × Option String) : Timer :=
  { key := bulkTimerKey job.2, ctx := .bulk d job.2 label }

/-- The `jobIdMap` assignment made for a job of dispatch `d`. -/
def bulkEntry (d : Nat) (job : String × Option String) : JobIdEntry :=
  { dispatch := d, jobKey := jsString job.2, itemId := job.1 }

/-- The turns that belong to the job tracker: a timer fires, the answer to a poll arrives. -/
def Event.isTracker : Event → Bool
  | .timerFire _ => true
  | .pollDone _ _ => true
  | _ => false

/-- A control plane that answers every stop submission with job id 55. -/
def server55 : String → AjaxResult SubmitJson :=
  fun _ => .success [("stopvirtualmachineresponse", { jobid := some "55" })]

/-- Scenario: the running instance 100 is listed and clicked, Stop is dispatched and the
control plane returns job 55. -/
def stopSubmitted : State :=
  run Ext.sample (State.initial Panel.blank)
    [ .groupClick, .listDone 0 (some [Instance.sample "100" "Running"]), .itemClick 0,
      .actionClick stopAction server55 ]

/-- Scenario, continued: the timer of job 55 has fired once and its poll is outstanding. -/
def stopPolling : State :=
  run Ext.sample stopSubmitted [.timerFire 0]

/-- A job result that is still pending. -/
def pendingResult : JobResult :=
  { jobstatus := 0, virtualmachine := none, jobresult := none }

/-- The successful result of the scenario: instance 100 is now stopped. -/
def stoppedResult : JobResult :=
  { jobstatus := 1, virtualmachine := some [Instance.sample "100" "Stopped"], jobresult := none }

/-- A failed result with the given reason. -/
def failedResult (reason : String) : JobResult :=
  { jobstatus := 2, virtualmachine := none, jobresult := some reason }

/-- The job id the control plane returns to the submission for `id`, when the body carries
the envelope of the action. -/
def returnedJob (a : ActionInfo) (server : String → AjaxResult SubmitJson) (id : String) :
    Option (Option String) :=
  match server id with
  | .success json => (json.lookup a.asyncJobResponse).map (fun env => env.jobid)
  | .error => none

/-- Whether an outstanding request is a poll of the job with timer key `key`. -/
def Pending.isPollOf (key : String) : Pending → Bool
  | .poll k _ => k == key
  | _ => false

/-- Number of polls of the job `key` that are outstanding. -/
def outstandingPolls (key : String) (s : State) : Nat :=
  s.pending.countP (Pending.isPollOf key)

/-- Number of terminal annotations stored so far for the job `key`. -/
def reconciliations (key : String) (s : State) : Nat :=
  s.reconciled.countP (fun r => r.key == key)

/-- Whether the turn hands an answer with `jobstatus` 1 or 2 to a poll callback of the job
`key`. -/
def deliversTerminal (key : String) (s : State) : Event → Bool
  | .pollDone i (.success (some r)) =>
    match s.pending[i]? with
    | some (.poll k _) => k == key && (r.jobstatus == 1 || r.jobstatus == 2)
    | _ => false
  | _ => false

/-- Number of turns of a trace that hand a terminal answer to a poll callback of `key`. -/
def terminalDeliveries (ext : Ext) (key : String) : State → List Event → Nat
  | _, [] => 0
  | s, e :: evs =>
    (if deliversTerminal key s e then 1 else 0) + terminalDeliveries ext key (step ext s e) evs

/-- Whether the turn is a firing of a timer of the job `key` while a poll of that job is
outstanding. -/
def firesWhileOutstandingOf (key : String) (s : State) : Event → Bool
  | .timerFire i =>
    match s.timers[i]? with
    | some tm => tm.key == key && decide (outstandingPolls key s ≠ 0)
    | none => false
  | _ => false

/-- A trace in which the polls of the job `key` are sequential: no timer of that job fires
while one of its polls is outstanding. The polls of other jobs may overlap. -/
def sequentialPollsOf (ext : Ext) (key : String) : State → List Event → Bool
  | _, [] => true
  | s, e :: evs =>
    !(firesWhileOutstandingOf key s e) && sequentialPollsOf ext key (step ext s e) evs

/-- The terminal annotations stored during a trace that starts in `s`. -/
def storedDuring (ext : Ext) (s : State) (evs : List Event) : List Reconciliation :=
  (run ext s evs).reconciled.drop s.reconciled.length

/-- Scenario: instances 1 and 2 are selected and Stop is dispatched; the control plane
returns the jobs j1 and j2. -/
def twoJobsSubmitted : State :=
  run Ext.sample twoSelected [ .actionClick stopAction serverOk ]

/-- A trace of the tracker after `twoJobsSubmitted`: the timer of job j2 fires twice before
any answer arrives, the timer of job j1 fires once; the poll of j1 is answered with success,
then both polls of j2 are. -/
def overlappingOtherJobTrace : List Event :=
  [ .timerFire 1, .timerFire 1, .timerFire 0, .pollDone 2 (.success (some stoppedResult)),
    .pollDone 0 (.success (some stoppedResult)), .pollDone 0 (.success (some stoppedResult)) ]

/-- The most recent terminal annotation stored on the DOM node `node`. -/
def lastRecord (node : Nat) (log : List Reconciliation) : Option Reconciliation :=
  log.reverse.find? (fun r => r.node == some node)

/-- The answer to a deploy submission that returns job id 77. -/
def deploy77 : AjaxResult SubmitJson :=
  .success [("deployvirtualmachineresponse", { jobid := some "77" })]

/-- The successful result of a deploy job: the new instance 200 is running. -/
def deployedResult : JobResult :=
  { jobstatus := 1, virtualmachine := some [Instance.sample "200" "Running"], jobresult := none }

/-- A deploy whose timer fires twice before any answer arrives; the second poll is answered
with success, then the first one fails in transport. -/
def lateErrorTrace : List Event :=
  [ .deployClick "&zoneId=1", .deployDone 0 deploy77, .timerFire 0, .timerFire 0,
    .pollDone 1 (.success (some deployedResult)), .pollDone 0 .error ]

/-! ## Invariant of the event loop, used for the annotation shown on a click -/

/-- Whether the turn hands to a poll callback of a deploy job an answer that contradicts
what the element of the job shows already. There are three kinds: a transport failure while
the element carries a click handler and the latest annotation stored on its node is not a
failure annotation (line 886 puts the error mark on the icon and stores no annotation); a
result with `jobstatus` 2 while the element carries the click handler of an instance (line
862 binds the handler of a failed deploy on an instance element); a result with `jobstatus`
1 and without an instance record while the handler bound last on the element is the handler
of a failed deploy (line 839 takes the error mark off, the handler stays). -/
def contradictsDeploy (s : State) : Event → Bool
  | .pollDone i r =>
    match s.pending[i]? with
    | some (.poll _ (.deploy node _)) =>
      match findNode node s.midmenu with
      | some t =>
        match r with
        | .error =>
          !t.clickHandlers.isEmpty &&
            (lastRecord node s.reconciled).map (fun x => x.failed) != some true
        | .success (some result) =>
          (result.jobstatus == 2 && t.clickHandlers.contains ClickHandler.vmClick) ||
            (result.jobstatus == 1 && (result.virtualmachine.bind List.head?).isNone &&
              t.clickHandlers.getLast? == some ClickHandler.addingFailedClick)
        | .success none => false
      | none => false
    | _ => false
  | _ => false

/-- A trace without a contradicting answer to a poll of a deploy job. The polls of every
job may overlap. -/
def consistentAnswers (ext : Ext) : State → List Event → Bool
  | _, [] => true
  | s, e :: evs => !(contradictsDeploy s e) && consistentAnswers ext (step ext s e) evs

/-- The placeholder node a poll closure holds, when it is the closure of a deploy job. -/
def PollCtx.node? : PollCtx → Option Nat
  | .deploy n _ => some n
  | .bulk _ _ _ => none

/-- The poll closures that are alive: those of the registered timers and those of the
outstanding polls. -/
def closures (timers : List Timer) (pending : List Pending) : List Timer :=
  timers ++ pending.filterMap (fun p =>
    match p with
    | .poll k c => some { key := k, ctx := c }
    | _ => none)

/-- An element agrees with the history of annotations stored on its node: its annotation is
the text of the latest record; when it can be clicked and shows its info icon, the error
mark is on exactly when that record is a failure; an element whose handler bound last is
the handler of a failed deploy shows the icon with the error mark and still has its deploy
id. -/
def ElemOk (reconciled : List Reconciliation) (t : MidmenuItem) : Prop :=
  t.afterActionInfo = (lastRecord t.node reconciled).map (fun r => r.text) ∧
    (t.clickHandlers ≠ [] → t.infoIcon = true →
      ∃ r, lastRecord t.node reconciled = some r ∧ t.infoIconError = r.failed) ∧
    (t.clickHandlers.getLast? = some ClickHandler.addingFailedClick →
      t.infoIcon = true ∧ t.infoIconError = true ∧ ∃ j, t.attrId = "vmNew" ++ j)

/-- A live deploy closure refers to an allocated node, is keyed by the deploy key of its
job, and its placeholder, while in the container and without the click handler of an
instance, has the key as id. -/
def ClosureOk (items : List MidmenuItem) (nextNode : Nat) (c : Timer) : Prop :=
  ∀ n, c.ctx.node? = some n →
    n < nextNode ∧ c.key = deployTimerKey c.ctx.jobId ∧
      ∀ t ∈ items, t.node = n → ClickHandler.vmClick ∉ t.clickHandlers → t.attrId = c.key

/-- An outstanding deploy submission refers to an allocated node that no poll closure
holds yet and whose placeholder has no click handler. -/
def SubmitOk (items : List MidmenuItem) (nextNode : Nat) (cs : List Timer) (n : Nat) : Prop :=
  n < nextNode ∧ (∀ c ∈ cs, c.ctx.node? ≠ some n) ∧
    ∀ t ∈ items, t.node = n → t.clickHandlers = []

/-- The invariant kept by every turn of the event loop that is not a contradicting answer
to a poll of a deploy job. -/
structure Inv (s : State) : Prop where
  elems : ∀ t ∈ s.midmenu, t.node < s.nextNode ∧ ElemOk s.reconciled t
  nodup : (s.midmenu.map (fun t => t.node)).Nodup
  records : ∀ r ∈ s.reconciled, ∀ n, r.node = some n → n < s.nextNode
  live : ∀ c ∈ closures s.timers s.pending, ClosureOk s.midmenu s.nextNode c
  submits : ∀ n, Pending.deploy n ∈ s.pending →
    SubmitOk s.midmenu s.nextNode (closures s.timers s.pending) n
  oneSubmit : ∀ n, s.pending.count (Pending.deploy n) ≤ 1

/-- The scenario from the start to the successful end of job 55: instance 100 is listed and
clicked, Stop is dispatched, the first poll is pending and the second succeeds. -/
def stopSucceededTrace : List Event :=
  [ .groupClick, .listDone 0 (some [Instance.sample "100" "Running"]), .itemClick 0,
    .actionClick stopAction server55, .timerFire 0, .pollDone 0 (.success (some pendingResult)),
    .timerFire 0, .pollDone 0 (.success (some stoppedResult)) ]

/-- A deploy whose timer fires twice before any answer arrives; the second poll is answered
with success, then the first one with `jobstatus` 2. The element of the new instance is
clicked and Stop is dispatched for it. -/
def lateFailureTrace : List Event :=
  [ .deployClick "&zoneId=1", .deployDone 0 deploy77, .timerFire 0, .timerFire 0,
    .pollDone 1 (.success (some deployedResult)), .pollDone 0 (.success (some (failedResult "quota"))),
    .itemClick 0, .actionClick stopAction server55 ]

/-- A deploy whose timer fires twice before any answer arrives; the second poll is answered
with `jobstatus` 2, then the first one with `jobstatus` 1 and no instance record. -/
def lateSuccessTrace : List Event :=
  [ .deployClick "&zoneId=1", .deployDone 0 deploy77, .timerFire 0, .timerFire 0,
    .pollDone 1 (.success (some (failedResult "quota"))),
    .pollDone 0 (.success (some { jobstatus := 1, virtualmachine := none, jobresult := none })) ]

/-- The sample environment with a markup that shows the info icon. -/
def Ext.iconShown : Ext :=
  { Ext.sample with template := { Ext.sample.template with infoIcon := true } }

/-- The instances 100 and 101 are listed, 100 is clicked and stopped (job 55 succeeds) and
clicked again. -/
def otherElementTrace : List Event :=
  [ .groupClick,
    .listDone 0 (some [Instance.sample "100" "Running", Instance.sample "101" "Running"]),
    .itemClick 0, .actionClick stopAction server55, .timerFire 0,
    .pollDone 0 (.success (some stoppedResult)), .itemClick 0 ]

/-- The scenario of the successful Stop, the element of instance 100 clicked again, then a
deploy whose submission fails in transport. -/
def failedSubmissionTrace : List Event :=
  stopSucceededTrace ++ [ .itemClick 0, .deployClick "&zoneId=1", .deployDone 0 .error ]

/-- The scenario of the Stop of instance 100 with the timer of job 55 firing twice before
any answer arrives; both polls are answered with success. -/
def overlappingStopTrace : List Event :=
  [ .groupClick, .listDone 0 (some [Instance.sample "100" "Running"]), .itemClick 0,
    .actionClick stopAction server55, .timerFire 0, .timerFire 0,
    .pollDone 0 (.success (some stoppedResult)), .pollDone 0 (.success (some stoppedResult)) ]

/-! ## Values used to state the properties of the status colour, the timer keys and an
unknown job status -/

/-- The colour the specification names for a state string: green for "Running", red for
"Stopped", gray for every other value. -/
def specColour (state : String) : String :=
  if state = "Running" then "green" else if state = "Stopped" then "red" else "gray"

/-- Three registered timers: the bulk-action jobs 55 and 56 and the deploy job 55. -/
def threeTimers : List Timer :=
  [ { key := bulkTimerKey (some "55"), ctx := .bulk 0 (some "55") "Stop" },
    { key := bulkTimerKey (some "56"), ctx := .bulk 0 (some "56") "Stop" },
    { key := deployTimerKey (some "55"), ctx := .deploy 3 (some "55") } ]

/-- The timer key the source computes for the job of a poll closure (lines 214 and 820). -/
def PollCtx.timerKey : PollCtx → String
  | .bulk _ j _ => bulkTimerKey j
  | .deploy _ j => deployTimerKey j

/-- A job result with a status outside the documented range. -/
def unknownResult : JobResult :=
  { jobstatus := 3, virtualmachine := none, jobresult := none }

/-- Scenario: the wizard has deployed, the control plane returned job 77 and the timer of
the job has fired once, so the first poll is outstanding. The placeholder is node 0. -/
def deployPolling : State :=
  run Ext.sample (State.initial Panel.blank)
    [ .deployClick "&zoneId=1", .deployDone 0 deploy77, .timerFire 0 ]

/-- An environment whose sanitizer removes the script element of the reason below and
returns every other text as it is. -/
def Ext.stripping : Ext :=
  { Ext.sample with
    sanitizeXSS := fun r =>
      if r = some "<script>x</script>quota exceeded" then "quota exceeded" else jsString r }

/-- The failed result of the deploy scenario of the specification. -/
def quotaResult : JobResult :=
  failedResult "<script>x</script>quota exceeded"

/-- An action descriptor with `isAsyncJob` false; `actionMap` has none. -/
def syncAction : ActionInfo :=
  { api := "rebootVirtualMachine", label := "Reboot", isAsyncJob := false,
    asyncJobResponse := "rebootvirtualmachineresponse" }

/-! ## Descriptions used to state the scope of an error -/

/-- Whether the element is the subject of the job of a poll closure: for a bulk-action job
an element with the id that `$("#midmenuItemVm_" + jobIdMap[jobId])` addresses, for a deploy
job the node `$t`. -/
def PollCtx.isSubject (ctx : PollCtx) (jobIdMap : List JobIdEntry) (t : MidmenuItem) : Bool :=
  match ctx with
  | .bulk d jobId _ => t.attrId == "midmenuItemVm_" ++ jsString (jobIdMapGet d jobId jobIdMap)
  | .deploy node _ => t.node == node

/-- Whether the answer to a poll is an error of the job: a transport failure, or a result
with `jobstatus` 2. -/
def isJobError : AjaxResult (Option JobResult) → Bool
  | .error => true
  | .success (some result) => result.jobstatus == 2
  | .success none => false

/-- What a poll callback of the job `key` leaves as it was, `subject` telling the elements
of the subject of the job: the timers under other keys (and no timer is added), the
selection, the right panel, `jobIdMap`, the outstanding requests, the requests sent, the
annotations recorded for other jobs, and every element that is not a subject. -/
def Scoped (key : String) (subject : MidmenuItem → Bool) (s s2 : State) : Prop :=
  s2.timers.filter (fun tm => tm.key != key) = s.timers.filter (fun tm => tm.key != key) ∧
    (∀ tm ∈ s2.timers, tm ∈ s.timers) ∧
    s2.selectedItemIds = s.selectedItemIds ∧ s2.panel = s.panel ∧ s2.jobIdMap = s.jobIdMap ∧
    s2.pending = s.pending ∧ s2.requests = s.requests ∧
    s2.reconciled.filter (fun r => r.key != key) = s.reconciled.filter (fun r => r.key != key) ∧
    s2.midmenu.length = s.midmenu.length ∧
    ∀ (n : Nat) (u : MidmenuItem), s.midmenu[n]? = some u → subject u = false →
      s2.midmenu[n]? = some u

/-- Scenario: instances 1 and 2 are selected, Stop is dispatched (jobs j1 and j2), and the
timer of job j1 has fired once. -/
def twoJobsPolling : State :=
  run Ext.sample twoSelected [ .actionClick stopAction serverOk, .timerFire 0 ]

/-! ## Grouping of the listed instances (lines 134-151) -/

/-- The constant `noGroupName` (line 16). -/
def noGroupName : String := "(no group name)"

/-- The value of `group1` after lines 140-142: the group of the instance, or `noGroupName`
when it is null, undefined or empty. -/
def group1 (o : Instance) : String :=
  match o.group with
  | none => noGroupName
  | some g => if g.length = 0 then noGroupName else g

/-- The two local variables of the grouping step. The object `instanceGroupMap` is the list
of its own properties in the order they were created. -/
structure Groups where
  instanceGroupMap : List (String × List Instance)
  instanceGroupArray : List String
  deriving DecidableEq, Repr

/-- The statement `instanceGroupMap[g].push(o)` on an own property `g`. -/
def pushTo (g : String) (o : Instance) :
    List (String × List Instance) → List (String × List Instance)
  | [] => []
  | (k, v) :: m => if k = g then (k, v ++ [o]) :: m else (k, v) :: pushTo g o m

/-- One iteration of the loop of lines 139-150. `inherited g` tells whether `g` names a
property that every object inherits from `Object.prototype`: for such a name the test
`g in instanceGroupMap` holds although the map has no own property `g`, and the inherited
value has no `push`, so the call at line 144 raises. -/
def groupIteration (inherited : String → Bool) (acc : Groups) (o : Instance) :
    Except Groups Groups :=
  let g := group1 o
  if (acc.instanceGroupMap.lookup g).isSome || inherited g then
    match acc.instanceGroupMap.lookup g with
    | some _ => .ok { acc with instanceGroupMap := pushTo g o acc.instanceGroupMap }
    | none => .error acc
  else
    .ok { instanceGroupMap := acc.instanceGroupMap ++ [(g, [o])],
          instanceGroupArray := acc.instanceGroupArray ++ [g] }

/-- The loop of lines 139-150; a raise in an iteration ends the loop and the callback. -/
def groupLoop (inherited : String → Bool) : List Instance → Groups → Except Groups Groups
  | [], acc => .ok acc
  | o :: os, acc =>
    match groupIteration inherited acc o with
    | .ok acc1 => groupLoop inherited os acc1
    | .error acc1 => .error acc1

/-- Lines 135-151: the grouping step of the `success` callback of the first list request.
An absent instance array is skipped by the test at line 138. -/
def groupInstances (inherited : String → Bool) (instances : Option (List Instance)) :
    Except Groups Groups :=
  match instances with
  | none => .ok { instanceGroupMap := [], instanceGroupArray := [] }
  | some l => groupLoop inherited l { instanceGroupMap := [], instanceGroupArray := [] }

/-- The property names of `Object.prototype` in ECMAScript 3 and 5; every browser has at
least these. -/
def objectPrototype (g : String) : Bool :=
  ["constructor", "toString", "toLocaleString", "valueOf", "hasOwnProperty", "isPrototypeOf",
    "propertyIsEnumerable"].contains g

/-- A sample instance record with the given id and group. -/
def Instance.inGroup (id : String) (group : Option String) : Instance :=
  { Instance.sample id "Running" with group := group }

/-- Whether the grouping step raised. -/
def groupingRaised : Except Groups Groups → Bool
  | .ok _ => false
  | .error _ => true

/-- The two variables when the grouping step is left, whether it returned or raised. -/
def finalGroups : Except Groups Groups → Groups
  | .ok gs => gs
  | .error gs => gs

/-! ## The deploy request of the wizard (lines 772-815) -/

/-- Rendering of a possibly null string inside a concatenation. -/
def jsNullString : Option String → String
  | some v => v
  | none => "null"

/-- What the handler of step 5 reads from the wizard: the values of the zone list, of the
name and group fields, the `id` attribute of the selected template box, the value of the
checked service offering, whether the blank template (ISO) button is selected, and the
values of the checked root disk and data disk offerings. The value of the zone list is null
(`none`) while the list has no option; for the other fields `none` is undefined, the result
of a read that finds no element. -/
structure WizardForm where
  zone : Option String
  vmName : Option String
  vmGroup : Option String
  templateId : Option String
  serviceOffering : Option String
  isoSelected : Bool
  rootDiskOffering : Option String
  dataDiskOffering : Option String
  deriving DecidableEq, Repr

/-- The helpers the handler of step 5 calls and this file does not define. -/
structure WizardExt where
  /-- The helper `trim`; its result may be null. -/
  trim : Option String → Option String
  /-- The built-in `encodeURIComponent`. -/
  encodeURIComponent : String → String

/-- The array `moreCriteria` built by lines 774-804. -/
def moreCriteria (w : WizardExt) (f : WizardForm) : List String :=
  let c1 : List String := ["&zoneId=" ++ jsNullString f.zone]
  let c2 : List String :=
    match w.trim f.vmName with
    | some name =>
      if name.length > 0 then c1 ++ ["&displayname=" ++ w.encodeURIComponent name] else c1
    | none => c1
  let c3 : List String :=
    match w.trim f.vmGroup with
    | some group =>
      if group.length > 0 then c2 ++ ["&group=" ++ w.encodeURIComponent group] else c2
    | none => c2
  let c4 : List String := c3 ++ ["&templateId=" ++ jsString f.templateId]
  let c5 : List String := c4 ++ ["&serviceOfferingId=" ++ jsString f.serviceOffering]
  if f.isoSelected then
    c5 ++ ["&diskOfferingId=" ++ jsString f.rootDiskOffering]
  else
    match f.dataDiskOffering with
    | some diskOfferingId =>
      if diskOfferingId ≠ "" then c5 ++ ["&diskOfferingId=" ++ diskOfferingId] else c5
    | none => c5

/-- The part of the `#next_step` click handler that runs on step 5 (lines 772-901):
`moreCriteria` is built and joined, the wizard closes, the placeholder is appended and the
deploy request is sent. -/
def nextStepDeploy (ext : Ext) (w : WizardExt) (f : WizardForm) (s : State) : State :=
  deployClick ext (String.join (moreCriteria w f)) s

/-- Sample helpers, given on the values of the sample form: `trim` removes the blanks around
the name, the encoder writes the blank inside it as %20. -/
def WizardExt.sample : WizardExt :=
  { trim := fun v => if v = some " my vm " then some "my vm" else v
    encodeURIComponent := fun v => if v = "my vm" then "my%20vm" else v }

/-- A filled wizard: zone 1, name and group given with blanks around, template 5, service
offering 2, template mode with data disk offering 9. -/
def WizardForm.sample : WizardForm :=
  { zone := some "1", vmName := some " my vm ", vmGroup := some "web", templateId := some "5",
    serviceOffering := some "2", isoSelected := false, rootDiskOffering := none,
    dataDiskOffering := some "9" }

/-! ## The wizard: icons, template list, template filter, step counter
(lines 441-451, 480-492, 521-613, 623-682, 684-907) -/

/-- The test `s.match("^" + pat) != null` for a pattern `pat` of literal characters: the
characters of `pat` are the first characters of `s`, compared one by one. -/
def matchesAtStart (pat s : String) : Bool :=
  pat.data.isPrefixOf s.data

/-- The function `getIconForOS` (lines 480-492). -/
def getIconForOS (osType : Option String) : String :=
  match osType with
  | none => ""
  | some v =>
    if v.length = 0 then ""
    else if matchesAtStart "CentOS" v then "rev_wiztemo_centosicons"
    else if matchesAtStart "Windows" v then "rev_wiztemo_windowsicons"
    else "rev_wiztemo_linuxicons"

/-- One record of `listtemplatesresponse.template` or `listisosresponse.iso`. -/
structure TemplateItem where
  id : String
  ostypename : Option String
  displaytext : Option String
  account : Option String
  deriving DecidableEq, Repr

/-- Body of the answer to a list request of the wizard. A response object may be absent, and
inside it the array may be absent. -/
structure ListJson where
  listtemplatesresponse : Option (Option (List TemplateItem))
  listisosresponse : Option (Option (List TemplateItem))
  deriving DecidableEq, Repr

/-- One child of `#template_container`: its `id` attribute, its classes, the class of its
icon child (the placeholder has none), its text and its owner text (the placeholder has
none). -/
structure TemplateBox where
  id : String
  classes : List String
  iconClass : Option String
  text : String
  owner : Option String
  deriving DecidableEq, Repr

/-- Whether the box has the class `rev_wiztemplistbox_selected`. -/
def TemplateBox.isSelected (b : TemplateBox) : Bool :=
  b.classes.contains "rev_wiztemplistbox_selected"

/-- The loop of lines 562-575: one box per item; `first` is the loop variable of that name. -/
def templateBoxes (ext : Ext) : Bool → List TemplateItem → List TemplateBox
  | _, [] => []
  | first, it :: rest =>
    { id := it.id
      classes := [if first then "rev_wiztemplistbox_selected" else "rev_wiztemplistbox"]
      iconClass := some (getIconForOS it.ostypename)
      text := ext.sanitizeXSS it.displaytext
      owner := some (ext.sanitizeXSS it.account) } :: templateBoxes ext false rest

/-- The box appended for an empty result (lines 582-591). -/
def placeholderBox (blank : Bool) : TemplateBox :=
  { id := "-2", classes := ["rev_wiztemplistbox"], iconClass := none,
    text := if blank then "No ISOs available" else "No templates available", owner := none }

/-- The content of `#template_container` after lines 559-593, `blank` telling whether the
template type is "blank". -/
def renderTemplates (ext : Ext) (blank : Bool) (items : Option (List TemplateItem)) :
    List TemplateBox :=
  match items with
  | some (it :: rest) => templateBoxes ext true (it :: rest)
  | _ => [placeholderBox blank]

/-- The element a click inside `#template_container` hits: the container itself, the box at
a position, or one of the children of the box at a position. -/
inductive ClickTarget where
  | container
  | box (i : Nat)
  | child (i : Nat)
  deriving DecidableEq, Repr

/-- Lines 599-604: the position of the box that `target` is after the step to the parent,
when it is a box. A child is replaced by its parent when the parent has one of the two
box classes; the parent of a box is the container, taken to have neither. -/
def resolveTarget (target : ClickTarget) (boxes : List TemplateBox) : Option Nat :=
  match target with
  | .container => none
  | .box i => if i < boxes.length then some i else none
  | .child i =>
    match boxes[i]? with
    | some b =>
      if b.classes.contains "rev_wiztemplistbox_selected" ||
          b.classes.contains "rev_wiztemplistbox" then some i
      else none
    | none => none

/-- The click handler of `#template_container` (lines 598-613) on the list of boxes. The
container and the children of a box have neither box class, so a click that stays on one of
them changes nothing. -/
def clickTemplate (target : ClickTarget) (boxes : List TemplateBox) : List TemplateBox :=
  match resolveTarget target boxes with
  | none => boxes
  | some i =>
    match boxes[i]? with
    | none => boxes
    | some b =>
      if b.id ≠ "-2" then
        if b.classes.contains "rev_wiztemplistbox" then
          (boxes.map (fun u =>
            if u.classes.contains "rev_wiztemplistbox_selected" then
              { u with classes := addClass "rev_wiztemplistbox" [] }
            else u)).set i { b with classes := addClass "rev_wiztemplistbox_selected" [] }
        else if b.classes.contains "rev_wiztemplistbox_selected" then
          boxes.set i { b with classes := addClass "rev_wiztemplistbox" [] }
        else boxes
      else boxes

/-- What happens to the template list: a page is listed, or a click lands in the container. -/
inductive ListEvent where
  | listed (blank : Bool) (items : Option (List TemplateItem))
  | clicked (target : ClickTarget)
  deriving DecidableEq, Repr

/-- One event on the template list. -/
def listStep (ext : Ext) (boxes : List TemplateBox) : ListEvent → List TemplateBox
  | .listed blank items => renderTemplates ext blank items
  | .clicked target => clickTemplate target boxes

/-- The template list after a sequence of events. -/
def listRun (ext : Ext) (boxes : List TemplateBox) (evs : List ListEvent) : List TemplateBox :=
  evs.foldl (listStep ext) boxes

/-- Number of boxes that carry the selected class. -/
def selectedCount (boxes : List TemplateBox) : Nat :=
  boxes.countP TemplateBox.isSelected

/-- Whether the event is a click. -/
def ListEvent.isClick : ListEvent → Bool
  | .clicked _ => true
  | .listed _ _ => false

/-- The variables and the view of the deploy wizard. A variable is `none` while it is
unassigned; `zone` is the value of the zone list, null (`none`) while the list has no
option. The class lists are those of the four filter buttons; the Boolean fields tell
whether an element is displayed. `requests` is a history variable: the argument of every
`createURL` call of `listTemplatesInVmPopup`. The step panels and the review texts of step 1
are not part of the model. -/
structure Wizard where
  currentStepInVmPopup : Option Int
  selectedTemplateTypeInVmPopup : Option String
  currentPageInTemplateGridInVmPopup : Int
  searchInput : String
  zone : Option String
  wizFeatured : List String
  wizMy : List String
  wizCommunity : List String
  wizBlank : List String
  dataDiskOfferingTitle : Bool
  dataDiskOffering : Bool
  rootDiskOfferingTitle : Bool
  rootDiskOffering : Bool
  dataDiskOfferingContainer : Bool
  rootDiskOfferingContainer : Bool
  wizardMessage : Bool
  templateLoading : Bool
  prevPage : Bool
  nextPage : Bool
  templateContainer : List TemplateBox
  requests : List String
  deriving DecidableEq, Repr

/-- The function `displayDiskOffering` (lines 623-636). -/
def displayDiskOffering (type : String) (w : Wizard) : Wizard :=
  if type = "data" then
    { w with dataDiskOfferingTitle := true, dataDiskOffering := true,
             rootDiskOfferingTitle := false, rootDiskOffering := false }
  else if type = "root" then
    { w with rootDiskOfferingTitle := true, rootDiskOffering := true,
             dataDiskOfferingTitle := false, dataDiskOffering := false }
  else w

/-- The function `vmWizardCleanup` (lines 441-451). -/
def vmWizardCleanup (w : Wizard) : Wizard :=
  { w with
    currentStepInVmPopup := some 1
    wizardMessage := false
    selectedTemplateTypeInVmPopup := some "featured"
    wizFeatured := addClass "rev_wizmid_selectedtempbut" []
    wizMy := addClass "rev_wizmid_nonselectedtempbut" []
    wizCommunity := addClass "rev_wizmid_nonselectedtempbut" []
    wizBlank := addClass "rev_wizmid_nonselectedtempbut" []
    currentPageInTemplateGridInVmPopup := 1 }

/-- The value of `commandString` (lines 530-540) for the zone `zoneId`. -/
def listCommand (w : Wizard) (zoneId : String) : String :=
  if w.selectedTemplateTypeInVmPopup ≠ some "blank" then
    if w.searchInput.length > 0 then
      "command=listTemplates&templatefilter=" ++ jsString w.selectedTemplateTypeInVmPopup ++
        "&zoneid=" ++ zoneId ++ "&keyword=" ++ w.searchInput ++ "&page=" ++
        toString w.currentPageInTemplateGridInVmPopup ++ "&response=json"
    else
      "command=listTemplates&templatefilter=" ++ jsString w.selectedTemplateTypeInVmPopup ++
        "&zoneid=" ++ zoneId ++ "&page=" ++
        toString w.currentPageInTemplateGridInVmPopup ++ "&response=json"
  else
    if w.searchInput.length > 0 then
      "command=listIsos&isReady=true&bootable=true&zoneid=" ++ zoneId ++ "&keyword=" ++
        w.searchInput ++ "&page=" ++ toString w.currentPageInTemplateGridInVmPopup ++
        "&response=json"
    else
      "command=listIsos&isReady=true&bootable=true&zoneid=" ++ zoneId ++ "&page=" ++
        toString w.currentPageInTemplateGridInVmPopup ++ "&response=json"

/-- The `success` callback of `listTemplatesInVmPopup` (lines 552-594). Reading the array
of an absent response object raises before anything is changed. -/
def listTemplatesSuccess (ext : Ext) (json : ListJson) (w : Wizard) : Wizard :=
  let blank : Bool := decide (w.selectedTemplateTypeInVmPopup = some "blank")
  match (if blank then json.listisosresponse else json.listtemplatesresponse) with
  | none => w
  | some items =>
    { w with
      templateLoading := false
      templateContainer := renderTemplates ext blank items
      nextPage :=
        match items with
        | some (it :: rest) => decide (¬ (it :: rest).length < 11)
        | _ => false }

/-- The function `listTemplatesInVmPopup` (lines 521-596). The request is synchronous, so
`server` gives its answer before the function returns; the request has no `error`
callback. -/
def listTemplatesInVmPopup (ext : Ext) (server : String → AjaxResult ListJson) (w : Wizard) :
    Wizard :=
  match w.zone with
  | none => w
  | some zoneId =>
    if zoneId.length = 0 then w
    else
      let w1 : Wizard :=
        { w with
          templateLoading := true
          prevPage := decide (w.currentPageInTemplateGridInVmPopup ≠ 1)
          requests := w.requests ++ [listCommand w zoneId] }
      match server (listCommand w zoneId) with
      | .success json => listTemplatesSuccess ext json w1
      | .error => w1

/-- The click handler of `#wiz_template_filter` (lines 641-682). `targetId` is the
`id` attribute of the element the click hit, which is any element of the filter area. The
assignment of line 645 runs before the switch; the switch has no default case. -/
def filterClick (ext : Ext) (server : String → AjaxResult ListJson) (targetId : Option String)
    (w : Wizard) : Wizard :=
  let w1 : Wizard := { w with selectedTemplateTypeInVmPopup := some "featured" }
  let w2 : Wizard :=
    if targetId = some "wiz_featured" then
      displayDiskOffering "data"
        { w1 with
          searchInput := ""
          currentPageInTemplateGridInVmPopup := 1
          selectedTemplateTypeInVmPopup := some "featured"
          wizFeatured := addClass "rev_wizmid_selectedtempbut" []
          wizMy := addClass "rev_wizmid_nonselectedtempbut" []
          wizCommunity := addClass "rev_wizmid_nonselectedtempbut" []
          wizBlank := addClass "rev_wizmid_nonselectedtempbut" [] }
    else if targetId = some "wiz_my" then
      displayDiskOffering "data"
        { w1 with
          searchInput := ""
          currentPageInTemplateGridInVmPopup := 1
          wizMy := addClass "rev_wizmid_selectedtempbut" []
          wizFeatured := addClass "rev_wizmid_nonselectedtempbut" []
          wizCommunity := addClass "rev_wizmid_nonselectedtempbut" []
          wizBlank := addClass "rev_wizmid_nonselectedtempbut" []
          selectedTemplateTypeInVmPopup := some "selfexecutable" }
    else if targetId = some "wiz_community" then
      displayDiskOffering "data"
        { w1 with
          searchInput := ""
          currentPageInTemplateGridInVmPopup := 1
          wizCommunity := addClass "rev_wizmid_selectedtempbut" []
          wizMy := addClass "rev_wizmid_nonselectedtempbut" []
          wizFeatured := addClass "rev_wizmid_nonselectedtempbut" []
          wizBlank := addClass "rev_wizmid_nonselectedtempbut" []
          selectedTemplateTypeInVmPopup := some "community" }
    else if targetId = some "wiz_blank" then
      displayDiskOffering "root"
        { w1 with
          searchInput := ""
          currentPageInTemplateGridInVmPopup := 1
          wizBlank := addClass "rev_wizmid_selectedtempbut" []
          wizMy := addClass "rev_wizmid_nonselectedtempbut" []
          wizCommunity := addClass "rev_wizmid_nonselectedtempbut" []
          wizFeatured := addClass "rev_wizmid_nonselectedtempbut" []
          selectedTemplateTypeInVmPopup := some "blank" }
    else w1
  listTemplatesInVmPopup ext server w2

/-- The click handler of `#template_container` on the wizard. -/
def templateClick (target : ClickTarget) (w : Wizard) : Wizard :=
  { w with templateContainer := clickTemplate target w.templateContainer }

/-- What the handler of step 5 reads from inputs that no handler of this file writes. -/
structure WizardInputs where
  vmName : Option String
  vmGroup : Option String
  serviceOffering : Option String
  rootDiskOffering : Option String
  dataDiskOffering : Option String
  deriving DecidableEq, Repr

/-- The form the handler of step 5 reads: the zone, the `id` of the first box with the
selected class, whether `#wiz_blank` has the selected class, and the other inputs. -/
def wizardForm (w : Wizard) (inp : WizardInputs) : WizardForm :=
  { zone := w.zone
    vmName := inp.vmName
    vmGroup := inp.vmGroup
    templateId := (w.templateContainer.find? TemplateBox.isSelected).map (fun b => b.id)
    serviceOffering := inp.serviceOffering
    isoSelected := w.wizBlank.contains "rev_wizmid_selectedtempbut"
    rootDiskOffering := inp.rootDiskOffering
    dataDiskOffering := inp.dataDiskOffering }

/-- The click handler of `#next_step` (lines 684-907). On step 1 the disk offering container
of the chosen kind is shown; on step 5 the deploy is submitted; the counter is increased at
the end in every case. While `currentStepInVmPopup` is unassigned the first comparison
raises. `#wizard_network_groups` is taken to be a multiple select, whose value is null or
an array. -/
def nextStepClick (ext : Ext) (wext : WizardExt) (inp : WizardInputs) (c : Wizard × State) :
    Wizard × State :=
  match c.1.currentStepInVmPopup with
  | none => c
  | some step =>
    let w1 : Wizard :=
      if step = 1 then
        if c.1.wizBlank.contains "rev_wizmid_selectedtempbut" then
          { c.1 with rootDiskOfferingContainer := true, dataDiskOfferingContainer := false }
        else
          { c.1 with dataDiskOfferingContainer := true, rootDiskOfferingContainer := false }
      else c.1
    let s1 : State :=
      if step = 5 then nextStepDeploy ext wext (wizardForm w1 inp) c.2 else c.2
    ({ w1 with currentStepInVmPopup := some (step + 1) }, s1)

/-- A sequence of clicks on `#next_step`, each with the inputs read at that click. -/
def nextClicks (ext : Ext) (wext : WizardExt) (inps : List WizardInputs) (c : Wizard × State) :
    Wizard × State :=
  inps.foldl (fun acc inp => nextStepClick ext wext inp acc) c

/-- A wizard as it is when the right panel has been loaded (lines 275-283, 637): no variable
but the page is assigned and `displayDiskOffering("data")` has run. The markup is not part
of the source: the buttons are given the classes `vmWizardCleanup` sets, the template list is
empty and the zone list holds zone 1, as after the answer to `listZones`. -/
def Wizard.loaded : Wizard :=
  displayDiskOffering "data"
    { currentStepInVmPopup := none, selectedTemplateTypeInVmPopup := none,
      currentPageInTemplateGridInVmPopup := 1, searchInput := "", zone := some "1",
      wizFeatured := ["rev_wizmid_selectedtempbut"], wizMy := ["rev_wizmid_nonselectedtempbut"],
      wizCommunity := ["rev_wizmid_nonselectedtempbut"],
      wizBlank := ["rev_wizmid_nonselectedtempbut"],
      dataDiskOfferingTitle := false, dataDiskOffering := false,
      rootDiskOfferingTitle := false, rootDiskOffering := false,
      dataDiskOfferingContainer := false, rootDiskOfferingContainer := false,
      wizardMessage := false, templateLoading := false, prevPage := false, nextPage := false,
      templateContainer := [], requests := [] }

/-- The wizard at its first opening. -/
def Wizard.fresh : Wizard :=
  vmWizardCleanup Wizard.loaded

/-- Whether the template type is "blank". -/
def Wizard.isBlank (w : Wizard) : Bool :=
  decide (w.selectedTemplateTypeInVmPopup = some "blank")

/-- Whether `#wiz_blank` is the highlighted button: it has the selected class and the three
other buttons do not. -/
def Wizard.blankHighlighted (w : Wizard) : Bool :=
  w.wizBlank.contains "rev_wizmid_selectedtempbut" &&
    !(w.wizFeatured.contains "rev_wizmid_selectedtempbut") &&
    !(w.wizMy.contains "rev_wizmid_selectedtempbut") &&
    !(w.wizCommunity.contains "rev_wizmid_selectedtempbut")

/-- Whether the root disk offering section is the one displayed: it and its title are
shown, the data disk offering section and its title are hidden. -/
def Wizard.rootDisplayed (w : Wizard) : Bool :=
  w.rootDiskOfferingTitle && w.rootDiskOffering && !w.dataDiskOfferingTitle &&
    !w.dataDiskOffering

/-- Whether the data disk offering section is the one displayed. -/
def Wizard.dataDisplayed (w : Wizard) : Bool :=
  w.dataDiskOfferingTitle && w.dataDiskOffering && !w.rootDiskOfferingTitle &&
    !w.rootDiskOffering

/-- A sequence of clicks in the filter area, each with the id of the element hit. -/
def filterClicks (ext : Ext) (server : String → AjaxResult ListJson)
    (targets : List (Option String)) (w : Wizard) : Wizard :=
  targets.foldl (fun acc t => filterClick ext server t acc) w

/-- The ids of the four filter buttons. -/
def filterButtons : List (Option String) :=
  [some "wiz_featured", some "wiz_my", some "wiz_community", some "wiz_blank"]

/-- Two templates: a CentOS one with id 5 and a Windows one with id 6. -/
def twoTemplates : List TemplateItem :=
  [ { id := "5", ostypename := some "CentOS 5.3 (64-bit)", displaytext := some "CentOS",
      account := some "system" },
    { id := "6", ostypename := some "Windows 7", displaytext := some "Win7",
      account := some "admin" } ]

/-- Two ISOs, with ids 8 and 9. -/
def twoIsos : List TemplateItem :=
  [ { id := "8", ostypename := some "Ubuntu 9", displaytext := some "Ubuntu ISO",
      account := some "admin" },
    { id := "9", ostypename := none, displaytext := some "Tools", account := some "admin" } ]

/-- A control plane that answers every list request of the wizard with the two templates or
with the two ISOs. -/
def listServer : String → AjaxResult ListJson :=
  fun _ => .success
    { listtemplatesresponse := some (some twoTemplates)
      listisosresponse := some (some twoIsos) }

/-- Inputs of a filled wizard: a name, a group, service offering 2, a root disk offering 7
and a data disk offering 9. -/
def WizardInputs.sample : WizardInputs :=
  { vmName := some "vm", vmGroup := some "web", serviceOffering := some "2",
    rootDiskOffering := some "7", dataDiskOffering := some "9" }

/-- The wizard and the console after the first `k` clicks on `#next_step` of the sequence
`inps`, from the wizard that `vmWizardCleanup` leaves. -/
def afterNextClicks (ext : Ext) (wext : WizardExt) (w0 : Wizard) (s : State)
    (inps : List WizardInputs) (k : Nat) : Wizard × State :=
  nextClicks ext wext (inps.take k) (vmWizardCleanup w0, s)

/-- The wizard after the blank button was clicked and then the filter area itself, outside
the four buttons. -/
def blankThenArea : Wizard :=
  filterClicks Ext.sample listServer [some "wiz_blank", some "wiz_template_filter"] Wizard.fresh

/-! ## A weaker invariant, kept by every turn but a late transport failure -/

/-- Whether the turn hands a transport failure to a poll callback of a deploy job whose
element has already become an instance element (the handler bound last on it is the one of
`setMidmenuItemVm`) while the latest annotation stored on its node is not a failure
annotation: line 886 then puts the error mark on the icon of an element whose annotation
tells a success. -/
def lateTransportFailure (s : State) : Event → Bool
  | .pollDone i .error =>
    match s.pending[i]? with
    | some (.poll _ (.deploy node _)) =>
      match findNode node s.midmenu with
      | some t =>
        t.clickHandlers.getLast? == some ClickHandler.vmClick &&
          (lastRecord node s.reconciled).map (fun x => x.failed) != some true
      | none => false
    | _ => false
  | _ => false

/-- A trace without a late transport failure. The polls of every job may overlap, and the
control plane may answer them in any way. -/
def noLateTransportFailure (ext : Ext) : State → List Event → Bool
  | _, [] => true
  | s, e :: evs => !(lateTransportFailure s e) && noLateTransportFailure ext (step ext s e) evs

/-- What every element keeps in a trace without a late transport failure: its annotation is
the text of the latest record of its node; when the handler bound last is the one of
`setMidmenuItemVm` and the info icon is shown, the error mark is on exactly when that record
is a failure; when the handler bound last is the one of a failed deploy, the node has a
record. -/
def ElemBase (reconciled : List Reconciliation) (t : MidmenuItem) : Prop :=
  t.afterActionInfo = (lastRecord t.node reconciled).map (fun r => r.text) ∧
    (t.clickHandlers.getLast? = some ClickHandler.vmClick → t.infoIcon = true →
      ∃ r, lastRecord t.node reconciled = some r ∧ t.infoIconError = r.failed) ∧
    (t.clickHandlers.getLast? = some ClickHandler.addingFailedClick →
      ∃ r, lastRecord t.node reconciled = some r)

/-- The invariant kept by every turn of the event loop that is not a late transport
failure. -/
structure Core (s : State) : Prop where
  elems : ∀ t ∈ s.midmenu, t.node < s.nextNode ∧ ElemBase s.reconciled t
  nodup : (s.midmenu.map (fun t => t.node)).Nodup
  records : ∀ r ∈ s.reconciled, ∀ n, r.node = some n → n < s.nextNode
  live : ∀ c ∈ closures s.timers s.pending, ∀ n, c.ctx.node? = some n → n < s.nextNode
  submits : ∀ n, Pending.deploy n ∈ s.pending →
    SubmitOk s.midmenu s.nextNode (closures s.timers s.pending) n
  oneSubmit : ∀ n, s.pending.count (Pending.deploy n) ≤ 1

/-! # Theorems -/

/-! ## Lemmas on the DOM helpers -/

theorem findNode_node {n : Nat} {items : List MidmenuItem} {t : MidmenuItem}
    (h : findNode n items = some t) : t.node = n := by
  unfold findNode at h
  have := List.find?_some h
  simpa using this

theorem findNode_updateNode (node n : Nat) (f : MidmenuItem → MidmenuItem)
    (hf : ∀ u, (f u).node = u.node) (items : List MidmenuItem) :
    findNode n (updateNode node f items) =
      (findNode n items).map (fun t => if t.node = node then f t else t) := by
  unfold findNode updateNode
  rw [List.find?_map]
  have : ((fun t : MidmenuItem => decide (t.node = n)) ∘
      fun t => if t.node = node then f t else t) = fun t => decide (t.node = n) := by
    funext t
    simp only [Function.comp]
    split <;> simp [hf]
  rw [this]

theorem select_mem (id : String) (sel : List String) : id ∈ select id sel := by
  unfold select
  split <;> simp_all

theorem select_mem_other {id x : String} (sel : List String) (hx : x ≠ id) :
    x ∈ select id sel ↔ x ∈ sel := by
  unfold select
  split <;> simp_all

theorem select_select (id : String) (sel : List String) :
    select id (select id sel) = select id sel := by
  have h := select_mem id sel
  show (if id ∈ select id sel then select id sel else select id sel ++ [id]) = select id sel
  rw [if_pos h]

theorem vmClick_selectedItemIds (ext : Ext) (t : MidmenuItem) (s : State) :
    (vmClick ext t s).selectedItemIds = select (jsString t.dataId) s.selectedItemIds := by
  unfold vmClick
  cases t.dataJsonObj <;> rfl

theorem vmClick_midmenu (ext : Ext) (t : MidmenuItem) (s : State) :
    (vmClick ext t s).midmenu =
      updateNode t.node (fun u => { u with contentSelected := true }) s.midmenu := by
  unfold vmClick
  cases t.dataJsonObj <;> rfl

theorem runHandlers_selectedItemIds (ext : Ext) (node : Nat) (hs : List ClickHandler) :
    ∀ (s : State) (t : MidmenuItem), findNode node s.midmenu = some t →
      (hs.foldl (fun acc h => runHandler ext node h acc) s).selectedItemIds =
          (if ClickHandler.vmClick ∈ hs then select (jsString t.dataId) s.selectedItemIds
           else s.selectedItemIds) ∧
        ∃ t2, findNode node (hs.foldl (fun acc h => runHandler ext node h acc) s).midmenu = some t2 ∧
          t2.dataId = t.dataId ∧ t2.clickHandlers = t.clickHandlers := by
  induction hs with
  | nil => intro s t ht; exact ⟨by simp, t, ht, rfl, rfl⟩
  | cons h hs ih =>
    intro s t ht
    simp only [List.foldl_cons]
    cases h with
    | vmClick =>
      have hrun : runHandler ext node ClickHandler.vmClick s = vmClick ext t s := by
        unfold runHandler; rw [ht]
      have hfind : findNode node (vmClick ext t s).midmenu =
          some { t with contentSelected := true } := by
        rw [vmClick_midmenu, findNode_updateNode t.node node
          (fun u => { u with contentSelected := true }) (fun _ => rfl) s.midmenu, ht]
        simp
      rw [hrun]
      obtain ⟨h1, t2, h2, h3, h4⟩ := ih (vmClick ext t s) _ hfind
      refine ⟨?_, t2, h2, h3, h4⟩
      rw [h1, vmClick_selectedItemIds]
      simp [select_select]
    | addingFailedClick =>
      have hrun : runHandler ext node ClickHandler.addingFailedClick s = addingFailedClick t s := by
        unfold runHandler; rw [ht]
      rw [hrun]
      have hfind : findNode node (addingFailedClick t s).midmenu = some t := ht
      obtain ⟨h1, t2, h2, h3, h4⟩ := ih (addingFailedClick t s) t hfind
      refine ⟨?_, t2, h2, h3, h4⟩
      rw [h1]
      simp [addingFailedClick]

theorem itemClick_selectedItemIds (ext : Ext) (node : Nat) (s : State) (t : MidmenuItem)
    (ht : findNode node s.midmenu = some t) (hh : ClickHandler.vmClick ∈ t.clickHandlers) :
    (itemClick ext node s).selectedItemIds = select (jsString t.dataId) s.selectedItemIds ∧
      ∃ t2, findNode node (itemClick ext node s).midmenu = some t2 ∧
        t2.dataId = t.dataId ∧ t2.clickHandlers = t.clickHandlers := by
  unfold itemClick
  rw [ht]
  have := runHandlers_selectedItemIds ext node t.clickHandlers s t ht
  simpa [hh] using this

/-- C9: a click on an instance element whose stored id is `id` is an idempotent insert into
the selection set: afterwards `id` is a member, the membership of every other id is
unchanged, and a second click on the same element leaves the selection set as it is after
the first. -/
theorem select_is_idempotent_insert (ext : Ext) (s : State) (node : Nat) (t : MidmenuItem)
    (id : String) (ht : findNode node s.midmenu = some t)
    (hh : ClickHandler.vmClick ∈ t.clickHandlers) (hid : t.dataId = some id) :
    id ∈ (itemClick ext node s).selectedItemIds ∧
      (∀ x, x ≠ id → (x ∈ (itemClick ext node s).selectedItemIds ↔ x ∈ s.selectedItemIds)) ∧
      (itemClick ext node (itemClick ext node s)).selectedItemIds =
        (itemClick ext node s).selectedItemIds := by
  obtain ⟨h1, t2, h2, h3, h4⟩ := itemClick_selectedItemIds ext node s t ht hh
  have hkey : jsString t.dataId = id := by rw [hid]; rfl
  rw [hkey] at h1
  refine ⟨?_, ?_, ?_⟩
  · rw [h1]; exact select_mem id _
  · intro x hx; rw [h1]; exact select_mem_other _ hx
  · obtain ⟨h5, -⟩ := itemClick_selectedItemIds ext node (itemClick ext node s) t2 h2 (h4 ▸ hh)
    rw [h5, h3, hkey, h1, select_select]

/-- Witness of C9 on the list of two instances: the element of instance 1 is clicked. -/
theorem select_is_idempotent_insert_witness :
    "1" ∈ (itemClick Ext.sample 0 twoSelected).selectedItemIds ∧
      (∀ x, x ≠ "1" →
        (x ∈ (itemClick Ext.sample 0 twoSelected).selectedItemIds ↔
          x ∈ twoSelected.selectedItemIds)) ∧
      (itemClick Ext.sample 0 (itemClick Ext.sample 0 twoSelected)).selectedItemIds =
        (itemClick Ext.sample 0 twoSelected).selectedItemIds :=
  select_is_idempotent_insert Ext.sample twoSelected 0
    ((findNode 0 twoSelected.midmenu).get (by decide)) "1" (by decide) (by decide) (by decide)

/-! ## Bulk dispatch -/

theorem finalState_ok (s : State) : finalState (Except.ok s) = s := rfl

theorem finalState_error (s : State) : finalState (Except.error s) = s := rfl

theorem dispatchLoop_finalState (ext : Ext) (a : ActionInfo) (d : Nat)
    (server : String → AjaxResult SubmitJson) : ∀ (ids : List String) (s : State),
    finalState (dispatchLoop ext a d server ids s) =
      { s with
        midmenu := (visitedIds ext a server ids).foldl (fun m id => markBusy id m) s.midmenu
        requests := s.requests ++ (submittedIds ext a server ids).map (submitRequest a.api)
        timers := s.timers ++ (registeredJobs ext a server ids).map (bulkTimer d a.label)
        jobIdMap := ((registeredJobs ext a server ids).map (bulkEntry d)).reverse ++ s.jobIdMap } := by
  intro ids
  induction ids with
  | nil => intro s; simp [dispatchLoop, finalState, visitedIds, submittedIds, registeredJobs]
  | cons id ids ih =>
    intro s
    unfold dispatchLoop dispatchStep
    cases hasync : a.isAsyncJob with
    | false =>
      simp only [Bool.false_eq_true, if_false]
      rw [ih]
      simp [visitedIds, submittedIds, registeredJobs, raises, hasync]
    | true =>
      simp only [if_true, ajaxSync]
      cases hmode : ext.syncRaise with
      | reported =>
        simp only []
        cases hsrv : server id with
        | success json =>
          simp only [submitSuccess]
          cases hlk : List.lookup a.asyncJobResponse json with
          | none =>
            simp only [finalState_error]
            rw [ih]
            simp [visitedIds, submittedIds, registeredJobs, raises, hasync, hsrv, hlk, hmode]
          | some env =>
            simp only [finalState_ok]
            rw [ih]
            simp [visitedIds, submittedIds, registeredJobs, raises, hasync, hsrv, hlk, hmode,
              everyTime, bulkTimer, bulkEntry]
        | error =>
          have hfin : finalState (submitError ext
              { s with midmenu := markBusy id s.midmenu,
                       requests := s.requests ++ [submitRequest a.api id] }) =
              { s with midmenu := markBusy id s.midmenu,
                       requests := s.requests ++ [submitRequest a.api id] } := by
            unfold submitError
            split <;> rfl
          simp only [hfin]
          rw [ih]
          simp [visitedIds, submittedIds, registeredJobs, raises, hasync, hsrv, hmode]
      | leaves =>
        simp only []
        cases hsrv : server id with
        | success json =>
          simp only [submitSuccess]
          cases hlk : List.lookup a.asyncJobResponse json with
          | none =>
            simp [finalState, visitedIds, submittedIds, registeredJobs, raises, hasync, hsrv, hlk,
              hmode]
          | some env =>
            simp only []
            rw [ih]
            simp [visitedIds, submittedIds, registeredJobs, raises, hasync, hsrv, hlk, hmode,
              everyTime, bulkTimer, bulkEntry]
        | error =>
          simp only [submitError]
          cases hb : ext.spinningWheelBound with
          | false =>
            simp [finalState, visitedIds, submittedIds, registeredJobs, raises, hasync, hsrv, hb,
              hmode]
          | true =>
            simp only [if_true]
            rw [ih]
            simp [visitedIds, submittedIds, registeredJobs, raises, hasync, hsrv, hb, hmode]
      | toError =>
        simp only []
        cases hsrv : server id with
        | success json =>
          simp only [submitSuccess]
          cases hlk : List.lookup a.asyncJobResponse json with
          | none =>
            simp only [submitError]
            cases hb : ext.spinningWheelBound with
            | false =>
              simp [finalState, visitedIds, submittedIds, registeredJobs, raises, hasync, hsrv,
                hlk, hmode, hb]
            | true =>
              simp only [if_true]
              rw [ih]
              simp [visitedIds, submittedIds, registeredJobs, raises, hasync, hsrv, hlk, hmode,
                hb]
          | some env =>
            simp only []
            rw [ih]
            simp [visitedIds, submittedIds, registeredJobs, raises, hasync, hsrv, hlk, hmode,
              everyTime, bulkTimer, bulkEntry]
        | error =>
          simp only [submitError]
          cases hb : ext.spinningWheelBound with
          | false =>
            simp [finalState, visitedIds, submittedIds, registeredJobs, raises, hasync, hsrv, hb,
              hmode]
          | true =>
            simp only [if_true]
            rw [ih]
            simp [visitedIds, submittedIds, registeredJobs, raises, hasync, hsrv, hb, hmode]

theorem dispatchLoop_isOk (ext : Ext) (a : ActionInfo) (d : Nat)
    (server : String → AjaxResult SubmitJson) : ∀ (ids : List String) (s : State),
    (dispatchLoop ext a d server ids s).isOk = !(ids.any (raises ext a server)) := by
  intro ids
  induction ids with
  | nil => intro s; rfl
  | cons id ids ih =>
    intro s
    unfold dispatchLoop dispatchStep
    cases hasync : a.isAsyncJob with
    | false =>
      simp only [Bool.false_eq_true, if_false]
      rw [ih]
      simp [raises, hasync]
    | true =>
      simp only [if_true, ajaxSync]
      cases hmode : ext.syncRaise with
      | reported =>
        simp only []
        cases hsrv : server id with
        | success json =>
          simp only []
          rw [ih]
          simp [raises, hasync, hsrv, hmode]
        | error =>
          simp only []
          rw [ih]
          simp [raises, hasync, hsrv, hmode]
      | leaves =>
        simp only []
        cases hsrv : server id with
        | success json =>
          simp only [submitSuccess]
          cases hlk : List.lookup a.asyncJobResponse json with
          | none => simp [raises, hasync, hsrv, hlk, hmode, Except.isOk, Except.toBool]
          | some env =>
            simp only []
            rw [ih]
            simp [raises, hasync, hsrv, hlk, hmode]
        | error =>
          simp only [submitError]
          cases hb : ext.spinningWheelBound with
          | false => simp [raises, hasync, hsrv, hb, hmode, Except.isOk, Except.toBool]
          | true =>
            simp only [if_true]
            rw [ih]
            simp [raises, hasync, hsrv, hb, hmode]
      | toError =>
        simp only []
        cases hsrv : server id with
        | success json =>
          simp only [submitSuccess]
          cases hlk : List.lookup a.asyncJobResponse json with
          | none =>
            simp only [submitError]
            cases hb : ext.spinningWheelBound with
            | false => simp [raises, hasync, hsrv, hlk, hmode, hb, Except.isOk, Except.toBool]
            | true =>
              simp only [if_true]
              rw [ih]
              simp [raises, hasync, hsrv, hlk, hmode, hb]
          | some env =>
            simp only []
            rw [ih]
            simp [raises, hasync, hsrv, hlk, hmode]
        | error =>
          simp only [submitError]
          cases hb : ext.spinningWheelBound with
          | false => simp [raises, hasync, hsrv, hb, hmode, Except.isOk, Except.toBool]
          | true =>
            simp only [if_true]
            rw [ih]
            simp [raises, hasync, hsrv, hb, hmode]

theorem dispatch_eq (ext : Ext) (a : ActionInfo) (server : String → AjaxResult SubmitJson)
    (s : State) :
    dispatch ext a server s =
      if (ext.forInKeys s.selectedItemIds).any (raises ext a server) then
        finalState (dispatchLoop ext a s.dispatches server (ext.forInKeys s.selectedItemIds)
          { s with actionMenuShown := false, dispatches := s.dispatches + 1 })
      else
        { finalState (dispatchLoop ext a s.dispatches server (ext.forInKeys s.selectedItemIds)
            { s with actionMenuShown := false, dispatches := s.dispatches + 1 }) with
          selectedItemIds := [] } := by
  have h := dispatchLoop_isOk ext a s.dispatches server (ext.forInKeys s.selectedItemIds)
    { s with actionMenuShown := false, dispatches := s.dispatches + 1 }
  unfold dispatch
  simp only []
  cases hr : dispatchLoop ext a s.dispatches server (ext.forInKeys s.selectedItemIds)
      { s with actionMenuShown := false, dispatches := s.dispatches + 1 } with
  | ok s1 =>
    rw [hr] at h
    have h2 : (ext.forInKeys s.selectedItemIds).any (raises ext a server) = false := by
      simpa [Except.isOk, Except.toBool] using h
    simp [h2, finalState]
  | error s1 =>
    rw [hr] at h
    have h2 : (ext.forInKeys s.selectedItemIds).any (raises ext a server) = true := by
      simpa [Except.isOk, Except.toBool] using h
    simp [h2, finalState]

theorem dispatch_selectedItemIds (ext : Ext) (a : ActionInfo)
    (server : String → AjaxResult SubmitJson) (s : State) :
    (dispatch ext a server s).selectedItemIds =
      if (ext.forInKeys s.selectedItemIds).any (raises ext a server) then s.selectedItemIds
      else [] := by
  rw [dispatch_eq]
  split
  · rw [dispatchLoop_finalState]
  · rfl

theorem dispatch_requests (ext : Ext) (a : ActionInfo) (server : String → AjaxResult SubmitJson)
    (s : State) :
    (dispatch ext a server s).requests =
      s.requests ++
        (submittedIds ext a server (ext.forInKeys s.selectedItemIds)).map
          (submitRequest a.api) := by
  rw [dispatch_eq]
  split <;> simp [dispatchLoop_finalState]

theorem visitedIds_of_no_raise (ext : Ext) (a : ActionInfo)
    (server : String → AjaxResult SubmitJson) (ids : List String)
    (h : ids.any (raises ext a server) = false) : visitedIds ext a server ids = ids := by
  induction ids with
  | nil => rfl
  | cons id ids ih =>
    simp only [List.any_cons, Bool.or_eq_false_iff] at h
    simp [visitedIds, h.1, ih h.2]

/-- When no raise leaves an iteration, the dispatch of an asynchronous action sends one
request per selected id, in the order the keys are visited, and nothing else, and it empties
the selection. -/
theorem dispatch_of_no_raise (ext : Ext) (a : ActionInfo)
    (server : String → AjaxResult SubmitJson) (s : State) (hasync : a.isAsyncJob = true)
    (h : (ext.forInKeys s.selectedItemIds).any (raises ext a server) = false) :
    (dispatch ext a server s).requests =
        s.requests ++ (ext.forInKeys s.selectedItemIds).map (submitRequest a.api) ∧
      (dispatch ext a server s).selectedItemIds = [] := by
  rw [dispatch_requests, dispatch_selectedItemIds]
  simp [submittedIds, hasync, visitedIds_of_no_raise ext a server _ h, h]

/-- With jQuery 1.4.2 no raise leaves an iteration of the loop. -/
theorem raises_of_reported (ext : Ext) (hmode : ext.syncRaise = SyncRaise.reported)
    (a : ActionInfo) (server : String → AjaxResult SubmitJson) (ids : List String) :
    ids.any (raises ext a server) = false := by
  rw [List.any_eq_false]
  intro id _
  simp [raises, hmode]

/-! ## The selection and the submissions after a dispatch (lines 203-263) -/

theorem select_nodup (id : String) (sel : List String) (h : sel.Nodup) :
    (select id sel).Nodup := by
  unfold select
  split
  · exact h
  · rename_i hn
    refine List.Nodup.append h (List.nodup_singleton id) ?_
    intro x hx hx2
    rw [List.mem_singleton] at hx2
    exact hn (hx2 ▸ hx)

theorem itemClick_selection_nodup (ext : Ext) (node : Nat) (s : State)
    (h : s.selectedItemIds.Nodup) : (itemClick ext node s).selectedItemIds.Nodup := by
  unfold itemClick
  cases ht : findNode node s.midmenu with
  | none => exact h
  | some t =>
    simp only []
    rw [(runHandlers_selectedItemIds ext node t.clickHandlers s t ht).1]
    split
    · exact select_nodup _ _ h
    · exact h

theorem appendInstances_selectedItemIds (ext : Ext) (os : List Instance) :
    ∀ s : State, (appendInstances ext os s).selectedItemIds = s.selectedItemIds := by
  induction os with
  | nil => intro s; rfl
  | cons o os ih => intro s; unfold appendInstances; rw [ih]

theorem pollDone_selectedItemIds (ext : Ext) (i : Nat) (r : AjaxResult (Option JobResult))
    (s : State) : (pollDone ext i r s).selectedItemIds = s.selectedItemIds := by
  unfold pollDone
  split
  · rename_i key ctx _
    cases ctx with
    | bulk d jobId label =>
      cases r with
      | success json =>
        simp only [bulkPollSuccess]
        cases json with
        | none => rfl
        | some result => simp only []; split <;> rfl
      | error => simp only [bulkPollError]; split <;> rfl
    | deploy node jobId =>
      cases r with
      | success json =>
        simp only [deployPollSuccess]
        cases json with
        | none => rfl
        | some result => simp only []; split <;> rfl
      | error => rfl
  · rfl

/-- The selection set of a reachable state holds every id once. -/
theorem step_selection_nodup (ext : Ext) (s : State) (e : Event)
    (h : s.selectedItemIds.Nodup) : (step ext s e).selectedItemIds.Nodup := by
  cases e with
  | groupClick => exact h
  | itemClick node => exact itemClick_selection_nodup ext node s h
  | actionClick a server =>
    show (dispatch ext a server s).selectedItemIds.Nodup
    rw [dispatch_selectedItemIds]
    split
    · exact h
    · exact List.nodup_nil
  | deployClick m => exact h
  | timerFire i =>
    show (timerFire i s).selectedItemIds.Nodup
    unfold timerFire
    split <;> exact h
  | pollDone i r =>
    show (pollDone ext i r s).selectedItemIds.Nodup
    rw [pollDone_selectedItemIds]; exact h
  | deployDone i r =>
    show (deployDone i r s).selectedItemIds.Nodup
    unfold deployDone
    split
    · cases r with
      | success json =>
        simp only [deploySubmitSuccess]
        split <;> exact h
      | error => exact h
    · exact h
  | listDone i json =>
    show (listDone ext i json s).selectedItemIds.Nodup
    unfold listDone
    split
    · cases json with
      | none => exact h
      | some os =>
        simp only [listSuccess]
        rw [appendInstances_selectedItemIds]; exact h
    · exact h

theorem reachable_selection_nodup (ext : Ext) (s : State) (h : Reachable ext s) :
    s.selectedItemIds.Nodup := by
  obtain ⟨p, evs, rfl⟩ := h
  have key : ∀ (evs : List Event) (s : State), s.selectedItemIds.Nodup →
      (run ext s evs).selectedItemIds.Nodup := by
    intro evs
    induction evs with
    | nil => intro s h; exact h
    | cons e evs ih => intro s h; exact ih (step ext s e) (step_selection_nodup ext s e h)
  exact key evs _ List.nodup_nil

/-- Two ids give two different submission requests. -/
theorem submitRequest_injective (api : String) : Function.Injective (submitRequest api) := by
  intro x y h
  unfold submitRequest at h
  have h2 := congrArg String.data h
  simp only [String.data_append, List.append_assoc, List.append_cancel_left_eq,
    List.append_cancel_right_eq] at h2
  exact String.ext h2

/-- C1: with a jQuery that runs the callbacks of a synchronous request in the
`readystatechange` event inside `send()` (jQuery 1.4.2: a raise of a callback is reported and
`$.ajax` returns), the selection set is empty once the click handler of an action link has
finished, for every selection set, every action descriptor, asynchronous or not, and every
answer of the control plane to each submission: a job id, a body without the expected key,
or a transport failure. -/
theorem dispatch_empties_selection (ext : Ext) (hmode : ext.syncRaise = SyncRaise.reported)
    (a : ActionInfo) (server : String → AjaxResult SubmitJson) (s : State) :
    (dispatch ext a server s).selectedItemIds = [] := by
  rw [dispatch_selectedItemIds, raises_of_reported ext hmode]
  rfl

/-- Witness of C1: instances 1 and 2 are selected, Stop is clicked and the control plane
answers with a body that lacks `stopvirtualmachineresponse`. -/
theorem dispatch_empties_selection_witness :
    Ext.sample.syncRaise = SyncRaise.reported ∧
      twoSelected.selectedItemIds = ["1", "2"] ∧
      (dispatch Ext.sample stopAction serverNoKey twoSelected).selectedItemIds = [] :=
  ⟨rfl, by decide, dispatch_empties_selection Ext.sample rfl stopAction serverNoKey twoSelected⟩

/-- The selection after a dispatch on the three kinds of answer, evaluated for each
behaviour of jQuery: instances 1 and 2 are selected and Stop is clicked. With jQuery 1.4.2
the set is emptied on every answer. With a jQuery that lets the raise leave `$.ajax` the set
keeps both ids after a body without the key (line 212 raises), and after a transport failure
when `$spinningWheel` is unbound (line 254 raises). -/
theorem dispatch_selection_by_library (mode : SyncRaise) (bound : Bool) :
    (dispatch { Ext.sample with syncRaise := mode, spinningWheelBound := bound }
          stopAction serverOk twoSelected).selectedItemIds = [] ∧
      (dispatch { Ext.sample with syncRaise := mode, spinningWheelBound := bound }
          stopAction serverNoKey twoSelected).selectedItemIds =
        (if mode = SyncRaise.reported ∨ (mode = SyncRaise.toError ∧ bound = true) then []
         else ["1", "2"]) ∧
      (dispatch { Ext.sample with syncRaise := mode, spinningWheelBound := bound }
          stopAction serverDown twoSelected).selectedItemIds =
        (if mode = SyncRaise.reported ∨ bound = true then [] else ["1", "2"]) := by
  cases mode <;> cases bound <;> decide

/-- C2: with jQuery 1.4.2 (a raise of a callback of the synchronous request is reported and
`$.ajax` returns), the dispatch of an asynchronous action with command name `api` in a
reachable state sends, after the requests sent before, exactly the requests
`"command=" + api + "&id=" + id + "&response=json"` of the selected ids, in the order in
which the engine visits the keys: each selected id has one such request, an id outside the
selection has none, every request sent is the one of a selected id, and their number is the
number of selected ids. -/
theorem dispatch_submits_once_per_selected_id (ext : Ext)
    (hmode : ext.syncRaise = SyncRaise.reported) (a : ActionInfo) (hasync : a.isAsyncJob = true)
    (server : String → AjaxResult SubmitJson) (s : State) (hreach : Reachable ext s) :
    (dispatch ext a server s).requests =
        s.requests ++ (ext.forInKeys s.selectedItemIds).map (submitRequest a.api) ∧
      (∀ id, submitRequest a.api id = "command=" ++ a.api ++ "&id=" ++ id ++ "&response=json") ∧
      (∀ id, ((ext.forInKeys s.selectedItemIds).map (submitRequest a.api)).count
          (submitRequest a.api id) = if id ∈ s.selectedItemIds then 1 else 0) ∧
      (∀ q ∈ (ext.forInKeys s.selectedItemIds).map (submitRequest a.api),
        ∃ id ∈ s.selectedItemIds, q = submitRequest a.api id) ∧
      ((ext.forInKeys s.selectedItemIds).map (submitRequest a.api)).length =
        s.selectedItemIds.length := by
  have hperm := ext.forInKeys_perm s.selectedItemIds
  refine ⟨(dispatch_of_no_raise ext a server s hasync (raises_of_reported ext hmode _ _ _)).1,
    fun _ => rfl, ?_, ?_, ?_⟩
  · intro id
    rw [List.count_map_of_injective _ _ (submitRequest_injective a.api), hperm.count_eq]
    exact List.count_eq_of_nodup (reachable_selection_nodup ext s hreach)
  · intro q hq
    obtain ⟨id, hid, rfl⟩ := List.mem_map.mp hq
    exact ⟨id, hperm.mem_iff.mp hid, rfl⟩
  · rw [List.length_map, hperm.length_eq]

/-- Witness of C2: instances 1 and 2 are selected and Stop is clicked; the control plane
answers the submission for 1 with a body that lacks the key. Two requests are sent. -/
theorem dispatch_submits_once_per_selected_id_witness :
    twoSelected.selectedItemIds = ["1", "2"] ∧
      (dispatch Ext.sample stopAction serverNoKey twoSelected).requests =
        twoSelected.requests ++
          [ "command=stopVirtualMachine&id=1&response=json",
            "command=stopVirtualMachine&id=2&response=json" ] :=
  ⟨by decide,
    (dispatch_submits_once_per_selected_id Ext.sample rfl stopAction rfl serverNoKey twoSelected
      ⟨Panel.blank, _, rfl⟩).1⟩

/-- The submissions of a dispatch on the three kinds of answer, evaluated for each behaviour
of jQuery: instances 1 and 2 are selected and Stop is clicked. With jQuery 1.4.2 both
submissions are sent on every answer; with a jQuery that lets the raise leave `$.ajax` the
submission for the second id is not sent after a raise in the iteration of the first. -/
theorem dispatch_requests_by_library (mode : SyncRaise) (bound : Bool) :
    (dispatch { Ext.sample with syncRaise := mode, spinningWheelBound := bound }
          stopAction serverNoKey twoSelected).requests =
        twoSelected.requests ++
          (if mode = SyncRaise.reported ∨ (mode = SyncRaise.toError ∧ bound = true) then
            ["command=stopVirtualMachine&id=1&response=json",
              "command=stopVirtualMachine&id=2&response=json"]
           else ["command=stopVirtualMachine&id=1&response=json"]) ∧
      (dispatch { Ext.sample with syncRaise := mode, spinningWheelBound := bound }
          stopAction serverDown twoSelected).requests =
        twoSelected.requests ++
          (if mode = SyncRaise.reported ∨ bound = true then
            ["command=stopVirtualMachine&id=1&response=json",
              "command=stopVirtualMachine&id=2&response=json"]
           else ["command=stopVirtualMachine&id=1&response=json"]) := by
  cases mode <;> cases bound <;> decide

/-! ## The job tracker -/

theorem timerRegistered_eq_false {key : String} {timers : List Timer} :
    timerRegistered key timers = false ↔ ∀ tm ∈ timers, tm.key ≠ key := by
  unfold timerRegistered
  simp

theorem mem_stopTime {key : String} {timers : List Timer} {tm : Timer} :
    tm ∈ stopTime key timers ↔ tm ∈ timers ∧ tm.key ≠ key := by
  unfold stopTime
  simp

theorem bulkPollSuccess_timers (ext : Ext) (key : String) (d : Nat) (jobId : Option String)
    (label : String) (json : Option JobResult) (s : State) :
    (bulkPollSuccess ext key d jobId label json s).timers =
      match json with
      | none => s.timers
      | some result => if result.jobstatus = 0 then s.timers else stopTime key s.timers := by
  unfold bulkPollSuccess
  cases json with
  | none => rfl
  | some result => simp only []; split <;> rfl

theorem deployPollSuccess_timers (ext : Ext) (key : String) (node : Nat)
    (json : Option JobResult) (s : State) :
    (deployPollSuccess ext key node json s).timers =
      match json with
      | none => s.timers
      | some result => if result.jobstatus = 0 then s.timers else stopTime key s.timers := by
  unfold deployPollSuccess
  cases json with
  | none => rfl
  | some result => simp only []; split <;> rfl

theorem bulkPollSuccess_requests (ext : Ext) (key : String) (d : Nat) (jobId : Option String)
    (label : String) (json : Option JobResult) (s : State) :
    (bulkPollSuccess ext key d jobId label json s).requests = s.requests := by
  unfold bulkPollSuccess
  cases json with
  | none => rfl
  | some result => simp only []; split <;> rfl

theorem deployPollSuccess_requests (ext : Ext) (key : String) (node : Nat)
    (json : Option JobResult) (s : State) :
    (deployPollSuccess ext key node json s).requests = s.requests := by
  unfold deployPollSuccess
  cases json with
  | none => rfl
  | some result => simp only []; split <;> rfl

theorem bulkPollError_timers_sub (ext : Ext) (key : String) (s : State) :
    ∀ tm ∈ (bulkPollError ext key s).timers, tm ∈ s.timers := by
  intro tm h
  unfold bulkPollError at h
  split at h
  · exact (mem_stopTime.mp h).1
  · exact h

/-- The answer to a poll registers no timer. -/
theorem pollDone_timers_sub (ext : Ext) (i : Nat) (r : AjaxResult (Option JobResult))
    (s : State) : ∀ tm ∈ (pollDone ext i r s).timers, tm ∈ s.timers := by
  intro tm h
  unfold pollDone at h
  split at h
  · rename_i key ctx _
    cases ctx with
    | bulk d jobId label =>
      cases r with
      | success json =>
        simp only [bulkPollSuccess_timers] at h
        cases json with
        | none => exact h
        | some result =>
          simp only [] at h
          split at h
          · exact h
          · exact (mem_stopTime.mp h).1
      | error =>
        simp only [] at h
        exact bulkPollError_timers_sub ext key { s with pending := s.pending.eraseIdx i } tm h
    | deploy node jobId =>
      cases r with
      | success json =>
        simp only [deployPollSuccess_timers] at h
        cases json with
        | none => exact h
        | some result =>
          simp only [] at h
          split at h
          · exact h
          · exact (mem_stopTime.mp h).1
      | error =>
        simp only [deployPollError] at h
        exact (mem_stopTime.mp h).1
  · exact h

/-- The answer to a poll sends no request. -/
theorem pollDone_requests (ext : Ext) (i : Nat) (r : AjaxResult (Option JobResult))
    (s : State) : (pollDone ext i r s).requests = s.requests := by
  unfold pollDone
  split
  · rename_i key ctx _
    cases ctx with
    | bulk d jobId label =>
      cases r with
      | success json => simp only [bulkPollSuccess_requests]
      | error => simp only [bulkPollError]; split <;> rfl
    | deploy node jobId =>
      cases r with
      | success json => simp only [deployPollSuccess_requests]
      | error => rfl
  · rfl

/-- A terminal answer removes every timer registered under the key of the poll. -/
theorem pollDone_terminal_timers (ext : Ext) (s : State) (i : Nat) (key : String)
    (ctx : PollCtx) (result : JobResult)
    (hpend : s.pending[i]? = some (Pending.poll key ctx)) (hterm : result.jobstatus ≠ 0) :
    (pollDone ext i (.success (some result)) s).timers = stopTime key s.timers := by
  unfold pollDone
  rw [hpend]
  cases ctx with
  | bulk d jobId label => simp [bulkPollSuccess_timers, hterm]
  | deploy node jobId => simp [deployPollSuccess_timers, hterm]

theorem tracker_run_invariant (ext : Ext) (P : Timer → Prop) (target : String)
    (hP : ∀ tm, P tm → pollRequest tm.ctx.jobId ≠ target) (evs : List Event) :
    ∀ s : State, (∀ tm ∈ s.timers, P tm) → (∀ e ∈ evs, e.isTracker = true) →
      (∀ tm ∈ (run ext s evs).timers, P tm) ∧
        (run ext s evs).requests.count target = s.requests.count target := by
  induction evs with
  | nil => intro s h _; exact ⟨h, rfl⟩
  | cons e evs ih =>
    intro s h htr
    have he : e.isTracker = true := htr e (List.mem_cons_self _ _)
    have hrest : ∀ e2 ∈ evs, e2.isTracker = true := fun e2 h2 => htr e2 (List.mem_cons_of_mem _ h2)
    show (∀ tm ∈ (run ext (step ext s e) evs).timers, P tm) ∧
      (run ext (step ext s e) evs).requests.count target = s.requests.count target
    cases e with
    | timerFire i =>
      have hstep : (step ext s (.timerFire i)).timers = s.timers := by
        show (timerFire i s).timers = s.timers
        unfold timerFire; split <;> rfl
      have hreq : (step ext s (.timerFire i)).requests.count target = s.requests.count target := by
        show (timerFire i s).requests.count target = s.requests.count target
        unfold timerFire
        split
        · rfl
        · rename_i tm htm
          have hmem : tm ∈ s.timers := List.getElem?_mem htm
          have hne := hP tm (h tm hmem)
          simp [List.count_append, List.count_cons, hne]
      obtain ⟨h1, h2⟩ := ih (step ext s (.timerFire i)) (by rw [hstep]; exact h) hrest
      exact ⟨h1, by rw [h2, hreq]⟩
    | pollDone i r =>
      have hsub : ∀ tm ∈ (step ext s (.pollDone i r)).timers, P tm :=
        fun tm htm => h tm (pollDone_timers_sub ext i r s tm htm)
      have hreq : (step ext s (.pollDone i r)).requests = s.requests := pollDone_requests ext i r s
      obtain ⟨h1, h2⟩ := ih (step ext s (.pollDone i r)) hsub hrest
      exact ⟨h1, by rw [h2, hreq]⟩
    | groupClick => simp [Event.isTracker] at he
    | itemClick node => simp [Event.isTracker] at he
    | actionClick a server => simp [Event.isTracker] at he
    | deployClick m => simp [Event.isTracker] at he
    | deployDone i r => simp [Event.isTracker] at he
    | listDone i json => simp [Event.isTracker] at he

/-- C3: once the answer to a poll of a job carries `jobstatus` 1 or 2, then in every
continuation of the tracker (timers fire, answers arrive, in any order) no timer is
registered under the key of the job and no further `queryAsyncJobResult` request is sent
for its `jobId`; the job id is taken to be unique among the tracked jobs, that is, every
timer that polls this `jobId` is registered under the key of the job. -/
theorem terminal_status_stops_polling (ext : Ext) (s : State) (i : Nat) (key : String)
    (ctx : PollCtx) (result : JobResult) (evs : List Event)
    (hpend : s.pending[i]? = some (Pending.poll key ctx))
    (hterm : result.jobstatus = 1 ∨ result.jobstatus = 2)
    (huniq : ∀ tm ∈ s.timers, pollRequest tm.ctx.jobId = pollRequest ctx.jobId → tm.key = key)
    (htr : ∀ e ∈ evs, e.isTracker = true) :
    timerRegistered key (run ext (pollDone ext i (.success (some result)) s) evs).timers = false ∧
      (run ext (pollDone ext i (.success (some result)) s) evs).requests.count
          (pollRequest ctx.jobId) =
        (pollDone ext i (.success (some result)) s).requests.count (pollRequest ctx.jobId) := by
  have hne : result.jobstatus ≠ 0 := by rcases hterm with h | h <;> rw [h] <;> decide
  have htimers := pollDone_terminal_timers ext s i key ctx result hpend hne
  have hinit : ∀ tm ∈ (pollDone ext i (.success (some result)) s).timers,
      tm.key ≠ key ∧ pollRequest tm.ctx.jobId ≠ pollRequest ctx.jobId := by
    intro tm htm
    rw [htimers] at htm
    obtain ⟨hmem, hk⟩ := mem_stopTime.mp htm
    exact ⟨hk, fun heq => hk (huniq tm hmem heq)⟩
  obtain ⟨h1, h2⟩ := tracker_run_invariant ext
    (fun tm => tm.key ≠ key ∧ pollRequest tm.ctx.jobId ≠ pollRequest ctx.jobId)
    (pollRequest ctx.jobId) (fun tm h => h.2) evs _ hinit htr
  exact ⟨timerRegistered_eq_false.mpr (fun tm htm => (h1 tm htm).1), h2⟩

/-- Witness of C3 on the scenario: job 55 ends with success, then its timer would fire and
another answer would arrive. -/
theorem terminal_status_stops_polling_witness :
    timerRegistered "asyncJob_55"
        (run Ext.sample (pollDone Ext.sample 0 (.success (some stoppedResult)) stopPolling)
          [.timerFire 0, .pollDone 0 (.success (some stoppedResult))]).timers = false ∧
      (run Ext.sample (pollDone Ext.sample 0 (.success (some stoppedResult)) stopPolling)
          [.timerFire 0, .pollDone 0 (.success (some stoppedResult))]).requests.count
          (pollRequest (PollCtx.bulk 0 (some "55") "Stop").jobId) =
        (pollDone Ext.sample 0 (.success (some stoppedResult)) stopPolling).requests.count
          (pollRequest (PollCtx.bulk 0 (some "55") "Stop").jobId) :=
  terminal_status_stops_polling Ext.sample stopPolling 0 "asyncJob_55"
    (PollCtx.bulk 0 (some "55") "Stop") stoppedResult
    [.timerFire 0, .pollDone 0 (.success (some stoppedResult))]
    (by decide) (Or.inl rfl) (by decide) (by decide)

theorem timerRegistered_stopTime (key : String) (timers : List Timer) :
    timerRegistered key (stopTime key timers) = false :=
  timerRegistered_eq_false.mpr (fun _ h => (mem_stopTime.mp h).2)

/-- C4: for every successful poll answer, of a bulk-action job and of a deploy job alike, a
result with `jobstatus` 0 leaves the whole state as it is (timers, view and annotations),
and the timer of the job is registered after the answer is processed exactly when the
status is 0 and the timer was registered before. -/
theorem pending_is_the_only_continuing_status (ext : Ext) (key : String) (d : Nat)
    (jobId : Option String) (label : String) (node : Nat) (result : JobResult) (s : State) :
    bulkPollSuccess ext key d jobId label (some { result with jobstatus := 0 }) s = s ∧
      deployPollSuccess ext key node (some { result with jobstatus := 0 }) s = s ∧
      (timerRegistered key (bulkPollSuccess ext key d jobId label (some result) s).timers = true ↔
        (result.jobstatus = 0 ∧ timerRegistered key s.timers = true)) ∧
      (timerRegistered key (deployPollSuccess ext key node (some result) s).timers = true ↔
        (result.jobstatus = 0 ∧ timerRegistered key s.timers = true)) := by
  refine ⟨by simp [bulkPollSuccess], by simp [deployPollSuccess], ?_, ?_⟩
  · rw [bulkPollSuccess_timers]
    by_cases h : result.jobstatus = 0
    · simp [h]
    · simp [h, timerRegistered_stopTime]
  · rw [deployPollSuccess_timers]
    by_cases h : result.jobstatus = 0
    · simp [h]
    · simp [h, timerRegistered_stopTime]

theorem findById_updateById (dom : String) (f : MidmenuItem → MidmenuItem)
    (hf : ∀ t, (f t).attrId = t.attrId) (items : List MidmenuItem) :
    findById dom (updateById dom f items) = (findById dom items).map f := by
  induction items with
  | nil => rfl
  | cons u us ih =>
    unfold findById at ih ⊢
    unfold updateById
    by_cases hu : u.attrId = dom
    · simp [hu, hf, List.find?_cons]
    · simp [hu, List.find?_cons, ih]

theorem updateVirtualMachineStateInMidMenu_statusIcon (state : String) (t : MidmenuItem) :
    (updateVirtualMachineStateInMidMenu state t).statusIcon =
      if state = "Running" then "images/status_green.png"
      else if state = "Stopped" then "images/status_red.png"
      else "images/status_gray.png" := by
  unfold updateVirtualMachineStateInMidMenu
  split
  · rfl
  · split <;> rfl

theorem updateVirtualMachineStateInMidMenu_eq (state : String) (t : MidmenuItem) :
    updateVirtualMachineStateInMidMenu state t =
      { t with statusIcon := (updateVirtualMachineStateInMidMenu state t).statusIcon } := by
  unfold updateVirtualMachineStateInMidMenu
  split
  · rfl
  · split <;> rfl

theorem bulkReconcileItem_attrId (ext : Ext) (label : String) (result : JobResult)
    (t : MidmenuItem) : (bulkReconcileItem ext label result t).attrId = t.attrId := by
  unfold bulkReconcileItem
  simp only []
  split
  · split
    · rfl
    · split
      · rfl
      · rw [updateVirtualMachineStateInMidMenu_eq]
  · split <;> rfl

theorem bulkPollSuccess_midmenu (ext : Ext) (key : String) (d : Nat) (jobId : Option String)
    (label : String) (result : JobResult) (s : State) (h : result.jobstatus ≠ 0) :
    (bulkPollSuccess ext key d jobId label (some result) s).midmenu =
      updateById ("midmenuItemVm_" ++ jsString (jobIdMapGet d jobId s.jobIdMap))
        (bulkReconcileItem ext label result) s.midmenu := by
  simp [bulkPollSuccess, h]

/-- C5: when the poll of a bulk-action job with label `label` returns `jobstatus` 1, the
timer of the job is cancelled and the element of the subject (the id `jobIdMap[jobId]`) has
its progress indicator hidden, its info icon shown without the error mark and the annotation
`label + " action succeeded."`; when the result carries a `virtualmachine` entity the status
icon is the one of the state of that entity (red for "Stopped"), otherwise it is unchanged. -/
theorem bulk_success_reconciles (ext : Ext) (key : String) (d : Nat) (jobId : Option String)
    (label : String) (result : JobResult) (s : State) (itemId : String) (t : MidmenuItem)
    (hstatus : result.jobstatus = 1)
    (hmap : jobIdMapGet d jobId s.jobIdMap = some itemId)
    (hitem : findById ("midmenuItemVm_" ++ itemId) s.midmenu = some t) :
    timerRegistered key (bulkPollSuccess ext key d jobId label (some result) s).timers = false ∧
      ∃ t2, findById ("midmenuItemVm_" ++ itemId)
          (bulkPollSuccess ext key d jobId label (some result) s).midmenu = some t2 ∧
        t2.spinningWheel = false ∧ t2.infoIcon = true ∧ t2.infoIconError = false ∧
        t2.afterActionInfo = some (label ++ " action succeeded.") ∧
        (∀ vm rest, result.virtualmachine = some (vm :: rest) →
          t2.statusIcon =
            (if vm.state = "Running" then "images/status_green.png"
             else if vm.state = "Stopped" then "images/status_red.png"
             else "images/status_gray.png") ∧
          (vm.state = "Stopped" → t2.statusIcon = "images/status_red.png")) ∧
        (result.virtualmachine = none → t2.statusIcon = t.statusIcon) := by
  have hne : result.jobstatus ≠ 0 := by rw [hstatus]; decide
  refine ⟨?_, bulkReconcileItem ext label result t, ?_, ?_⟩
  · rw [bulkPollSuccess_timers]
    simp [hne, timerRegistered_stopTime]
  · rw [bulkPollSuccess_midmenu ext key d jobId label result s hne, hmap]
    show findById ("midmenuItemVm_" ++ itemId) (updateById ("midmenuItemVm_" ++ itemId) _ _) = _
    rw [findById_updateById _ _ (bulkReconcileItem_attrId ext label result), hitem]
    rfl
  · cases hvm : result.virtualmachine with
    | none =>
      have h : bulkReconcileItem ext label result t =
          { t with spinningWheel := false, infoIconError := false, infoIcon := true,
                   afterActionInfo := some (label ++ " action succeeded.") } := by
        unfold bulkReconcileItem; simp [hstatus, hvm]
      rw [h]
      exact ⟨rfl, rfl, rfl, rfl, fun vm rest h2 => by simp at h2, fun _ => rfl⟩
    | some vms =>
      cases vms with
      | nil =>
        have h : bulkReconcileItem ext label result t =
            { t with spinningWheel := false, infoIconError := false, infoIcon := true,
                     afterActionInfo := some (label ++ " action succeeded.") } := by
          unfold bulkReconcileItem; simp [hstatus, hvm]
        rw [h]
        exact ⟨rfl, rfl, rfl, rfl, fun vm rest h2 => by simp at h2, fun h2 => by simp at h2⟩
      | cons vm rest =>
        have h : bulkReconcileItem ext label result t =
            { t with spinningWheel := false, infoIconError := false, infoIcon := true,
                     afterActionInfo := some (label ++ " action succeeded."),
                     statusIcon :=
                      (if vm.state = "Running" then "images/status_green.png"
                       else if vm.state = "Stopped" then "images/status_red.png"
                       else "images/status_gray.png") } := by
          unfold bulkReconcileItem
          simp only [hstatus, hvm, if_true, List.head?_cons]
          rw [updateVirtualMachineStateInMidMenu_eq, updateVirtualMachineStateInMidMenu_statusIcon]
        rw [h]
        refine ⟨rfl, rfl, rfl, rfl, ?_, fun h2 => by simp at h2⟩
        intro vm2 rest2 h2
        simp only [Option.some.injEq, List.cons.injEq] at h2
        obtain ⟨h3, -⟩ := h2
        subst h3
        refine ⟨rfl, ?_⟩
        intro hst
        show (if vm.state = "Running" then "images/status_green.png"
          else if vm.state = "Stopped" then "images/status_red.png"
          else "images/status_gray.png") = "images/status_red.png"
        rw [hst]
        decide

/-- Witness of C5 on the scenario: Stop on instance 100, job 55, the poll returns status 1
with the entity in state "Stopped". -/
theorem bulk_success_reconciles_witness :
    timerRegistered "asyncJob_55"
        (bulkPollSuccess Ext.sample "asyncJob_55" 0 (some "55") "Stop" (some stoppedResult)
          stopPolling).timers = false ∧
      ∃ t2, findById ("midmenuItemVm_" ++ "100")
          (bulkPollSuccess Ext.sample "asyncJob_55" 0 (some "55") "Stop" (some stoppedResult)
            stopPolling).midmenu = some t2 ∧
        t2.spinningWheel = false ∧ t2.infoIcon = true ∧ t2.infoIconError = false ∧
        t2.afterActionInfo = some ("Stop" ++ " action succeeded.") ∧
        (∀ vm rest, stoppedResult.virtualmachine = some (vm :: rest) →
          t2.statusIcon =
            (if vm.state = "Running" then "images/status_green.png"
             else if vm.state = "Stopped" then "images/status_red.png"
             else "images/status_gray.png") ∧
          (vm.state = "Stopped" → t2.statusIcon = "images/status_red.png")) ∧
        (stoppedResult.virtualmachine = none →
          t2.statusIcon =
            ((findById ("midmenuItemVm_" ++ "100") stopPolling.midmenu).get (by decide)).statusIcon) :=
  bulk_success_reconciles Ext.sample "asyncJob_55" 0 (some "55") "Stop" stoppedResult stopPolling
    "100" ((findById ("midmenuItemVm_" ++ "100") stopPolling.midmenu).get (by decide))
    (by decide) (by decide) (by decide)

/-- The scenario of the specification, run from the start: Stop on instance 100 returns job
55, the first poll is pending, the second returns success with state "Stopped". -/
theorem stop_scenario :
    (findById "midmenuItemVm_100"
        (run Ext.sample stopSubmitted
          [ .timerFire 0, .pollDone 0 (.success (some pendingResult)),
            .timerFire 0, .pollDone 0 (.success (some stoppedResult)) ]).midmenu).map
        (fun t => (t.spinningWheel, t.infoIcon, t.infoIconError, t.statusIcon, t.afterActionInfo)) =
      some (false, true, false, "images/status_red.png", some "Stop action succeeded.") ∧
    (findById "midmenuItemVm_100"
        (run Ext.sample stopSubmitted
          [ .timerFire 0, .pollDone 0 (.success (some pendingResult)) ]).midmenu).map
        (fun t => (t.spinningWheel, t.infoIcon, t.statusIcon, t.afterActionInfo)) =
      some (true, false, "images/status_green.png", none) := by
  decide

theorem bulkReconcileItem_failed (ext : Ext) (label : String) (result : JobResult)
    (t : MidmenuItem) (hstatus : result.jobstatus = 2) :
    bulkReconcileItem ext label result t =
      { t with
        spinningWheel := false, infoIconError := true, infoIcon := true,
        afterActionInfo :=
          some (label ++ " action failed. Reason: " ++ ext.sanitizeXSS result.jobresult) } := by
  unfold bulkReconcileItem
  simp [hstatus]

/-- C6: when the poll of a bulk-action job with label `label` returns `jobstatus` 2 with job
result `r`, the timer of the job is cancelled and the element of the subject has its
progress indicator hidden, its info icon shown with the error mark, the annotation
`label + " action failed. Reason: " + sanitizeXSS(r)` and its status icon unchanged. -/
theorem bulk_failure_reconciles (ext : Ext) (key : String) (d : Nat) (jobId : Option String)
    (label : String) (result : JobResult) (s : State) (itemId : String) (t : MidmenuItem)
    (hstatus : result.jobstatus = 2)
    (hmap : jobIdMapGet d jobId s.jobIdMap = some itemId)
    (hitem : findById ("midmenuItemVm_" ++ itemId) s.midmenu = some t) :
    timerRegistered key (bulkPollSuccess ext key d jobId label (some result) s).timers = false ∧
      ∃ t2, findById ("midmenuItemVm_" ++ itemId)
          (bulkPollSuccess ext key d jobId label (some result) s).midmenu = some t2 ∧
        t2.spinningWheel = false ∧ t2.infoIcon = true ∧ t2.infoIconError = true ∧
        t2.afterActionInfo =
          some (label ++ " action failed. Reason: " ++ ext.sanitizeXSS result.jobresult) ∧
        t2.statusIcon = t.statusIcon := by
  have hne : result.jobstatus ≠ 0 := by rw [hstatus]; decide
  refine ⟨?_, bulkReconcileItem ext label result t, ?_, ?_⟩
  · rw [bulkPollSuccess_timers]
    simp [hne, timerRegistered_stopTime]
  · rw [bulkPollSuccess_midmenu ext key d jobId label result s hne, hmap]
    show findById ("midmenuItemVm_" ++ itemId) (updateById ("midmenuItemVm_" ++ itemId) _ _) = _
    rw [findById_updateById _ _ (bulkReconcileItem_attrId ext label result), hitem]
    rfl
  · rw [bulkReconcileItem_failed ext label result t hstatus]
    exact ⟨rfl, rfl, rfl, rfl, rfl⟩

/-- Witness of C6 on the scenario: the poll of job 55 returns status 2 with a reason. -/
theorem bulk_failure_reconciles_witness :
    timerRegistered "asyncJob_55"
        (bulkPollSuccess Ext.sample "asyncJob_55" 0 (some "55") "Stop"
          (some (failedResult "host down")) stopPolling).timers = false ∧
      ∃ t2, findById ("midmenuItemVm_" ++ "100")
          (bulkPollSuccess Ext.sample "asyncJob_55" 0 (some "55") "Stop"
            (some (failedResult "host down")) stopPolling).midmenu = some t2 ∧
        t2.spinningWheel = false ∧ t2.infoIcon = true ∧ t2.infoIconError = true ∧
        t2.afterActionInfo =
          some ("Stop" ++ " action failed. Reason: " ++
            Ext.sample.sanitizeXSS (failedResult "host down").jobresult) ∧
        t2.statusIcon =
          ((findById ("midmenuItemVm_" ++ "100") stopPolling.midmenu).get (by decide)).statusIcon :=
  bulk_failure_reconciles Ext.sample "asyncJob_55" 0 (some "55") "Stop" (failedResult "host down")
    stopPolling "100" ((findById ("midmenuItemVm_" ++ "100") stopPolling.midmenu).get (by decide))
    (by decide) (by decide) (by decide)

/-! ## Routing of a terminal result through `jobIdMap` -/

theorem runHandler_jobIdMap (ext : Ext) (node : Nat) (h : ClickHandler) (s : State) :
    (runHandler ext node h s).jobIdMap = s.jobIdMap ∧
      (runHandler ext node h s).dispatches = s.dispatches := by
  unfold runHandler
  split
  · exact ⟨rfl, rfl⟩
  · rename_i t _
    cases h with
    | vmClick => simp only [vmClick]; cases t.dataJsonObj <;> exact ⟨rfl, rfl⟩
    | addingFailedClick => exact ⟨rfl, rfl⟩

theorem runHandlers_jobIdMap (ext : Ext) (node : Nat) (hs : List ClickHandler) :
    ∀ s : State,
      (hs.foldl (fun acc h => runHandler ext node h acc) s).jobIdMap = s.jobIdMap ∧
        (hs.foldl (fun acc h => runHandler ext node h acc) s).dispatches = s.dispatches := by
  induction hs with
  | nil => intro s; exact ⟨rfl, rfl⟩
  | cons h hs ih =>
    intro s
    simp only [List.foldl_cons]
    obtain ⟨h1, h2⟩ := ih (runHandler ext node h s)
    obtain ⟨h3, h4⟩ := runHandler_jobIdMap ext node h s
    exact ⟨h1.trans h3, h2.trans h4⟩

theorem itemClick_jobIdMap (ext : Ext) (node : Nat) (s : State) :
    (itemClick ext node s).jobIdMap = s.jobIdMap ∧
      (itemClick ext node s).dispatches = s.dispatches := by
  unfold itemClick
  split
  · exact ⟨rfl, rfl⟩
  · exact runHandlers_jobIdMap ext node _ s

theorem appendInstances_jobIdMap (ext : Ext) (os : List Instance) (s : State) :
    (appendInstances ext os s).jobIdMap = s.jobIdMap ∧
      (appendInstances ext os s).dispatches = s.dispatches := by
  induction os generalizing s with
  | nil => exact ⟨rfl, rfl⟩
  | cons o os ih =>
    unfold appendInstances
    obtain ⟨h1, h2⟩ := ih
      { s with
        midmenu := s.midmenu ++ [setMidmenuItemVm ext o (cloneTemplate ext s.nextNode)]
        nextNode := s.nextNode + 1 }
    exact ⟨h1, h2⟩

theorem pollDone_jobIdMap (ext : Ext) (i : Nat) (r : AjaxResult (Option JobResult)) (s : State) :
    (pollDone ext i r s).jobIdMap = s.jobIdMap ∧ (pollDone ext i r s).dispatches = s.dispatches := by
  unfold pollDone
  split
  · rename_i key ctx _
    cases ctx with
    | bulk d jobId label =>
      cases r with
      | success json =>
        simp only [bulkPollSuccess]
        cases json with
        | none => exact ⟨rfl, rfl⟩
        | some result => simp only []; split <;> exact ⟨rfl, rfl⟩
      | error => simp only [bulkPollError]; split <;> exact ⟨rfl, rfl⟩
    | deploy node jobId =>
      cases r with
      | success json =>
        simp only [deployPollSuccess]
        cases json with
        | none => exact ⟨rfl, rfl⟩
        | some result => simp only []; split <;> exact ⟨rfl, rfl⟩
      | error => exact ⟨rfl, rfl⟩
  · exact ⟨rfl, rfl⟩

theorem deployDone_jobIdMap (i : Nat) (r : AjaxResult SubmitJson) (s : State) :
    (deployDone i r s).jobIdMap = s.jobIdMap ∧ (deployDone i r s).dispatches = s.dispatches := by
  unfold deployDone
  split
  · cases r with
    | success json => simp only [deploySubmitSuccess]; split <;> exact ⟨rfl, rfl⟩
    | error => exact ⟨rfl, rfl⟩
  · exact ⟨rfl, rfl⟩

theorem listDone_jobIdMap (ext : Ext) (i : Nat) (json : Option (List Instance)) (s : State) :
    (listDone ext i json s).jobIdMap = s.jobIdMap ∧
      (listDone ext i json s).dispatches = s.dispatches := by
  unfold listDone
  split
  · cases json with
    | none => exact ⟨rfl, rfl⟩
    | some os => exact appendInstances_jobIdMap ext os _
  · exact ⟨rfl, rfl⟩

theorem dispatch_jobIdMap (ext : Ext) (a : ActionInfo) (server : String → AjaxResult SubmitJson)
    (s : State) :
    (dispatch ext a server s).jobIdMap =
        ((registeredJobs ext a server (ext.forInKeys s.selectedItemIds)).map (bulkEntry s.dispatches)).reverse ++
          s.jobIdMap ∧
      (dispatch ext a server s).dispatches = s.dispatches + 1 := by
  rw [dispatch_eq]
  split <;> simp [dispatchLoop_finalState]

/-- A lookup in the map of an earlier dispatch is not affected by any later turn. -/
theorem step_jobIdMapGet (ext : Ext) (s : State) (e : Event) (d : Nat) (jobId : Option String)
    (hd : d < s.dispatches) :
    jobIdMapGet d jobId (step ext s e).jobIdMap = jobIdMapGet d jobId s.jobIdMap ∧
      d < (step ext s e).dispatches := by
  cases e with
  | groupClick => exact ⟨rfl, hd⟩
  | itemClick node =>
    obtain ⟨h1, h2⟩ := itemClick_jobIdMap ext node s
    exact ⟨by show jobIdMapGet d jobId (itemClick ext node s).jobIdMap = _; rw [h1],
      by show d < (itemClick ext node s).dispatches; rw [h2]; exact hd⟩
  | actionClick a server =>
    obtain ⟨h1, h2⟩ := dispatch_jobIdMap ext a server s
    refine ⟨?_, by show d < (dispatch ext a server s).dispatches; rw [h2]; omega⟩
    show jobIdMapGet d jobId (dispatch ext a server s).jobIdMap = _
    rw [h1]
    unfold jobIdMapGet
    rw [List.find?_append]
    have hnone : List.find? (fun e => decide (e.dispatch = d ∧ e.jobKey = jsString jobId))
        ((registeredJobs ext a server (ext.forInKeys s.selectedItemIds)).map (bulkEntry s.dispatches)).reverse
        = none := by
      rw [List.find?_eq_none]
      intro x hx
      simp only [List.mem_reverse, List.mem_map] at hx
      obtain ⟨p, -, rfl⟩ := hx
      simp only [bulkEntry, decide_eq_true_eq, not_and]
      intro h
      omega
    rw [hnone]
    rfl
  | deployClick m => exact ⟨rfl, hd⟩
  | timerFire i =>
    have h : (timerFire i s).jobIdMap = s.jobIdMap ∧ (timerFire i s).dispatches = s.dispatches := by
      unfold timerFire; split <;> exact ⟨rfl, rfl⟩
    exact ⟨by show jobIdMapGet d jobId (timerFire i s).jobIdMap = _; rw [h.1],
      by show d < (timerFire i s).dispatches; rw [h.2]; exact hd⟩
  | pollDone i r =>
    obtain ⟨h1, h2⟩ := pollDone_jobIdMap ext i r s
    exact ⟨by show jobIdMapGet d jobId (pollDone ext i r s).jobIdMap = _; rw [h1],
      by show d < (pollDone ext i r s).dispatches; rw [h2]; exact hd⟩
  | deployDone i r =>
    obtain ⟨h1, h2⟩ := deployDone_jobIdMap i r s
    exact ⟨by show jobIdMapGet d jobId (deployDone i r s).jobIdMap = _; rw [h1],
      by show d < (deployDone i r s).dispatches; rw [h2]; exact hd⟩
  | listDone i json =>
    obtain ⟨h1, h2⟩ := listDone_jobIdMap ext i json s
    exact ⟨by show jobIdMapGet d jobId (listDone ext i json s).jobIdMap = _; rw [h1],
      by show d < (listDone ext i json s).dispatches; rw [h2]; exact hd⟩

theorem run_jobIdMapGet (ext : Ext) (evs : List Event) (d : Nat) (jobId : Option String) :
    ∀ s : State, d < s.dispatches →
      jobIdMapGet d jobId (run ext s evs).jobIdMap = jobIdMapGet d jobId s.jobIdMap := by
  induction evs with
  | nil => intro s _; rfl
  | cons e evs ih =>
    intro s hd
    obtain ⟨h1, h2⟩ := step_jobIdMapGet ext s e d jobId hd
    show jobIdMapGet d jobId (run ext (step ext s e) evs).jobIdMap = _
    rw [ih (step ext s e) h2, h1]

theorem mem_registeredJobs (ext : Ext) (a : ActionInfo) (server : String → AjaxResult SubmitJson)
    (ids : List String) (p : String × Option String)
    (h : p ∈ registeredJobs ext a server ids) :
    p.1 ∈ ids ∧ returnedJob a server p.1 = some p.2 := by
  induction ids with
  | nil => simp [registeredJobs] at h
  | cons id ids ih =>
    unfold registeredJobs at h
    split at h
    · simp at h
    · split at h
      · split at h
        · rename_i json hsrv
          split at h
          · rename_i env hlk
            rcases List.mem_cons.mp h with h | h
            · subst h
              exact ⟨List.mem_cons_self _ _, by simp [returnedJob, hsrv, hlk]⟩
            · exact ⟨List.mem_cons_of_mem _ (ih h).1, (ih h).2⟩
          · exact ⟨List.mem_cons_of_mem _ (ih h).1, (ih h).2⟩
        · exact ⟨List.mem_cons_of_mem _ (ih h).1, (ih h).2⟩
      · exact ⟨List.mem_cons_of_mem _ (ih h).1, (ih h).2⟩

theorem registeredJobs_of_submitted (ext : Ext) (a : ActionInfo)
    (server : String → AjaxResult SubmitJson) (ids : List String) (id : String)
    (j : Option String) (hsub : id ∈ submittedIds ext a server ids)
    (hret : returnedJob a server id = some j) : (id, j) ∈ registeredJobs ext a server ids := by
  unfold submittedIds at hsub
  split at hsub
  · rename_i hasync
    induction ids with
    | nil => simp [visitedIds] at hsub
    | cons x xs ih =>
      unfold visitedIds at hsub
      unfold registeredJobs
      by_cases hr : raises ext a server x = true
      · simp only [hr, if_true, List.mem_singleton] at hsub
        subst hsub
        exfalso
        cases hsrv : server id with
        | success json =>
          simp only [raises, hasync, hsrv, Bool.true_and, Bool.and_eq_true,
            Option.isNone_iff_eq_none] at hr
          simp [returnedJob, hsrv, hr.2.1] at hret
        | error => simp [returnedJob, hsrv] at hret
      · simp only [hr, if_false, hasync, if_true] at hsub ⊢
        rcases List.mem_cons.mp hsub with h | h
        · subst h
          cases hsrv : server id with
          | success json =>
            simp only [returnedJob, hsrv] at hret
            cases hlk : List.lookup a.asyncJobResponse json with
            | none => simp [hlk] at hret
            | some env =>
              simp only [hlk, Option.map_some', Option.some.injEq] at hret
              subst hret
              simp [hlk]
          | error => simp [returnedJob, hsrv] at hret
        · have := ih h
          cases hsrv : server x with
          | success json =>
            simp only []
            cases hlk : List.lookup a.asyncJobResponse json with
            | none => exact this
            | some env => exact List.mem_cons_of_mem _ this
          | error => exact this
  · simp at hsub

theorem updateById_getElem?_of_ne (dom : String) (f : MidmenuItem → MidmenuItem) :
    ∀ (items : List MidmenuItem) (n : Nat) (t : MidmenuItem),
      items[n]? = some t → t.attrId ≠ dom → (updateById dom f items)[n]? = some t := by
  intro items
  induction items with
  | nil => intro n t h; simp at h
  | cons u us ih =>
    intro n t h hne
    unfold updateById
    cases n with
    | zero =>
      simp only [List.getElem?_cons_zero, Option.some.injEq] at h
      subst h
      simp [hne]
    | succ n =>
      simp only [List.getElem?_cons_succ] at h
      split
      · simpa using h
      · simpa using ih n t h hne

/-- Entries of `jobIdMap` belong to dispatches that have started. -/
theorem step_jobIdMap_bound (ext : Ext) (s : State) (e : Event)
    (h : ∀ x ∈ s.jobIdMap, x.dispatch < s.dispatches) :
    ∀ x ∈ (step ext s e).jobIdMap, x.dispatch < (step ext s e).dispatches := by
  have frame : ∀ s2 : State, s2.jobIdMap = s.jobIdMap ∧ s2.dispatches = s.dispatches →
      ∀ x ∈ s2.jobIdMap, x.dispatch < s2.dispatches := by
    intro s2 h2 x hx
    rw [h2.1] at hx
    rw [h2.2]
    exact h x hx
  cases e with
  | groupClick => exact h
  | itemClick node => exact frame _ (itemClick_jobIdMap ext node s)
  | actionClick a server =>
    obtain ⟨h1, h2⟩ := dispatch_jobIdMap ext a server s
    intro x hx
    show x.dispatch < (dispatch ext a server s).dispatches
    rw [h2]
    have hx2 : x ∈ (dispatch ext a server s).jobIdMap := hx
    rw [h1] at hx2
    rcases List.mem_append.mp hx2 with hx3 | hx3
    · simp only [List.mem_reverse, List.mem_map] at hx3
      obtain ⟨p, -, rfl⟩ := hx3
      simp [bulkEntry]
    · have := h x hx3
      omega
  | deployClick m => exact h
  | timerFire i =>
    apply frame
    show (timerFire i s).jobIdMap = s.jobIdMap ∧ (timerFire i s).dispatches = s.dispatches
    unfold timerFire; split <;> exact ⟨rfl, rfl⟩
  | pollDone i r => exact frame _ (pollDone_jobIdMap ext i r s)
  | deployDone i r => exact frame _ (deployDone_jobIdMap i r s)
  | listDone i json => exact frame _ (listDone_jobIdMap ext i json s)

theorem run_jobIdMap_bound (ext : Ext) (evs : List Event) :
    ∀ s : State, (∀ x ∈ s.jobIdMap, x.dispatch < s.dispatches) →
      ∀ x ∈ (run ext s evs).jobIdMap, x.dispatch < (run ext s evs).dispatches := by
  induction evs with
  | nil => intro s h; exact h
  | cons e evs ih => intro s h; exact ih (step ext s e) (step_jobIdMap_bound ext s e h)

theorem reachable_jobIdMap_bound (ext : Ext) (s : State) (h : Reachable ext s) :
    ∀ x ∈ s.jobIdMap, x.dispatch < s.dispatches := by
  obtain ⟨p, evs, rfl⟩ := h
  apply run_jobIdMap_bound
  intro x hx
  simp [State.initial] at hx

theorem dispatch_jobIdMapGet (ext : Ext) (a : ActionInfo)
    (server : String → AjaxResult SubmitJson) (s : State) (id : String) (j : Option String)
    (hwf : ∀ x ∈ s.jobIdMap, x.dispatch < s.dispatches)
    (hdistinct : ∀ id1 ∈ s.selectedItemIds, ∀ id2 ∈ s.selectedItemIds, id1 ≠ id2 →
      returnedJob a server id1 = none ∨
        (returnedJob a server id1).map jsString ≠ (returnedJob a server id2).map jsString)
    (hsub : id ∈ submittedIds ext a server (ext.forInKeys s.selectedItemIds))
    (hret : returnedJob a server id = some j) :
    jobIdMapGet s.dispatches j (dispatch ext a server s).jobIdMap = some id := by
  have hreg := registeredJobs_of_submitted ext a server _ id j hsub hret
  rw [(dispatch_jobIdMap ext a server s).1]
  unfold jobIdMapGet
  cases hf : List.find? (fun e => decide (e.dispatch = s.dispatches ∧ e.jobKey = jsString j))
      (((registeredJobs ext a server (ext.forInKeys s.selectedItemIds)).map (bulkEntry s.dispatches)).reverse ++
        s.jobIdMap) with
  | none =>
    exfalso
    rw [List.find?_eq_none] at hf
    apply hf (bulkEntry s.dispatches (id, j))
    · apply List.mem_append_left
      simp only [List.mem_reverse, List.mem_map]
      exact ⟨(id, j), hreg, rfl⟩
    · simp [bulkEntry]
  | some e =>
    have hp := List.find?_some hf
    have hmem := List.mem_of_find?_eq_some hf
    simp only [decide_eq_true_eq] at hp
    simp only [Option.map_some', Option.some.injEq]
    rcases List.mem_append.mp hmem with h | h
    · simp only [List.mem_reverse, List.mem_map] at h
      obtain ⟨p, hp2, rfl⟩ := h
      obtain ⟨hin, hpr⟩ := mem_registeredJobs ext a server _ p hp2
      simp only [bulkEntry] at hp ⊢
      by_contra hne
      have hidin : id ∈ s.selectedItemIds :=
        (ext.forInKeys_perm s.selectedItemIds).mem_iff.mp
          (mem_registeredJobs ext a server _ _ hreg).1
      rcases hdistinct p.1 ((ext.forInKeys_perm s.selectedItemIds).mem_iff.mp hin) id hidin hne
        with h1 | h1
      · rw [hpr] at h1; simp at h1
      · rw [hpr, hret] at h1
        simp only [Option.map_some', ne_eq, Option.some.injEq] at h1
        exact h1 hp.2
    · have := hwf e h
      omega

/-- C8: provided the job ids returned to the submissions of one dispatch are pairwise
distinct, a job `j` returned to the submission that was sent for instance `id` is mapped to
`id` by the `jobIdMap` of that dispatch at every later moment, so that processing a terminal
result of `j` applies the reconciliation to the element with DOM id `"midmenuItemVm_" + id`
and leaves every element with another DOM id as it is. -/
theorem terminal_result_reaches_its_subject (ext : Ext) (a : ActionInfo)
    (server : String → AjaxResult SubmitJson) (s : State) (id : String) (j : Option String)
    (evs : List Event) (key : String) (result : JobResult)
    (hreach : Reachable ext s)
    (hdistinct : ∀ id1 ∈ s.selectedItemIds, ∀ id2 ∈ s.selectedItemIds, id1 ≠ id2 →
      returnedJob a server id1 = none ∨
        (returnedJob a server id1).map jsString ≠ (returnedJob a server id2).map jsString)
    (hsub : id ∈ submittedIds ext a server (ext.forInKeys s.selectedItemIds))
    (hret : returnedJob a server id = some j)
    (hterm : result.jobstatus = 1 ∨ result.jobstatus = 2) :
    jobIdMapGet s.dispatches j (run ext (dispatch ext a server s) evs).jobIdMap = some id ∧
      (bulkPollSuccess ext key s.dispatches j a.label (some result)
          (run ext (dispatch ext a server s) evs)).midmenu =
        updateById ("midmenuItemVm_" ++ id) (bulkReconcileItem ext a.label result)
          (run ext (dispatch ext a server s) evs).midmenu ∧
      ∀ (n : Nat) (t : MidmenuItem), (run ext (dispatch ext a server s) evs).midmenu[n]? = some t →
        t.attrId ≠ "midmenuItemVm_" ++ id →
        (bulkPollSuccess ext key s.dispatches j a.label (some result)
          (run ext (dispatch ext a server s) evs)).midmenu[n]? = some t := by
  have hne : result.jobstatus ≠ 0 := by rcases hterm with h | h <;> rw [h] <;> decide
  have hget : jobIdMapGet s.dispatches j (run ext (dispatch ext a server s) evs).jobIdMap =
      some id := by
    rw [run_jobIdMapGet ext evs s.dispatches j (dispatch ext a server s)
      (by rw [(dispatch_jobIdMap ext a server s).2]; omega)]
    exact dispatch_jobIdMapGet ext a server s id j (reachable_jobIdMap_bound ext s hreach)
      hdistinct hsub hret
  have hmid := bulkPollSuccess_midmenu ext key s.dispatches j a.label result
    (run ext (dispatch ext a server s) evs) hne
  rw [hget] at hmid
  refine ⟨hget, hmid, ?_⟩
  intro n t hn hattr
  rw [hmid]
  exact updateById_getElem?_of_ne _ _ _ n t hn hattr

/-- Witness of C8: instances 1 and 2 are selected, the control plane returns jobs j1 and
j2, and the result of j1 arrives after both timers have fired. -/
theorem terminal_result_reaches_its_subject_witness :
    jobIdMapGet twoSelected.dispatches (some "j1")
        (run Ext.sample (dispatch Ext.sample stopAction serverOk twoSelected)
          [.timerFire 1, .timerFire 0]).jobIdMap = some "1" ∧
      (bulkPollSuccess Ext.sample "asyncJob_j1" twoSelected.dispatches (some "j1") stopAction.label
          (some stoppedResult)
          (run Ext.sample (dispatch Ext.sample stopAction serverOk twoSelected)
            [.timerFire 1, .timerFire 0])).midmenu =
        updateById ("midmenuItemVm_" ++ "1") (bulkReconcileItem Ext.sample stopAction.label stoppedResult)
          (run Ext.sample (dispatch Ext.sample stopAction serverOk twoSelected)
            [.timerFire 1, .timerFire 0]).midmenu ∧
      ∀ (n : Nat) (t : MidmenuItem), (run Ext.sample (dispatch Ext.sample stopAction serverOk twoSelected)
            [.timerFire 1, .timerFire 0]).midmenu[n]? = some t →
        t.attrId ≠ "midmenuItemVm_" ++ "1" →
        (bulkPollSuccess Ext.sample "asyncJob_j1" twoSelected.dispatches (some "j1") stopAction.label
          (some stoppedResult)
          (run Ext.sample (dispatch Ext.sample stopAction serverOk twoSelected)
            [.timerFire 1, .timerFire 0])).midmenu[n]? = some t :=
  terminal_result_reaches_its_subject Ext.sample stopAction serverOk twoSelected "1" (some "j1")
    [.timerFire 1, .timerFire 0] "asyncJob_j1" stoppedResult
    ⟨Panel.blank, _, rfl⟩ (by decide) (by decide) (by decide) (Or.inl rfl)

/-! ## Number of terminal reconciliations of a job -/

theorem countP_eraseIdx_add (p : Pending → Bool) :
    ∀ (l : List Pending) (i : Nat) (x : Pending), l[i]? = some x →
      (l.eraseIdx i).countP p + (if p x then 1 else 0) = l.countP p := by
  intro l
  induction l with
  | nil => intro i x h; simp at h
  | cons y ys ih =>
    intro i x h
    cases i with
    | zero =>
      simp only [List.getElem?_cons_zero, Option.some.injEq] at h
      subst h
      simp [List.countP_cons]
    | succ i =>
      simp only [List.getElem?_cons_succ] at h
      have := ih i x h
      simp only [List.eraseIdx_cons_succ, List.countP_cons]
      omega

theorem reconciliationOf_countP (key k : String) (node : Option Nat) (a b : String)
    (result : JobResult) :
    (reconciliationOf k node a b result).countP (fun r => r.key == key) =
      if (k == key && (result.jobstatus == 1 || result.jobstatus == 2)) then 1 else 0 := by
  unfold reconciliationOf
  by_cases h1 : result.jobstatus = 1
  · by_cases hk : k = key <;> simp [h1, hk, List.countP_cons]
  · by_cases h2 : result.jobstatus = 2
    · by_cases hk : k = key <;> simp [h2, hk, List.countP_cons]
    · simp [h1, h2]

theorem bulkPollSuccess_reconciled (ext : Ext) (key : String) (d : Nat) (jobId : Option String)
    (label : String) (result : JobResult) (s : State) :
    (bulkPollSuccess ext key d jobId label (some result) s).reconciled =
      s.reconciled ++
        reconciliationOf key
          ((findById ("midmenuItemVm_" ++ jsString (jobIdMapGet d jobId s.jobIdMap))
            s.midmenu).map (fun t => t.node))
          (label ++ " action succeeded.")
          (label ++ " action failed. Reason: " ++ ext.sanitizeXSS result.jobresult) result := by
  unfold bulkPollSuccess
  simp only []
  split
  · rename_i h; simp [reconciliationOf, h]
  · rfl

theorem deployPollSuccess_reconciled (ext : Ext) (key : String) (node : Nat)
    (result : JobResult) (s : State) :
    (deployPollSuccess ext key node (some result) s).reconciled =
      s.reconciled ++
        reconciliationOf key (some node) "Adding succeeded."
          ("Adding failed. Reason: " ++ ext.sanitizeXSS result.jobresult) result := by
  unfold deployPollSuccess
  simp only []
  split
  · rename_i h; simp [reconciliationOf, h]
  · rfl

/-- Every turn of the tracker stores one terminal annotation for the job `key` when it hands
a terminal answer to a poll callback of that job, and none otherwise. -/
theorem step_reconciliations (ext : Ext) (key : String) (s : State) (e : Event)
    (he : e.isTracker = true) :
    reconciliations key (step ext s e) =
      reconciliations key s + (if deliversTerminal key s e then 1 else 0) := by
  cases e with
  | timerFire i =>
    have : (timerFire i s).reconciled = s.reconciled := by unfold timerFire; split <;> rfl
    show (timerFire i s).reconciled.countP _ = _
    rw [this]
    simp [deliversTerminal, reconciliations]
  | pollDone i r =>
    show (pollDone ext i r s).reconciled.countP _ = _
    unfold pollDone
    cases hp : s.pending[i]? with
    | none => cases r with
      | success json => cases json <;> simp [deliversTerminal, reconciliations, hp]
      | error => simp [deliversTerminal, reconciliations]
    | some pe =>
      cases pe with
      | poll k ctx =>
        cases r with
        | success json =>
          cases json with
          | none =>
            cases ctx <;> simp [deliversTerminal, reconciliations, bulkPollSuccess, deployPollSuccess]
          | some result =>
            cases ctx with
            | bulk d jobId label =>
              simp only [bulkPollSuccess_reconciled, List.countP_append, reconciliationOf_countP,
                deliversTerminal, hp, reconciliations]
            | deploy node jobId =>
              simp only [deployPollSuccess_reconciled, List.countP_append, reconciliationOf_countP,
                deliversTerminal, hp, reconciliations]
        | error =>
          cases ctx with
          | bulk d jobId label =>
            simp only [bulkPollError, deliversTerminal, reconciliations]
            split <;> simp
          | deploy node jobId => simp [deployPollError, deliversTerminal, reconciliations]
      | deploy node => cases r with
        | success json => cases json <;> simp [deliversTerminal, reconciliations, hp]
        | error => simp [deliversTerminal, reconciliations]
      | listVms => cases r with
        | success json => cases json <;> simp [deliversTerminal, reconciliations, hp]
        | error => simp [deliversTerminal, reconciliations]
  | groupClick => simp [Event.isTracker] at he
  | itemClick node => simp [Event.isTracker] at he
  | actionClick a server => simp [Event.isTracker] at he
  | deployClick m => simp [Event.isTracker] at he
  | deployDone i r => simp [Event.isTracker] at he
  | listDone i json => simp [Event.isTracker] at he

theorem run_reconciliations (ext : Ext) (key : String) (evs : List Event) :
    ∀ s : State, (∀ e ∈ evs, e.isTracker = true) →
      reconciliations key (run ext s evs) =
        reconciliations key s + terminalDeliveries ext key s evs := by
  induction evs with
  | nil => intro s _; rfl
  | cons e evs ih =>
    intro s htr
    show reconciliations key (run ext (step ext s e) evs) = _
    rw [ih (step ext s e) (fun e2 h2 => htr e2 (List.mem_cons_of_mem _ h2)),
      step_reconciliations ext key s e (htr e (List.mem_cons_self _ _))]
    simp only [terminalDeliveries]
    omega

theorem pollDone_pending (ext : Ext) (i : Nat) (r : AjaxResult (Option JobResult)) (s : State) :
    (pollDone ext i r s).pending =
      match s.pending[i]? with
      | some (Pending.poll _ _) => s.pending.eraseIdx i
      | _ => s.pending := by
  unfold pollDone
  split
  · rename_i key ctx _
    cases ctx with
    | bulk d jobId label =>
      cases r with
      | success json =>
        simp only [bulkPollSuccess]
        cases json with
        | none => rfl
        | some result => simp only []; split <;> rfl
      | error => simp only [bulkPollError]; split <;> rfl
    | deploy node jobId =>
      cases r with
      | success json =>
        simp only [deployPollSuccess]
        cases json with
        | none => rfl
        | some result => simp only []; split <;> rfl
      | error => rfl
  · rfl

theorem pollDone_outstandingPolls (ext : Ext) (key : String) (i : Nat)
    (r : AjaxResult (Option JobResult)) (s : State) :
    outstandingPolls key (pollDone ext i r s) +
        (match s.pending[i]? with
         | some (Pending.poll k _) => if k == key then 1 else 0
         | _ => 0) =
      outstandingPolls key s := by
  unfold outstandingPolls
  rw [pollDone_pending]
  cases hp : s.pending[i]? with
  | none => rfl
  | some pe =>
    cases pe with
    | poll k ctx =>
      have := countP_eraseIdx_add (Pending.isPollOf key) s.pending i _ hp
      simpa [Pending.isPollOf] using this
    | deploy node => rfl
    | listVms => rfl

theorem timerFire_outstandingPolls (key : String) (i : Nat) (s : State) :
    outstandingPolls key (timerFire i s) =
      outstandingPolls key s +
        (match s.timers[i]? with
         | some tm => if tm.key == key then 1 else 0
         | none => 0) := by
  unfold outstandingPolls timerFire
  cases s.timers[i]? with
  | none => rfl
  | some tm => simp [List.countP_append, List.countP_cons, Pending.isPollOf]

theorem timerFire_timers (i : Nat) (s : State) : (timerFire i s).timers = s.timers := by
  unfold timerFire
  split <;> rfl

/-- Once no timer is registered for the job and no poll of it is outstanding, the tracker
hands no further answer to its callback. -/
theorem terminalDeliveries_of_stopped (ext : Ext) (key : String) (evs : List Event) :
    ∀ s : State, (∀ e ∈ evs, e.isTracker = true) → outstandingPolls key s = 0 →
      timerRegistered key s.timers = false → terminalDeliveries ext key s evs = 0 := by
  induction evs with
  | nil => intro s _ _ _; rfl
  | cons e evs ih =>
    intro s htr hout hreg
    have he : e.isTracker = true := htr e (List.mem_cons_self _ _)
    have hrest : ∀ e2 ∈ evs, e2.isTracker = true := fun e2 h2 => htr e2 (List.mem_cons_of_mem _ h2)
    have hreg2 := timerRegistered_eq_false.mp hreg
    simp only [terminalDeliveries]
    cases e with
    | timerFire i =>
      have hout2 : outstandingPolls key (step ext s (.timerFire i)) = 0 := by
        show outstandingPolls key (timerFire i s) = 0
        rw [timerFire_outstandingPolls, hout]
        cases htm : s.timers[i]? with
        | none => rfl
        | some tm =>
          have := hreg2 tm (List.getElem?_mem htm)
          simp [this]
      have hreg3 : timerRegistered key (step ext s (.timerFire i)).timers = false := by
        show timerRegistered key (timerFire i s).timers = false
        rw [timerFire_timers]; exact hreg
      rw [ih _ hrest hout2 hreg3]
      simp [deliversTerminal]
    | pollDone i r =>
      have hcount := pollDone_outstandingPolls ext key i r s
      have hout2 : outstandingPolls key (step ext s (.pollDone i r)) = 0 := by
        show outstandingPolls key (pollDone ext i r s) = 0
        omega
      have hreg3 : timerRegistered key (step ext s (.pollDone i r)).timers = false :=
        timerRegistered_eq_false.mpr
          (fun tm htm => hreg2 tm (pollDone_timers_sub ext i r s tm htm))
      rw [ih _ hrest hout2 hreg3]
      have hno : deliversTerminal key s (.pollDone i r) = false := by
        cases r with
        | error => rfl
        | success json =>
          cases json with
          | none => rfl
          | some result =>
            simp only [deliversTerminal]
            cases hp : s.pending[i]? with
            | none => rfl
            | some pe =>
              cases pe with
              | poll k ctx =>
                have hz : s.pending.countP (Pending.isPollOf key) = 0 := hout
                rw [List.countP_eq_zero] at hz
                have := hz _ (List.getElem?_mem hp)
                simp only [Pending.isPollOf, Bool.not_eq_true] at this
                simp [this]
              | deploy node => rfl
              | listVms => rfl
      simp [hno]
    | groupClick => simp [Event.isTracker] at he
    | itemClick node => simp [Event.isTracker] at he
    | actionClick a server => simp [Event.isTracker] at he
    | deployClick m => simp [Event.isTracker] at he
    | deployDone i r => simp [Event.isTracker] at he
    | listDone i json => simp [Event.isTracker] at he

/-- When the polls of a job are sequential at most one terminal answer reaches its callback,
whatever the polls of the other jobs do. -/
theorem terminalDeliveries_le_one (ext : Ext) (key : String) (evs : List Event) :
    ∀ s : State, (∀ e ∈ evs, e.isTracker = true) → sequentialPollsOf ext key s evs = true →
      outstandingPolls key s ≤ 1 → terminalDeliveries ext key s evs ≤ 1 := by
  induction evs with
  | nil => intro s _ _ _; simp [terminalDeliveries]
  | cons e evs ih =>
    intro s htr hseq hout
    have he : e.isTracker = true := htr e (List.mem_cons_self _ _)
    have hrest : ∀ e2 ∈ evs, e2.isTracker = true := fun e2 h2 => htr e2 (List.mem_cons_of_mem _ h2)
    simp only [sequentialPollsOf, Bool.and_eq_true, Bool.not_eq_true'] at hseq
    obtain ⟨hguard, hseq2⟩ := hseq
    simp only [terminalDeliveries]
    cases e with
    | timerFire i =>
      have hout2 : outstandingPolls key (step ext s (.timerFire i)) ≤ 1 := by
        show outstandingPolls key (timerFire i s) ≤ 1
        rw [timerFire_outstandingPolls]
        cases htm : s.timers[i]? with
        | none => simpa using hout
        | some tm =>
          by_cases hk : tm.key = key
          · have hz : outstandingPolls key s = 0 := by
              simpa [firesWhileOutstandingOf, htm, hk] using hguard
            simp [hk, hz]
          · simp [hk]
            exact hout
      have := ih _ hrest hseq2 hout2
      simp only [deliversTerminal]
      simpa using this
    | pollDone i r =>
      have hcount := pollDone_outstandingPolls ext key i r s
      by_cases hdel : deliversTerminal key s (.pollDone i r) = true
      · -- the terminal answer: the job is stopped afterwards
        cases r with
        | error => simp [deliversTerminal] at hdel
        | success json =>
          cases json with
          | none => simp [deliversTerminal] at hdel
          | some result =>
            simp only [deliversTerminal] at hdel
            cases hp : s.pending[i]? with
            | none => simp [hp] at hdel
            | some pe =>
              cases pe with
              | deploy node => simp [hp] at hdel
              | listVms => simp [hp] at hdel
              | poll k ctx =>
                simp only [hp, Bool.and_eq_true, beq_iff_eq, Bool.or_eq_true,
                  decide_eq_true_eq] at hdel
                obtain ⟨hk, hterm⟩ := hdel
                subst hk
                have hne : result.jobstatus ≠ 0 := by
                  rcases hterm with h | h <;> rw [h] <;> decide
                have hout2 : outstandingPolls k (step ext s (.pollDone i (.success (some result)))) = 0 := by
                  show outstandingPolls k (pollDone ext i (.success (some result)) s) = 0
                  simp only [hp, beq_self_eq_true, if_true] at hcount
                  omega
                have hreg : timerRegistered k
                    (step ext s (.pollDone i (.success (some result)))).timers = false := by
                  show timerRegistered k (pollDone ext i (.success (some result)) s).timers = false
                  rw [pollDone_terminal_timers ext s i k ctx result hp hne]
                  exact timerRegistered_stopTime k s.timers
                rw [terminalDeliveries_of_stopped ext k evs _ hrest hout2 hreg]
                split <;> omega
      · have hout2 : outstandingPolls key (step ext s (.pollDone i r)) ≤ 1 := by
          show outstandingPolls key (pollDone ext i r s) ≤ 1
          omega
        have := ih _ hrest hseq2 hout2
        simp only [Bool.not_eq_true] at hdel
        simp only [hdel]
        simpa using this
    | groupClick => simp [Event.isTracker] at he
    | itemClick node => simp [Event.isTracker] at he
    | actionClick a server => simp [Event.isTracker] at he
    | deployClick m => simp [Event.isTracker] at he
    | deployDone i r => simp [Event.isTracker] at he
    | listDone i json => simp [Event.isTracker] at he

/-- C7, refuted as stated: with two polls of job 55 outstanding at once, both answered with
status 1, the success annotation is stored twice. -/
theorem two_outstanding_polls_reconcile_twice :
    reconciliations "asyncJob_55"
      (run Ext.sample stopSubmitted
        [ .timerFire 0, .timerFire 0, .pollDone 0 (.success (some stoppedResult)),
          .pollDone 0 (.success (some stoppedResult)) ]) = 2 := by
  decide

/-- A turn of the tracker only adds to the history of stored annotations. -/
theorem step_reconciled_append (ext : Ext) (s : State) (e : Event) (he : e.isTracker = true) :
    ∃ added, (step ext s e).reconciled = s.reconciled ++ added := by
  cases e with
  | timerFire i =>
    refine ⟨[], ?_⟩
    show (timerFire i s).reconciled = _
    unfold timerFire
    split <;> simp
  | pollDone i r =>
    show ∃ added, (pollDone ext i r s).reconciled = s.reconciled ++ added
    unfold pollDone
    split
    · rename_i key ctx _
      cases ctx with
      | bulk d jobId label =>
        cases r with
        | success json =>
          cases json with
          | none => exact ⟨[], by simp [bulkPollSuccess]⟩
          | some result => exact ⟨_, bulkPollSuccess_reconciled ext key d jobId label result _⟩
        | error =>
          refine ⟨[], ?_⟩
          simp only [bulkPollError]
          split <;> simp
      | deploy node jobId =>
        cases r with
        | success json =>
          cases json with
          | none => exact ⟨[], by simp [deployPollSuccess]⟩
          | some result => exact ⟨_, deployPollSuccess_reconciled ext key node result _⟩
        | error => exact ⟨[], by simp [deployPollError]⟩
    · exact ⟨[], by simp⟩
  | groupClick => simp [Event.isTracker] at he
  | itemClick node => simp [Event.isTracker] at he
  | actionClick a server => simp [Event.isTracker] at he
  | deployClick m => simp [Event.isTracker] at he
  | deployDone i r => simp [Event.isTracker] at he
  | listDone i json => simp [Event.isTracker] at he

theorem run_reconciled_append (ext : Ext) (evs : List Event) :
    ∀ s : State, (∀ e ∈ evs, e.isTracker = true) →
      (run ext s evs).reconciled = s.reconciled ++ storedDuring ext s evs := by
  have key : ∀ (evs : List Event) (s : State), (∀ e ∈ evs, e.isTracker = true) →
      ∃ added, (run ext s evs).reconciled = s.reconciled ++ added := by
    intro evs
    induction evs with
    | nil => intro s _; exact ⟨[], by simp [run]⟩
    | cons e evs ih =>
      intro s htr
      obtain ⟨a1, h1⟩ := step_reconciled_append ext s e (htr e (List.mem_cons_self _ _))
      obtain ⟨a2, h2⟩ := ih (step ext s e) (fun e2 h => htr e2 (List.mem_cons_of_mem _ h))
      refine ⟨a1 ++ a2, ?_⟩
      show (run ext (step ext s e) evs).reconciled = _
      rw [h2, h1, List.append_assoc]
  intro s htr
  obtain ⟨added, h⟩ := key evs s htr
  unfold storedDuring
  rw [h, List.drop_left]

theorem eq_of_countP_le_one {α : Type} (p : α → Bool) :
    ∀ (l : List α), l.countP p ≤ 1 → ∀ x ∈ l, ∀ y ∈ l, p x = true → p y = true → x = y := by
  intro l
  induction l with
  | nil => intro _ x hx; simp at hx
  | cons a l ih =>
    intro h x hx y hy px py
    rw [List.countP_cons] at h
    rcases List.mem_cons.mp hx with hxa | hxl
    · rcases List.mem_cons.mp hy with hya | hyl
      · rw [hxa, hya]
      · exfalso
        have hpos : 0 < l.countP p := List.countP_pos_iff.mpr ⟨y, hyl, py⟩
        rw [hxa] at px
        simp only [px, if_true] at h
        omega
    · rcases List.mem_cons.mp hy with hya | hyl
      · exfalso
        have hpos : 0 < l.countP p := List.countP_pos_iff.mpr ⟨x, hxl, px⟩
        rw [hya] at py
        simp only [py, if_true] at h
        omega
      · exact ih (by omega) x hxl y hyl px py

/-- C7, amended: in every execution of the tracker (timer firings and answers to polls, in
any order) the terminal annotation of a job is stored once for each answer with `jobstatus`
1 or 2 that reaches a poll callback of the job. When the polls of that job are sequential
(its timer never fires while one of its polls is outstanding, at most one being outstanding
at the start), whatever the polls of the other jobs do, at most one such answer reaches the
callback: the annotation is stored at most once, and the annotations stored for the job
during the execution are never both a success and a failure annotation. -/
theorem sequential_polls_reconcile_once (ext : Ext) (key : String) (s : State)
    (evs : List Event) (htr : ∀ e ∈ evs, e.isTracker = true) :
    reconciliations key (run ext s evs) =
        reconciliations key s + terminalDeliveries ext key s evs ∧
      (sequentialPollsOf ext key s evs = true → outstandingPolls key s ≤ 1 →
        terminalDeliveries ext key s evs ≤ 1 ∧
          reconciliations key (run ext s evs) ≤ reconciliations key s + 1 ∧
          ∀ r1 ∈ storedDuring ext s evs, ∀ r2 ∈ storedDuring ext s evs,
            r1.key = key → r2.key = key → r1.failed = r2.failed) := by
  have hrec := run_reconciliations ext key evs s htr
  refine ⟨hrec, ?_⟩
  intro hseq hout
  have hle := terminalDeliveries_le_one ext key evs s htr hseq hout
  refine ⟨hle, by omega, ?_⟩
  intro r1 h1 r2 h2 k1 k2
  have happ := run_reconciled_append ext evs s htr
  have hcount : (storedDuring ext s evs).countP (fun r => r.key == key) ≤ 1 := by
    have h3 : reconciliations key (run ext s evs) =
        reconciliations key s + (storedDuring ext s evs).countP (fun r => r.key == key) := by
      unfold reconciliations
      rw [happ, List.countP_append]
    omega
  rw [eq_of_countP_le_one _ _ hcount r1 h1 r2 h2 (by simpa using k1) (by simpa using k2)]

/-- Witness of the amended C7: the polls of job j1 are sequential while two polls of job j2
are outstanding at once; the annotation of j1 is stored once, that of j2 twice. -/
theorem sequential_polls_reconcile_once_witness :
    sequentialPollsOf Ext.sample "asyncJob_j1" twoJobsSubmitted overlappingOtherJobTrace = true ∧
      outstandingPolls "asyncJob_j1" twoJobsSubmitted ≤ 1 ∧
      reconciliations "asyncJob_j1" (run Ext.sample twoJobsSubmitted overlappingOtherJobTrace) =
        1 ∧
      reconciliations "asyncJob_j2" (run Ext.sample twoJobsSubmitted overlappingOtherJobTrace) =
        2 ∧
      (reconciliations "asyncJob_j1" (run Ext.sample twoJobsSubmitted overlappingOtherJobTrace) =
          reconciliations "asyncJob_j1" twoJobsSubmitted +
            terminalDeliveries Ext.sample "asyncJob_j1" twoJobsSubmitted
              overlappingOtherJobTrace ∧
        (sequentialPollsOf Ext.sample "asyncJob_j1" twoJobsSubmitted overlappingOtherJobTrace =
            true →
          outstandingPolls "asyncJob_j1" twoJobsSubmitted ≤ 1 →
          terminalDeliveries Ext.sample "asyncJob_j1" twoJobsSubmitted
              overlappingOtherJobTrace ≤ 1 ∧
            reconciliations "asyncJob_j1"
                (run Ext.sample twoJobsSubmitted overlappingOtherJobTrace) ≤
              reconciliations "asyncJob_j1" twoJobsSubmitted + 1 ∧
            ∀ r1 ∈ storedDuring Ext.sample twoJobsSubmitted overlappingOtherJobTrace,
              ∀ r2 ∈ storedDuring Ext.sample twoJobsSubmitted overlappingOtherJobTrace,
                r1.key = "asyncJob_j1" → r2.key = "asyncJob_j1" → r1.failed = r2.failed)) :=
  ⟨by decide, by decide, by decide, by decide,
    sequential_polls_reconcile_once Ext.sample "asyncJob_j1" twoJobsSubmitted
      overlappingOtherJobTrace (by decide)⟩

/-! ## The annotation shown on a click -/

theorem vmId_ne_deployId (x y : String) : "midmenuItemVm_" ++ x ≠ "vmNew" ++ y := by
  intro h
  have h2 := congrArg String.data h
  simp [String.data_append] at h2

theorem lastRecord_append (node : Nat) (log extra : List Reconciliation) :
    lastRecord node (log ++ extra) =
      (lastRecord node extra).or (lastRecord node log) := by
  unfold lastRecord
  rw [List.reverse_append, List.find?_append]

theorem lastRecord_nil (node : Nat) : lastRecord node [] = none := rfl

theorem lastRecord_singleton (node : Nat) (r : Reconciliation) :
    lastRecord node [r] = if r.node = some node then some r else none := by
  unfold lastRecord
  by_cases h : r.node = some node <;> simp [h]

theorem lastRecord_of_bound (node bound : Nat) (log : List Reconciliation)
    (h : ∀ r ∈ log, ∀ n, r.node = some n → n < bound) (hn : bound ≤ node) :
    lastRecord node log = none := by
  unfold lastRecord
  rw [List.find?_eq_none]
  intro r hr
  have hr2 : r ∈ log := List.mem_reverse.mp hr
  intro hp
  have : r.node = some node := by simpa using hp
  have := h r hr2 node this
  omega

theorem updateNode_eq_map (node : Nat) (f : MidmenuItem → MidmenuItem)
    (items : List MidmenuItem) :
    updateNode node f items = items.map (fun t => if t.node = node then f t else t) := rfl

theorem findById_mem {dom : String} {items : List MidmenuItem} {t : MidmenuItem}
    (h : findById dom items = some t) : t ∈ items ∧ t.attrId = dom := by
  unfold findById at h
  exact ⟨List.mem_of_find?_eq_some h, by simpa using List.find?_some h⟩

theorem updateById_eq_updateNode (dom : String) (f : MidmenuItem → MidmenuItem) :
    ∀ items : List MidmenuItem, (items.map (fun t => t.node)).Nodup →
      updateById dom f items =
        match findById dom items with
        | none => items
        | some t0 => updateNode t0.node f items := by
  intro items
  induction items with
  | nil => intro _; rfl
  | cons u us ih =>
    intro hnd
    simp only [List.map_cons, List.nodup_cons] at hnd
    obtain ⟨hu, hnd2⟩ := hnd
    by_cases h : u.attrId = dom
    · have hf : findById dom (u :: us) = some u := by
        unfold findById; simp [List.find?_cons, h]
      rw [hf]
      unfold updateById updateNode
      simp only [h, if_true, List.map_cons]
      congr 1
      symm
      calc List.map (fun t => if t.node = u.node then f t else t) us
          = List.map (fun t => t) us := by
            apply List.map_congr_left
            intro t ht
            have : t.node ≠ u.node := by
              intro heq
              apply hu
              rw [← heq]
              exact List.mem_map_of_mem _ ht
            simp [this]
        _ = us := List.map_id' us
    · have hf : findById dom (u :: us) = findById dom us := by
        unfold findById; simp [List.find?_cons, h]
      rw [hf]
      unfold updateById
      simp only [h, if_false]
      rw [ih hnd2]
      cases hfind : findById dom us with
      | none => rfl
      | some t0 =>
        simp only []
        unfold updateNode
        simp only [List.map_cons]
        have : u.node ≠ t0.node := by
          intro heq
          apply hu
          rw [heq]
          exact List.mem_map_of_mem _ (findById_mem hfind).1
        simp [this]

theorem ElemOk_congr {log log2 : List Reconciliation} {t : MidmenuItem}
    (hlast : lastRecord t.node log2 = lastRecord t.node log) (h : ElemOk log t) :
    ElemOk log2 t := by
  unfold ElemOk at h ⊢
  rw [hlast]
  exact h

/-- An update that keeps the node, the id, the handlers, the annotation and the error mark,
and that hides the info icon only on an element whose handler bound last is not the handler
of a failed deploy, keeps the element in agreement with the history. -/
theorem ElemOk_benign {log : List Reconciliation} {t u : MidmenuItem} (h : ElemOk log t)
    (hnode : u.node = t.node) (hattr : u.attrId = t.attrId)
    (hhand : u.clickHandlers = t.clickHandlers) (hann : u.afterActionInfo = t.afterActionInfo)
    (herr : u.infoIconError = t.infoIconError)
    (hicon : u.infoIcon = t.infoIcon ∨
      (u.infoIcon = false ∧
        t.clickHandlers.getLast? ≠ some ClickHandler.addingFailedClick)) :
    ElemOk log u := by
  obtain ⟨h1, h2, h3⟩ := h
  refine ⟨by rw [hann, hnode]; exact h1, ?_, ?_⟩
  · intro hh hi
    rw [hhand] at hh
    rw [hnode, herr]
    rcases hicon with hicon | hicon
    · exact h2 hh (by rw [← hicon]; exact hi)
    · rw [hicon.1] at hi; cases hi
  · intro hf
    rw [hhand] at hf
    rw [herr, hattr]
    rcases hicon with hicon | hicon
    · rw [hicon]; exact h3 hf
    · exact absurd hf hicon.2

theorem Inv.transferWeak {s s2 : State} (h : Inv s) (g : MidmenuItem → MidmenuItem)
    (hmid : s2.midmenu = s.midmenu.map g) (hnext : s2.nextNode = s.nextNode)
    (hnode : ∀ t ∈ s.midmenu, (g t).node = t.node)
    (hcl : ∀ c ∈ closures s2.timers s2.pending, c ∈ closures s.timers s.pending ∨
      (ClosureOk s2.midmenu s2.nextNode c ∧
        ∀ n, c.ctx.node? = some n → Pending.deploy n ∉ s2.pending))
    (hsub : ∀ n, Pending.deploy n ∈ s2.pending → Pending.deploy n ∈ s.pending)
    (hcount : ∀ n, s2.pending.count (Pending.deploy n) ≤ 1)
    (hrec : ∀ r ∈ s2.reconciled, ∀ n, r.node = some n → n < s.nextNode)
    (hlinkC : ∀ t ∈ s.midmenu,
      (∃ c ∈ closures s2.timers s2.pending, c ∈ closures s.timers s.pending ∧
          c.ctx.node? = some t.node) →
      ClickHandler.vmClick ∉ (g t).clickHandlers →
      ClickHandler.vmClick ∉ t.clickHandlers ∧ (g t).attrId = t.attrId)
    (hlinkS : ∀ t ∈ s.midmenu, Pending.deploy t.node ∈ s2.pending →
      (g t).clickHandlers = t.clickHandlers)
    (helem : ∀ t ∈ s.midmenu, ElemOk s2.reconciled (g t)) : Inv s2 := by
  refine ⟨?_, ?_, ?_, ?_, ?_, hcount⟩
  · intro t2 ht2
    rw [hmid] at ht2
    obtain ⟨t, ht, rfl⟩ := List.mem_map.mp ht2
    rw [hnext, hnode t ht]
    exact ⟨(h.elems t ht).1, helem t ht⟩
  · rw [hmid, List.map_map]
    have : List.map ((fun t => t.node) ∘ g) s.midmenu = List.map (fun t => t.node) s.midmenu :=
      List.map_congr_left (fun t ht => hnode t ht)
    rw [this]
    exact h.nodup
  · intro r hr n hn
    rw [hnext]
    exact hrec r hr n hn
  · intro c hc
    rcases hcl c hc with hold | hnew
    · intro n hn
      obtain ⟨h1, h2, h3⟩ := h.live c hold n hn
      refine ⟨by rw [hnext]; exact h1, h2, ?_⟩
      intro t2 ht2 hnode2 hvm
      rw [hmid] at ht2
      obtain ⟨t, ht, rfl⟩ := List.mem_map.mp ht2
      rw [hnode t ht] at hnode2
      obtain ⟨h6, h7⟩ := hlinkC t ht ⟨c, hc, hold, by rw [hnode2]; exact hn⟩ hvm
      rw [h7]
      exact h3 t ht hnode2 h6
    · exact hnew.1
  · intro n hn
    obtain ⟨h1, h2, h3⟩ := h.submits n (hsub n hn)
    refine ⟨by rw [hnext]; exact h1, ?_, ?_⟩
    · intro c hc
      rcases hcl c hc with hold | hnew
      · exact h2 c hold
      · intro hcn
        exact hnew.2 n hcn hn
    · intro t2 ht2 hnode2
      rw [hmid] at ht2
      obtain ⟨t, ht, rfl⟩ := List.mem_map.mp ht2
      rw [hnode t ht] at hnode2
      rw [hlinkS t ht (by rw [hnode2]; exact hn)]
      exact h3 t ht hnode2

theorem Inv.transfer {s s2 : State} (h : Inv s) (g : MidmenuItem → MidmenuItem)
    (hmid : s2.midmenu = s.midmenu.map g) (hnext : s2.nextNode = s.nextNode)
    (hnode : ∀ t ∈ s.midmenu, (g t).node = t.node)
    (hcl : ∀ c ∈ closures s2.timers s2.pending, c ∈ closures s.timers s.pending ∨
      (ClosureOk s2.midmenu s2.nextNode c ∧
        ∀ n, c.ctx.node? = some n → Pending.deploy n ∉ s2.pending))
    (hsub : ∀ n, Pending.deploy n ∈ s2.pending → Pending.deploy n ∈ s.pending)
    (hcount : ∀ n, s2.pending.count (Pending.deploy n) ≤ 1)
    (hrec : ∀ r ∈ s2.reconciled, ∀ n, r.node = some n → n < s.nextNode)
    (hlink : ∀ t ∈ s.midmenu,
      ((∃ c ∈ closures s2.timers s2.pending, c ∈ closures s.timers s.pending ∧
          c.ctx.node? = some t.node) ∨
        Pending.deploy t.node ∈ s2.pending) →
      (g t).clickHandlers = t.clickHandlers ∧ (g t).attrId = t.attrId)
    (helem : ∀ t ∈ s.midmenu, ElemOk s2.reconciled (g t)) : Inv s2 := by
  apply h.transferWeak g hmid hnext hnode hcl hsub hcount hrec ?_ ?_ helem
  · intro t ht hc hvm
    obtain ⟨h1, h2⟩ := hlink t ht (Or.inl hc)
    rw [h1] at hvm
    exact ⟨hvm, h2⟩
  · intro t ht hd
    exact (hlink t ht (Or.inr hd)).1

theorem mem_closures {c : Timer} {timers : List Timer} {pending : List Pending} :
    c ∈ closures timers pending ↔ c ∈ timers ∨ Pending.poll c.key c.ctx ∈ pending := by
  unfold closures
  rw [List.mem_append, List.mem_filterMap]
  constructor
  · rintro (h | ⟨p, hp, hf⟩)
    · exact Or.inl h
    · right
      cases p with
      | poll k ctx =>
        simp only [Option.some.injEq] at hf
        subst hf
        exact hp
      | deploy n => simp at hf
      | listVms => simp at hf
  · rintro (h | h)
    · exact Or.inl h
    · exact Or.inr ⟨_, h, rfl⟩

theorem ElemOk_of_no_handlers {log : List Reconciliation} {t u : MidmenuItem}
    (h : ElemOk log t) (hnode : u.node = t.node) (hann : u.afterActionInfo = t.afterActionInfo)
    (hhand : u.clickHandlers = []) : ElemOk log u := by
  refine ⟨by rw [hann, hnode]; exact h.1, ?_, ?_⟩
  · intro hh; exact absurd hhand hh
  · intro hf; rw [hhand] at hf; simp at hf

/-- States that agree on the container, the timers, the outstanding requests, the history and
the node counter agree on the invariant. -/
theorem Inv.of_core_eq {s s2 : State} (h : Inv s) (hmid : s2.midmenu = s.midmenu)
    (htim : s2.timers = s.timers) (hpend : s2.pending = s.pending)
    (hrec : s2.reconciled = s.reconciled) (hnext : s2.nextNode = s.nextNode) : Inv s2 := by
  apply h.transfer (fun t => t)
  · rw [hmid]; simp
  · exact hnext
  · intro t _; rfl
  · intro c hc; left; rw [htim, hpend] at hc; exact hc
  · intro n hn; rw [hpend] at hn; exact hn
  · intro n; rw [hpend]; exact h.oneSubmit n
  · intro r hr; rw [hrec] at hr; exact h.records r hr
  · intro t _ _; exact ⟨rfl, rfl⟩
  · intro t ht; rw [hrec]; exact (h.elems t ht).2

/-- An update of one node that is benign for every element keeps the invariant. -/
theorem Inv.updateNode_benign {s s2 : State} (h : Inv s) (node : Nat)
    (f : MidmenuItem → MidmenuItem)
    (hmid : s2.midmenu = updateNode node f s.midmenu)
    (htim : s2.timers = s.timers) (hpend : s2.pending = s.pending)
    (hrec : s2.reconciled = s.reconciled) (hnext : s2.nextNode = s.nextNode)
    (hf : ∀ t ∈ s.midmenu, t.node = node →
      (f t).node = t.node ∧ (f t).attrId = t.attrId ∧ (f t).clickHandlers = t.clickHandlers ∧
        (f t).afterActionInfo = t.afterActionInfo ∧ (f t).infoIconError = t.infoIconError ∧
        ((f t).infoIcon = t.infoIcon ∨
          ((f t).infoIcon = false ∧
            t.clickHandlers.getLast? ≠ some ClickHandler.addingFailedClick))) :
    Inv s2 := by
  apply h.transfer (fun t => if t.node = node then f t else t)
  · rw [hmid]; rfl
  · exact hnext
  · intro t ht
    by_cases hn : t.node = node
    · simp only [hn, if_true]; rw [(hf t ht hn).1]; exact hn
    · simp [hn]
  · intro c hc; left; rw [htim, hpend] at hc; exact hc
  · intro n hn; rw [hpend] at hn; exact hn
  · intro n; rw [hpend]; exact h.oneSubmit n
  · intro r hr; rw [hrec] at hr; exact h.records r hr
  · intro t ht _
    by_cases hn : t.node = node
    · simp only [hn, if_true]
      obtain ⟨-, h2, h3, -⟩ := hf t ht hn
      exact ⟨h3, h2⟩
    · simp [hn]
  · intro t ht
    rw [hrec]
    by_cases hn : t.node = node
    · simp only [hn, if_true]
      obtain ⟨h1, h2, h3, h4, h5, h6⟩ := hf t ht hn
      exact ElemOk_benign (h.elems t ht).2 h1 h2 h3 h4 h5 h6
    · simp only [hn, if_false]
      exact (h.elems t ht).2

/-- The same for an update addressed by DOM id. -/
theorem Inv.updateById_benign {s s2 : State} (h : Inv s) (dom : String)
    (f : MidmenuItem → MidmenuItem)
    (hmid : s2.midmenu = updateById dom f s.midmenu)
    (htim : s2.timers = s.timers) (hpend : s2.pending = s.pending)
    (hrec : s2.reconciled = s.reconciled) (hnext : s2.nextNode = s.nextNode)
    (hf : ∀ t ∈ s.midmenu, t.attrId = dom →
      (f t).node = t.node ∧ (f t).attrId = t.attrId ∧ (f t).clickHandlers = t.clickHandlers ∧
        (f t).afterActionInfo = t.afterActionInfo ∧ (f t).infoIconError = t.infoIconError ∧
        ((f t).infoIcon = t.infoIcon ∨
          ((f t).infoIcon = false ∧
            t.clickHandlers.getLast? ≠ some ClickHandler.addingFailedClick))) :
    Inv s2 := by
  rw [updateById_eq_updateNode dom f s.midmenu h.nodup] at hmid
  cases hfind : findById dom s.midmenu with
  | none =>
    rw [hfind] at hmid
    exact h.of_core_eq hmid htim hpend hrec hnext
  | some t0 =>
    rw [hfind] at hmid
    apply h.updateNode_benign t0.node f hmid htim hpend hrec hnext
    intro t ht hn
    have : t = t0 := List.inj_on_of_nodup_map h.nodup ht (findById_mem hfind).1 hn
    subst this
    exact hf t ht (findById_mem hfind).2

theorem runHandler_core (ext : Ext) (node : Nat) (hd : ClickHandler) (s : State) :
    (runHandler ext node hd s).timers = s.timers ∧
      (runHandler ext node hd s).pending = s.pending ∧
      (runHandler ext node hd s).reconciled = s.reconciled ∧
      (runHandler ext node hd s).nextNode = s.nextNode ∧
      ((runHandler ext node hd s).midmenu = s.midmenu ∨
        (runHandler ext node hd s).midmenu =
          updateNode node (fun u => { u with contentSelected := true }) s.midmenu) := by
  unfold runHandler
  cases hfind : findNode node s.midmenu with
  | none => exact ⟨rfl, rfl, rfl, rfl, Or.inl rfl⟩
  | some t =>
    have hn := findNode_node hfind
    cases hd with
    | vmClick =>
      simp only [vmClick, hn]
      cases t.dataJsonObj <;> exact ⟨rfl, rfl, rfl, rfl, Or.inr rfl⟩
    | addingFailedClick => exact ⟨rfl, rfl, rfl, rfl, Or.inl rfl⟩

theorem inv_runHandler {s : State} (h : Inv s) (ext : Ext) (node : Nat) (hd : ClickHandler) :
    Inv (runHandler ext node hd s) := by
  obtain ⟨h1, h2, h3, h4, h5⟩ := runHandler_core ext node hd s
  rcases h5 with h5 | h5
  · exact h.of_core_eq h5 h1 h2 h3 h4
  · apply h.updateNode_benign node _ h5 h1 h2 h3 h4
    intro t _ _
    exact ⟨rfl, rfl, rfl, rfl, rfl, Or.inl rfl⟩

theorem inv_runHandlers (ext : Ext) (node : Nat) (hs : List ClickHandler) :
    ∀ s : State, Inv s → Inv (hs.foldl (fun acc hd => runHandler ext node hd acc) s) := by
  induction hs with
  | nil => intro s h; exact h
  | cons hd hs ih => intro s h; exact ih _ (inv_runHandler h ext node hd)

theorem inv_itemClick {s : State} (h : Inv s) (ext : Ext) (node : Nat) :
    Inv (itemClick ext node s) := by
  unfold itemClick
  split
  · exact h
  · exact inv_runHandlers ext node _ s h

theorem inv_markBusy {s : State} (h : Inv s) (id : String) :
    Inv { s with midmenu := markBusy id s.midmenu } := by
  refine Inv.updateById_benign h ("midmenuItemVm_" ++ id)
    (fun t => { t with spinningWheel := true, infoIcon := false }) ?_ ?_ ?_ ?_ ?_ ?_
  · rfl
  · rfl
  · rfl
  · rfl
  · rfl
  intro t ht hattr
  refine ⟨rfl, rfl, rfl, rfl, rfl, Or.inr ⟨rfl, ?_⟩⟩
  intro hf
  obtain ⟨-, -, j, hj⟩ := (h.elems t ht).2.2.2 hf
  rw [hattr] at hj
  exact vmId_ne_deployId id j hj

theorem inv_markBusy_all (ids : List String) :
    ∀ s : State, Inv s →
      Inv { s with midmenu := ids.foldl (fun m id => markBusy id m) s.midmenu } := by
  induction ids with
  | nil => intro s h; exact h
  | cons id ids ih =>
    intro s h
    exact ih _ (inv_markBusy h id)

theorem inv_add_bulk_timers {s : State} (h : Inv s) (extra : List Timer)
    (hextra : ∀ tm ∈ extra, tm.ctx.node? = none) :
    Inv { s with timers := s.timers ++ extra } := by
  apply h.transfer (fun t => t)
  · simp
  · rfl
  · intro t _; rfl
  · intro c hc
    rw [mem_closures] at hc
    rcases hc with hc | hc
    · rcases List.mem_append.mp hc with hc | hc
      · left; exact mem_closures.mpr (Or.inl hc)
      · right
        have := hextra c hc
        exact ⟨fun n hn => (by rw [this] at hn; cases hn), fun n hn => (by rw [this] at hn; cases hn)⟩
    · left; exact mem_closures.mpr (Or.inr hc)
  · intro n hn; exact hn
  · exact h.oneSubmit
  · exact h.records
  · intro t _ _; exact ⟨rfl, rfl⟩
  · intro t ht; exact (h.elems t ht).2

theorem inv_dispatch {s : State} (h : Inv s) (ext : Ext) (a : ActionInfo)
    (server : String → AjaxResult SubmitJson) : Inv (dispatch ext a server s) := by
  have h1 := inv_markBusy_all (visitedIds ext a server (ext.forInKeys s.selectedItemIds)) s h
  have h2 := inv_add_bulk_timers h1
    ((registeredJobs ext a server (ext.forInKeys s.selectedItemIds)).map (bulkTimer s.dispatches a.label))
    (by
      intro tm htm
      obtain ⟨p, -, rfl⟩ := List.mem_map.mp htm
      rfl)
  rw [dispatch_eq]
  split
  · rw [dispatchLoop_finalState]
    exact h2.of_core_eq rfl rfl rfl rfl rfl
  · rw [dispatchLoop_finalState]
    exact h2.of_core_eq rfl rfl rfl rfl rfl

theorem inv_timerFire {s : State} (h : Inv s) (i : Nat) : Inv (timerFire i s) := by
  unfold timerFire
  cases htm : s.timers[i]? with
  | none => exact h
  | some tm =>
    have hmem : tm ∈ s.timers := List.getElem?_mem htm
    apply h.transfer (fun t => t)
    · simp
    · rfl
    · intro t _; rfl
    · intro c hc
      left
      rw [mem_closures] at hc ⊢
      rcases hc with hc | hc
      · exact Or.inl hc
      · rcases List.mem_append.mp hc with hc | hc
        · exact Or.inr hc
        · simp only [List.mem_singleton, Pending.poll.injEq] at hc
          left
          have : c = tm := by
            cases c; cases tm
            simp only [Timer.mk.injEq]
            exact hc
          rw [this]; exact hmem
    · intro n hn
      rcases List.mem_append.mp hn with hn | hn
      · exact hn
      · simp at hn
    · intro n
      simp only [List.count_append]
      have : List.count (Pending.deploy n) [Pending.poll tm.key tm.ctx] = 0 := by
        simp [List.count_cons]
      rw [this]
      exact h.oneSubmit n
    · exact h.records
    · intro t _ _; exact ⟨rfl, rfl⟩
    · intro t ht; exact (h.elems t ht).2

/-- Cancelling timers and answering requests keeps the invariant. -/
theorem inv_shrink {s s2 : State} (h : Inv s) (htim : ∀ tm ∈ s2.timers, tm ∈ s.timers)
    (hpend : s2.pending.Sublist s.pending) (hmid : s2.midmenu = s.midmenu)
    (hrec : s2.reconciled = s.reconciled) (hnext : s2.nextNode = s.nextNode) : Inv s2 := by
  apply h.transfer (fun t => t)
  · rw [hmid]; simp
  · exact hnext
  · intro t _; rfl
  · intro c hc
    left
    rw [mem_closures] at hc ⊢
    rcases hc with hc | hc
    · exact Or.inl (htim c hc)
    · exact Or.inr (hpend.subset hc)
  · intro n hn; exact hpend.subset hn
  · intro n
    exact le_trans (hpend.count_le _) (h.oneSubmit n)
  · intro r hr; rw [hrec] at hr; exact h.records r hr
  · intro t _ _; exact ⟨rfl, rfl⟩
  · intro t ht; rw [hrec]; exact (h.elems t ht).2

/-- Putting the error mark on the icon of a node keeps the invariant when its element has no
click handler or when the latest annotation stored on the node is a failure annotation. -/
theorem inv_icon_error {s : State} (h : Inv s) (n : Nat)
    (hno : ∀ t ∈ s.midmenu, t.node = n →
      t.clickHandlers = [] ∨ ∃ r, lastRecord n s.reconciled = some r ∧ r.failed = true) :
    Inv { s with
      midmenu := updateNode n
        (fun t => { t with infoIconError := true, infoIcon := true, vmName := "Adding failed" })
        s.midmenu } := by
  apply h.transfer
    (fun t => if t.node = n then
      { t with infoIconError := true, infoIcon := true, vmName := "Adding failed" } else t)
  · rfl
  · rfl
  · intro t _; split <;> rfl
  · intro c hc; exact Or.inl hc
  · intro n2 hn; exact hn
  · exact h.oneSubmit
  · exact h.records
  · intro t _ _; split <;> exact ⟨rfl, rfl⟩
  · intro t ht
    by_cases hn : t.node = n
    · rw [if_pos hn]
      rcases hno t ht hn with hnil | ⟨r, hr, hfailed⟩
      · exact ElemOk_of_no_handlers (h.elems t ht).2 rfl rfl hnil
      · obtain ⟨h1, -, h3⟩ := (h.elems t ht).2
        refine ⟨h1, ?_, ?_⟩
        · intro _ _
          exact ⟨r, by rw [hn]; exact hr, hfailed.symm⟩
        · intro hf
          exact ⟨rfl, rfl, (h3 hf).2.2⟩
    · rw [if_neg hn]
      exact (h.elems t ht).2

theorem reconciliationOf_node (key : String) (node : Option Nat) (a b : String)
    (result : JobResult) : ∀ r ∈ reconciliationOf key node a b result, r.node = node := by
  intro r hr
  unfold reconciliationOf at hr
  split at hr
  · simp only [List.mem_singleton] at hr; rw [hr]
  · split at hr
    · simp only [List.mem_singleton] at hr; rw [hr]
    · simp at hr

theorem lastRecord_of_other_node (node : Nat) (recs : List Reconciliation)
    (h : ∀ r ∈ recs, r.node ≠ some node) : lastRecord node recs = none := by
  unfold lastRecord
  rw [List.find?_eq_none]
  intro r hr hp
  exact h r (List.mem_reverse.mp hr) (by simpa using hp)

theorem lastRecord_append_other (node : Nat) (log recs : List Reconciliation)
    (h : ∀ r ∈ recs, r.node ≠ some node) :
    lastRecord node (log ++ recs) = lastRecord node log := by
  rw [lastRecord_append, lastRecord_of_other_node node recs h]
  rfl

/-- An element that receives the annotation of a record together with the matching icon
state agrees with the history extended by that record. -/
theorem ElemOk_annotated {log : List Reconciliation} {u : MidmenuItem} (r : Reconciliation)
    (hnode : r.node = some u.node) (hann : u.afterActionInfo = some r.text)
    (herr : u.infoIconError = r.failed) (hicon : u.infoIcon = true)
    (hfail : u.clickHandlers.getLast? = some ClickHandler.addingFailedClick →
      r.failed = true ∧ ∃ j, u.attrId = "vmNew" ++ j) :
    ElemOk (log ++ [r]) u := by
  have hlast : lastRecord u.node (log ++ [r]) = some r := by
    rw [lastRecord_append, lastRecord_singleton, if_pos hnode]
    rfl
  refine ⟨by rw [hlast, hann]; rfl, fun _ _ => ⟨r, hlast, herr⟩, ?_⟩
  intro hf
  obtain ⟨h1, h2⟩ := hfail hf
  exact ⟨hicon, by rw [herr, h1], h2⟩

theorem bulkReconcileItem_fields (ext : Ext) (label : String) (result : JobResult)
    (t : MidmenuItem) :
    (bulkReconcileItem ext label result t).node = t.node ∧
      (bulkReconcileItem ext label result t).clickHandlers = t.clickHandlers ∧
      (if result.jobstatus = 1 then
        (bulkReconcileItem ext label result t).infoIcon = true ∧
          (bulkReconcileItem ext label result t).infoIconError = false ∧
          (bulkReconcileItem ext label result t).afterActionInfo =
            some (label ++ " action succeeded.")
      else if result.jobstatus = 2 then
        (bulkReconcileItem ext label result t).infoIcon = true ∧
          (bulkReconcileItem ext label result t).infoIconError = true ∧
          (bulkReconcileItem ext label result t).afterActionInfo =
            some (label ++ " action failed. Reason: " ++ ext.sanitizeXSS result.jobresult)
      else
        (bulkReconcileItem ext label result t).infoIcon = t.infoIcon ∧
          (bulkReconcileItem ext label result t).infoIconError = t.infoIconError ∧
          (bulkReconcileItem ext label result t).afterActionInfo = t.afterActionInfo) := by
  by_cases h1 : result.jobstatus = 1
  · rw [if_pos h1]
    unfold bulkReconcileItem
    simp only [h1, if_true]
    cases result.virtualmachine with
    | none => exact ⟨rfl, rfl, rfl, rfl, rfl⟩
    | some vms =>
      cases vms with
      | nil => exact ⟨rfl, rfl, rfl, rfl, rfl⟩
      | cons vm rest =>
        simp only [List.head?_cons]
        rw [updateVirtualMachineStateInMidMenu_eq]
        exact ⟨rfl, rfl, rfl, rfl, rfl⟩
  · by_cases h2 : result.jobstatus = 2
    · rw [if_neg h1, if_pos h2, bulkReconcileItem_failed ext label result t h2]
      exact ⟨rfl, rfl, rfl, rfl, rfl⟩
    · rw [if_neg h1, if_neg h2]
      simp [bulkReconcileItem, h1, h2]

/-- Storing the terminal annotation of a bulk-action job keeps the invariant. -/
theorem inv_bulk_annotate {s : State} (h : Inv s) (ext : Ext) (key x label : String)
    (result : JobResult) :
    Inv { s with
      midmenu := updateById ("midmenuItemVm_" ++ x) (bulkReconcileItem ext label result) s.midmenu
      reconciled := s.reconciled ++
        reconciliationOf key ((findById ("midmenuItemVm_" ++ x) s.midmenu).map (fun t => t.node))
          (label ++ " action succeeded.")
          (label ++ " action failed. Reason: " ++ ext.sanitizeXSS result.jobresult) result } := by
  rw [updateById_eq_updateNode _ _ s.midmenu h.nodup]
  cases hfind : findById ("midmenuItemVm_" ++ x) s.midmenu with
  | none =>
    apply h.transfer (fun t => t)
    · simp
    · rfl
    · intro t _; rfl
    · intro c hc; exact Or.inl hc
    · intro n hn; exact hn
    · exact h.oneSubmit
    · intro r hr n hn
      rcases List.mem_append.mp hr with hr | hr
      · exact h.records r hr n hn
      · have := reconciliationOf_node _ _ _ _ _ r hr
        rw [this] at hn
        cases hn
    · intro t _ _; exact ⟨rfl, rfl⟩
    · intro t ht
      apply ElemOk_congr _ (h.elems t ht).2
      apply lastRecord_append_other
      intro r hr
      rw [reconciliationOf_node _ _ _ _ _ r hr]
      simp
  | some t0 =>
    obtain ⟨ht0, hattr0⟩ := findById_mem hfind
    have hsame : ∀ t ∈ s.midmenu, t.node = t0.node → t = t0 :=
      fun t ht hn => List.inj_on_of_nodup_map h.nodup ht ht0 hn
    obtain ⟨hf1, hf2, hf3⟩ := bulkReconcileItem_fields ext label result t0
    have hattr := bulkReconcileItem_attrId ext label result t0
    have hnofail : t0.clickHandlers.getLast? ≠ some ClickHandler.addingFailedClick := by
      intro hf
      obtain ⟨-, -, j, hj⟩ := (h.elems t0 ht0).2.2.2 hf
      rw [hattr0] at hj
      exact vmId_ne_deployId x j hj
    apply h.transfer (fun t => if t.node = t0.node then bulkReconcileItem ext label result t else t)
    · rfl
    · rfl
    · intro t ht
      by_cases hn : t.node = t0.node
      · rw [if_pos hn, hsame t ht hn]; exact hf1
      · rw [if_neg hn]
    · intro c hc; exact Or.inl hc
    · intro n hn; exact hn
    · exact h.oneSubmit
    · intro r hr n hn
      rcases List.mem_append.mp hr with hr | hr
      · exact h.records r hr n hn
      · have := reconciliationOf_node _ _ _ _ _ r hr
        rw [this] at hn
        simp only [Option.map_some', Option.some.injEq] at hn
        rw [← hn]
        exact (h.elems t0 ht0).1
    · intro t ht _
      by_cases hn : t.node = t0.node
      · rw [if_pos hn, hsame t ht hn]; exact ⟨hf2, hattr⟩
      · rw [if_neg hn]; exact ⟨rfl, rfl⟩
    · intro t ht
      by_cases hn : t.node = t0.node
      · rw [if_pos hn, hsame t ht hn]
        show ElemOk (s.reconciled ++ reconciliationOf key (some t0.node) _ _ result) _
        unfold reconciliationOf
        by_cases h1 : result.jobstatus = 1
        · rw [if_pos h1] at hf3 ⊢
          obtain ⟨g1, g2, g3⟩ := hf3
          apply ElemOk_annotated
          · show some t0.node = some (bulkReconcileItem ext label result t0).node
            rw [hf1]
          · exact g3
          · exact g2
          · exact g1
          · intro hf; rw [hf2] at hf; exact absurd hf hnofail
        · by_cases h2 : result.jobstatus = 2
          · rw [if_neg h1, if_pos h2] at hf3 ⊢
            obtain ⟨g1, g2, g3⟩ := hf3
            apply ElemOk_annotated
            · show some t0.node = some (bulkReconcileItem ext label result t0).node
              rw [hf1]
            · exact g3
            · exact g2
            · exact g1
            · intro hf; rw [hf2] at hf; exact absurd hf hnofail
          · rw [if_neg h1, if_neg h2] at hf3 ⊢
            obtain ⟨g1, g2, g3⟩ := hf3
            rw [List.append_nil]
            exact ElemOk_benign (h.elems t0 ht0).2 hf1 hattr hf2 g3 g2 (Or.inl g1)
      · rw [if_neg hn]
        apply ElemOk_congr _ (h.elems t ht).2
        apply lastRecord_append_other
        intro r hr
        rw [reconciliationOf_node _ _ _ _ _ r hr]
        simp only [Option.map_some', ne_eq, Option.some.injEq]
        exact fun heq => hn heq.symm

theorem stopTime_sub (key : String) (timers : List Timer) :
    ∀ tm ∈ stopTime key timers, tm ∈ timers :=
  fun _ h => (mem_stopTime.mp h).1

theorem setMidmenuItemVm_fields (ext : Ext) (o : Instance) (t : MidmenuItem) :
    (setMidmenuItemVm ext o t).node = t.node ∧
      (setMidmenuItemVm ext o t).infoIcon = t.infoIcon ∧
      (setMidmenuItemVm ext o t).infoIconError = t.infoIconError ∧
      (setMidmenuItemVm ext o t).afterActionInfo = t.afterActionInfo ∧
      (setMidmenuItemVm ext o t).clickHandlers = t.clickHandlers ++ [ClickHandler.vmClick] := by
  unfold setMidmenuItemVm
  simp only []
  rw [updateVirtualMachineStateInMidMenu_eq]
  exact ⟨rfl, rfl, rfl, rfl, rfl⟩

theorem deployReconcileItem_fields (ext : Ext) (result : JobResult) (t : MidmenuItem) :
    (deployReconcileItem ext result t).node = t.node ∧
      (if result.jobstatus = 1 then
        (deployReconcileItem ext result t).infoIcon = true ∧
          (deployReconcileItem ext result t).infoIconError = false ∧
          (deployReconcileItem ext result t).afterActionInfo = some "Adding succeeded." ∧
          (((result.virtualmachine.bind List.head?).isNone = true ∧
              (deployReconcileItem ext result t).clickHandlers = t.clickHandlers ∧
              (deployReconcileItem ext result t).attrId = t.attrId) ∨
            (deployReconcileItem ext result t).clickHandlers =
              t.clickHandlers ++ [ClickHandler.vmClick])
      else if result.jobstatus = 2 then
        (deployReconcileItem ext result t).infoIcon = true ∧
          (deployReconcileItem ext result t).infoIconError = true ∧
          (deployReconcileItem ext result t).afterActionInfo =
            some ("Adding failed. Reason: " ++ ext.sanitizeXSS result.jobresult) ∧
          (deployReconcileItem ext result t).clickHandlers =
            t.clickHandlers ++ [ClickHandler.addingFailedClick] ∧
          (deployReconcileItem ext result t).attrId = t.attrId
      else
        deployReconcileItem ext result t = { t with spinningWheel := false }) := by
  by_cases h1 : result.jobstatus = 1
  · rw [if_pos h1]
    unfold deployReconcileItem
    simp only [h1, if_true]
    cases result.virtualmachine with
    | none => exact ⟨rfl, rfl, rfl, rfl, Or.inl ⟨rfl, rfl, rfl⟩⟩
    | some vms =>
      cases vms with
      | nil => exact ⟨rfl, rfl, rfl, rfl, Or.inl ⟨rfl, rfl, rfl⟩⟩
      | cons vm rest =>
        simp only [List.head?_cons]
        obtain ⟨g1, g2, g3, g4, g5⟩ := setMidmenuItemVm_fields ext vm
          { t with spinningWheel := false, infoIconError := false, infoIcon := true,
                   afterActionInfo := some "Adding succeeded." }
        exact ⟨g1, g2, g3, g4, Or.inr g5⟩
  · by_cases h2 : result.jobstatus = 2
    · rw [if_neg h1, if_pos h2]
      have : deployReconcileItem ext result t =
          { t with spinningWheel := false, vmName := "Adding failed", infoIconError := true,
                   infoIcon := true,
                   afterActionInfo :=
                    some ("Adding failed. Reason: " ++ ext.sanitizeXSS result.jobresult),
                   clickHandlers := t.clickHandlers ++ [ClickHandler.addingFailedClick] } := by
        simp [deployReconcileItem, h2]
      rw [this]
      exact ⟨rfl, rfl, rfl, rfl, rfl, rfl⟩
    · rw [if_neg h1, if_neg h2]
      have : deployReconcileItem ext result t = { t with spinningWheel := false } := by
        simp [deployReconcileItem, h1, h2]
      rw [this]
      exact ⟨rfl, rfl⟩

theorem getLast?_append_singleton {α : Type} (l : List α) (a : α) :
    (l ++ [a]).getLast? = some a := by
  simp

theorem findNode_of_mem {items : List MidmenuItem} {t : MidmenuItem}
    (hnd : (items.map (fun t => t.node)).Nodup) (ht : t ∈ items) :
    findNode t.node items = some t := by
  unfold findNode
  cases hf : items.find? (fun u => decide (u.node = t.node)) with
  | none =>
    rw [List.find?_eq_none] at hf
    exact absurd (by simp) (hf t ht)
  | some u =>
    have hu := List.mem_of_find?_eq_some hf
    have hp : u.node = t.node := by simpa using List.find?_some hf
    rw [List.inj_on_of_nodup_map hnd hu ht hp]

/-- Ending the poll of a deploy job keeps the invariant, unless the answer contradicts what
the element of the job shows already: other polls of the job may still be outstanding. -/
theorem inv_deploy_reconcile {s : State} (h : Inv s) (ext : Ext) (i : Nat) (key : String)
    (n : Nat) (j : Option String) (result : JobResult)
    (hp : s.pending[i]? = some (Pending.poll key (.deploy n j)))
    (hfail : result.jobstatus = 2 →
      ∀ t ∈ s.midmenu, t.node = n → ClickHandler.vmClick ∉ t.clickHandlers)
    (hsucc : result.jobstatus = 1 → (result.virtualmachine.bind List.head?).isNone = true →
      ∀ t ∈ s.midmenu, t.node = n →
        t.clickHandlers.getLast? ≠ some ClickHandler.addingFailedClick) :
    Inv { s with
      pending := s.pending.eraseIdx i
      timers := stopTime key s.timers
      midmenu := updateNode n (deployReconcileItem ext result) s.midmenu
      reconciled := s.reconciled ++
        reconciliationOf key (some n) "Adding succeeded."
          ("Adding failed. Reason: " ++ ext.sanitizeXSS result.jobresult) result } := by
  have hc0 : ({ key := key, ctx := .deploy n j } : Timer) ∈ closures s.timers s.pending :=
    mem_closures.mpr (Or.inr (List.getElem?_mem hp))
  obtain ⟨hbound, hkey0, hitems0⟩ := h.live _ hc0 n rfl
  have hkey : key = deployTimerKey j := hkey0
  have hitems : ∀ t ∈ s.midmenu, t.node = n → ClickHandler.vmClick ∉ t.clickHandlers →
      t.attrId = key := hitems0
  apply h.transferWeak (fun t => if t.node = n then deployReconcileItem ext result t else t)
  · rfl
  · rfl
  · intro t ht
    by_cases hn : t.node = n
    · rw [if_pos hn]; exact (deployReconcileItem_fields ext result t).1
    · rw [if_neg hn]
  · intro c hc
    left
    rw [mem_closures] at hc ⊢
    rcases hc with hc | hc
    · exact Or.inl (stopTime_sub key _ c hc)
    · exact Or.inr (List.mem_of_mem_eraseIdx hc)
  · intro m hm; exact List.mem_of_mem_eraseIdx hm
  · intro m
    exact le_trans ((List.eraseIdx_sublist _ _).count_le _) (h.oneSubmit m)
  · intro r hr m hm
    rcases List.mem_append.mp hr with hr | hr
    · exact h.records r hr m hm
    · rw [reconciliationOf_node _ _ _ _ _ r hr] at hm
      simp only [Option.some.injEq] at hm
      rw [← hm]; exact hbound
  · intro t ht _ hvm
    by_cases hn : t.node = n
    · rw [if_pos hn] at hvm ⊢
      obtain ⟨-, hf3⟩ := deployReconcileItem_fields ext result t
      by_cases h1 : result.jobstatus = 1
      · rw [if_pos h1] at hf3
        rcases hf3.2.2.2 with ⟨-, g1, g2⟩ | g1
        · rw [g1] at hvm
          exact ⟨hvm, g2⟩
        · rw [g1] at hvm
          exact absurd (by simp) hvm
      · by_cases h2 : result.jobstatus = 2
        · rw [if_neg h1, if_pos h2] at hf3
          obtain ⟨-, -, -, g1, g2⟩ := hf3
          rw [g1] at hvm
          exact ⟨fun hm => hvm (List.mem_append_left _ hm), g2⟩
        · rw [if_neg h1, if_neg h2] at hf3
          rw [hf3] at hvm ⊢
          exact ⟨hvm, rfl⟩
    · rw [if_neg hn] at hvm ⊢
      exact ⟨hvm, rfl⟩
  · intro t ht hd
    by_cases hn : t.node = n
    · exfalso
      rw [hn] at hd
      exact (h.submits n (List.mem_of_mem_eraseIdx hd)).2.1 _ hc0 rfl
    · rw [if_neg hn]
  · intro t ht
    by_cases hn : t.node = n
    · rw [if_pos hn]
      obtain ⟨hf1, hf3⟩ := deployReconcileItem_fields ext result t
      show ElemOk (s.reconciled ++ reconciliationOf key (some n) _ _ result) _
      unfold reconciliationOf
      by_cases h1 : result.jobstatus = 1
      · rw [if_pos h1] at hf3 ⊢
        obtain ⟨g1, g2, g3, g4⟩ := hf3
        apply ElemOk_annotated
        · show some n = some (deployReconcileItem ext result t).node
          rw [hf1, hn]
        · exact g3
        · exact g2
        · exact g1
        · intro hf
          exfalso
          rcases g4 with ⟨hnovm, g5, -⟩ | g5
          · rw [g5] at hf
            exact hsucc h1 hnovm t ht hn hf
          · rw [g5, getLast?_append_singleton] at hf
            cases hf
      · by_cases h2 : result.jobstatus = 2
        · rw [if_neg h1, if_pos h2] at hf3 ⊢
          obtain ⟨g1, g2, g3, -, g5⟩ := hf3
          apply ElemOk_annotated
          · show some n = some (deployReconcileItem ext result t).node
            rw [hf1, hn]
          · exact g3
          · exact g2
          · exact g1
          · intro _
            refine ⟨rfl, jsString j, ?_⟩
            rw [g5, hitems t ht hn (hfail h2 t ht hn), hkey]
            rfl
        · rw [if_neg h1, if_neg h2] at hf3 ⊢
          rw [List.append_nil, hf3]
          exact ElemOk_benign (h.elems t ht).2 rfl rfl rfl rfl rfl (Or.inl rfl)
    · rw [if_neg hn]
      apply ElemOk_congr _ (h.elems t ht).2
      apply lastRecord_append_other
      intro r hr
      rw [reconciliationOf_node _ _ _ _ _ r hr]
      simp only [ne_eq, Option.some.injEq]
      exact fun heq => hn heq.symm

theorem inv_pollDone {s : State} (h : Inv s) (ext : Ext) (i : Nat)
    (r : AjaxResult (Option JobResult))
    (hguard : contradictsDeploy s (.pollDone i r) = false) : Inv (pollDone ext i r s) := by
  unfold pollDone
  cases hp : s.pending[i]? with
  | none => exact h
  | some pe =>
    cases pe with
    | deploy n => exact h
    | listVms => exact h
    | poll key ctx =>
      have hs1 : Inv { s with pending := s.pending.eraseIdx i } :=
        inv_shrink h (fun _ hm => hm) (List.eraseIdx_sublist _ _) rfl rfl rfl
      cases ctx with
      | bulk d jobId label =>
        cases r with
        | success json =>
          cases json with
          | none => exact hs1
          | some result =>
            simp only [bulkPollSuccess]
            split
            · exact hs1
            · have h2 := inv_bulk_annotate hs1 ext key
                (jsString (jobIdMapGet d jobId s.jobIdMap)) label result
              exact inv_shrink h2 (stopTime_sub key _) (List.Sublist.refl _) rfl rfl rfl
        | error =>
          simp only [bulkPollError]
          split
          · exact inv_shrink hs1 (stopTime_sub key _) (List.Sublist.refl _) rfl rfl rfl
          · exact hs1
      | deploy n j =>
        simp only [contradictsDeploy, hp] at hguard
        cases r with
        | success json =>
          cases json with
          | none => exact hs1
          | some result =>
            simp only [deployPollSuccess]
            split
            · exact hs1
            · refine (inv_deploy_reconcile h ext i key n j result hp ?_ ?_).of_core_eq
                rfl rfl rfl rfl rfl
              · intro h2 t ht hn hvm
                rw [← hn, findNode_of_mem h.nodup ht] at hguard
                simp [h2, hvm] at hguard
              · intro h1 hnovm t ht hn hlast
                rw [← hn, findNode_of_mem h.nodup ht] at hguard
                simp [h1, hnovm, hlast] at hguard
        | error =>
          have hno : ∀ t ∈ s.midmenu, t.node = n →
              t.clickHandlers = [] ∨ ∃ r, lastRecord n s.reconciled = some r ∧ r.failed = true := by
            intro t ht hn
            rw [← hn, findNode_of_mem h.nodup ht] at hguard
            by_cases hnil : t.clickHandlers = []
            · exact Or.inl hnil
            · right
              have hne : t.clickHandlers.isEmpty = false := by
                cases hh : t.clickHandlers with
                | nil => exact absurd hh hnil
                | cons a l => rfl
              simp only [hne, Bool.not_false, Bool.true_and, bne_eq_false_iff_eq] at hguard
              rw [hn] at hguard
              cases hl : lastRecord n s.reconciled with
              | none => rw [hl] at hguard; cases hguard
              | some r0 =>
                rw [hl] at hguard
                simp only [Option.map_some', Option.some.injEq] at hguard
                exact ⟨r0, rfl, hguard⟩
          have h2 := inv_icon_error hs1 n hno
          exact inv_shrink h2 (stopTime_sub key _) (List.Sublist.refl _) rfl rfl rfl

theorem count_eraseIdx_zero (pending : List Pending) (i : Nat) (p : Pending)
    (hp : pending[i]? = some p) (hcount : pending.count p ≤ 1) :
    p ∉ pending.eraseIdx i := by
  have h := countP_eraseIdx_add (fun x => x == p) pending i p hp
  simp only [beq_self_eq_true, if_true] at h
  have h2 : List.countP (fun x => x == p) pending = pending.count p := rfl
  have h3 : List.countP (fun x => x == p) (pending.eraseIdx i) = (pending.eraseIdx i).count p := rfl
  rw [h2, h3] at h
  intro hmem
  have := List.count_pos_iff.mpr hmem
  omega

/-- Registering the timer of a deploy job keeps the invariant. -/
theorem inv_deploy_registered {s : State} (h : Inv s) (i n : Nat) (j : Option String)
    (hp : s.pending[i]? = some (Pending.deploy n)) :
    Inv { s with
      pending := s.pending.eraseIdx i
      midmenu := updateNode n
        (fun t => { t with attrId := "vmNew" ++ jsString j, dataJobId := some j }) s.midmenu
      timers := everyTime (deployTimerKey j) (.deploy n j) s.timers } := by
  obtain ⟨hbound, hnoc, hnoh⟩ := h.submits n (List.getElem?_mem hp)
  have hgone : Pending.deploy n ∉ s.pending.eraseIdx i :=
    count_eraseIdx_zero s.pending i _ hp (h.oneSubmit n)
  apply h.transfer
    (fun t => if t.node = n then
      { t with attrId := "vmNew" ++ jsString j, dataJobId := some j } else t)
  · rfl
  · rfl
  · intro t _; split <;> rfl
  · intro c hc
    rw [mem_closures] at hc
    rcases hc with hc | hc
    · rcases List.mem_append.mp hc with hc | hc
      · exact Or.inl (mem_closures.mpr (Or.inl hc))
      · right
        simp only [List.mem_singleton] at hc
        subst hc
        constructor
        · intro m hm
          simp only [PollCtx.node?, Option.some.injEq] at hm
          subst hm
          refine ⟨hbound, rfl, ?_⟩
          intro t2 ht2 hn2
          simp only [updateNode, List.mem_map] at ht2
          obtain ⟨t, ht, rfl⟩ := ht2
          intro _
          by_cases hn : t.node = n
          · rw [if_pos hn]; rfl
          · rw [if_neg hn] at hn2
            exact absurd hn2 hn
        · intro m hm
          simp only [PollCtx.node?, Option.some.injEq] at hm
          subst hm
          exact hgone
    · exact Or.inl (mem_closures.mpr (Or.inr (List.mem_of_mem_eraseIdx hc)))
  · intro m hm; exact List.mem_of_mem_eraseIdx hm
  · intro m
    exact le_trans ((List.eraseIdx_sublist _ _).count_le _) (h.oneSubmit m)
  · exact h.records
  · intro t ht href
    by_cases hn : t.node = n
    · exfalso
      rcases href with ⟨c, -, hc, hcn⟩ | hd
      · rw [hn] at hcn
        exact hnoc c hc hcn
      · rw [hn] at hd
        exact hgone hd
    · rw [if_neg hn]; exact ⟨rfl, rfl⟩
  · intro t ht
    by_cases hn : t.node = n
    · rw [if_pos hn]
      exact ElemOk_of_no_handlers (h.elems t ht).2 rfl rfl (hnoh t ht hn)
    · rw [if_neg hn]
      exact (h.elems t ht).2

theorem inv_deployDone {s : State} (h : Inv s) (i : Nat) (r : AjaxResult SubmitJson) :
    Inv (deployDone i r s) := by
  unfold deployDone
  cases hp : s.pending[i]? with
  | none => exact h
  | some pe =>
    cases pe with
    | poll key ctx => exact h
    | listVms => exact h
    | deploy n =>
      have hs1 : Inv { s with pending := s.pending.eraseIdx i } :=
        inv_shrink h (fun _ hm => hm) (List.eraseIdx_sublist _ _) rfl rfl rfl
      cases r with
      | success json =>
        simp only [deploySubmitSuccess]
        split
        · exact hs1
        · rename_i env _
          exact (inv_deploy_registered h i n env.jobid hp).of_core_eq rfl rfl rfl rfl rfl
      | error =>
        have hno := (h.submits n (List.getElem?_mem hp)).2.2
        exact inv_icon_error hs1 n (fun t ht hn => Or.inl (hno t ht hn))

theorem mem_closures_append_other {c : Timer} {timers : List Timer} {pending : List Pending}
    {p : Pending} (hp : ∀ k ctx, p ≠ Pending.poll k ctx)
    (h : c ∈ closures timers (pending ++ [p])) : c ∈ closures timers pending := by
  rw [mem_closures] at h ⊢
  rcases h with h | h
  · exact Or.inl h
  · rcases List.mem_append.mp h with h | h
    · exact Or.inr h
    · simp only [List.mem_singleton] at h
      exact absurd h.symm (hp _ _)

theorem inv_groupClick {s : State} (h : Inv s) : Inv (groupClick s) := by
  unfold groupClick
  refine ⟨?_, ?_, h.records, ?_, ?_, ?_⟩
  · intro t ht; simp at ht
  · simp
  · intro c hc n hn
    have hc2 := mem_closures_append_other (by intro k ctx; simp) hc
    obtain ⟨h1, h2, -⟩ := h.live c hc2 n hn
    exact ⟨h1, h2, by intro t ht; simp at ht⟩
  · intro n hn
    have hn2 : Pending.deploy n ∈ s.pending := by
      rcases List.mem_append.mp hn with hn | hn
      · exact hn
      · simp at hn
    obtain ⟨h1, h2, -⟩ := h.submits n hn2
    refine ⟨h1, ?_, by intro t ht; simp at ht⟩
    intro c hc
    exact h2 c (mem_closures_append_other (by intro k ctx; simp) hc)
  · intro n
    show List.count _ (s.pending ++ [Pending.listVms]) ≤ 1
    rw [List.count_append]
    have : List.count (Pending.deploy n) [Pending.listVms] = 0 := by
      simp [List.count_cons]
    rw [this]
    exact h.oneSubmit n

/-- Appending an element on a fresh node keeps the invariant. -/
theorem inv_append_element {s : State} (h : Inv s) (e : MidmenuItem)
    (hnode : e.node = s.nextNode) (helem : ElemOk s.reconciled e) :
    Inv { s with midmenu := s.midmenu ++ [e], nextNode := s.nextNode + 1 } := by
  refine ⟨?_, ?_, ?_, ?_, ?_, h.oneSubmit⟩
  · intro t ht
    rcases List.mem_append.mp ht with ht | ht
    · exact ⟨Nat.lt_succ_of_lt (h.elems t ht).1, (h.elems t ht).2⟩
    · simp only [List.mem_singleton] at ht
      subst ht
      exact ⟨by show t.node < s.nextNode + 1; omega, helem⟩
  · show (List.map (fun t => t.node) (s.midmenu ++ [e])).Nodup
    rw [List.map_append, List.nodup_append]
    refine ⟨h.nodup, by simp, ?_⟩
    intro a ha hb
    simp only [List.map_cons, List.map_nil, List.mem_singleton] at hb
    obtain ⟨t, ht, rfl⟩ := List.mem_map.mp ha
    have := (h.elems t ht).1
    have hb2 : t.node = e.node := hb
    omega
  · intro r hr n hn
    exact Nat.lt_succ_of_lt (h.records r hr n hn)
  · intro c hc n hn
    obtain ⟨h1, h2, h3⟩ := h.live c hc n hn
    refine ⟨Nat.lt_succ_of_lt h1, h2, ?_⟩
    intro t ht htn
    rcases List.mem_append.mp ht with ht | ht
    · exact h3 t ht htn
    · simp only [List.mem_singleton] at ht
      subst ht
      omega
  · intro n hn
    obtain ⟨h1, h2, h3⟩ := h.submits n hn
    refine ⟨Nat.lt_succ_of_lt h1, h2, ?_⟩
    intro t ht htn
    rcases List.mem_append.mp ht with ht | ht
    · exact h3 t ht htn
    · simp only [List.mem_singleton] at ht
      subst ht
      omega

theorem ElemOk_fresh {s : State} (h : Inv s) (e : MidmenuItem) (hnode : e.node = s.nextNode)
    (hann : e.afterActionInfo = none)
    (hb : e.clickHandlers ≠ [] → e.infoIcon = false)
    (hc : e.clickHandlers.getLast? ≠ some ClickHandler.addingFailedClick) :
    ElemOk s.reconciled e := by
  have hlast : lastRecord e.node s.reconciled = none :=
    lastRecord_of_bound e.node s.nextNode s.reconciled h.records (by omega)
  refine ⟨by rw [hlast, hann]; rfl, ?_, fun hf => absurd hf hc⟩
  intro hh hi
  rw [hb hh] at hi
  cases hi

theorem inv_deployClick {s : State} (h : Inv s) (ext : Ext) (moreCriteria : String) :
    Inv (deployClick ext moreCriteria s) := by
  unfold deployClick
  simp only []
  have helem : ElemOk s.reconciled
      { cloneTemplate ext s.nextNode with
        vmName := "Adding....", ipLabelHidden := true, spinningWheel := true } :=
    ElemOk_fresh h _ rfl rfl (fun hh => absurd rfl hh) (by simp [cloneTemplate])
  have h1 := inv_append_element h _ rfl helem
  refine ⟨h1.elems, h1.nodup, h1.records, ?_, ?_, ?_⟩
  · intro c hc
    exact h1.live c (mem_closures_append_other (by intro k ctx; simp) hc)
  · intro n hn
    rcases List.mem_append.mp hn with hn | hn
    · obtain ⟨g1, g2, g3⟩ := h1.submits n hn
      exact ⟨g1, fun c hc => g2 c (mem_closures_append_other (by intro k ctx; simp) hc), g3⟩
    · simp only [List.mem_singleton, Pending.deploy.injEq] at hn
      refine ⟨by show n < s.nextNode + 1; rw [hn]; exact Nat.lt_succ_self _, ?_, ?_⟩
      · intro c hc hcn
        have hc2 := mem_closures_append_other (by intro k ctx; simp) hc
        have := (h.live c hc2 n hcn).1
        rw [hn] at this
        exact Nat.lt_irrefl _ this
      · intro t ht htn
        rcases List.mem_append.mp ht with ht | ht
        · have := (h.elems t ht).1
          rw [htn, hn] at this
          exact absurd this (Nat.lt_irrefl _)
        · simp only [List.mem_singleton] at ht
          rw [ht]
          rfl
  · intro n
    show List.count _ (s.pending ++ [Pending.deploy s.nextNode]) ≤ 1
    rw [List.count_append]
    by_cases hn : n = s.nextNode
    · subst hn
      have : List.count (Pending.deploy s.nextNode) s.pending = 0 := by
        rw [List.count_eq_zero]
        intro hmem
        exact Nat.lt_irrefl _ (h.submits _ hmem).1
      rw [this]
      simp
    · have : List.count (Pending.deploy n) [Pending.deploy s.nextNode] = 0 := by
        rw [List.count_eq_zero]
        simp only [List.mem_singleton, Pending.deploy.injEq]
        exact hn
      rw [this]
      exact h.oneSubmit n

theorem inv_appendInstances (ext : Ext) (hicon : ext.template.infoIcon = false)
    (os : List Instance) : ∀ s : State, Inv s → Inv (appendInstances ext os s) := by
  induction os with
  | nil => intro s h; exact h
  | cons o os ih =>
    intro s h
    unfold appendInstances
    apply ih
    obtain ⟨g1, g2, g3, g4, g5⟩ := setMidmenuItemVm_fields ext o (cloneTemplate ext s.nextNode)
    apply inv_append_element h _ g1
    apply ElemOk_fresh h _ g1 (by rw [g4]; rfl)
    · intro _; rw [g2]; exact hicon
    · rw [g5]; simp [cloneTemplate]

theorem inv_listDone {s : State} (h : Inv s) (ext : Ext) (hicon : ext.template.infoIcon = false)
    (i : Nat) (json : Option (List Instance)) : Inv (listDone ext i json s) := by
  unfold listDone
  cases hp : s.pending[i]? with
  | none => exact h
  | some pe =>
    cases pe with
    | poll key ctx => exact h
    | deploy n => exact h
    | listVms =>
      have hs1 : Inv { s with pending := s.pending.eraseIdx i } :=
        inv_shrink h (fun _ hm => hm) (List.eraseIdx_sublist _ _) rfl rfl rfl
      cases json with
      | none => exact hs1
      | some os => exact inv_appendInstances ext hicon os _ hs1

/-- Every turn that is not a contradicting answer to a poll of a deploy job keeps the
invariant. -/
theorem inv_step {s : State} (h : Inv s) (ext : Ext) (hicon : ext.template.infoIcon = false)
    (e : Event) (hguard : contradictsDeploy s e = false) : Inv (step ext s e) := by
  cases e with
  | groupClick => exact inv_groupClick h
  | itemClick node => exact inv_itemClick h ext node
  | actionClick a server => exact inv_dispatch h ext a server
  | deployClick m => exact inv_deployClick h ext m
  | timerFire i => exact inv_timerFire h i
  | pollDone i r => exact inv_pollDone h ext i r hguard
  | deployDone i r => exact inv_deployDone h i r
  | listDone i json => exact inv_listDone h ext hicon i json

theorem inv_run (ext : Ext) (hicon : ext.template.infoIcon = false) (evs : List Event) :
    ∀ s : State, Inv s → consistentAnswers ext s evs = true → Inv (run ext s evs) := by
  induction evs with
  | nil => intro s h _; exact h
  | cons e evs ih =>
    intro s h hseq
    simp only [consistentAnswers, Bool.and_eq_true, Bool.not_eq_true'] at hseq
    exact ih _ (inv_step h ext hicon e hseq.1) hseq.2

theorem inv_initial (p : Panel) : Inv (State.initial p) := by
  refine ⟨?_, ?_, ?_, ?_, ?_, ?_⟩
  · intro t ht; simp [State.initial] at ht
  · simp [State.initial]
  · intro r hr; simp [State.initial] at hr
  · intro c hc; simp [State.initial, closures] at hc
  · intro n hn; simp [State.initial] at hn
  · intro n; simp [State.initial]

theorem updateVirtualMachineStateInRightPanel_annotation (state : String) (p : Panel) :
    (updateVirtualMachineStateInRightPanel state p).afterActionInfo = p.afterActionInfo ∧
      (updateVirtualMachineStateInRightPanel state p).afterActionInfoShown =
        p.afterActionInfoShown ∧
      (updateVirtualMachineStateInRightPanel state p).afterActionInfoErrorbox =
        p.afterActionInfoErrorbox := by
  unfold updateVirtualMachineStateInRightPanel
  split
  · exact ⟨rfl, rfl, rfl⟩
  · split <;> exact ⟨rfl, rfl, rfl⟩

theorem vmJsonToRightPanel_annotation (ext : Ext) (o : Instance) (p : Panel) :
    (vmJsonToRightPanel ext o p).afterActionInfo = p.afterActionInfo ∧
      (vmJsonToRightPanel ext o p).afterActionInfoShown = p.afterActionInfoShown ∧
      (vmJsonToRightPanel ext o p).afterActionInfoErrorbox = p.afterActionInfoErrorbox := by
  obtain ⟨h1, h2, h3⟩ := updateVirtualMachineStateInRightPanel_annotation o.state
    { p with vmName := ext.getVmName o.name o.displayname }
  unfold vmJsonToRightPanel
  exact ⟨h1, h2, h3⟩

theorem vmClearRightPanel_annotation (p : Panel) :
    (vmClearRightPanel p).afterActionInfo = p.afterActionInfo ∧
      (vmClearRightPanel p).afterActionInfoShown = p.afterActionInfoShown ∧
      (vmClearRightPanel p).afterActionInfoErrorbox = p.afterActionInfoErrorbox := by
  obtain ⟨h1, h2, h3⟩ := updateVirtualMachineStateInRightPanel_annotation ""
    { p with vmName := "" }
  unfold vmClearRightPanel
  exact ⟨h1, h2, h3⟩

/-- The annotation area after the handler of `setMidmenuItemVm` ran on the element `t`. -/
theorem vmClick_annotation (ext : Ext) (t : MidmenuItem) (s : State) :
    (vmClick ext t s).panel.afterActionInfo = (showAfterActionInfo t s.panel).afterActionInfo ∧
      (vmClick ext t s).panel.afterActionInfoShown =
        (showAfterActionInfo t s.panel).afterActionInfoShown ∧
      (vmClick ext t s).panel.afterActionInfoErrorbox =
        (showAfterActionInfo t s.panel).afterActionInfoErrorbox := by
  unfold vmClick
  cases t.dataJsonObj with
  | none => exact ⟨rfl, rfl, rfl⟩
  | some o => exact vmJsonToRightPanel_annotation ext o _

/-- The annotation area after the handler of a failed deploy ran on the element `t`. -/
theorem addingFailedClick_annotation (t : MidmenuItem) (s : State) :
    (addingFailedClick t s).panel.afterActionInfo =
        (match t.afterActionInfo with
         | some a => a
         | none => s.panel.afterActionInfo) ∧
      (addingFailedClick t s).panel.afterActionInfoShown = true ∧
      (addingFailedClick t s).panel.afterActionInfoErrorbox = true := by
  unfold addingFailedClick
  exact vmClearRightPanel_annotation _

/-- While the handlers of one click run, the clicked element keeps its icon state, its
annotation and its handlers. -/
theorem runHandlers_element (ext : Ext) (node : Nat) (hs : List ClickHandler) :
    ∀ (s : State) (t : MidmenuItem), findNode node s.midmenu = some t →
      ∃ t2, findNode node (hs.foldl (fun acc hd => runHandler ext node hd acc) s).midmenu =
          some t2 ∧
        t2.infoIcon = t.infoIcon ∧ t2.infoIconError = t.infoIconError ∧
        t2.afterActionInfo = t.afterActionInfo := by
  induction hs with
  | nil => intro s t ht; exact ⟨t, ht, rfl, rfl, rfl⟩
  | cons hd hs ih =>
    intro s t ht
    simp only [List.foldl_cons]
    have hstep : ∃ t1, findNode node (runHandler ext node hd s).midmenu = some t1 ∧
        t1.infoIcon = t.infoIcon ∧ t1.infoIconError = t.infoIconError ∧
        t1.afterActionInfo = t.afterActionInfo := by
      obtain ⟨-, -, -, -, hmid⟩ := runHandler_core ext node hd s
      rcases hmid with hmid | hmid
      · rw [hmid]; exact ⟨t, ht, rfl, rfl, rfl⟩
      · rw [hmid, findNode_updateNode node node
          (fun u => { u with contentSelected := true }) (fun _ => rfl) s.midmenu, ht]
        simp only [Option.map_some']
        refine ⟨_, rfl, ?_, ?_, ?_⟩ <;> split <;> rfl
    obtain ⟨t1, h1, h2, h3, h4⟩ := hstep
    obtain ⟨t2, g1, g2, g3, g4⟩ := ih (runHandler ext node hd s) t1 h1
    exact ⟨t2, g1, g2.trans h2, g3.trans h3, g4.trans h4⟩

/-! ## The weaker invariant -/

theorem ElemBase_congr {log log2 : List Reconciliation} {t : MidmenuItem}
    (hlast : lastRecord t.node log2 = lastRecord t.node log) (h : ElemBase log t) :
    ElemBase log2 t := by
  unfold ElemBase at h ⊢
  rw [hlast]
  exact h

/-- An update that keeps the node, the handlers, the annotation and the error mark, and
that keeps or hides the info icon, keeps the element in agreement with the history. -/
theorem ElemBase_benign {log : List Reconciliation} {t u : MidmenuItem} (h : ElemBase log t)
    (hnode : u.node = t.node) (hhand : u.clickHandlers = t.clickHandlers)
    (hann : u.afterActionInfo = t.afterActionInfo) (herr : u.infoIconError = t.infoIconError)
    (hicon : u.infoIcon = t.infoIcon ∨ u.infoIcon = false) : ElemBase log u := by
  obtain ⟨h1, h2, h3⟩ := h
  refine ⟨by rw [hann, hnode]; exact h1, ?_, ?_⟩
  · intro hh hi
    rw [hhand] at hh
    rw [hnode, herr]
    rcases hicon with hicon | hicon
    · exact h2 hh (by rw [← hicon]; exact hi)
    · rw [hicon] at hi; cases hi
  · intro hf
    rw [hhand] at hf
    rw [hnode]
    exact h3 hf

theorem ElemBase_of_no_handlers {log : List Reconciliation} {t u : MidmenuItem}
    (h : ElemBase log t) (hnode : u.node = t.node) (hann : u.afterActionInfo = t.afterActionInfo)
    (hhand : u.clickHandlers = []) : ElemBase log u := by
  refine ⟨by rw [hann, hnode]; exact h.1, ?_, ?_⟩
  · intro hh; rw [hhand] at hh; simp at hh
  · intro hf; rw [hhand] at hf; simp at hf

/-- An element that receives the annotation of a record together with the matching icon
state agrees with the history extended by that record. -/
theorem ElemBase_annotated {log : List Reconciliation} {u : MidmenuItem} (r : Reconciliation)
    (hnode : r.node = some u.node) (hann : u.afterActionInfo = some r.text)
    (herr : u.infoIconError = r.failed) : ElemBase (log ++ [r]) u := by
  have hlast : lastRecord u.node (log ++ [r]) = some r := by
    rw [lastRecord_append, lastRecord_singleton, if_pos hnode]
    rfl
  exact ⟨by rw [hlast, hann]; rfl, fun _ _ => ⟨r, hlast, herr⟩, fun _ => ⟨r, hlast⟩⟩

theorem Core.carry {s s2 : State} (h : Core s) (g : MidmenuItem → MidmenuItem)
    (hmid : s2.midmenu = s.midmenu.map g) (hnext : s2.nextNode = s.nextNode)
    (hnode : ∀ t ∈ s.midmenu, (g t).node = t.node)
    (hcl : ∀ c ∈ closures s2.timers s2.pending, c ∈ closures s.timers s.pending ∨
      ((∀ n, c.ctx.node? = some n → n < s2.nextNode) ∧
        ∀ n, c.ctx.node? = some n → Pending.deploy n ∉ s2.pending))
    (hsub : ∀ n, Pending.deploy n ∈ s2.pending → Pending.deploy n ∈ s.pending)
    (hcount : ∀ n, s2.pending.count (Pending.deploy n) ≤ 1)
    (hrec : ∀ r ∈ s2.reconciled, ∀ n, r.node = some n → n < s.nextNode)
    (hlink : ∀ t ∈ s.midmenu, Pending.deploy t.node ∈ s2.pending →
      (g t).clickHandlers = t.clickHandlers)
    (helem : ∀ t ∈ s.midmenu, ElemBase s2.reconciled (g t)) : Core s2 := by
  refine ⟨?_, ?_, ?_, ?_, ?_, hcount⟩
  · intro t2 ht2
    rw [hmid] at ht2
    obtain ⟨t, ht, rfl⟩ := List.mem_map.mp ht2
    rw [hnext, hnode t ht]
    exact ⟨(h.elems t ht).1, helem t ht⟩
  · rw [hmid, List.map_map]
    have : List.map ((fun t => t.node) ∘ g) s.midmenu = List.map (fun t => t.node) s.midmenu :=
      List.map_congr_left (fun t ht => hnode t ht)
    rw [this]
    exact h.nodup
  · intro r hr n hn
    rw [hnext]
    exact hrec r hr n hn
  · intro c hc n hn
    rcases hcl c hc with hold | hnew
    · rw [hnext]; exact h.live c hold n hn
    · exact hnew.1 n hn
  · intro n hn
    obtain ⟨h1, h2, h3⟩ := h.submits n (hsub n hn)
    refine ⟨by rw [hnext]; exact h1, ?_, ?_⟩
    · intro c hc
      rcases hcl c hc with hold | hnew
      · exact h2 c hold
      · intro hcn
        exact hnew.2 n hcn hn
    · intro t2 ht2 hnode2
      rw [hmid] at ht2
      obtain ⟨t, ht, rfl⟩ := List.mem_map.mp ht2
      rw [hnode t ht] at hnode2
      rw [hlink t ht (by rw [hnode2]; exact hn)]
      exact h3 t ht hnode2

/-- States that agree on the container, the timers, the outstanding requests, the history and
the node counter agree on the invariant. -/
theorem Core.of_state_eq {s s2 : State} (h : Core s) (hmid : s2.midmenu = s.midmenu)
    (htim : s2.timers = s.timers) (hpend : s2.pending = s.pending)
    (hrec : s2.reconciled = s.reconciled) (hnext : s2.nextNode = s.nextNode) : Core s2 := by
  apply h.carry (fun t => t)
  · rw [hmid]; simp
  · exact hnext
  · intro t _; rfl
  · intro c hc; left; rw [htim, hpend] at hc; exact hc
  · intro n hn; rw [hpend] at hn; exact hn
  · intro n; rw [hpend]; exact h.oneSubmit n
  · intro r hr; rw [hrec] at hr; exact h.records r hr
  · intro t _ _; rfl
  · intro t ht; rw [hrec]; exact (h.elems t ht).2

/-- An update of one node that is benign for every element keeps the invariant. -/
theorem Core.updateNode_mild {s s2 : State} (h : Core s) (node : Nat)
    (f : MidmenuItem → MidmenuItem)
    (hmid : s2.midmenu = updateNode node f s.midmenu)
    (htim : s2.timers = s.timers) (hpend : s2.pending = s.pending)
    (hrec : s2.reconciled = s.reconciled) (hnext : s2.nextNode = s.nextNode)
    (hf : ∀ t ∈ s.midmenu, t.node = node →
      (f t).node = t.node ∧ (f t).clickHandlers = t.clickHandlers ∧
        (f t).afterActionInfo = t.afterActionInfo ∧ (f t).infoIconError = t.infoIconError ∧
        ((f t).infoIcon = t.infoIcon ∨ (f t).infoIcon = false)) :
    Core s2 := by
  apply h.carry (fun t => if t.node = node then f t else t)
  · rw [hmid]; rfl
  · exact hnext
  · intro t ht
    by_cases hn : t.node = node
    · simp only [hn, if_true]; rw [(hf t ht hn).1]; exact hn
    · simp [hn]
  · intro c hc; left; rw [htim, hpend] at hc; exact hc
  · intro n hn; rw [hpend] at hn; exact hn
  · intro n; rw [hpend]; exact h.oneSubmit n
  · intro r hr; rw [hrec] at hr; exact h.records r hr
  · intro t ht _
    by_cases hn : t.node = node
    · simp only [hn, if_true]
      exact (hf t ht hn).2.1
    · simp [hn]
  · intro t ht
    rw [hrec]
    by_cases hn : t.node = node
    · simp only [hn, if_true]
      obtain ⟨h1, h2, h3, h4, h5⟩ := hf t ht hn
      exact ElemBase_benign (h.elems t ht).2 h1 h2 h3 h4 h5
    · simp only [hn, if_false]
      exact (h.elems t ht).2

/-- The same for an update addressed by DOM id. -/
theorem Core.updateById_mild {s s2 : State} (h : Core s) (dom : String)
    (f : MidmenuItem → MidmenuItem)
    (hmid : s2.midmenu = updateById dom f s.midmenu)
    (htim : s2.timers = s.timers) (hpend : s2.pending = s.pending)
    (hrec : s2.reconciled = s.reconciled) (hnext : s2.nextNode = s.nextNode)
    (hf : ∀ t ∈ s.midmenu, t.attrId = dom →
      (f t).node = t.node ∧ (f t).clickHandlers = t.clickHandlers ∧
        (f t).afterActionInfo = t.afterActionInfo ∧ (f t).infoIconError = t.infoIconError ∧
        ((f t).infoIcon = t.infoIcon ∨ (f t).infoIcon = false)) :
    Core s2 := by
  rw [updateById_eq_updateNode dom f s.midmenu h.nodup] at hmid
  cases hfind : findById dom s.midmenu with
  | none =>
    rw [hfind] at hmid
    exact h.of_state_eq hmid htim hpend hrec hnext
  | some t0 =>
    rw [hfind] at hmid
    apply h.updateNode_mild t0.node f hmid htim hpend hrec hnext
    intro t ht hn
    have : t = t0 := List.inj_on_of_nodup_map h.nodup ht (findById_mem hfind).1 hn
    subst this
    exact hf t ht (findById_mem hfind).2

theorem core_runHandler {s : State} (h : Core s) (ext : Ext) (node : Nat) (hd : ClickHandler) :
    Core (runHandler ext node hd s) := by
  obtain ⟨h1, h2, h3, h4, h5⟩ := runHandler_core ext node hd s
  rcases h5 with h5 | h5
  · exact h.of_state_eq h5 h1 h2 h3 h4
  · apply h.updateNode_mild node _ h5 h1 h2 h3 h4
    intro t _ _
    exact ⟨rfl, rfl, rfl, rfl, Or.inl rfl⟩

theorem core_runHandlers (ext : Ext) (node : Nat) (hs : List ClickHandler) :
    ∀ s : State, Core s → Core (hs.foldl (fun acc hd => runHandler ext node hd acc) s) := by
  induction hs with
  | nil => intro s h; exact h
  | cons hd hs ih => intro s h; exact ih _ (core_runHandler h ext node hd)

theorem core_itemClick {s : State} (h : Core s) (ext : Ext) (node : Nat) :
    Core (itemClick ext node s) := by
  unfold itemClick
  split
  · exact h
  · exact core_runHandlers ext node _ s h

theorem core_markBusy {s : State} (h : Core s) (id : String) :
    Core { s with midmenu := markBusy id s.midmenu } := by
  refine Core.updateById_mild h ("midmenuItemVm_" ++ id)
    (fun t => { t with spinningWheel := true, infoIcon := false }) ?_ ?_ ?_ ?_ ?_ ?_
  · rfl
  · rfl
  · rfl
  · rfl
  · rfl
  intro t _ _
  exact ⟨rfl, rfl, rfl, rfl, Or.inr rfl⟩

theorem core_markBusy_all (ids : List String) :
    ∀ s : State, Core s →
      Core { s with midmenu := ids.foldl (fun m id => markBusy id m) s.midmenu } := by
  induction ids with
  | nil => intro s h; exact h
  | cons id ids ih =>
    intro s h
    exact ih _ (core_markBusy h id)

theorem core_add_bulk_timers {s : State} (h : Core s) (extra : List Timer)
    (hextra : ∀ tm ∈ extra, tm.ctx.node? = none) :
    Core { s with timers := s.timers ++ extra } := by
  apply h.carry (fun t => t)
  · simp
  · rfl
  · intro t _; rfl
  · intro c hc
    rw [mem_closures] at hc
    rcases hc with hc | hc
    · rcases List.mem_append.mp hc with hc | hc
      · left; exact mem_closures.mpr (Or.inl hc)
      · right
        have := hextra c hc
        exact ⟨fun n hn => (by rw [this] at hn; cases hn), fun n hn => (by rw [this] at hn; cases hn)⟩
    · left; exact mem_closures.mpr (Or.inr hc)
  · intro n hn; exact hn
  · exact h.oneSubmit
  · exact h.records
  · intro t _ _; rfl
  · intro t ht; exact (h.elems t ht).2

theorem core_dispatch {s : State} (h : Core s) (ext : Ext) (a : ActionInfo)
    (server : String → AjaxResult SubmitJson) : Core (dispatch ext a server s) := by
  have h1 := core_markBusy_all (visitedIds ext a server (ext.forInKeys s.selectedItemIds)) s h
  have h2 := core_add_bulk_timers h1
    ((registeredJobs ext a server (ext.forInKeys s.selectedItemIds)).map
      (bulkTimer s.dispatches a.label))
    (by
      intro tm htm
      obtain ⟨p, -, rfl⟩ := List.mem_map.mp htm
      rfl)
  rw [dispatch_eq]
  split
  · rw [dispatchLoop_finalState]
    exact h2.of_state_eq rfl rfl rfl rfl rfl
  · rw [dispatchLoop_finalState]
    exact h2.of_state_eq rfl rfl rfl rfl rfl

theorem core_timerFire {s : State} (h : Core s) (i : Nat) : Core (timerFire i s) := by
  unfold timerFire
  cases htm : s.timers[i]? with
  | none => exact h
  | some tm =>
    have hmem : tm ∈ s.timers := List.getElem?_mem htm
    apply h.carry (fun t => t)
    · simp
    · rfl
    · intro t _; rfl
    · intro c hc
      left
      rw [mem_closures] at hc ⊢
      rcases hc with hc | hc
      · exact Or.inl hc
      · rcases List.mem_append.mp hc with hc | hc
        · exact Or.inr hc
        · simp only [List.mem_singleton, Pending.poll.injEq] at hc
          left
          have : c = tm := by
            cases c; cases tm
            simp only [Timer.mk.injEq]
            exact hc
          rw [this]; exact hmem
    · intro n hn
      rcases List.mem_append.mp hn with hn | hn
      · exact hn
      · simp at hn
    · intro n
      simp only [List.count_append]
      have : List.count (Pending.deploy n) [Pending.poll tm.key tm.ctx] = 0 := by
        simp [List.count_cons]
      rw [this]
      exact h.oneSubmit n
    · exact h.records
    · intro t _ _; rfl
    · intro t ht; exact (h.elems t ht).2

/-- Cancelling timers and answering requests keeps the invariant. -/
theorem core_shrink {s s2 : State} (h : Core s) (htim : ∀ tm ∈ s2.timers, tm ∈ s.timers)
    (hpend : s2.pending.Sublist s.pending) (hmid : s2.midmenu = s.midmenu)
    (hrec : s2.reconciled = s.reconciled) (hnext : s2.nextNode = s.nextNode) : Core s2 := by
  apply h.carry (fun t => t)
  · rw [hmid]; simp
  · exact hnext
  · intro t _; rfl
  · intro c hc
    left
    rw [mem_closures] at hc ⊢
    rcases hc with hc | hc
    · exact Or.inl (htim c hc)
    · exact Or.inr (hpend.subset hc)
  · intro n hn; exact hpend.subset hn
  · intro n
    exact le_trans (hpend.count_le _) (h.oneSubmit n)
  · intro r hr; rw [hrec] at hr; exact h.records r hr
  · intro t _ _; rfl
  · intro t ht; rw [hrec]; exact (h.elems t ht).2

/-- Putting the error mark on the icon of a node keeps the invariant when the handler bound
last on its element is not the one of `setMidmenuItemVm`, or when the latest annotation
stored on the node is a failure annotation. -/
theorem core_icon_error {s : State} (h : Core s) (n : Nat)
    (hno : ∀ t ∈ s.midmenu, t.node = n →
      t.clickHandlers.getLast? ≠ some ClickHandler.vmClick ∨
        ∃ r, lastRecord n s.reconciled = some r ∧ r.failed = true) :
    Core { s with
      midmenu := updateNode n
        (fun t => { t with infoIconError := true, infoIcon := true, vmName := "Adding failed" })
        s.midmenu } := by
  apply h.carry
    (fun t => if t.node = n then
      { t with infoIconError := true, infoIcon := true, vmName := "Adding failed" } else t)
  · rfl
  · rfl
  · intro t _; split <;> rfl
  · intro c hc; exact Or.inl hc
  · intro n2 hn; exact hn
  · exact h.oneSubmit
  · exact h.records
  · intro t _ _; split <;> rfl
  · intro t ht
    by_cases hn : t.node = n
    · rw [if_pos hn]
      obtain ⟨h1, -, h3⟩ := (h.elems t ht).2
      refine ⟨h1, ?_, h3⟩
      intro hlast _
      rcases hno t ht hn with hne | ⟨r, hr, hfailed⟩
      · exact absurd hlast hne
      · exact ⟨r, by rw [hn]; exact hr, hfailed.symm⟩
    · rw [if_neg hn]
      exact (h.elems t ht).2

/-- Storing the terminal annotation of a bulk-action job keeps the invariant. -/
theorem core_bulk_annotate {s : State} (h : Core s) (ext : Ext) (key x label : String)
    (result : JobResult) :
    Core { s with
      midmenu := updateById ("midmenuItemVm_" ++ x) (bulkReconcileItem ext label result) s.midmenu
      reconciled := s.reconciled ++
        reconciliationOf key ((findById ("midmenuItemVm_" ++ x) s.midmenu).map (fun t => t.node))
          (label ++ " action succeeded.")
          (label ++ " action failed. Reason: " ++ ext.sanitizeXSS result.jobresult) result } := by
  rw [updateById_eq_updateNode _ _ s.midmenu h.nodup]
  cases hfind : findById ("midmenuItemVm_" ++ x) s.midmenu with
  | none =>
    apply h.carry (fun t => t)
    · simp
    · rfl
    · intro t _; rfl
    · intro c hc; exact Or.inl hc
    · intro n hn; exact hn
    · exact h.oneSubmit
    · intro r hr n hn
      rcases List.mem_append.mp hr with hr | hr
      · exact h.records r hr n hn
      · have := reconciliationOf_node _ _ _ _ _ r hr
        rw [this] at hn
        cases hn
    · intro t _ _; rfl
    · intro t ht
      apply ElemBase_congr _ (h.elems t ht).2
      apply lastRecord_append_other
      intro r hr
      rw [reconciliationOf_node _ _ _ _ _ r hr]
      simp
  | some t0 =>
    obtain ⟨ht0, hattr0⟩ := findById_mem hfind
    have hsame : ∀ t ∈ s.midmenu, t.node = t0.node → t = t0 :=
      fun t ht hn => List.inj_on_of_nodup_map h.nodup ht ht0 hn
    obtain ⟨hf1, hf2, hf3⟩ := bulkReconcileItem_fields ext label result t0
    apply h.carry (fun t => if t.node = t0.node then bulkReconcileItem ext label result t else t)
    · rfl
    · rfl
    · intro t ht
      by_cases hn : t.node = t0.node
      · rw [if_pos hn, hsame t ht hn]; exact hf1
      · rw [if_neg hn]
    · intro c hc; exact Or.inl hc
    · intro n hn; exact hn
    · exact h.oneSubmit
    · intro r hr n hn
      rcases List.mem_append.mp hr with hr | hr
      · exact h.records r hr n hn
      · have := reconciliationOf_node _ _ _ _ _ r hr
        rw [this] at hn
        simp only [Option.map_some', Option.some.injEq] at hn
        rw [← hn]
        exact (h.elems t0 ht0).1
    · intro t ht _
      by_cases hn : t.node = t0.node
      · rw [if_pos hn, hsame t ht hn]; exact hf2
      · rw [if_neg hn]
    · intro t ht
      by_cases hn : t.node = t0.node
      · rw [if_pos hn, hsame t ht hn]
        show ElemBase (s.reconciled ++ reconciliationOf key (some t0.node) _ _ result) _
        unfold reconciliationOf
        by_cases h1 : result.jobstatus = 1
        · rw [if_pos h1] at hf3 ⊢
          obtain ⟨-, g2, g3⟩ := hf3
          apply ElemBase_annotated
          · show some t0.node = some (bulkReconcileItem ext label result t0).node
            rw [hf1]
          · exact g3
          · exact g2
        · by_cases h2 : result.jobstatus = 2
          · rw [if_neg h1, if_pos h2] at hf3 ⊢
            obtain ⟨-, g2, g3⟩ := hf3
            apply ElemBase_annotated
            · show some t0.node = some (bulkReconcileItem ext label result t0).node
              rw [hf1]
            · exact g3
            · exact g2
          · rw [if_neg h1, if_neg h2] at hf3 ⊢
            obtain ⟨g1, g2, g3⟩ := hf3
            rw [List.append_nil]
            exact ElemBase_benign (h.elems t0 ht0).2 hf1 hf2 g3 g2 (Or.inl g1)
      · rw [if_neg hn]
        apply ElemBase_congr _ (h.elems t ht).2
        apply lastRecord_append_other
        intro r hr
        rw [reconciliationOf_node _ _ _ _ _ r hr]
        simp only [Option.map_some', ne_eq, Option.some.injEq]
        exact fun heq => hn heq.symm

/-- Ending the poll of a deploy job keeps the invariant, whatever the answer and whatever
the element shows already. -/
theorem core_deploy_reconcile {s : State} (h : Core s) (ext : Ext) (i : Nat) (key : String)
    (n : Nat) (j : Option String) (result : JobResult)
    (hp : s.pending[i]? = some (Pending.poll key (.deploy n j))) :
    Core { s with
      pending := s.pending.eraseIdx i
      timers := stopTime key s.timers
      midmenu := updateNode n (deployReconcileItem ext result) s.midmenu
      reconciled := s.reconciled ++
        reconciliationOf key (some n) "Adding succeeded."
          ("Adding failed. Reason: " ++ ext.sanitizeXSS result.jobresult) result } := by
  have hc0 : ({ key := key, ctx := .deploy n j } : Timer) ∈ closures s.timers s.pending :=
    mem_closures.mpr (Or.inr (List.getElem?_mem hp))
  have hbound : n < s.nextNode := h.live _ hc0 n rfl
  apply h.carry (fun t => if t.node = n then deployReconcileItem ext result t else t)
  · rfl
  · rfl
  · intro t ht
    by_cases hn : t.node = n
    · rw [if_pos hn]; exact (deployReconcileItem_fields ext result t).1
    · rw [if_neg hn]
  · intro c hc
    left
    rw [mem_closures] at hc ⊢
    rcases hc with hc | hc
    · exact Or.inl (stopTime_sub key _ c hc)
    · exact Or.inr (List.mem_of_mem_eraseIdx hc)
  · intro m hm; exact List.mem_of_mem_eraseIdx hm
  · intro m
    exact le_trans ((List.eraseIdx_sublist _ _).count_le _) (h.oneSubmit m)
  · intro r hr m hm
    rcases List.mem_append.mp hr with hr | hr
    · exact h.records r hr m hm
    · rw [reconciliationOf_node _ _ _ _ _ r hr] at hm
      simp only [Option.some.injEq] at hm
      rw [← hm]; exact hbound
  · intro t ht hd
    by_cases hn : t.node = n
    · exfalso
      rw [hn] at hd
      exact (h.submits n (List.mem_of_mem_eraseIdx hd)).2.1 _ hc0 rfl
    · rw [if_neg hn]
  · intro t ht
    by_cases hn : t.node = n
    · rw [if_pos hn]
      obtain ⟨hf1, hf3⟩ := deployReconcileItem_fields ext result t
      show ElemBase (s.reconciled ++ reconciliationOf key (some n) _ _ result) _
      unfold reconciliationOf
      by_cases h1 : result.jobstatus = 1
      · rw [if_pos h1] at hf3 ⊢
        obtain ⟨-, g2, g3, -⟩ := hf3
        apply ElemBase_annotated
        · show some n = some (deployReconcileItem ext result t).node
          rw [hf1, hn]
        · exact g3
        · exact g2
      · by_cases h2 : result.jobstatus = 2
        · rw [if_neg h1, if_pos h2] at hf3 ⊢
          obtain ⟨-, g2, g3, -, -⟩ := hf3
          apply ElemBase_annotated
          · show some n = some (deployReconcileItem ext result t).node
            rw [hf1, hn]
          · exact g3
          · exact g2
        · rw [if_neg h1, if_neg h2] at hf3 ⊢
          rw [List.append_nil, hf3]
          exact ElemBase_benign (h.elems t ht).2 rfl rfl rfl rfl (Or.inl rfl)
    · rw [if_neg hn]
      apply ElemBase_congr _ (h.elems t ht).2
      apply lastRecord_append_other
      intro r hr
      rw [reconciliationOf_node _ _ _ _ _ r hr]
      simp only [ne_eq, Option.some.injEq]
      exact fun heq => hn heq.symm

theorem core_pollDone {s : State} (h : Core s) (ext : Ext) (i : Nat)
    (r : AjaxResult (Option JobResult))
    (hguard : lateTransportFailure s (.pollDone i r) = false) : Core (pollDone ext i r s) := by
  unfold pollDone
  cases hp : s.pending[i]? with
  | none => exact h
  | some pe =>
    cases pe with
    | deploy n => exact h
    | listVms => exact h
    | poll key ctx =>
      have hs1 : Core { s with pending := s.pending.eraseIdx i } :=
        core_shrink h (fun _ hm => hm) (List.eraseIdx_sublist _ _) rfl rfl rfl
      cases ctx with
      | bulk d jobId label =>
        cases r with
        | success json =>
          cases json with
          | none => exact hs1
          | some result =>
            simp only [bulkPollSuccess]
            split
            · exact hs1
            · have h2 := core_bulk_annotate hs1 ext key
                (jsString (jobIdMapGet d jobId s.jobIdMap)) label result
              exact core_shrink h2 (stopTime_sub key _) (List.Sublist.refl _) rfl rfl rfl
        | error =>
          simp only [bulkPollError]
          split
          · exact core_shrink hs1 (stopTime_sub key _) (List.Sublist.refl _) rfl rfl rfl
          · exact hs1
      | deploy n j =>
        cases r with
        | success json =>
          cases json with
          | none => exact hs1
          | some result =>
            simp only [deployPollSuccess]
            split
            · exact hs1
            · exact (core_deploy_reconcile h ext i key n j result hp).of_state_eq
                rfl rfl rfl rfl rfl
        | error =>
          simp only [lateTransportFailure, hp] at hguard
          have hno : ∀ t ∈ s.midmenu, t.node = n →
              t.clickHandlers.getLast? ≠ some ClickHandler.vmClick ∨
                ∃ r, lastRecord n s.reconciled = some r ∧ r.failed = true := by
            intro t ht hn
            rw [← hn, findNode_of_mem h.nodup ht] at hguard
            by_cases hlast : t.clickHandlers.getLast? = some ClickHandler.vmClick
            · right
              simp only [hlast, beq_self_eq_true, Bool.true_and, bne_eq_false_iff_eq] at hguard
              rw [hn] at hguard
              cases hl : lastRecord n s.reconciled with
              | none => rw [hl] at hguard; cases hguard
              | some r0 =>
                rw [hl] at hguard
                simp only [Option.map_some', Option.some.injEq] at hguard
                exact ⟨r0, rfl, hguard⟩
            · exact Or.inl hlast
          have h2 := core_icon_error hs1 n hno
          exact core_shrink h2 (stopTime_sub key _) (List.Sublist.refl _) rfl rfl rfl

/-- Registering the timer of a deploy job keeps the invariant. -/
theorem core_deploy_registered {s : State} (h : Core s) (i n : Nat) (j : Option String)
    (hp : s.pending[i]? = some (Pending.deploy n)) :
    Core { s with
      pending := s.pending.eraseIdx i
      midmenu := updateNode n
        (fun t => { t with attrId := "vmNew" ++ jsString j, dataJobId := some j }) s.midmenu
      timers := everyTime (deployTimerKey j) (.deploy n j) s.timers } := by
  obtain ⟨hbound, hnoc, hnoh⟩ := h.submits n (List.getElem?_mem hp)
  have hgone : Pending.deploy n ∉ s.pending.eraseIdx i :=
    count_eraseIdx_zero s.pending i _ hp (h.oneSubmit n)
  apply h.carry
    (fun t => if t.node = n then
      { t with attrId := "vmNew" ++ jsString j, dataJobId := some j } else t)
  · rfl
  · rfl
  · intro t _; split <;> rfl
  · intro c hc
    rw [mem_closures] at hc
    rcases hc with hc | hc
    · rcases List.mem_append.mp hc with hc | hc
      · exact Or.inl (mem_closures.mpr (Or.inl hc))
      · right
        simp only [List.mem_singleton] at hc
        subst hc
        constructor
        · intro m hm
          simp only [PollCtx.node?, Option.some.injEq] at hm
          subst hm
          exact hbound
        · intro m hm
          simp only [PollCtx.node?, Option.some.injEq] at hm
          subst hm
          exact hgone
    · exact Or.inl (mem_closures.mpr (Or.inr (List.mem_of_mem_eraseIdx hc)))
  · intro m hm; exact List.mem_of_mem_eraseIdx hm
  · intro m
    exact le_trans ((List.eraseIdx_sublist _ _).count_le _) (h.oneSubmit m)
  · exact h.records
  · intro t ht _
    by_cases hn : t.node = n
    · rw [if_pos hn]
    · rw [if_neg hn]
  · intro t ht
    by_cases hn : t.node = n
    · rw [if_pos hn]
      exact ElemBase_of_no_handlers (h.elems t ht).2 rfl rfl (hnoh t ht hn)
    · rw [if_neg hn]
      exact (h.elems t ht).2

theorem core_deployDone {s : State} (h : Core s) (i : Nat) (r : AjaxResult SubmitJson) :
    Core (deployDone i r s) := by
  unfold deployDone
  cases hp : s.pending[i]? with
  | none => exact h
  | some pe =>
    cases pe with
    | poll key ctx => exact h
    | listVms => exact h
    | deploy n =>
      have hs1 : Core { s with pending := s.pending.eraseIdx i } :=
        core_shrink h (fun _ hm => hm) (List.eraseIdx_sublist _ _) rfl rfl rfl
      cases r with
      | success json =>
        simp only [deploySubmitSuccess]
        split
        · exact hs1
        · rename_i env _
          exact (core_deploy_registered h i n env.jobid hp).of_state_eq rfl rfl rfl rfl rfl
      | error =>
        have hno := (h.submits n (List.getElem?_mem hp)).2.2
        refine core_icon_error hs1 n (fun t ht hn => Or.inl ?_)
        rw [hno t ht hn]
        simp

theorem core_groupClick {s : State} (h : Core s) : Core (groupClick s) := by
  unfold groupClick
  refine ⟨?_, ?_, h.records, ?_, ?_, ?_⟩
  · intro t ht; simp at ht
  · simp
  · intro c hc n hn
    exact h.live c (mem_closures_append_other (by intro k ctx; simp) hc) n hn
  · intro n hn
    have hn2 : Pending.deploy n ∈ s.pending := by
      rcases List.mem_append.mp hn with hn | hn
      · exact hn
      · simp at hn
    obtain ⟨h1, h2, -⟩ := h.submits n hn2
    refine ⟨h1, ?_, by intro t ht; simp at ht⟩
    intro c hc
    exact h2 c (mem_closures_append_other (by intro k ctx; simp) hc)
  · intro n
    show List.count _ (s.pending ++ [Pending.listVms]) ≤ 1
    rw [List.count_append]
    have : List.count (Pending.deploy n) [Pending.listVms] = 0 := by
      simp [List.count_cons]
    rw [this]
    exact h.oneSubmit n

/-- Appending an element on a fresh node keeps the invariant. -/
theorem core_append_element {s : State} (h : Core s) (e : MidmenuItem)
    (hnode : e.node = s.nextNode) (helem : ElemBase s.reconciled e) :
    Core { s with midmenu := s.midmenu ++ [e], nextNode := s.nextNode + 1 } := by
  refine ⟨?_, ?_, ?_, ?_, ?_, h.oneSubmit⟩
  · intro t ht
    rcases List.mem_append.mp ht with ht | ht
    · exact ⟨Nat.lt_succ_of_lt (h.elems t ht).1, (h.elems t ht).2⟩
    · simp only [List.mem_singleton] at ht
      subst ht
      exact ⟨by show t.node < s.nextNode + 1; omega, helem⟩
  · show (List.map (fun t => t.node) (s.midmenu ++ [e])).Nodup
    rw [List.map_append, List.nodup_append]
    refine ⟨h.nodup, by simp, ?_⟩
    intro a ha hb
    simp only [List.map_cons, List.map_nil, List.mem_singleton] at hb
    obtain ⟨t, ht, rfl⟩ := List.mem_map.mp ha
    have := (h.elems t ht).1
    have hb2 : t.node = e.node := hb
    omega
  · intro r hr n hn
    exact Nat.lt_succ_of_lt (h.records r hr n hn)
  · intro c hc n hn
    exact Nat.lt_succ_of_lt (h.live c hc n hn)
  · intro n hn
    obtain ⟨h1, h2, h3⟩ := h.submits n hn
    refine ⟨Nat.lt_succ_of_lt h1, h2, ?_⟩
    intro t ht htn
    rcases List.mem_append.mp ht with ht | ht
    · exact h3 t ht htn
    · simp only [List.mem_singleton] at ht
      subst ht
      omega

theorem ElemBase_fresh {s : State} (h : Core s) (e : MidmenuItem) (hnode : e.node = s.nextNode)
    (hann : e.afterActionInfo = none)
    (hb : e.clickHandlers ≠ [] → e.infoIcon = false)
    (hc : e.clickHandlers.getLast? ≠ some ClickHandler.addingFailedClick) :
    ElemBase s.reconciled e := by
  have hlast : lastRecord e.node s.reconciled = none :=
    lastRecord_of_bound e.node s.nextNode s.reconciled h.records (by omega)
  refine ⟨by rw [hlast, hann]; rfl, ?_, fun hf => absurd hf hc⟩
  intro hh hi
  have hne : e.clickHandlers ≠ [] := by
    intro hnil; rw [hnil] at hh; simp at hh
  rw [hb hne] at hi
  cases hi

theorem core_deployClick {s : State} (h : Core s) (ext : Ext) (moreCriteria : String) :
    Core (deployClick ext moreCriteria s) := by
  unfold deployClick
  simp only []
  have helem : ElemBase s.reconciled
      { cloneTemplate ext s.nextNode with
        vmName := "Adding....", ipLabelHidden := true, spinningWheel := true } :=
    ElemBase_fresh h _ rfl rfl (fun hh => absurd rfl hh) (by simp [cloneTemplate])
  have h1 := core_append_element h _ rfl helem
  refine ⟨h1.elems, h1.nodup, h1.records, ?_, ?_, ?_⟩
  · intro c hc
    exact h1.live c (mem_closures_append_other (by intro k ctx; simp) hc)
  · intro n hn
    rcases List.mem_append.mp hn with hn | hn
    · obtain ⟨g1, g2, g3⟩ := h1.submits n hn
      exact ⟨g1, fun c hc => g2 c (mem_closures_append_other (by intro k ctx; simp) hc), g3⟩
    · simp only [List.mem_singleton, Pending.deploy.injEq] at hn
      refine ⟨by show n < s.nextNode + 1; rw [hn]; exact Nat.lt_succ_self _, ?_, ?_⟩
      · intro c hc hcn
        have hc2 := mem_closures_append_other (by intro k ctx; simp) hc
        have := h.live c hc2 n hcn
        rw [hn] at this
        exact Nat.lt_irrefl _ this
      · intro t ht htn
        rcases List.mem_append.mp ht with ht | ht
        · have := (h.elems t ht).1
          rw [htn, hn] at this
          exact absurd this (Nat.lt_irrefl _)
        · simp only [List.mem_singleton] at ht
          rw [ht]
          rfl
  · intro n
    show List.count _ (s.pending ++ [Pending.deploy s.nextNode]) ≤ 1
    rw [List.count_append]
    by_cases hn : n = s.nextNode
    · subst hn
      have : List.count (Pending.deploy s.nextNode) s.pending = 0 := by
        rw [List.count_eq_zero]
        intro hmem
        exact Nat.lt_irrefl _ (h.submits _ hmem).1
      rw [this]
      simp
    · have : List.count (Pending.deploy n) [Pending.deploy s.nextNode] = 0 := by
        rw [List.count_eq_zero]
        simp only [List.mem_singleton, Pending.deploy.injEq]
        exact hn
      rw [this]
      exact h.oneSubmit n

theorem core_appendInstances (ext : Ext) (hicon : ext.template.infoIcon = false)
    (os : List Instance) : ∀ s : State, Core s → Core (appendInstances ext os s) := by
  induction os with
  | nil => intro s h; exact h
  | cons o os ih =>
    intro s h
    unfold appendInstances
    apply ih
    obtain ⟨g1, g2, g3, g4, g5⟩ := setMidmenuItemVm_fields ext o (cloneTemplate ext s.nextNode)
    apply core_append_element h _ g1
    apply ElemBase_fresh h _ g1 (by rw [g4]; rfl)
    · intro _; rw [g2]; exact hicon
    · rw [g5]; simp [cloneTemplate]

theorem core_listDone {s : State} (h : Core s) (ext : Ext) (hicon : ext.template.infoIcon = false)
    (i : Nat) (json : Option (List Instance)) : Core (listDone ext i json s) := by
  unfold listDone
  cases hp : s.pending[i]? with
  | none => exact h
  | some pe =>
    cases pe with
    | poll key ctx => exact h
    | deploy n => exact h
    | listVms =>
      have hs1 : Core { s with pending := s.pending.eraseIdx i } :=
        core_shrink h (fun _ hm => hm) (List.eraseIdx_sublist _ _) rfl rfl rfl
      cases json with
      | none => exact hs1
      | some os => exact core_appendInstances ext hicon os _ hs1

/-- Every turn that is not a late transport failure keeps the invariant. -/
theorem core_step {s : State} (h : Core s) (ext : Ext) (hicon : ext.template.infoIcon = false)
    (e : Event) (hguard : lateTransportFailure s e = false) : Core (step ext s e) := by
  cases e with
  | groupClick => exact core_groupClick h
  | itemClick node => exact core_itemClick h ext node
  | actionClick a server => exact core_dispatch h ext a server
  | deployClick m => exact core_deployClick h ext m
  | timerFire i => exact core_timerFire h i
  | pollDone i r => exact core_pollDone h ext i r hguard
  | deployDone i r => exact core_deployDone h i r
  | listDone i json => exact core_listDone h ext hicon i json

theorem core_run (ext : Ext) (hicon : ext.template.infoIcon = false) (evs : List Event) :
    ∀ s : State, Core s → noLateTransportFailure ext s evs = true → Core (run ext s evs) := by
  induction evs with
  | nil => intro s h _; exact h
  | cons e evs ih =>
    intro s h hseq
    simp only [noLateTransportFailure, Bool.and_eq_true, Bool.not_eq_true'] at hseq
    exact ih _ (core_step h ext hicon e hseq.1) hseq.2

theorem core_initial (p : Panel) : Core (State.initial p) := by
  refine ⟨?_, ?_, ?_, ?_, ?_, ?_⟩
  · intro t ht; simp [State.initial] at ht
  · simp [State.initial]
  · intro r hr; simp [State.initial] at hr
  · intro c hc; simp [State.initial, closures] at hc
  · intro n hn; simp [State.initial] at hn
  · intro n; simp [State.initial]

/-- A click on an element without click handler changes nothing. -/
theorem itemClick_no_handler (ext : Ext) (node : Nat) (s : State) (t : MidmenuItem)
    (ht : findNode node s.midmenu = some t) (hh : t.clickHandlers = []) :
    itemClick ext node s = s := by
  unfold itemClick
  rw [ht]
  simp only [hh, List.foldl_nil]

/-- The annotation area after a click on an element whose handler bound last is the one of
`setMidmenuItemVm`. -/
theorem itemClick_vmClick_last (ext : Ext) (node : Nat) (s : State) (t : MidmenuItem)
    (ht : findNode node s.midmenu = some t)
    (hlast : t.clickHandlers.getLast? = some ClickHandler.vmClick) (a : String)
    (hann : t.infoIcon = true → t.afterActionInfo = some a) :
    if t.infoIcon then
      (itemClick ext node s).panel.afterActionInfo = a ∧
        (itemClick ext node s).panel.afterActionInfoShown = true ∧
        (itemClick ext node s).panel.afterActionInfoErrorbox = t.infoIconError
    else
      (itemClick ext node s).panel.afterActionInfo = "" ∧
        (itemClick ext node s).panel.afterActionInfoShown = false := by
  unfold itemClick
  rw [ht]
  simp only []
  rcases List.eq_nil_or_concat t.clickHandlers with hnil | ⟨L, b, hL⟩
  · rw [hnil] at hlast; simp at hlast
  · rw [List.concat_eq_append] at hL
    have hb : b = ClickHandler.vmClick := by
      rw [hL] at hlast
      simpa using hlast
    subst hb
    rw [hL, List.foldl_append]
    simp only [List.foldl_cons, List.foldl_nil]
    obtain ⟨t2, g1, g2, g3, g4⟩ := runHandlers_element ext node L s t ht
    generalize L.foldl (fun acc hd => runHandler ext node hd acc) s = smid at g1 ⊢
    have hrun : runHandler ext node ClickHandler.vmClick smid = vmClick ext t2 smid := by
      unfold runHandler; rw [g1]
    rw [hrun]
    obtain ⟨e1, e2, e3⟩ := vmClick_annotation ext t2 smid
    rw [e1, e2, e3]
    unfold showAfterActionInfo
    rw [g2, g3, g4]
    cases hi : t.infoIcon with
    | true => rw [hann hi]; exact ⟨rfl, rfl, rfl⟩
    | false => exact ⟨rfl, rfl⟩

/-- The annotation area after a click on an element whose handler bound last is the one of a
failed deploy. -/
theorem itemClick_failed_last (ext : Ext) (node : Nat) (s : State) (t : MidmenuItem)
    (ht : findNode node s.midmenu = some t)
    (hlast : t.clickHandlers.getLast? = some ClickHandler.addingFailedClick) (a : String)
    (hann : t.afterActionInfo = some a) :
    (itemClick ext node s).panel.afterActionInfo = a ∧
      (itemClick ext node s).panel.afterActionInfoShown = true ∧
      (itemClick ext node s).panel.afterActionInfoErrorbox = true := by
  unfold itemClick
  rw [ht]
  simp only []
  rcases List.eq_nil_or_concat t.clickHandlers with hnil | ⟨L, b, hL⟩
  · rw [hnil] at hlast; simp at hlast
  · rw [List.concat_eq_append] at hL
    have hb : b = ClickHandler.addingFailedClick := by
      rw [hL] at hlast
      simpa using hlast
    subst hb
    rw [hL, List.foldl_append]
    simp only [List.foldl_cons, List.foldl_nil]
    obtain ⟨t2, g1, g2, g3, g4⟩ := runHandlers_element ext node L s t ht
    generalize L.foldl (fun acc hd => runHandler ext node hd acc) s = smid at g1 ⊢
    have hrun : runHandler ext node ClickHandler.addingFailedClick smid =
        addingFailedClick t2 smid := by
      unfold runHandler; rw [g1]
    rw [hrun]
    obtain ⟨e1, e2, e3⟩ := addingFailedClick_annotation t2 smid
    rw [e1, e2, e3, g4, hann]
    exact ⟨rfl, rfl, rfl⟩

theorem lastRecord_node {node : Nat} {log : List Reconciliation} {r : Reconciliation}
    (h : lastRecord node log = some r) : r.node = some node := by
  unfold lastRecord at h
  simpa using List.find?_some h

/-- C10, refuted as stated, with the scenarios that bound the amended statement. (1) A
deploy job whose timer fires twice before any answer arrives: the second poll is answered
with success (the placeholder becomes the element of instance 200 with the annotation
"Adding succeeded."), then the first poll fails in transport and line 886 puts the error
mark on the info icon; a click on the element shows the success annotation in the error
style. This is the late transport failure. (2) The same job, the first poll answered with
`jobstatus` 2 instead: the element of instance 200 gets the handler of a failed deploy as
the handler bound last; after Stop is dispatched for it the info icon is hidden, and a click
still shows the failure annotation. (3) The first answer is a failure, the late one a
success without an instance record: the handler of a failed deploy stays the last one and a
click shows "Adding succeeded." in the error style. (4) With a markup that shows the info
icon, the element of instance 101, which has no annotation, shows after a click the
annotation stored for instance 100. (5) A placeholder whose submission failed has no click
handler: a click on it leaves the annotation of instance 100 in the panel. Only the first
execution holds a late transport failure; the second and the third hold a contradicting
answer. -/
theorem late_transport_error_shows_success_as_error :
    (noLateTransportFailure Ext.sample (State.initial Panel.blank) lateErrorTrace = false ∧
        (findNode 0 (run Ext.sample (State.initial Panel.blank) lateErrorTrace).midmenu).map
          (fun t => (t.infoIcon, t.clickHandlers)) = some (true, [ClickHandler.vmClick]) ∧
        (lastRecord 0 (run Ext.sample (State.initial Panel.blank) lateErrorTrace).reconciled).map
          (fun r => (r.text, r.failed)) = some ("Adding succeeded.", false) ∧
        (itemClick Ext.sample 0
          (run Ext.sample (State.initial Panel.blank) lateErrorTrace)).panel.afterActionInfo =
          "Adding succeeded." ∧
        (itemClick Ext.sample 0
          (run Ext.sample (State.initial Panel.blank)
            lateErrorTrace)).panel.afterActionInfoErrorbox = true) ∧
      (noLateTransportFailure Ext.sample (State.initial Panel.blank) lateFailureTrace = true ∧
        consistentAnswers Ext.sample (State.initial Panel.blank) lateFailureTrace = false ∧
        (findNode 0 (run Ext.sample (State.initial Panel.blank) lateFailureTrace).midmenu).map
          (fun t => (t.attrId, t.infoIcon, t.clickHandlers)) =
          some ("midmenuItemVm_200", false,
            [ClickHandler.vmClick, ClickHandler.addingFailedClick]) ∧
        (itemClick Ext.sample 0
          (run Ext.sample (State.initial Panel.blank) lateFailureTrace)).panel.afterActionInfo =
          "Adding failed. Reason: quota" ∧
        (itemClick Ext.sample 0
          (run Ext.sample (State.initial Panel.blank)
            lateFailureTrace)).panel.afterActionInfoShown = true) ∧
      (noLateTransportFailure Ext.sample (State.initial Panel.blank) lateSuccessTrace = true ∧
        consistentAnswers Ext.sample (State.initial Panel.blank) lateSuccessTrace = false ∧
        (findNode 0 (run Ext.sample (State.initial Panel.blank) lateSuccessTrace).midmenu).map
          (fun t => (t.infoIcon, t.clickHandlers)) =
          some (true, [ClickHandler.addingFailedClick]) ∧
        (lastRecord 0 (run Ext.sample (State.initial Panel.blank) lateSuccessTrace).reconciled).map
          (fun r => (r.text, r.failed)) = some ("Adding succeeded.", false) ∧
        (itemClick Ext.sample 0
          (run Ext.sample (State.initial Panel.blank) lateSuccessTrace)).panel.afterActionInfo =
          "Adding succeeded." ∧
        (itemClick Ext.sample 0
          (run Ext.sample (State.initial Panel.blank)
            lateSuccessTrace)).panel.afterActionInfoErrorbox = true) ∧
      (noLateTransportFailure Ext.iconShown (State.initial Panel.blank) otherElementTrace = true ∧
        (findNode 1 (run Ext.iconShown (State.initial Panel.blank) otherElementTrace).midmenu).map
          (fun t => (t.attrId, t.infoIcon, t.afterActionInfo, t.clickHandlers)) =
          some ("midmenuItemVm_101", true, none, [ClickHandler.vmClick]) ∧
        (lastRecord 0 (run Ext.iconShown (State.initial Panel.blank) otherElementTrace).reconciled).map
          (fun r => r.text) = some "Stop action succeeded." ∧
        (itemClick Ext.iconShown 1
          (run Ext.iconShown (State.initial Panel.blank) otherElementTrace)).panel.afterActionInfo =
          "Stop action succeeded.") ∧
      (noLateTransportFailure Ext.sample (State.initial Panel.blank) failedSubmissionTrace = true ∧
        (findNode 1 (run Ext.sample (State.initial Panel.blank) failedSubmissionTrace).midmenu).map
          (fun t => (t.infoIcon, t.afterActionInfo, t.clickHandlers)) = some (true, none, []) ∧
        (itemClick Ext.sample 1
          (run Ext.sample (State.initial Panel.blank)
            failedSubmissionTrace)).panel.afterActionInfo = "Stop action succeeded." ∧
        (itemClick Ext.sample 1
          (run Ext.sample (State.initial Panel.blank)
            failedSubmissionTrace)).panel.afterActionInfoShown = true) := by
  refine ⟨by decide, by decide, by decide, by decide, by decide⟩

/-- C10, amended: in every state reached from the start by turns none of which is a late
transport failure of a deploy poll (the polls of every job may overlap and the control plane
may answer in any way), the markup hiding the info icon, a click on an element leaves the
annotation area as follows. When the handler bound last on the element is the one of
`setMidmenuItemVm`: if the element shows its info icon, the text is the text of the latest
annotation stored on the node of that very element, the area is shown, and it has the error
style exactly when that annotation is a failure annotation; otherwise the text is empty and
the area is hidden. When the handler bound last is the one of a failed deploy: the text is
the text of the latest annotation stored on the node of that very element and the area is
shown in the error style; the element then shows its info icon and that annotation is a
failure annotation, provided no poll of a deploy job was answered in contradiction to what
its element showed. When the element has no click handler the click changes nothing. -/
theorem click_shows_latest_own_annotation (ext : Ext) (p : Panel) (evs : List Event)
    (node : Nat) (t : MidmenuItem) (hicon : ext.template.infoIcon = false)
    (hlate : noLateTransportFailure ext (State.initial p) evs = true)
    (ht : findNode node (run ext (State.initial p) evs).midmenu = some t) :
    match t.clickHandlers.getLast? with
    | some ClickHandler.vmClick =>
      if t.infoIcon then
        ∃ r, lastRecord node (run ext (State.initial p) evs).reconciled = some r ∧
          r.node = some node ∧
          (itemClick ext node (run ext (State.initial p) evs)).panel.afterActionInfo = r.text ∧
          (itemClick ext node (run ext (State.initial p) evs)).panel.afterActionInfoShown =
            true ∧
          (itemClick ext node (run ext (State.initial p) evs)).panel.afterActionInfoErrorbox =
            r.failed
      else
        (itemClick ext node (run ext (State.initial p) evs)).panel.afterActionInfo = "" ∧
          (itemClick ext node (run ext (State.initial p) evs)).panel.afterActionInfoShown =
            false
    | some ClickHandler.addingFailedClick =>
      ∃ r, lastRecord node (run ext (State.initial p) evs).reconciled = some r ∧
        r.node = some node ∧
        (itemClick ext node (run ext (State.initial p) evs)).panel.afterActionInfo = r.text ∧
        (itemClick ext node (run ext (State.initial p) evs)).panel.afterActionInfoShown =
          true ∧
        (itemClick ext node (run ext (State.initial p) evs)).panel.afterActionInfoErrorbox =
          true ∧
        (consistentAnswers ext (State.initial p) evs = true →
          t.infoIcon = true ∧ r.failed = true)
    | none =>
      itemClick ext node (run ext (State.initial p) evs) = run ext (State.initial p) evs := by
  have hcore := core_run ext hicon evs (State.initial p) (core_initial p) hlate
  have hmem : t ∈ (run ext (State.initial p) evs).midmenu := by
    unfold findNode at ht
    exact List.mem_of_find?_eq_some ht
  have hnode : t.node = node := findNode_node ht
  obtain ⟨ha, hb, hc⟩ := (hcore.elems t hmem).2
  rw [hnode] at ha hb hc
  cases hl : t.clickHandlers.getLast? with
  | none =>
    simp only []
    exact itemClick_no_handler ext node _ t ht (List.getLast?_eq_none_iff.mp hl)
  | some b =>
    cases b with
    | vmClick =>
      simp only []
      cases hi : t.infoIcon with
      | true =>
        obtain ⟨r, hr, herr⟩ := hb hl hi
        have hann : t.afterActionInfo = some r.text := by rw [ha, hr]; rfl
        have hclick := itemClick_vmClick_last ext node _ t ht hl r.text (fun _ => hann)
        rw [hi] at hclick
        simp only [if_true] at hclick ⊢
        exact ⟨r, hr, lastRecord_node hr, hclick.1, hclick.2.1, by rw [hclick.2.2, herr]⟩
      | false =>
        have hclick := itemClick_vmClick_last ext node _ t ht hl ""
          (fun h2 => by rw [hi] at h2; cases h2)
        rw [hi] at hclick
        simpa using hclick
    | addingFailedClick =>
      simp only []
      obtain ⟨r, hr⟩ := hc hl
      have hann : t.afterActionInfo = some r.text := by rw [ha, hr]; rfl
      obtain ⟨c1, c2, c3⟩ := itemClick_failed_last ext node _ t ht hl r.text hann
      refine ⟨r, hr, lastRecord_node hr, c1, c2, c3, ?_⟩
      intro hcons
      have hinv := inv_run ext hicon evs (State.initial p) (inv_initial p) hcons
      obtain ⟨-, hb2, hc2⟩ := (hinv.elems t hmem).2
      obtain ⟨hi, herr, -⟩ := hc2 hl
      have hne : t.clickHandlers ≠ [] := by
        intro hnil; rw [hnil] at hl; simp at hl
      obtain ⟨r2, hr2, herr2⟩ := hb2 hne hi
      rw [hnode, hr] at hr2
      simp only [Option.some.injEq] at hr2
      subst hr2
      exact ⟨hi, by rw [← herr2, herr]⟩

/-- Witness of the amended C10: two polls of job 55 are outstanding at once and both are
answered with success; then the element of instance 100 is clicked. -/
theorem click_shows_latest_own_annotation_witness :
    Ext.sample.template.infoIcon = false ∧
      noLateTransportFailure Ext.sample (State.initial Panel.blank) overlappingStopTrace = true ∧
      outstandingPolls "asyncJob_55"
        (run Ext.sample (State.initial Panel.blank) (overlappingStopTrace.take 6)) = 2 ∧
      (match ((findNode 0
          (run Ext.sample (State.initial Panel.blank) overlappingStopTrace).midmenu).get
          (by decide)).clickHandlers.getLast? with
      | some ClickHandler.vmClick =>
        if ((findNode 0
            (run Ext.sample (State.initial Panel.blank) overlappingStopTrace).midmenu).get
            (by decide)).infoIcon then
          ∃ r, lastRecord 0
              (run Ext.sample (State.initial Panel.blank) overlappingStopTrace).reconciled =
              some r ∧
            r.node = some 0 ∧
            (itemClick Ext.sample 0
              (run Ext.sample (State.initial Panel.blank)
                overlappingStopTrace)).panel.afterActionInfo = r.text ∧
            (itemClick Ext.sample 0
              (run Ext.sample (State.initial Panel.blank)
                overlappingStopTrace)).panel.afterActionInfoShown = true ∧
            (itemClick Ext.sample 0
              (run Ext.sample (State.initial Panel.blank)
                overlappingStopTrace)).panel.afterActionInfoErrorbox = r.failed
        else
          (itemClick Ext.sample 0
            (run Ext.sample (State.initial Panel.blank)
              overlappingStopTrace)).panel.afterActionInfo = "" ∧
            (itemClick Ext.sample 0
              (run Ext.sample (State.initial Panel.blank)
                overlappingStopTrace)).panel.afterActionInfoShown = false
      | some ClickHandler.addingFailedClick =>
        ∃ r, lastRecord 0
            (run Ext.sample (State.initial Panel.blank) overlappingStopTrace).reconciled =
            some r ∧
          r.node = some 0 ∧
          (itemClick Ext.sample 0
            (run Ext.sample (State.initial Panel.blank)
              overlappingStopTrace)).panel.afterActionInfo = r.text ∧
          (itemClick Ext.sample 0
            (run Ext.sample (State.initial Panel.blank)
              overlappingStopTrace)).panel.afterActionInfoShown = true ∧
          (itemClick Ext.sample 0
            (run Ext.sample (State.initial Panel.blank)
              overlappingStopTrace)).panel.afterActionInfoErrorbox = true ∧
          (consistentAnswers Ext.sample (State.initial Panel.blank) overlappingStopTrace = true →
            ((findNode 0
              (run Ext.sample (State.initial Panel.blank) overlappingStopTrace).midmenu).get
              (by decide)).infoIcon = true ∧ r.failed = true)
      | none =>
        itemClick Ext.sample 0 (run Ext.sample (State.initial Panel.blank) overlappingStopTrace) =
          run Ext.sample (State.initial Panel.blank) overlappingStopTrace) :=
  ⟨rfl, by decide, by decide,
    click_shows_latest_own_annotation Ext.sample Panel.blank overlappingStopTrace 0
      ((findNode 0 (run Ext.sample (State.initial Panel.blank) overlappingStopTrace).midmenu).get
        (by decide))
      rfl (by decide) (by decide)⟩

/-- The scenarios of the amended C10, evaluated: after the two overlapping polls of job 55 a
click on the element of instance 100 shows "Stop action succeeded." without the error style;
a placeholder whose deploy job failed shows after a click its failure annotation in the
error style. -/
theorem click_scenarios :
    ((itemClick Ext.sample 0
          (run Ext.sample (State.initial Panel.blank) overlappingStopTrace)).panel.afterActionInfo,
        (itemClick Ext.sample 0
          (run Ext.sample (State.initial Panel.blank)
            overlappingStopTrace)).panel.afterActionInfoShown,
        (itemClick Ext.sample 0
          (run Ext.sample (State.initial Panel.blank)
            overlappingStopTrace)).panel.afterActionInfoErrorbox) =
        ("Stop action succeeded.", true, false) ∧
      ((itemClick Ext.sample 0
          (run Ext.sample deployPolling
            [ .pollDone 0 (.success (some (failedResult "quota"))) ])).panel.afterActionInfo,
        (itemClick Ext.sample 0
          (run Ext.sample deployPolling
            [ .pollDone 0 (.success (some (failedResult "quota"))) ])).panel.afterActionInfoShown,
        (itemClick Ext.sample 0
          (run Ext.sample deployPolling
            [ .pollDone 0
              (.success (some (failedResult "quota"))) ])).panel.afterActionInfoErrorbox) =
        ("Adding failed. Reason: quota", true, true) := by
  decide

/-- The scenario, evaluated: the click after the success of job 55 shows the annotation
"Stop action succeeded." without the error style. -/
theorem click_after_stop_scenario :
    (itemClick Ext.sample 0
        (run Ext.sample (State.initial Panel.blank) stopSucceededTrace)).panel.afterActionInfo =
        "Stop action succeeded." ∧
      (itemClick Ext.sample 0
        (run Ext.sample (State.initial Panel.blank)
          stopSucceededTrace)).panel.afterActionInfoShown = true ∧
      (itemClick Ext.sample 0
        (run Ext.sample (State.initial Panel.blank)
          stopSucceededTrace)).panel.afterActionInfoErrorbox = false := by
  decide

/-! ## The colour of a state (lines 33-49) -/

theorem mem_addClass {name c : String} {classes : List String} :
    c ∈ addClass name classes ↔ c = name ∨ c ∈ classes := by
  unfold addClass
  by_cases h : classes.contains name = true
  · rw [if_pos h]
    constructor
    · exact Or.inr
    · rintro (rfl | h2)
      · simpa using h
      · exact h2
  · rw [if_neg h]
    simp [or_comm]

theorem mem_removeClass {names : List String} {c : String} {classes : List String} :
    c ∈ removeClass names classes ↔ c ∈ classes ∧ c ∉ names := by
  unfold removeClass
  simp

theorem filter_addClass (q : String → Bool) (name : String) (classes : List String)
    (h : q name = false) : (addClass name classes).filter q = classes.filter q := by
  unfold addClass
  split
  · rfl
  · simp [List.filter_append, List.filter_cons, h]

theorem filter_removeClass (q : String → Bool) (names classes : List String)
    (h : ∀ c ∈ names, q c = false) : (removeClass names classes).filter q = classes.filter q := by
  unfold removeClass
  rw [List.filter_filter]
  apply List.filter_congr
  intro c _
  by_cases hc : c ∈ names
  · simp [h c hc]
  · simp [hc]

/-- C19: for every state string both functions choose the colour the specification names
(`specColour`: green for "Running", red for "Stopped", gray for every other value): the
mid-menu function sets the status icon of that colour, and after the right-panel function
the state element has the class of that colour and neither of the other two, so exactly one
of green, red, gray; its text is the state and its other classes are as before. -/
theorem status_colour_agrees (state : String) (t : MidmenuItem) (p : Panel) :
    (updateVirtualMachineStateInMidMenu state t).statusIcon =
        "images/status_" ++ specColour state ++ ".png" ∧
      ("green" ∈ (updateVirtualMachineStateInRightPanel state p).stateClasses ↔
        specColour state = "green") ∧
      ("red" ∈ (updateVirtualMachineStateInRightPanel state p).stateClasses ↔
        specColour state = "red") ∧
      ("gray" ∈ (updateVirtualMachineStateInRightPanel state p).stateClasses ↔
        specColour state = "gray") ∧
      (specColour state = "green" ↔ state = "Running") ∧
      (specColour state = "red" ↔ state = "Stopped") ∧
      (specColour state = "gray" ↔ (state ≠ "Running" ∧ state ≠ "Stopped")) ∧
      (updateVirtualMachineStateInRightPanel state p).stateText = state ∧
      (updateVirtualMachineStateInRightPanel state p).stateClasses.filter
          (fun c => !(["green", "red", "gray"].contains c)) =
        p.stateClasses.filter (fun c => !(["green", "red", "gray"].contains c)) := by
  by_cases hr : state = "Running"
  · subst hr
    refine ⟨by rw [updateVirtualMachineStateInMidMenu_statusIcon]; decide, ?_, ?_, ?_,
      by decide, by decide, by decide, rfl, ?_⟩
    · simp [updateVirtualMachineStateInRightPanel, mem_addClass, specColour]
    · simp [updateVirtualMachineStateInRightPanel, mem_addClass, mem_removeClass, specColour]
    · simp [updateVirtualMachineStateInRightPanel, mem_addClass, mem_removeClass, specColour]
    · simp only [updateVirtualMachineStateInRightPanel, if_true]
      rw [filter_addClass _ _ _ (by decide), filter_removeClass _ _ _ (by decide)]
  · by_cases hs : state = "Stopped"
    · subst hs
      refine ⟨by rw [updateVirtualMachineStateInMidMenu_statusIcon]; decide, ?_, ?_, ?_,
        by decide, by decide, by decide, rfl, ?_⟩
      · simp [updateVirtualMachineStateInRightPanel, mem_addClass, mem_removeClass, specColour]
      · simp [updateVirtualMachineStateInRightPanel, mem_addClass, specColour]
      · simp [updateVirtualMachineStateInRightPanel, mem_addClass, mem_removeClass, specColour]
      · have h : updateVirtualMachineStateInRightPanel "Stopped" p =
            { p with stateText := "Stopped",
                     stateClasses := addClass "red" (removeClass ["green", "gray"] p.stateClasses) } := by
          unfold updateVirtualMachineStateInRightPanel
          simp
        rw [h]
        show List.filter _ (addClass "red" (removeClass ["green", "gray"] p.stateClasses)) = _
        rw [filter_addClass _ _ _ (by decide), filter_removeClass _ _ _ (by decide)]
    · have h : updateVirtualMachineStateInRightPanel state p =
          { p with stateText := state,
                   stateClasses := addClass "gray" (removeClass ["green", "red"] p.stateClasses) } := by
        unfold updateVirtualMachineStateInRightPanel
        simp [hr, hs]
      have hc : specColour state = "gray" := by simp [specColour, hr, hs]
      rw [h, hc, updateVirtualMachineStateInMidMenu_statusIcon]
      refine ⟨by simp [hr, hs], ?_, ?_, ?_, by simp [hr], by simp [hs], by simp [hr, hs], rfl, ?_⟩
      · simp [mem_addClass, mem_removeClass]
      · simp [mem_addClass, mem_removeClass]
      · simp [mem_addClass]
      · show List.filter _ (addClass "gray" (removeClass ["green", "red"] p.stateClasses)) = _
        rw [filter_addClass _ _ _ (by decide), filter_removeClass _ _ _ (by decide)]

/-! ## Timer keys (lines 214 and 820) -/

theorem string_append_left_cancel (p a b : String) (h : p ++ a = p ++ b) : a = b := by
  have h2 := congrArg String.data h
  simp only [String.data_append, List.append_cancel_left_eq] at h2
  exact String.ext h2

theorem bulkTimerKey_eq_iff (j1 j2 : Option String) :
    bulkTimerKey j1 = bulkTimerKey j2 ↔ jsString j1 = jsString j2 :=
  ⟨string_append_left_cancel "asyncJob_" _ _, fun h => by unfold bulkTimerKey; rw [h]⟩

theorem deployTimerKey_eq_iff (j1 j2 : Option String) :
    deployTimerKey j1 = deployTimerKey j2 ↔ jsString j1 = jsString j2 :=
  ⟨string_append_left_cancel "vmNew" _ _, fun h => by unfold deployTimerKey; rw [h]⟩

theorem bulkTimerKey_ne_deployTimerKey (a b : Option String) :
    bulkTimerKey a ≠ deployTimerKey b := by
  intro h
  have h2 := congrArg String.data h
  simp [bulkTimerKey, deployTimerKey, String.data_append] at h2

theorem stopTime_filter_other (k1 k2 : String) (h : k1 ≠ k2) (timers : List Timer) :
    (stopTime k1 timers).filter (fun tm => tm.key == k2) =
      timers.filter (fun tm => tm.key == k2) := by
  unfold stopTime
  rw [List.filter_filter]
  apply List.filter_congr
  intro tm _
  by_cases hk : tm.key = k2
  · have : tm.key ≠ k1 := fun h2 => h (h2.symm.trans hk)
    simp [hk, this, h.symm]
  · simp [hk]

theorem runHandlers_timers (ext : Ext) (node : Nat) (hs : List ClickHandler) :
    ∀ s : State, (hs.foldl (fun acc h => runHandler ext node h acc) s).timers = s.timers := by
  induction hs with
  | nil => intro s; rfl
  | cons hd tl ih =>
    intro s
    rw [List.foldl_cons, ih, (runHandler_core ext node hd s).1]

theorem itemClick_timers (ext : Ext) (node : Nat) (s : State) :
    (itemClick ext node s).timers = s.timers := by
  unfold itemClick
  split
  · rfl
  · exact runHandlers_timers ext node _ s

theorem appendInstances_timers (ext : Ext) (os : List Instance) (s : State) :
    (appendInstances ext os s).timers = s.timers := by
  induction os generalizing s with
  | nil => rfl
  | cons o os ih =>
    unfold appendInstances
    rw [ih]

theorem dispatch_timers (ext : Ext) (a : ActionInfo) (server : String → AjaxResult SubmitJson)
    (s : State) :
    (dispatch ext a server s).timers =
      s.timers ++
        (registeredJobs ext a server (ext.forInKeys s.selectedItemIds)).map (bulkTimer s.dispatches a.label) := by
  rw [dispatch_eq]
  split <;> simp [dispatchLoop_finalState]

/-- Every turn of the event loop keeps the timers keyed as the source computes the key from
the job id of the closure. -/
theorem step_timers_keyed (ext : Ext) (s : State) (e : Event)
    (h : ∀ tm ∈ s.timers, tm.key = tm.ctx.timerKey) :
    ∀ tm ∈ (step ext s e).timers, tm.key = tm.ctx.timerKey := by
  intro tm htm
  cases e with
  | groupClick => exact h tm htm
  | itemClick node =>
    have : (step ext s (.itemClick node)).timers = s.timers := itemClick_timers ext node s
    rw [this] at htm
    exact h tm htm
  | actionClick a server =>
    have : (step ext s (.actionClick a server)).timers = _ := dispatch_timers ext a server s
    rw [this, List.mem_append] at htm
    rcases htm with htm | htm
    · exact h tm htm
    · obtain ⟨job, -, rfl⟩ := List.mem_map.mp htm
      rfl
  | deployClick moreCriteria => exact h tm htm
  | timerFire i =>
    have : (step ext s (.timerFire i)).timers = s.timers := timerFire_timers i s
    rw [this] at htm
    exact h tm htm
  | pollDone i r => exact h tm (pollDone_timers_sub ext i r s tm htm)
  | deployDone i r =>
    have hstep : step ext s (.deployDone i r) = deployDone i r s := rfl
    rw [hstep] at htm
    unfold deployDone at htm
    split at htm
    · cases r with
      | success json =>
        simp only [deploySubmitSuccess] at htm
        split at htm
        · exact h tm htm
        · simp only [everyTime, List.mem_append, List.mem_singleton] at htm
          rcases htm with htm | rfl
          · exact h tm htm
          · rfl
      | error => exact h tm htm
    · exact h tm htm
  | listDone i json =>
    have hstep : step ext s (.listDone i json) = listDone ext i json s := rfl
    rw [hstep] at htm
    unfold listDone at htm
    split at htm
    · unfold listSuccess at htm
      cases json with
      | none => exact h tm htm
      | some os =>
        simp only [] at htm
        rw [appendInstances_timers] at htm
        exact h tm htm
    · exact h tm htm

theorem run_timers_keyed (ext : Ext) (evs : List Event) : ∀ s : State,
    (∀ tm ∈ s.timers, tm.key = tm.ctx.timerKey) →
    ∀ tm ∈ (run ext s evs).timers, tm.key = tm.ctx.timerKey := by
  induction evs with
  | nil => intro s h; exact h
  | cons e evs ih => intro s h; exact ih (step ext s e) (step_timers_keyed ext s e h)

theorem reachable_timers_keyed (ext : Ext) (s : State) (hs : Reachable ext s) :
    ∀ tm ∈ s.timers, tm.key = tm.ctx.timerKey := by
  obtain ⟨p, evs, rfl⟩ := hs
  exact run_timers_keyed ext evs (State.initial p) (fun tm h => by simp [State.initial] at h)

theorem timerKey_ne (c1 c2 : PollCtx) (h : jsString c1.jobId ≠ jsString c2.jobId) :
    c1.timerKey ≠ c2.timerKey := by
  cases c1 with
  | bulk d1 j1 l1 =>
    cases c2 with
    | bulk d2 j2 l2 => exact fun e => h ((bulkTimerKey_eq_iff j1 j2).mp e)
    | deploy n2 j2 => exact bulkTimerKey_ne_deployTimerKey j1 j2
  | deploy n1 j1 =>
    cases c2 with
    | bulk d2 j2 l2 => exact (bulkTimerKey_ne_deployTimerKey j2 j1).symm
    | deploy n2 j2 => exact fun e => h ((deployTimerKey_eq_iff j1 j2).mp e)

/-- C12: in every reachable state each registered timer has the key the source computes from
the job id of its closure, and two registered timers whose job ids differ (as the strings
the key concatenation renders; for ids that are present, the ids themselves) have different
keys, so `stopTime` with the key of the first keeps the second, and keeps all timers under
the key of the second. The key of a bulk-action job differs from the key of a deploy job for
every pair of job ids `a`, `b`, and `stopTime` with one of the two keys leaves the timers
under the other as they are, in every timer list. -/
theorem timer_keys_identify_jobs (ext : Ext) (s : State) (tm1 tm2 : Timer)
    (a b : Option String) (timers : List Timer) (hs : Reachable ext s)
    (h1 : tm1 ∈ s.timers) (h2 : tm2 ∈ s.timers)
    (hdiff : jsString tm1.ctx.jobId ≠ jsString tm2.ctx.jobId) :
    tm1.key = tm1.ctx.timerKey ∧ tm2.key = tm2.ctx.timerKey ∧
      tm1.key ≠ tm2.key ∧
      tm2 ∈ stopTime tm1.key s.timers ∧
      (stopTime tm1.key s.timers).filter (fun tm => tm.key == tm2.key) =
        s.timers.filter (fun tm => tm.key == tm2.key) ∧
      bulkTimerKey a ≠ deployTimerKey b ∧
      (stopTime (bulkTimerKey a) timers).filter (fun tm => tm.key == deployTimerKey b) =
        timers.filter (fun tm => tm.key == deployTimerKey b) ∧
      (stopTime (deployTimerKey b) timers).filter (fun tm => tm.key == bulkTimerKey a) =
        timers.filter (fun tm => tm.key == bulkTimerKey a) := by
  have k1 := reachable_timers_keyed ext s hs tm1 h1
  have k2 := reachable_timers_keyed ext s hs tm2 h2
  have hne : tm1.key ≠ tm2.key := by
    rw [k1, k2]
    exact timerKey_ne _ _ hdiff
  exact ⟨k1, k2, hne, mem_stopTime.mpr ⟨h2, hne.symm⟩, stopTime_filter_other _ _ hne s.timers,
    bulkTimerKey_ne_deployTimerKey a b,
    stopTime_filter_other _ _ (bulkTimerKey_ne_deployTimerKey a b) timers,
    stopTime_filter_other _ _ (bulkTimerKey_ne_deployTimerKey a b).symm timers⟩

/-- Witness of C12: the timers of the bulk-action jobs j1 and j2 after Stop was dispatched
on instances 1 and 2, and the keys of the bulk-action job 55 and the deploy job 55. -/
theorem timer_keys_identify_jobs_witness :
    (⟨"asyncJob_j1", .bulk 0 (some "j1") "Stop"⟩ : Timer) ∈ twoJobsPolling.timers ∧
      (⟨"asyncJob_j2", .bulk 0 (some "j2") "Stop"⟩ : Timer) ∈ twoJobsPolling.timers ∧
      ("asyncJob_j1" = (PollCtx.bulk 0 (some "j1") "Stop").timerKey ∧
        "asyncJob_j2" = (PollCtx.bulk 0 (some "j2") "Stop").timerKey ∧
        "asyncJob_j1" ≠ "asyncJob_j2" ∧
        (⟨"asyncJob_j2", .bulk 0 (some "j2") "Stop"⟩ : Timer) ∈
          stopTime "asyncJob_j1" twoJobsPolling.timers ∧
        (stopTime "asyncJob_j1" twoJobsPolling.timers).filter
            (fun tm => tm.key == "asyncJob_j2") =
          twoJobsPolling.timers.filter (fun tm => tm.key == "asyncJob_j2") ∧
        bulkTimerKey (some "55") ≠ deployTimerKey (some "55") ∧
        (stopTime (bulkTimerKey (some "55")) threeTimers).filter
            (fun tm => tm.key == deployTimerKey (some "55")) =
          threeTimers.filter (fun tm => tm.key == deployTimerKey (some "55")) ∧
        (stopTime (deployTimerKey (some "55")) threeTimers).filter
            (fun tm => tm.key == bulkTimerKey (some "55")) =
          threeTimers.filter (fun tm => tm.key == bulkTimerKey (some "55"))) :=
  ⟨by decide, by decide,
    timer_keys_identify_jobs Ext.sample twoJobsPolling
      ⟨"asyncJob_j1", .bulk 0 (some "j1") "Stop"⟩ ⟨"asyncJob_j2", .bulk 0 (some "j2") "Stop"⟩
      (some "55") (some "55") threeTimers
      ⟨Panel.blank,
        [ .groupClick,
          .listDone 0 (some [Instance.sample "1" "Running", Instance.sample "2" "Running"]),
          .itemClick 0, .itemClick 1, .actionClick stopAction serverOk, .timerFire 0 ], rfl⟩
      (by decide) (by decide)
      (by decide)⟩

/-! ## A poll answer with a status other than 0, 1 and 2 -/

theorem bulkReconcileItem_other (ext : Ext) (label : String) (result : JobResult)
    (t : MidmenuItem) (h1 : result.jobstatus ≠ 1) (h2 : result.jobstatus ≠ 2) :
    bulkReconcileItem ext label result t = { t with spinningWheel := false } := by
  unfold bulkReconcileItem
  simp [h1, h2]

/-- C20: when the poll of a bulk-action job returns a `jobstatus` other than 0, 1 and 2, the
callback cancels the timer of the job and hides the progress indicator of the subject (the
element of the id `jobIdMap[jobId]`) and does nothing else: the annotation, the info icon
with its error mark and the status icon of the subject are as before, no annotation
statement is executed, and the rest of the state is unchanged. -/
theorem bulk_other_status_ends_without_reconciliation (ext : Ext) (key : String) (d : Nat)
    (jobId : Option String) (label : String) (result : JobResult) (s : State) (itemId : String)
    (t : MidmenuItem)
    (h0 : result.jobstatus ≠ 0) (h1 : result.jobstatus ≠ 1) (h2 : result.jobstatus ≠ 2)
    (hmap : jobIdMapGet d jobId s.jobIdMap = some itemId)
    (hitem : findById ("midmenuItemVm_" ++ itemId) s.midmenu = some t) :
    timerRegistered key (bulkPollSuccess ext key d jobId label (some result) s).timers = false ∧
      findById ("midmenuItemVm_" ++ itemId)
          (bulkPollSuccess ext key d jobId label (some result) s).midmenu =
        some { t with spinningWheel := false } ∧
      (bulkPollSuccess ext key d jobId label (some result) s).reconciled = s.reconciled ∧
      bulkPollSuccess ext key d jobId label (some result) s =
        { s with
          timers := stopTime key s.timers
          midmenu := updateById ("midmenuItemVm_" ++ itemId)
            (fun u => { u with spinningWheel := false }) s.midmenu } := by
  have hf : bulkReconcileItem ext label result = fun u => { u with spinningWheel := false } :=
    funext (fun u => bulkReconcileItem_other ext label result u h1 h2)
  have hstate : bulkPollSuccess ext key d jobId label (some result) s =
      { s with
        timers := stopTime key s.timers
        midmenu := updateById ("midmenuItemVm_" ++ itemId)
          (fun u => { u with spinningWheel := false }) s.midmenu } := by
    unfold bulkPollSuccess
    simp only [h0, if_false, hmap, hf, reconciliationOf, h1, h2, List.append_nil, jsString]
  refine ⟨?_, ?_, ?_, hstate⟩
  · rw [hstate]
    exact timerRegistered_stopTime key s.timers
  · rw [hstate]
    show findById ("midmenuItemVm_" ++ itemId) (updateById ("midmenuItemVm_" ++ itemId) _ _) = _
    rw [findById_updateById _ (fun u => { u with spinningWheel := false }) (fun _ => rfl), hitem]
    rfl
  · rw [hstate]

/-- Witness of C20 on the scenario: the poll of job 55 returns status 3. -/
theorem bulk_other_status_ends_without_reconciliation_witness :
    timerRegistered "asyncJob_55"
        (bulkPollSuccess Ext.sample "asyncJob_55" 0 (some "55") "Stop" (some unknownResult)
          stopPolling).timers = false ∧
      findById ("midmenuItemVm_" ++ "100")
          (bulkPollSuccess Ext.sample "asyncJob_55" 0 (some "55") "Stop" (some unknownResult)
            stopPolling).midmenu =
        some { (findById ("midmenuItemVm_" ++ "100") stopPolling.midmenu).get (by decide) with
          spinningWheel := false } ∧
      (bulkPollSuccess Ext.sample "asyncJob_55" 0 (some "55") "Stop" (some unknownResult)
          stopPolling).reconciled = stopPolling.reconciled ∧
      bulkPollSuccess Ext.sample "asyncJob_55" 0 (some "55") "Stop" (some unknownResult)
          stopPolling =
        { stopPolling with
          timers := stopTime "asyncJob_55" stopPolling.timers
          midmenu := updateById ("midmenuItemVm_" ++ "100")
            (fun u => { u with spinningWheel := false }) stopPolling.midmenu } :=
  bulk_other_status_ends_without_reconciliation Ext.sample "asyncJob_55" 0 (some "55") "Stop"
    unknownResult stopPolling "100"
    ((findById ("midmenuItemVm_" ++ "100") stopPolling.midmenu).get (by decide))
    (by decide) (by decide) (by decide) (by decide) (by decide)

/-! ## The end of a deploy job (lines 830-868) -/

theorem deployPollSuccess_midmenu (ext : Ext) (key : String) (node : Nat) (result : JobResult)
    (s : State) (h : result.jobstatus ≠ 0) :
    (deployPollSuccess ext key node (some result) s).midmenu =
      updateNode node (deployReconcileItem ext result) s.midmenu := by
  simp [deployPollSuccess, h]

theorem deployReconcileItem_node (ext : Ext) (result : JobResult) (t : MidmenuItem) :
    (deployReconcileItem ext result t).node = t.node := by
  unfold deployReconcileItem
  simp only []
  split
  · split
    · rfl
    · split
      · rfl
      · exact (setMidmenuItemVm_fields ext _ _).1
  · split <;> rfl

theorem deployReconcileItem_succeeded (ext : Ext) (result : JobResult) (e : Instance)
    (rest : List Instance) (t : MidmenuItem) (hstatus : result.jobstatus = 1)
    (hvm : result.virtualmachine = some (e :: rest)) :
    deployReconcileItem ext result t =
      { t with
        spinningWheel := false, infoIconError := false, infoIcon := true,
        afterActionInfo := some "Adding succeeded.",
        dataJsonObj := some e, attrId := "midmenuItemVm_" ++ e.id, dataId := some e.id,
        vmName := ext.getVmName e.name e.displayname, ipAddress := e.ipaddress,
        statusIcon :=
          (if e.state = "Running" then "images/status_green.png"
           else if e.state = "Stopped" then "images/status_red.png"
           else "images/status_gray.png"),
        clickHandlers := t.clickHandlers ++ [ClickHandler.vmClick] } := by
  unfold deployReconcileItem setMidmenuItemVm
  simp only [hstatus, hvm, if_true, List.head?_cons]
  rw [updateVirtualMachineStateInMidMenu_eq, updateVirtualMachineStateInMidMenu_statusIcon]

theorem find?_congr_mem {α : Type} (p q : α → Bool) (l : List α) (h : ∀ x ∈ l, p x = q x) :
    l.find? p = l.find? q := by
  induction l with
  | nil => rfl
  | cons x xs ih =>
    rw [List.find?_cons, List.find?_cons, h x (List.mem_cons_self x xs),
      ih (fun y hy => h y (List.mem_cons_of_mem x hy))]

/-- C14: when the poll of a deploy job returns `jobstatus` 1 with the entity `e`, the timer
of the job is cancelled and the placeholder (the node `$t`, in the container) becomes the
entity view of `e`: element id `"midmenuItemVm_" + e.id`, stored id `e.id`, stored record
`e`, name `getVmName(e.name, e.displayname)`, IP address of `e`, status icon of the state of
`e`, progress indicator hidden, info icon shown without the error mark, annotation
"Adding succeeded.", and the click handler of an instance element bound. When no other
element has that element id, `$("#midmenuItemVm_" + e.id)`, which a later bulk dispatch on
`e.id` uses, addresses this element. -/
theorem deploy_success_materializes (ext : Ext) (key : String) (node : Nat) (result : JobResult)
    (e : Instance) (rest : List Instance) (s : State) (t : MidmenuItem)
    (hstatus : result.jobstatus = 1) (hvm : result.virtualmachine = some (e :: rest))
    (hitem : findNode node s.midmenu = some t) :
    timerRegistered key (deployPollSuccess ext key node (some result) s).timers = false ∧
      ∃ t2, findNode node (deployPollSuccess ext key node (some result) s).midmenu = some t2 ∧
        t2.attrId = "midmenuItemVm_" ++ e.id ∧ t2.dataId = some e.id ∧
        t2.dataJsonObj = some e ∧
        t2.vmName = ext.getVmName e.name e.displayname ∧ t2.ipAddress = e.ipaddress ∧
        t2.statusIcon =
          (if e.state = "Running" then "images/status_green.png"
           else if e.state = "Stopped" then "images/status_red.png"
           else "images/status_gray.png") ∧
        t2.spinningWheel = false ∧ t2.infoIcon = true ∧ t2.infoIconError = false ∧
        t2.afterActionInfo = some "Adding succeeded." ∧
        t2.clickHandlers = t.clickHandlers ++ [ClickHandler.vmClick] ∧
        ((∀ u ∈ s.midmenu, u.node ≠ node → u.attrId ≠ "midmenuItemVm_" ++ e.id) →
          findById ("midmenuItemVm_" ++ e.id)
            (deployPollSuccess ext key node (some result) s).midmenu = some t2) := by
  have hne : result.jobstatus ≠ 0 := by rw [hstatus]; decide
  have hfind : findNode node (deployPollSuccess ext key node (some result) s).midmenu =
      some (deployReconcileItem ext result t) := by
    rw [deployPollSuccess_midmenu ext key node result s hne,
      findNode_updateNode node node (deployReconcileItem ext result)
        (deployReconcileItem_node ext result), hitem]
    simp [findNode_node hitem]
  refine ⟨?_, deployReconcileItem ext result t, hfind, ?_⟩
  · rw [deployPollSuccess_timers]
    simp [hne, timerRegistered_stopTime]
  · have hrec := deployReconcileItem_succeeded ext result e rest
    refine ⟨?_, ?_, ?_, ?_, ?_, ?_, ?_, ?_, ?_, ?_, ?_, ?_⟩
    iterate 11 rw [hrec t hstatus hvm]
    intro hfresh
    rw [← hfind, deployPollSuccess_midmenu ext key node result s hne]
    unfold findById findNode updateNode
    apply find?_congr_mem
    intro x hx
    obtain ⟨u, hu, rfl⟩ := List.mem_map.mp hx
    by_cases hn : u.node = node
    · rw [if_pos hn, hrec u hstatus hvm]
      simp [hn]
    · rw [if_neg hn]
      simp [hn, hfresh u hu hn]

/-- Witness of C14 on the scenario: the poll of deploy job 77 returns status 1 with the
new instance 200. -/
theorem deploy_success_materializes_witness :
    timerRegistered "vmNew77"
        (deployPollSuccess Ext.sample "vmNew77" 0 (some deployedResult) deployPolling).timers =
        false ∧
      ∃ t2, findNode 0
          (deployPollSuccess Ext.sample "vmNew77" 0 (some deployedResult) deployPolling).midmenu =
            some t2 ∧
        t2.attrId = "midmenuItemVm_" ++ (Instance.sample "200" "Running").id ∧
        t2.dataId = some (Instance.sample "200" "Running").id ∧
        t2.dataJsonObj = some (Instance.sample "200" "Running") ∧
        t2.vmName = Ext.sample.getVmName (Instance.sample "200" "Running").name
          (Instance.sample "200" "Running").displayname ∧
        t2.ipAddress = (Instance.sample "200" "Running").ipaddress ∧
        t2.statusIcon =
          (if (Instance.sample "200" "Running").state = "Running" then "images/status_green.png"
           else if (Instance.sample "200" "Running").state = "Stopped" then
             "images/status_red.png"
           else "images/status_gray.png") ∧
        t2.spinningWheel = false ∧ t2.infoIcon = true ∧ t2.infoIconError = false ∧
        t2.afterActionInfo = some "Adding succeeded." ∧
        t2.clickHandlers =
          ((findNode 0 deployPolling.midmenu).get (by decide)).clickHandlers ++
            [ClickHandler.vmClick] ∧
        ((∀ u ∈ deployPolling.midmenu, u.node ≠ 0 →
            u.attrId ≠ "midmenuItemVm_" ++ (Instance.sample "200" "Running").id) →
          findById ("midmenuItemVm_" ++ (Instance.sample "200" "Running").id)
            (deployPollSuccess Ext.sample "vmNew77" 0 (some deployedResult)
              deployPolling).midmenu = some t2) :=
  deploy_success_materializes Ext.sample "vmNew77" 0 deployedResult
    (Instance.sample "200" "Running") [] deployPolling
    ((findNode 0 deployPolling.midmenu).get (by decide)) (by decide) (by decide) (by decide)

theorem deployReconcileItem_failed (ext : Ext) (result : JobResult) (t : MidmenuItem)
    (hstatus : result.jobstatus = 2) :
    deployReconcileItem ext result t =
      { t with
        spinningWheel := false, vmName := "Adding failed", infoIconError := true,
        infoIcon := true,
        afterActionInfo := some ("Adding failed. Reason: " ++ ext.sanitizeXSS result.jobresult),
        clickHandlers := t.clickHandlers ++ [ClickHandler.addingFailedClick] } := by
  unfold deployReconcileItem
  simp [hstatus]

/-- C15, counterexample: the deploy job 77 is polled and the answer has `jobstatus` 2 with
the reason `<script>x</script>quota exceeded`; the sanitizer returns "quota exceeded" for it.
The annotation stored on the placeholder is "Adding failed. Reason: quota exceeded", which
is not the sanitized string itself. -/
theorem deploy_failure_annotation_is_composed :
    Ext.stripping.sanitizeXSS quotaResult.jobresult = "quota exceeded" ∧
      (findNode 0
          (deployPollSuccess Ext.stripping "vmNew77" 0 (some quotaResult) deployPolling).midmenu).map
          (fun t => t.afterActionInfo) =
        some (some "Adding failed. Reason: quota exceeded") ∧
      (findNode 0
          (deployPollSuccess Ext.stripping "vmNew77" 0 (some quotaResult) deployPolling).midmenu).map
          (fun t => t.afterActionInfo) ≠
        some (some (Ext.stripping.sanitizeXSS quotaResult.jobresult)) := by
  decide

/-- C15, amended: when the poll of a deploy job returns `jobstatus` 2 with job result `r`,
the annotation stored on the placeholder is "Adding failed. Reason: " followed by
`sanitizeXSS(r)`, and that text is the one recorded for the job; the placeholder is named
"Adding failed", shows its info icon with the error mark and hides its progress indicator.
The state after the callback depends on `r` only through `sanitizeXSS(r)`: two results with
status 2 whose reasons have the same sanitized string leave the same state. -/
theorem deploy_failure_annotation_is_sanitized (ext : Ext) (key : String) (node : Nat)
    (result result2 : JobResult) (s : State) (t : MidmenuItem)
    (hstatus : result.jobstatus = 2) (hitem : findNode node s.midmenu = some t)
    (hstatus2 : result2.jobstatus = 2)
    (hsame : ext.sanitizeXSS result2.jobresult = ext.sanitizeXSS result.jobresult) :
    (∃ t2, findNode node (deployPollSuccess ext key node (some result) s).midmenu = some t2 ∧
        t2.afterActionInfo =
          some ("Adding failed. Reason: " ++ ext.sanitizeXSS result.jobresult) ∧
        t2.vmName = "Adding failed" ∧ t2.infoIcon = true ∧ t2.infoIconError = true ∧
        t2.spinningWheel = false) ∧
      (deployPollSuccess ext key node (some result) s).reconciled =
        s.reconciled ++
          [{ key := key, node := some node, failed := true,
             text := "Adding failed. Reason: " ++ ext.sanitizeXSS result.jobresult }] ∧
      deployPollSuccess ext key node (some result2) s =
        deployPollSuccess ext key node (some result) s := by
  have hne : result.jobstatus ≠ 0 := by rw [hstatus]; decide
  have hne2 : result2.jobstatus ≠ 0 := by rw [hstatus2]; decide
  refine ⟨⟨deployReconcileItem ext result t, ?_, ?_⟩, ?_, ?_⟩
  · rw [deployPollSuccess_midmenu ext key node result s hne,
      findNode_updateNode node node (deployReconcileItem ext result)
        (deployReconcileItem_node ext result), hitem]
    simp [findNode_node hitem]
  · rw [deployReconcileItem_failed ext result t hstatus]
    exact ⟨rfl, rfl, rfl, rfl, rfl⟩
  · rw [deployPollSuccess_reconciled]
    simp [reconciliationOf, hstatus]
  · have hf : deployReconcileItem ext result2 = deployReconcileItem ext result := by
      funext u
      rw [deployReconcileItem_failed ext result u hstatus,
        deployReconcileItem_failed ext result2 u hstatus2, hsame]
    unfold deployPollSuccess
    simp only [hne, hne2, if_false, hf, hsame, reconciliationOf, hstatus, hstatus2]

/-- Witness of the amended C15 on the scenario: the reason with the script element and the
reason "quota exceeded" have the same sanitized string. -/
theorem deploy_failure_annotation_is_sanitized_witness :
    (∃ t2, findNode 0
          (deployPollSuccess Ext.stripping "vmNew77" 0 (some quotaResult) deployPolling).midmenu =
            some t2 ∧
        t2.afterActionInfo =
          some ("Adding failed. Reason: " ++ Ext.stripping.sanitizeXSS quotaResult.jobresult) ∧
        t2.vmName = "Adding failed" ∧ t2.infoIcon = true ∧ t2.infoIconError = true ∧
        t2.spinningWheel = false) ∧
      (deployPollSuccess Ext.stripping "vmNew77" 0 (some quotaResult) deployPolling).reconciled =
        deployPolling.reconciled ++
          [{ key := "vmNew77", node := some 0, failed := true,
             text := "Adding failed. Reason: " ++
               Ext.stripping.sanitizeXSS quotaResult.jobresult }] ∧
      deployPollSuccess Ext.stripping "vmNew77" 0 (some (failedResult "quota exceeded"))
          deployPolling =
        deployPollSuccess Ext.stripping "vmNew77" 0 (some quotaResult) deployPolling :=
  deploy_failure_annotation_is_sanitized Ext.stripping "vmNew77" 0 quotaResult
    (failedResult "quota exceeded") deployPolling
    ((findNode 0 deployPolling.midmenu).get (by decide)) (by decide) (by decide) (by decide)
    (by decide)

/-! ## Dispatch of an action that is not an asynchronous job (lines 203-263) -/

theorem visitedIds_sync (ext : Ext) (a : ActionInfo) (server : String → AjaxResult SubmitJson)
    (h : a.isAsyncJob = false) (ids : List String) : visitedIds ext a server ids = ids := by
  induction ids with
  | nil => rfl
  | cons id ids ih => simp [visitedIds, raises, h, ih]

theorem registeredJobs_sync (ext : Ext) (a : ActionInfo)
    (server : String → AjaxResult SubmitJson) (h : a.isAsyncJob = false) (ids : List String) :
    registeredJobs ext a server ids = [] := by
  induction ids with
  | nil => rfl
  | cons id ids ih => simp [registeredJobs, raises, h, ih]

theorem updateById_comm (d1 d2 : String) (f g : MidmenuItem → MidmenuItem)
    (hf : ∀ t, (f t).attrId = t.attrId) (hg : ∀ t, (g t).attrId = t.attrId) (hne : d1 ≠ d2)
    (items : List MidmenuItem) :
    updateById d1 f (updateById d2 g items) = updateById d2 g (updateById d1 f items) := by
  induction items with
  | nil => rfl
  | cons t ts ih =>
    by_cases h1 : t.attrId = d1
    · have h2 : t.attrId ≠ d2 := fun h => hne (h1.symm.trans h)
      simp [updateById, h1, h2, hf, hne]
    · by_cases h2 : t.attrId = d2
      · have h3 : ¬ d2 = d1 := fun h => hne h.symm
        simp [updateById, h2, hg, h3]
      · simp [updateById, h1, h2, ih]

/-- Marking two elements busy gives the same container in either order. -/
theorem markBusy_comm (x y : String) (items : List MidmenuItem) :
    markBusy y (markBusy x items) = markBusy x (markBusy y items) := by
  by_cases h : x = y
  · rw [h]
  · unfold markBusy
    apply updateById_comm
    · intro t; rfl
    · intro t; rfl
    · intro h2
      apply h
      have h3 := congrArg String.data h2
      simp only [String.data_append, List.append_cancel_left_eq] at h3
      exact (String.ext h3).symm

/-- The container after marking a list of elements busy does not depend on the order. -/
theorem markBusy_foldl_perm {l1 l2 : List String} (hp : l1.Perm l2) (items : List MidmenuItem) :
    l1.foldl (fun m id => markBusy id m) items = l2.foldl (fun m id => markBusy id m) items :=
  hp.foldl_eq' (fun x _ y _ z => markBusy_comm x y z) items

theorem dispatch_sync (ext : Ext) (a : ActionInfo) (server : String → AjaxResult SubmitJson)
    (s : State) (h : a.isAsyncJob = false) :
    dispatch ext a server s =
      { s with
        actionMenuShown := false
        dispatches := s.dispatches + 1
        selectedItemIds := []
        midmenu := s.selectedItemIds.foldl (fun m id => markBusy id m) s.midmenu } := by
  have hno : (ext.forInKeys s.selectedItemIds).any (raises ext a server) = false := by
    simp [raises, h]
  rw [dispatch_eq, hno, dispatchLoop_finalState]
  simp [visitedIds_sync ext a server h, registeredJobs_sync ext a server h, submittedIds, h,
    markBusy_foldl_perm (ext.forInKeys_perm s.selectedItemIds)]

theorem findById_updateById_ne (dom other : String) (f : MidmenuItem → MidmenuItem)
    (hf : ∀ t, (f t).attrId = t.attrId) (hne : other ≠ dom) (items : List MidmenuItem) :
    findById dom (updateById other f items) = findById dom items := by
  induction items with
  | nil => rfl
  | cons u us ih =>
    unfold findById at ih ⊢
    unfold updateById
    by_cases hu : u.attrId = other
    · have hud : u.attrId ≠ dom := fun e => hne (hu.symm.trans e)
      simp [hu, hf, List.find?_cons, hne, hud]
    · by_cases hd : u.attrId = dom
      · rw [if_neg hu]
        simp [hd, List.find?_cons]
      · rw [if_neg hu]
        simp [hd, List.find?_cons, ih]

theorem findById_markBusy_all (id : String) : ∀ (ids : List String) (items : List MidmenuItem),
    findById ("midmenuItemVm_" ++ id) (ids.foldl (fun m i => markBusy i m) items) =
      if id ∈ ids then
        (findById ("midmenuItemVm_" ++ id) items).map
          (fun t => { t with spinningWheel := true, infoIcon := false })
      else findById ("midmenuItemVm_" ++ id) items := by
  intro ids
  induction ids with
  | nil => intro items; rfl
  | cons i ids ih =>
    intro items
    rw [List.foldl_cons, ih]
    by_cases hi : i = id
    · subst hi
      have h1 : findById ("midmenuItemVm_" ++ i) (markBusy i items) =
          (findById ("midmenuItemVm_" ++ i) items).map
            (fun t => { t with spinningWheel := true, infoIcon := false }) :=
        findById_updateById _ (fun t => { t with spinningWheel := true, infoIcon := false })
          (fun _ => rfl) items
      rw [h1]
      by_cases hmem : i ∈ ids
      · simp only [hmem, if_true, List.mem_cons, true_or]
        cases findById ("midmenuItemVm_" ++ i) items <;> rfl
      · simp [hmem]
    · have hne : "midmenuItemVm_" ++ i ≠ "midmenuItemVm_" ++ id :=
        fun e => hi (string_append_left_cancel _ _ _ e)
      have h1 : findById ("midmenuItemVm_" ++ id) (markBusy i items) =
          findById ("midmenuItemVm_" ++ id) items :=
        findById_updateById_ne _ _ (fun t => { t with spinningWheel := true, infoIcon := false })
          (fun _ => rfl) hne items
      rw [h1]
      have : (id ∈ i :: ids) ↔ id ∈ ids := by
        simp [List.mem_cons, Ne.symm hi]
      simp only [this]

theorem markBusy_all_getElem?_of_ne : ∀ (ids : List String) (items : List MidmenuItem) (n : Nat)
    (u : MidmenuItem), items[n]? = some u → (∀ i ∈ ids, u.attrId ≠ "midmenuItemVm_" ++ i) →
    (ids.foldl (fun m i => markBusy i m) items)[n]? = some u := by
  intro ids
  induction ids with
  | nil => intro items n u h _; exact h
  | cons i ids ih =>
    intro items n u h hne
    rw [List.foldl_cons]
    apply ih
    · exact updateById_getElem?_of_ne _ _ items n u h (hne i (List.mem_cons_self i ids))
    · exact fun j hj => hne j (List.mem_cons_of_mem i hj)

theorem markBusy_other_fields (id : String) (items : List MidmenuItem) :
    (markBusy id items).map (fun t => { t with spinningWheel := false, infoIcon := false }) =
      items.map (fun t => { t with spinningWheel := false, infoIcon := false }) := by
  unfold markBusy
  induction items with
  | nil => rfl
  | cons u us ih =>
    unfold updateById
    split
    · rfl
    · rw [List.map_cons, List.map_cons, ih]

theorem markBusy_all_other_fields : ∀ (ids : List String) (items : List MidmenuItem),
    (ids.foldl (fun m i => markBusy i m) items).map
        (fun t => { t with spinningWheel := false, infoIcon := false }) =
      items.map (fun t => { t with spinningWheel := false, infoIcon := false }) := by
  intro ids
  induction ids with
  | nil => intro items; rfl
  | cons i ids ih => intro items; rw [List.foldl_cons, ih, markBusy_other_fields]

/-- C13, counterexample: the elements of instances 1 and 2 are selected and show no progress
indicator; an action with `isAsyncJob` false is dispatched. No request is sent, but both
elements now show their progress indicator (lines 204-205 run before the flag is tested). -/
theorem sync_dispatch_shows_progress_indicator :
    syncAction.isAsyncJob = false ∧
      twoSelected.selectedItemIds = ["1", "2"] ∧
      twoSelected.midmenu.map (fun t => (t.attrId, t.spinningWheel)) =
        [("midmenuItemVm_1", false), ("midmenuItemVm_2", false)] ∧
      (dispatch Ext.sample syncAction serverOk twoSelected).midmenu.map
          (fun t => (t.attrId, t.spinningWheel)) =
        [("midmenuItemVm_1", true), ("midmenuItemVm_2", true)] ∧
      (dispatch Ext.sample syncAction serverOk twoSelected).requests = twoSelected.requests := by
  decide

/-- C13, amended: for an action whose `isAsyncJob` flag is false the dispatch hides the
action menu, empties the selection and, for every selected id, makes the element
`#midmenuItemVm_<id>` show its progress indicator and hide its info icon; it changes nothing
else: no request is sent, no timer is registered, no job mapping is recorded, the elements
no selected id addresses are as before and no other field of any element changes. -/
theorem sync_dispatch_only_marks_busy (ext : Ext) (a : ActionInfo)
    (server : String → AjaxResult SubmitJson) (s : State) (h : a.isAsyncJob = false) :
    dispatch ext a server s =
        { s with
          actionMenuShown := false
          dispatches := s.dispatches + 1
          selectedItemIds := []
          midmenu := s.selectedItemIds.foldl (fun m id => markBusy id m) s.midmenu } ∧
      (dispatch ext a server s).requests = s.requests ∧
      (dispatch ext a server s).timers = s.timers ∧
      (dispatch ext a server s).jobIdMap = s.jobIdMap ∧
      (dispatch ext a server s).selectedItemIds = [] ∧
      (∀ id t, id ∈ s.selectedItemIds →
        findById ("midmenuItemVm_" ++ id) s.midmenu = some t →
        findById ("midmenuItemVm_" ++ id) (dispatch ext a server s).midmenu =
          some { t with spinningWheel := true, infoIcon := false }) ∧
      (∀ (n : Nat) (u : MidmenuItem), s.midmenu[n]? = some u →
        (∀ id ∈ s.selectedItemIds, u.attrId ≠ "midmenuItemVm_" ++ id) →
        (dispatch ext a server s).midmenu[n]? = some u) ∧
      (dispatch ext a server s).midmenu.map
          (fun t => { t with spinningWheel := false, infoIcon := false }) =
        s.midmenu.map (fun t => { t with spinningWheel := false, infoIcon := false }) := by
  have hd := dispatch_sync ext a server s h
  refine ⟨hd, ?_, ?_, ?_, ?_, ?_, ?_, ?_⟩
  · rw [hd]
  · rw [hd]
  · rw [hd]
  · rw [hd]
  · intro id t hid ht
    rw [hd]
    show findById _ (s.selectedItemIds.foldl (fun m id => markBusy id m) s.midmenu) = _
    rw [findById_markBusy_all, if_pos hid, ht]
    rfl
  · intro n u hu hne
    rw [hd]
    exact markBusy_all_getElem?_of_ne _ _ n u hu hne
  · rw [hd]
    exact markBusy_all_other_fields _ _

/-- Witness of the amended C13: the action without asynchronous job dispatched on the
selection of instances 1 and 2. -/
theorem sync_dispatch_only_marks_busy_witness :
    syncAction.isAsyncJob = false ∧
      (dispatch Ext.sample syncAction serverOk twoSelected =
        { twoSelected with
          actionMenuShown := false
          dispatches := twoSelected.dispatches + 1
          selectedItemIds := []
          midmenu :=
            twoSelected.selectedItemIds.foldl (fun m id => markBusy id m) twoSelected.midmenu } ∧
      (dispatch Ext.sample syncAction serverOk twoSelected).requests = twoSelected.requests ∧
      (dispatch Ext.sample syncAction serverOk twoSelected).timers = twoSelected.timers ∧
      (dispatch Ext.sample syncAction serverOk twoSelected).jobIdMap = twoSelected.jobIdMap ∧
      (dispatch Ext.sample syncAction serverOk twoSelected).selectedItemIds = [] ∧
      (∀ id t, id ∈ twoSelected.selectedItemIds →
        findById ("midmenuItemVm_" ++ id) twoSelected.midmenu = some t →
        findById ("midmenuItemVm_" ++ id)
            (dispatch Ext.sample syncAction serverOk twoSelected).midmenu =
          some { t with spinningWheel := true, infoIcon := false }) ∧
      (∀ (n : Nat) (u : MidmenuItem), twoSelected.midmenu[n]? = some u →
        (∀ id ∈ twoSelected.selectedItemIds, u.attrId ≠ "midmenuItemVm_" ++ id) →
        (dispatch Ext.sample syncAction serverOk twoSelected).midmenu[n]? = some u) ∧
      (dispatch Ext.sample syncAction serverOk twoSelected).midmenu.map
          (fun t => { t with spinningWheel := false, infoIcon := false }) =
        twoSelected.midmenu.map (fun t => { t with spinningWheel := false, infoIcon := false })) :=
  ⟨by decide, sync_dispatch_only_marks_busy Ext.sample syncAction serverOk twoSelected (by decide)⟩

/-! ## The scope of an error (lines 222-246, 857-889) -/

theorem stopTime_filter_ne (key : String) (timers : List Timer) :
    (stopTime key timers).filter (fun tm => tm.key != key) =
      timers.filter (fun tm => tm.key != key) := by
  unfold stopTime
  rw [List.filter_filter]
  apply List.filter_congr
  intro tm _
  simp

theorem reconciliationOf_key (key : String) (node : Option Nat) (a b : String)
    (result : JobResult) : ∀ r ∈ reconciliationOf key node a b result, r.key = key := by
  intro r hr
  unfold reconciliationOf at hr
  split at hr
  · simp only [List.mem_singleton] at hr; rw [hr]
  · split at hr
    · simp only [List.mem_singleton] at hr; rw [hr]
    · simp at hr

theorem filter_append_reconciliationOf (key : String) (node : Option Nat) (a b : String)
    (result : JobResult) (log : List Reconciliation) :
    (log ++ reconciliationOf key node a b result).filter (fun r => r.key != key) =
      log.filter (fun r => r.key != key) := by
  rw [List.filter_append]
  have : (reconciliationOf key node a b result).filter (fun r => r.key != key) = [] := by
    rw [List.filter_eq_nil_iff]
    intro r hr
    simp [reconciliationOf_key key node a b result r hr]
  rw [this, List.append_nil]

theorem updateById_length (dom : String) (f : MidmenuItem → MidmenuItem)
    (items : List MidmenuItem) : (updateById dom f items).length = items.length := by
  induction items with
  | nil => rfl
  | cons u us ih =>
    unfold updateById
    split
    · rfl
    · simp [ih]

theorem updateNode_getElem?_of_ne (node : Nat) (f : MidmenuItem → MidmenuItem)
    (items : List MidmenuItem) (n : Nat) (u : MidmenuItem) (h : items[n]? = some u)
    (hne : u.node ≠ node) : (updateNode node f items)[n]? = some u := by
  unfold updateNode
  rw [List.getElem?_map, h]
  simp [hne]

theorem Scoped.refl (key : String) (subject : MidmenuItem → Bool) (s : State) :
    Scoped key subject s s :=
  ⟨rfl, fun _ h => h, rfl, rfl, rfl, rfl, rfl, rfl, rfl, fun _ _ h _ => h⟩

theorem bulkPollSuccess_scoped (ext : Ext) (key : String) (d : Nat) (jobId : Option String)
    (label : String) (json : Option JobResult) (s : State) :
    Scoped key (PollCtx.isSubject (.bulk d jobId label) s.jobIdMap) s
      (bulkPollSuccess ext key d jobId label json s) := by
  unfold bulkPollSuccess
  cases json with
  | none => exact Scoped.refl _ _ s
  | some result =>
    simp only []
    split
    · exact Scoped.refl _ _ s
    · refine ⟨stopTime_filter_ne key s.timers, stopTime_sub key s.timers, rfl, rfl, rfl, rfl,
        rfl, filter_append_reconciliationOf _ _ _ _ _ _, updateById_length _ _ _, ?_⟩
      intro n u hu hsub
      apply updateById_getElem?_of_ne _ _ _ n u hu
      simpa [PollCtx.isSubject] using hsub

theorem bulkPollError_scoped (ext : Ext) (key : String) (subject : MidmenuItem → Bool)
    (s : State) : Scoped key subject s (bulkPollError ext key s) := by
  unfold bulkPollError
  split
  · exact ⟨stopTime_filter_ne key s.timers, stopTime_sub key s.timers, rfl, rfl, rfl, rfl,
      rfl, rfl, rfl, fun _ _ h _ => h⟩
  · exact Scoped.refl _ _ s

theorem deployPollSuccess_scoped (ext : Ext) (key : String) (node : Nat) (jobId : Option String)
    (json : Option JobResult) (s : State) :
    Scoped key (PollCtx.isSubject (.deploy node jobId) s.jobIdMap) s
      (deployPollSuccess ext key node json s) := by
  unfold deployPollSuccess
  cases json with
  | none => exact Scoped.refl _ _ s
  | some result =>
    simp only []
    split
    · exact Scoped.refl _ _ s
    · refine ⟨stopTime_filter_ne key s.timers, stopTime_sub key s.timers, rfl, rfl, rfl, rfl,
        rfl, filter_append_reconciliationOf _ _ _ _ _ _, ?_, ?_⟩
      · simp [updateNode]
      · intro n u hu hsub
        apply updateNode_getElem?_of_ne _ _ _ n u hu
        simpa [PollCtx.isSubject] using hsub

theorem deployPollError_scoped (key : String) (node : Nat) (jobId : Option String) (s : State) :
    Scoped key (PollCtx.isSubject (.deploy node jobId) s.jobIdMap) s
      (deployPollError key node s) := by
  unfold deployPollError
  refine ⟨stopTime_filter_ne key s.timers, stopTime_sub key s.timers, rfl, rfl, rfl, rfl,
    rfl, rfl, ?_, ?_⟩
  · simp [updateNode]
  · intro n u hu hsub
    apply updateNode_getElem?_of_ne _ _ _ n u hu
    simpa [PollCtx.isSubject] using hsub

/-- Every answer to a poll of the job `key`, whatever it is, leaves the rest of the state as
it was, up to the removal of the answered request. -/
theorem pollDone_scoped (ext : Ext) (s : State) (i : Nat) (key : String) (ctx : PollCtx)
    (r : AjaxResult (Option JobResult)) (hpend : s.pending[i]? = some (Pending.poll key ctx)) :
    Scoped key (ctx.isSubject s.jobIdMap) { s with pending := s.pending.eraseIdx i }
      (pollDone ext i r s) := by
  unfold pollDone
  rw [hpend]
  cases ctx with
  | bulk d jobId label =>
    cases r with
    | success json =>
      exact bulkPollSuccess_scoped ext key d jobId label json
        { s with pending := s.pending.eraseIdx i }
    | error => exact bulkPollError_scoped ext key _ { s with pending := s.pending.eraseIdx i }
  | deploy node jobId =>
    cases r with
    | success json =>
      exact deployPollSuccess_scoped ext key node jobId json
        { s with pending := s.pending.eraseIdx i }
    | error =>
      exact deployPollError_scoped key node jobId { s with pending := s.pending.eraseIdx i }

theorem pollDone_error_timer (ext : Ext) (s : State) (i : Nat) (key : String) (ctx : PollCtx)
    (r : AjaxResult (Option JobResult)) (hpend : s.pending[i]? = some (Pending.poll key ctx))
    (hr : isJobError r = true) :
    timerRegistered key (pollDone ext i r s).timers = false ∨
      (r = AjaxResult.error ∧ ctx.node? = none ∧ ext.spinningWheelBound = false ∧
        (pollDone ext i r s).timers = s.timers) := by
  unfold pollDone
  rw [hpend]
  cases ctx with
  | bulk d jobId label =>
    cases r with
    | success json =>
      cases json with
      | none => simp [isJobError] at hr
      | some result =>
        have h2 : result.jobstatus = 2 := by simpa [isJobError] using hr
        have hne : result.jobstatus ≠ 0 := by rw [h2]; decide
        left
        simp only []
        rw [bulkPollSuccess_timers]
        simp [hne, timerRegistered_stopTime]
    | error =>
      cases hb : ext.spinningWheelBound with
      | true =>
        left
        simp [bulkPollError, hb, timerRegistered_stopTime]
      | false =>
        right
        simp [bulkPollError, hb, PollCtx.node?]
  | deploy node jobId =>
    left
    cases r with
    | success json =>
      cases json with
      | none => simp [isJobError] at hr
      | some result =>
        have h2 : result.jobstatus = 2 := by simpa [isJobError] using hr
        have hne : result.jobstatus ≠ 0 := by rw [h2]; decide
        simp only []
        rw [deployPollSuccess_timers]
        simp [hne, timerRegistered_stopTime]
    | error => simp [deployPollError, timerRegistered_stopTime]

/-- The frame of an error: when an outstanding poll of the job `key` (of a bulk action or of
a deploy) is answered with `jobstatus` 2 or fails in transport, the timers registered under
every other
key are as before and none is added, every element of the mid menu that is not the subject
of the job is as before with its view state and annotation, and the selection set, the
right panel, `jobIdMap`, the other outstanding requests and the annotations recorded for
other jobs are unchanged. The timers under `key` itself are cancelled, except after a
transport failure of a bulk-action poll when `$spinningWheel` is unbound: there the callback
raises first and no timer changes. -/
theorem errors_are_scoped (ext : Ext) (s : State) (i : Nat) (key : String) (ctx : PollCtx)
    (r : AjaxResult (Option JobResult)) (hpend : s.pending[i]? = some (Pending.poll key ctx))
    (hr : isJobError r = true) :
    (pollDone ext i r s).timers.filter (fun tm => tm.key != key) =
        s.timers.filter (fun tm => tm.key != key) ∧
      (∀ tm ∈ (pollDone ext i r s).timers, tm ∈ s.timers) ∧
      (timerRegistered key (pollDone ext i r s).timers = false ∨
        (r = AjaxResult.error ∧ ctx.node? = none ∧ ext.spinningWheelBound = false ∧
          (pollDone ext i r s).timers = s.timers)) ∧
      (pollDone ext i r s).midmenu.length = s.midmenu.length ∧
      (∀ (n : Nat) (u : MidmenuItem), s.midmenu[n]? = some u →
        ctx.isSubject s.jobIdMap u = false → (pollDone ext i r s).midmenu[n]? = some u) ∧
      (pollDone ext i r s).selectedItemIds = s.selectedItemIds ∧
      (pollDone ext i r s).panel = s.panel ∧
      (pollDone ext i r s).jobIdMap = s.jobIdMap ∧
      (pollDone ext i r s).pending = s.pending.eraseIdx i ∧
      (pollDone ext i r s).requests = s.requests ∧
      (pollDone ext i r s).reconciled.filter (fun x => x.key != key) =
        s.reconciled.filter (fun x => x.key != key) := by
  obtain ⟨g1, g2, g3, g4, g5, g6, g7, g8, g9, g10⟩ := pollDone_scoped ext s i key ctx r hpend
  exact ⟨g1, g2, pollDone_error_timer ext s i key ctx r hpend hr, g9, g10, g3, g4, g5, g6, g7,
    g8⟩

/-- The frame of an error on the scenario: the poll of the bulk-action job j1 fails with
status 2 while job j2 is tracked as well. -/
theorem errors_are_scoped_witness :
    twoJobsPolling.pending[0]? =
        some (Pending.poll "asyncJob_j1" (PollCtx.bulk 0 (some "j1") "Stop")) ∧
      isJobError (.success (some (failedResult "host down"))) = true ∧
      ((pollDone Ext.sample 0 (.success (some (failedResult "host down")))
            twoJobsPolling).timers.filter (fun tm => tm.key != "asyncJob_j1") =
          twoJobsPolling.timers.filter (fun tm => tm.key != "asyncJob_j1") ∧
        (∀ tm ∈ (pollDone Ext.sample 0 (.success (some (failedResult "host down")))
            twoJobsPolling).timers, tm ∈ twoJobsPolling.timers) ∧
        (timerRegistered "asyncJob_j1"
            (pollDone Ext.sample 0 (.success (some (failedResult "host down")))
              twoJobsPolling).timers = false ∨
          (AjaxResult.success (some (failedResult "host down")) = AjaxResult.error ∧
            (PollCtx.bulk 0 (some "j1") "Stop").node? = none ∧
            Ext.sample.spinningWheelBound = false ∧
            (pollDone Ext.sample 0 (.success (some (failedResult "host down")))
              twoJobsPolling).timers = twoJobsPolling.timers)) ∧
        (pollDone Ext.sample 0 (.success (some (failedResult "host down")))
            twoJobsPolling).midmenu.length = twoJobsPolling.midmenu.length ∧
        (∀ (n : Nat) (u : MidmenuItem), twoJobsPolling.midmenu[n]? = some u →
          (PollCtx.bulk 0 (some "j1") "Stop").isSubject twoJobsPolling.jobIdMap u = false →
          (pollDone Ext.sample 0 (.success (some (failedResult "host down")))
            twoJobsPolling).midmenu[n]? = some u) ∧
        (pollDone Ext.sample 0 (.success (some (failedResult "host down")))
            twoJobsPolling).selectedItemIds = twoJobsPolling.selectedItemIds ∧
        (pollDone Ext.sample 0 (.success (some (failedResult "host down")))
            twoJobsPolling).panel = twoJobsPolling.panel ∧
        (pollDone Ext.sample 0 (.success (some (failedResult "host down")))
            twoJobsPolling).jobIdMap = twoJobsPolling.jobIdMap ∧
        (pollDone Ext.sample 0 (.success (some (failedResult "host down")))
            twoJobsPolling).pending = twoJobsPolling.pending.eraseIdx 0 ∧
        (pollDone Ext.sample 0 (.success (some (failedResult "host down")))
            twoJobsPolling).requests = twoJobsPolling.requests ∧
        (pollDone Ext.sample 0 (.success (some (failedResult "host down")))
            twoJobsPolling).reconciled.filter (fun x => x.key != "asyncJob_j1") =
          twoJobsPolling.reconciled.filter (fun x => x.key != "asyncJob_j1")) :=
  ⟨by decide, by decide,
    errors_are_scoped Ext.sample twoJobsPolling 0 "asyncJob_j1" (PollCtx.bulk 0 (some "j1") "Stop")
      (.success (some (failedResult "host down"))) (by decide) (by decide)⟩

/-- C16, evaluated at the failing input: job 55 of a Stop action is tracked, its poll is
outstanding and fails in transport. `$spinningWheel` is undeclared, so the `error` callback
raises at line 243, before line 244 cancels the timer: the timers are as before, the timer
of job 55 is still registered, and its next firing sends one more poll. The sibling paths do
cancel the timer of their job: an answer with `jobstatus` 2 to the same poll, a transport
failure of a poll of the deploy job 77 (line 885 comes first there), and the same callback
when another script binds `$spinningWheel`. -/
theorem bulk_poll_transport_failure_keeps_timer :
    stopPolling.pending[0]? =
        some (Pending.poll "asyncJob_55" (PollCtx.bulk 0 (some "55") "Stop")) ∧
      Ext.sample.spinningWheelBound = false ∧
      (pollDone Ext.sample 0 .error stopPolling).timers = stopPolling.timers ∧
      timerRegistered "asyncJob_55" (pollDone Ext.sample 0 .error stopPolling).timers = true ∧
      (run Ext.sample stopPolling [ .pollDone 0 .error, .timerFire 0 ]).requests =
        stopPolling.requests ++ ["command=queryAsyncJobResult&jobId=55&response=json"] ∧
      timerRegistered "asyncJob_55"
        (pollDone Ext.sample 0 (.success (some (failedResult "host down"))) stopPolling).timers =
        false ∧
      timerRegistered "vmNew77" (pollDone Ext.sample 0 .error deployPolling).timers = false ∧
      timerRegistered "asyncJob_55"
        (pollDone { Ext.sample with spinningWheelBound := true } 0 .error stopPolling).timers =
        false := by
  decide

/-! ## The progress indicator after a transport failure (lines 242-256, 884-899) -/

/-- C11, evaluated: no `error` callback hides the progress indicator of an element of the
mid menu, in any state: the two callbacks of a bulk action (which read the undeclared
`$spinningWheel`) leave the mid menu as it is, and the two of a deploy job change the name
and the info icon of the placeholder only. At the failing inputs the indicator of the
affected element is still shown after the callback: the placeholder after a failed deploy
submission and after a failed poll of deploy job 77, the element of instance 1 after a
failed Stop submission, and the element of instance 100 after a failed poll of job 55,
whether `$spinningWheel` is bound or not. -/
theorem transport_failure_keeps_progress_indicator (ext : Ext) (s : State) (key : String)
    (node : Nat) (bound : Bool) :
    (finalState (submitError ext s)).midmenu = s.midmenu ∧
      (bulkPollError ext key s).midmenu = s.midmenu ∧
      (deploySubmitError node s).midmenu.map (fun t => t.spinningWheel) =
        s.midmenu.map (fun t => t.spinningWheel) ∧
      (deployPollError key node s).midmenu.map (fun t => t.spinningWheel) =
        s.midmenu.map (fun t => t.spinningWheel) ∧
      (findNode 0
          (run Ext.sample (State.initial Panel.blank)
            [ .deployClick "&zoneId=1", .deployDone 0 .error ]).midmenu).map
          (fun t => (t.vmName, t.infoIcon, t.infoIconError, t.spinningWheel)) =
        some ("Adding failed", true, true, true) ∧
      (findNode 0 (run Ext.sample deployPolling [ .pollDone 0 .error ]).midmenu).map
          (fun t => (t.vmName, t.infoIcon, t.infoIconError, t.spinningWheel)) =
        some ("Adding failed", true, true, true) ∧
      (findById "midmenuItemVm_1"
          (dispatch { Ext.sample with spinningWheelBound := bound } stopAction serverDown
            twoSelected).midmenu).map (fun t => t.spinningWheel) = some true ∧
      (findById "midmenuItemVm_100"
          (run { Ext.sample with spinningWheelBound := bound } stopPolling
            [ .pollDone 0 .error ]).midmenu).map (fun t => t.spinningWheel) = some true := by
  refine ⟨?_, ?_, ?_, ?_, by decide, by decide, by cases bound <;> decide,
    by cases bound <;> decide⟩
  · unfold submitError
    split <;> rfl
  · unfold bulkPollError
    split <;> rfl
  · unfold deploySubmitError updateNode
    simp only [List.map_map]
    apply List.map_congr_left
    intro t _
    simp only [Function.comp]
    split <;> rfl
  · unfold deployPollError updateNode
    simp only [List.map_map]
    apply List.map_congr_left
    intro t _
    simp only [Function.comp]
    split <;> rfl

/-! ## Grouping of the listed instances -/

/-- C17, evaluated at the failing input: the list holds an instance of the group "web", one
of the group "constructor" and another of the group "web". The test
`group1 in instanceGroupMap` holds for "constructor" (inherited from `Object.prototype`),
the call of `push` on the inherited value raises, and the loop ends with only the
first instance grouped: the second and the third instance lie in no group. With only
the instance of the group "constructor" in the list nothing is grouped at all. -/
theorem grouping_raises_on_inherited_name :
    objectPrototype "constructor" = true ∧
      groupingRaised (groupInstances objectPrototype
          (some [Instance.inGroup "1" (some "web"), Instance.inGroup "2" (some "constructor"),
            Instance.inGroup "3" (some "web")])) = true ∧
      finalGroups (groupInstances objectPrototype
          (some [Instance.inGroup "1" (some "web"), Instance.inGroup "2" (some "constructor"),
            Instance.inGroup "3" (some "web")])) =
        { instanceGroupMap := [("web", [Instance.inGroup "1" (some "web")])],
          instanceGroupArray := ["web"] } ∧
      groupingRaised (groupInstances objectPrototype
          (some [Instance.inGroup "2" (some "constructor")])) = true ∧
      finalGroups (groupInstances objectPrototype
          (some [Instance.inGroup "2" (some "constructor")])) =
        { instanceGroupMap := [], instanceGroupArray := [] } := by
  decide

theorem pushTo_keys (g : String) (o : Instance) (m : List (String × List Instance)) :
    (pushTo g o m).map Prod.fst = m.map Prod.fst := by
  induction m with
  | nil => rfl
  | cons kv m ih =>
    obtain ⟨k, v⟩ := kv
    unfold pushTo
    split
    · rfl
    · simp [ih]

theorem lookup_pushTo (g g2 : String) (o : Instance) (m : List (String × List Instance)) :
    (pushTo g o m).lookup g2 =
      if g2 = g then (m.lookup g).map (fun v => v ++ [o]) else m.lookup g2 := by
  induction m with
  | nil => simp [pushTo]
  | cons kv m ih =>
    obtain ⟨k, v⟩ := kv
    unfold pushTo
    by_cases hk : k = g
    · subst hk
      rw [if_pos rfl]
      by_cases h2 : g2 = k
      · subst h2
        simp [List.lookup_cons]
      · have : (g2 == k) = false := by simpa using h2
        simp [List.lookup_cons, this, h2]
    · rw [if_neg hk]
      by_cases h2 : g2 = g
      · subst h2
        have hk2 : (g2 == k) = false := by simpa using (Ne.symm hk)
        simp only [List.lookup_cons, hk2, ih, if_true]
      · simp only [List.lookup_cons, ih, if_neg h2]

theorem lookup_append_singleton (g g2 : String) (v : List Instance)
    (m : List (String × List Instance)) :
    (m ++ [(g, v)]).lookup g2 =
      match m.lookup g2 with
      | some w => some w
      | none => if g2 = g then some v else none := by
  induction m with
  | nil =>
    by_cases h : g2 = g
    · subst h; simp [List.lookup_cons]
    · have : (g2 == g) = false := by simpa using h
      simp [List.lookup_cons, this, h]
  | cons kv m ih =>
    obtain ⟨k, w⟩ := kv
    by_cases hk : g2 = k
    · subst hk
      simp [List.lookup_cons]
    · have : (g2 == k) = false := by simpa using hk
      simp only [List.cons_append, List.lookup_cons, this, ih]

theorem firstOccurrence_append (l : List String) (x : String) :
    ((l ++ [x]).reverse.dedup).reverse =
      if x ∈ l then (l.reverse.dedup).reverse else (l.reverse.dedup).reverse ++ [x] := by
  rw [List.reverse_append, List.reverse_singleton, List.singleton_append]
  by_cases h : x ∈ l
  · rw [if_pos h, List.dedup_cons_of_mem (List.mem_reverse.mpr h)]
  · rw [if_neg h, List.dedup_cons_of_not_mem (fun h2 => h (List.mem_reverse.mp h2)),
      List.reverse_cons]

theorem groupLoop_invariant (inherited : String → Bool) :
    ∀ (rest done : List Instance) (acc : Groups),
      (∀ o ∈ rest, inherited (group1 o) = false) →
      acc.instanceGroupArray = ((done.map group1).reverse.dedup).reverse →
      acc.instanceGroupMap.map Prod.fst = acc.instanceGroupArray →
      (∀ g, acc.instanceGroupMap.lookup g =
        if g ∈ done.map group1 then some (done.filter (fun o => group1 o = g)) else none) →
      ∃ gs, groupLoop inherited rest acc = .ok gs ∧
        gs.instanceGroupArray = (((done ++ rest).map group1).reverse.dedup).reverse ∧
        gs.instanceGroupMap.map Prod.fst = gs.instanceGroupArray ∧
        ∀ g, gs.instanceGroupMap.lookup g =
          if g ∈ (done ++ rest).map group1 then
            some ((done ++ rest).filter (fun o => group1 o = g))
          else none := by
  intro rest
  induction rest with
  | nil =>
    intro done acc _ h1 h2 h3
    refine ⟨acc, rfl, ?_, h2, ?_⟩
    · rw [List.append_nil]; exact h1
    · rw [List.append_nil]; exact h3
  | cons o os ih =>
    intro done acc hin h1 h2 h3
    have ho : inherited (group1 o) = false := hin o (List.mem_cons_self o os)
    have hos : ∀ x ∈ os, inherited (group1 x) = false :=
      fun x hx => hin x (List.mem_cons_of_mem o hx)
    have happ : done ++ o :: os = (done ++ [o]) ++ os := by simp
    rw [happ]
    unfold groupLoop groupIteration
    simp only [ho, Bool.or_false]
    by_cases hmem : group1 o ∈ done.map group1
    · have hl := h3 (group1 o)
      rw [if_pos hmem] at hl
      simp only [hl, Option.isSome_some, if_true]
      apply ih (done ++ [o]) _ hos
      · show acc.instanceGroupArray = _
        rw [List.map_append, List.map_singleton, firstOccurrence_append, if_pos hmem]
        exact h1
      · show (pushTo (group1 o) o acc.instanceGroupMap).map Prod.fst = acc.instanceGroupArray
        rw [pushTo_keys]
        exact h2
      · intro g
        show (pushTo (group1 o) o acc.instanceGroupMap).lookup g = _
        rw [lookup_pushTo, List.map_append, List.map_singleton, List.filter_append]
        by_cases hg : g = group1 o
        · subst hg
          simp [hl, hmem]
        · rw [if_neg hg, h3 g]
          have hg2 : ¬ group1 o = g := fun e => hg e.symm
          simp [hg, hg2]
    · have hl := h3 (group1 o)
      rw [if_neg hmem] at hl
      simp only [hl, Option.isSome_none, Bool.false_eq_true, if_false]
      apply ih (done ++ [o]) _ hos
      · show acc.instanceGroupArray ++ [group1 o] = _
        rw [List.map_append, List.map_singleton, firstOccurrence_append, if_neg hmem, h1]
      · show (acc.instanceGroupMap ++ [(group1 o, [o])]).map Prod.fst =
          acc.instanceGroupArray ++ [group1 o]
        rw [List.map_append, h2]
        rfl
      · intro g
        show (acc.instanceGroupMap ++ [(group1 o, [o])]).lookup g = _
        rw [lookup_append_singleton, h3 g, List.map_append, List.map_singleton,
          List.filter_append]
        by_cases hg : g = group1 o
        · subst hg
          have hnone : done.filter (fun x => group1 x = group1 o) = [] := by
            rw [List.filter_eq_nil_iff]
            intro x hx
            simp only [decide_eq_true_eq]
            intro e
            exact hmem (List.mem_map.mpr ⟨x, hx, e⟩)
          simp [hmem, hnone]
        · have hg2 : ¬ group1 o = g := fun e => hg e.symm
          by_cases hgm : g ∈ done.map group1
          · simp [hgm, hg, hg2]
          · simp [hgm, hg, hg2]

/-- When no effective label names a property inherited from `Object.prototype`, the
grouping step returns, `instanceGroupArray` lists the effective labels that occur, each
once, in the order of first occurrence, the own properties of `instanceGroupMap` are these
labels, and `instanceGroupMap[g]` is the list of the instances with effective label `g`, in
response order, for every label `g` that occurs, and is undefined for every other. -/
theorem grouping_of_own_names (inherited : String → Bool) (instances : List Instance)
    (h : ∀ o ∈ instances, inherited (group1 o) = false) :
    ∃ gs, groupInstances inherited (some instances) = .ok gs ∧
      gs.instanceGroupArray = ((instances.map group1).reverse.dedup).reverse ∧
      gs.instanceGroupArray.Nodup ∧
      (∀ g, g ∈ gs.instanceGroupArray ↔ ∃ o ∈ instances, group1 o = g) ∧
      gs.instanceGroupMap.map Prod.fst = gs.instanceGroupArray ∧
      ∀ g, gs.instanceGroupMap.lookup g =
        if g ∈ instances.map group1 then some (instances.filter (fun o => group1 o = g))
        else none := by
  obtain ⟨gs, g1, g2, g3, g4⟩ := groupLoop_invariant inherited instances []
    { instanceGroupMap := [], instanceGroupArray := [] } h rfl rfl (fun g => by simp)
  rw [List.nil_append] at g2 g4
  refine ⟨gs, g1, g2, ?_, ?_, g3, g4⟩
  · rw [g2]
    exact List.nodup_reverse.mpr (List.nodup_dedup _)
  · intro g
    rw [g2]
    simp [List.mem_dedup]

/-! ## The deploy request of the wizard -/

theorem length_pos_iff_ne_empty (v : String) : v.length > 0 ↔ v ≠ "" := by
  rw [gt_iff_lt, String.length, List.length_pos]
  constructor
  · intro h e
    rw [e] at h
    exact h rfl
  · intro h e
    exact h (String.ext e)

theorem foldl_append_init (l : List String) (acc : String) :
    l.foldl (fun r v => r ++ v) acc = acc ++ l.foldl (fun r v => r ++ v) "" := by
  induction l generalizing acc with
  | nil => simp
  | cons x xs ih =>
    rw [List.foldl_cons, List.foldl_cons, ih (acc ++ x), ih ("" ++ x), String.empty_append,
      String.append_assoc]

theorem join_nil : String.join [] = "" := rfl

theorem join_cons (x : String) (l : List String) : String.join (x :: l) = x ++ String.join l := by
  unfold String.join
  rw [List.foldl_cons, foldl_append_init, String.empty_append]

/-- C18: when Next is clicked on step 5 the request sent is "command=deployVirtualMachine"
followed, in this order, by "&zoneId=" and the zone (the text "null" while the zone list has
no option); "&displayname=" and the encoded trimmed
name exactly when the trimmed name is not null and not empty; "&group=" and the encoded
trimmed group exactly when the trimmed group is not null and not empty; "&templateId=" and
the id of the selected template; "&serviceOfferingId=" and the selected offering;
"&diskOfferingId=" and the disk offering, always in the ISO case (the root disk offering)
and in the template case exactly when the data disk offering is neither null nor empty; and
"&response=json". It is the only request the click sends. -/
theorem deploy_request_string (ext : Ext) (w : WizardExt) (f : WizardForm) (s : State) :
    (nextStepDeploy ext w f s).requests =
      s.requests ++
        [ "command=deployVirtualMachine" ++
            ("&zoneId=" ++ jsNullString f.zone) ++
            (match w.trim f.vmName with
             | some name => if name ≠ "" then "&displayname=" ++ w.encodeURIComponent name else ""
             | none => "") ++
            (match w.trim f.vmGroup with
             | some group => if group ≠ "" then "&group=" ++ w.encodeURIComponent group else ""
             | none => "") ++
            ("&templateId=" ++ jsString f.templateId) ++
            ("&serviceOfferingId=" ++ jsString f.serviceOffering) ++
            (if f.isoSelected then "&diskOfferingId=" ++ jsString f.rootDiskOffering
             else
               match f.dataDiskOffering with
               | some d => if d ≠ "" then "&diskOfferingId=" ++ d else ""
               | none => "") ++
            "&response=json" ] := by
  have hjoin : String.join (moreCriteria w f) =
      ("&zoneId=" ++ jsNullString f.zone) ++
        (match w.trim f.vmName with
         | some name => if name ≠ "" then "&displayname=" ++ w.encodeURIComponent name else ""
         | none => "") ++
        (match w.trim f.vmGroup with
         | some group => if group ≠ "" then "&group=" ++ w.encodeURIComponent group else ""
         | none => "") ++
        ("&templateId=" ++ jsString f.templateId) ++
        ("&serviceOfferingId=" ++ jsString f.serviceOffering) ++
        (if f.isoSelected then "&diskOfferingId=" ++ jsString f.rootDiskOffering
         else
           match f.dataDiskOffering with
           | some d => if d ≠ "" then "&diskOfferingId=" ++ d else ""
           | none => "") := by
    unfold moreCriteria
    simp only [length_pos_iff_ne_empty]
    cases w.trim f.vmName <;> cases w.trim f.vmGroup <;> cases f.isoSelected <;>
      cases f.dataDiskOffering <;> simp only [] <;> split_ifs <;>
      simp [join_cons, join_nil, String.append_assoc]
  unfold nextStepDeploy deployClick
  simp only [hjoin, String.append_assoc]

/-- The request of the sample wizard, in the template case, in the ISO case without a
checked root disk offering, and with a zone list that has no option. -/
theorem deploy_request_scenario :
    (nextStepDeploy Ext.sample WizardExt.sample WizardForm.sample
        (State.initial Panel.blank)).requests =
      ["command=deployVirtualMachine&zoneId=1&displayname=my%20vm&group=web&templateId=5" ++
        "&serviceOfferingId=2&diskOfferingId=9&response=json"] ∧
    (nextStepDeploy Ext.sample WizardExt.sample
        { WizardForm.sample with vmName := some "", vmGroup := none, isoSelected := true }
        (State.initial Panel.blank)).requests =
      ["command=deployVirtualMachine&zoneId=1&templateId=5" ++
        "&serviceOfferingId=2&diskOfferingId=undefined&response=json"] ∧
    (nextStepDeploy Ext.sample WizardExt.sample
        { WizardForm.sample with zone := none } (State.initial Panel.blank)).requests =
      ["command=deployVirtualMachine&zoneId=null&displayname=my%20vm&group=web&templateId=5" ++
        "&serviceOfferingId=2&diskOfferingId=9&response=json"] := by
  decide

/-! ## The icon of an OS type (lines 480-492) -/

theorem matchesAtStart_iff (pat s : String) :
    matchesAtStart pat s = true ↔ ∃ rest, s = pat ++ rest := by
  unfold matchesAtStart
  rw [List.isPrefixOf_iff_prefix]
  constructor
  · rintro ⟨t, ht⟩
    exact ⟨⟨t⟩, String.ext (by rw [String.data_append, ht])⟩
  · rintro ⟨rest, rfl⟩
    exact ⟨rest.data, by rw [String.data_append]⟩

theorem centos_not_windows (a b : String) : "CentOS" ++ a ≠ "Windows" ++ b := by
  intro h
  have h2 := congrArg String.data h
  simp [String.data_append] at h2

theorem append_ne_empty (a : String) (h : a ≠ "") (b : String) : a ++ b ≠ "" := by
  intro e
  have h2 := congrArg String.data e
  rw [String.data_append] at h2
  have h3 : a.data = [] := (List.append_eq_nil.mp h2).1
  exact h (String.ext h3)

theorem getIconForOS_some (v : String) (hv : v ≠ "") :
    getIconForOS (some v) =
      if matchesAtStart "CentOS" v then "rev_wiztemo_centosicons"
      else if matchesAtStart "Windows" v then "rev_wiztemo_windowsicons"
      else "rev_wiztemo_linuxicons" := by
  have hl : ¬ v.length = 0 := by
    intro h
    exact hv (String.ext (List.length_eq_zero.mp h))
  simp only [getIconForOS, hl, if_false]

theorem not_matchesAtStart (pat v : String) (h : ¬ ∃ rest, v = pat ++ rest) :
    matchesAtStart pat v = false := by
  cases hm : matchesAtStart pat v with
  | false => rfl
  | true => exact absurd ((matchesAtStart_iff pat v).mp hm) h

theorem getIconForOS_empty : getIconForOS (some "") = "" := by decide

theorem getIconForOS_centos (rest : String) :
    getIconForOS (some ("CentOS" ++ rest)) = "rev_wiztemo_centosicons" := by
  rw [getIconForOS_some _ (append_ne_empty "CentOS" (by decide) rest),
    if_pos ((matchesAtStart_iff _ _).mpr ⟨rest, rfl⟩)]

theorem getIconForOS_windows (rest : String) :
    getIconForOS (some ("Windows" ++ rest)) = "rev_wiztemo_windowsicons" := by
  have hc : matchesAtStart "CentOS" ("Windows" ++ rest) = false :=
    not_matchesAtStart _ _ (fun ⟨r, h⟩ => centos_not_windows r rest h.symm)
  rw [getIconForOS_some _ (append_ne_empty "Windows" (by decide) rest),
    if_neg (by simp [hc]), if_pos ((matchesAtStart_iff _ _).mpr ⟨rest, rfl⟩)]

theorem getIconForOS_linux (v : String) (hv : v ≠ "")
    (hc : ¬ ∃ rest, v = "CentOS" ++ rest) (hw : ¬ ∃ rest, v = "Windows" ++ rest) :
    getIconForOS (some v) = "rev_wiztemo_linuxicons" := by
  rw [getIconForOS_some v hv, if_neg (by simp [not_matchesAtStart _ _ hc]),
    if_neg (by simp [not_matchesAtStart _ _ hw])]

theorem osType_cases (osType : Option String) :
    (osType = none ∨ osType = some "") ∨ (∃ rest, osType = some ("CentOS" ++ rest)) ∨
      (∃ rest, osType = some ("Windows" ++ rest)) ∨
      ∃ v, osType = some v ∧ v ≠ "" ∧ (¬ ∃ rest, v = "CentOS" ++ rest) ∧
        ¬ ∃ rest, v = "Windows" ++ rest := by
  cases osType with
  | none => exact Or.inl (Or.inl rfl)
  | some v =>
    by_cases hv : v = ""
    · exact Or.inl (Or.inr (by rw [hv]))
    · by_cases hc : ∃ rest, v = "CentOS" ++ rest
      · obtain ⟨rest, h⟩ := hc
        exact Or.inr (Or.inl ⟨rest, by rw [h]⟩)
      · by_cases hw : ∃ rest, v = "Windows" ++ rest
        · obtain ⟨rest, h⟩ := hw
          exact Or.inr (Or.inr (Or.inl ⟨rest, by rw [h]⟩))
        · exact Or.inr (Or.inr (Or.inr ⟨v, rfl, hv, hc, hw⟩))

/-- C24: `getIconForOS` returns a value for every OS type that is null, undefined or a
string: the empty string exactly when the type is null or empty,
"rev_wiztemo_centosicons" exactly when it begins with "CentOS",
"rev_wiztemo_windowsicons" exactly when it begins with "Windows", and
"rev_wiztemo_linuxicons" exactly when it is a non-empty string that begins with neither. The
test is anchored at the start and distinguishes case: "My CentOS" and "centos 5" get the
Linux icon. -/
theorem getIconForOS_cases (osType : Option String) :
    (getIconForOS osType = "" ↔ (osType = none ∨ osType = some "")) ∧
      (getIconForOS osType = "rev_wiztemo_centosicons" ↔
        ∃ rest, osType = some ("CentOS" ++ rest)) ∧
      (getIconForOS osType = "rev_wiztemo_windowsicons" ↔
        ∃ rest, osType = some ("Windows" ++ rest)) ∧
      (getIconForOS osType = "rev_wiztemo_linuxicons" ↔
        ∃ v, osType = some v ∧ v ≠ "" ∧ (¬ ∃ rest, v = "CentOS" ++ rest) ∧
          ¬ ∃ rest, v = "Windows" ++ rest) ∧
      getIconForOS (some "CentOS 5.3 (64-bit)") = "rev_wiztemo_centosicons" ∧
      getIconForOS (some "Windows Server 2008") = "rev_wiztemo_windowsicons" ∧
      getIconForOS (some "My CentOS") = "rev_wiztemo_linuxicons" ∧
      getIconForOS (some "centos 5") = "rev_wiztemo_linuxicons" := by
  have hnil : getIconForOS none = "" := rfl
  refine ⟨⟨?_, ?_⟩, ⟨?_, ?_⟩, ⟨?_, ?_⟩, ⟨?_, ?_⟩, by decide, by decide, by decide, by decide⟩
  · intro h
    rcases osType_cases osType with h1 | ⟨r, rfl⟩ | ⟨r, rfl⟩ | ⟨v, rfl, hv, hc, hw⟩
    · exact h1
    · rw [getIconForOS_centos] at h; exact absurd h (by decide)
    · rw [getIconForOS_windows] at h; exact absurd h (by decide)
    · rw [getIconForOS_linux v hv hc hw] at h; exact absurd h (by decide)
  · rintro (rfl | rfl)
    · exact hnil
    · exact getIconForOS_empty
  · intro h
    rcases osType_cases osType with (rfl | rfl) | h2 | ⟨r, rfl⟩ | ⟨v, rfl, hv, hc, hw⟩
    · rw [hnil] at h; exact absurd h (by decide)
    · rw [getIconForOS_empty] at h; exact absurd h (by decide)
    · exact h2
    · rw [getIconForOS_windows] at h; exact absurd h (by decide)
    · rw [getIconForOS_linux v hv hc hw] at h; exact absurd h (by decide)
  · rintro ⟨r, rfl⟩
    exact getIconForOS_centos r
  · intro h
    rcases osType_cases osType with (rfl | rfl) | ⟨r, rfl⟩ | h2 | ⟨v, rfl, hv, hc, hw⟩
    · rw [hnil] at h; exact absurd h (by decide)
    · rw [getIconForOS_empty] at h; exact absurd h (by decide)
    · rw [getIconForOS_centos] at h; exact absurd h (by decide)
    · exact h2
    · rw [getIconForOS_linux v hv hc hw] at h; exact absurd h (by decide)
  · rintro ⟨r, rfl⟩
    exact getIconForOS_windows r
  · intro h
    rcases osType_cases osType with (rfl | rfl) | ⟨r, rfl⟩ | ⟨r, rfl⟩ | h2
    · rw [hnil] at h; exact absurd h (by decide)
    · rw [getIconForOS_empty] at h; exact absurd h (by decide)
    · rw [getIconForOS_centos] at h; exact absurd h (by decide)
    · rw [getIconForOS_windows] at h; exact absurd h (by decide)
    · exact h2
  · rintro ⟨v, rfl, hv, hc, hw⟩
    exact getIconForOS_linux v hv hc hw

/-! ## The template list of the wizard (lines 552-613) -/

theorem templateBoxes_classes (ext : Ext) : ∀ (items : List TemplateItem) (first : Bool),
    ∀ b ∈ templateBoxes ext first items,
      b.classes = ["rev_wiztemplistbox"] ∨ b.classes = ["rev_wiztemplistbox_selected"] := by
  intro items
  induction items with
  | nil => intro first b hb; simp [templateBoxes] at hb
  | cons it rest ih =>
    intro first b hb
    unfold templateBoxes at hb
    rcases List.mem_cons.mp hb with rfl | hb
    · cases first
      · exact Or.inl rfl
      · exact Or.inr rfl
    · exact ih false b hb

theorem templateBoxes_selected (ext : Ext) : ∀ items : List TemplateItem,
    (templateBoxes ext false items).map TemplateBox.isSelected = items.map (fun _ => false) := by
  intro items
  induction items with
  | nil => rfl
  | cons it rest ih =>
    unfold templateBoxes
    rw [List.map_cons, List.map_cons, ih]
    rfl

theorem templateBoxes_ids (ext : Ext) : ∀ (items : List TemplateItem) (first : Bool),
    (templateBoxes ext first items).map (fun b => b.id) = items.map (fun it => it.id) := by
  intro items
  induction items with
  | nil => intro first; rfl
  | cons it rest ih =>
    intro first
    unfold templateBoxes
    rw [List.map_cons, List.map_cons, ih]

theorem renderTemplates_classes (ext : Ext) (blank : Bool) (items : Option (List TemplateItem)) :
    ∀ b ∈ renderTemplates ext blank items,
      b.classes = ["rev_wiztemplistbox"] ∨ b.classes = ["rev_wiztemplistbox_selected"] := by
  intro b hb
  unfold renderTemplates at hb
  split at hb
  · exact templateBoxes_classes ext _ true b hb
  · simp only [List.mem_singleton] at hb
    rw [hb]
    exact Or.inl rfl

theorem renderTemplates_unique (ext : Ext) (blank : Bool) (items : Option (List TemplateItem)) :
    ∀ (j : Nat) (x : TemplateBox), (renderTemplates ext blank items)[j]? = some x →
      x.isSelected = true → j = 0 := by
  intro j x hx hsel
  unfold renderTemplates at hx
  split at hx
  · rename_i it rest
    cases j with
    | zero => rfl
    | succ j =>
      exfalso
      unfold templateBoxes at hx
      rw [List.getElem?_cons_succ] at hx
      have h1 := congrArg (fun l => l[j]?) (templateBoxes_selected ext rest)
      simp only [List.getElem?_map, hx, Option.map_some'] at h1
      rw [hsel] at h1
      cases hr : rest[j]? with
      | none => rw [hr] at h1; simp at h1
      | some y => rw [hr] at h1; simp at h1
  · cases j with
    | zero =>rfl
    | succ j => simp at hx

theorem isSelected_of_box {b : TemplateBox} (h : b.classes = ["rev_wiztemplistbox"]) :
    b.isSelected = false := by
  unfold TemplateBox.isSelected
  rw [h]
  decide

theorem isSelected_of_selected {b : TemplateBox}
    (h : b.classes = ["rev_wiztemplistbox_selected"]) : b.isSelected = true := by
  unfold TemplateBox.isSelected
  rw [h]
  decide

theorem resolveTarget_box (boxes : List TemplateBox) (i : Nat) (b : TemplateBox)
    (hb : boxes[i]? = some b) : resolveTarget (.box i) boxes = some i := by
  have hlt : i < boxes.length := (List.getElem?_eq_some_iff.mp hb).1
  simp [resolveTarget, hlt]

theorem resolveTarget_child (boxes : List TemplateBox) (i : Nat) (b : TemplateBox)
    (hb : boxes[i]? = some b)
    (hc : b.classes = ["rev_wiztemplistbox"] ∨ b.classes = ["rev_wiztemplistbox_selected"]) :
    resolveTarget (.child i) boxes = some i := by
  unfold resolveTarget
  simp only [hb]
  rcases hc with h | h
  · rw [h, if_pos (by decide)]
  · rw [h, if_pos (by decide)]

theorem resolveTarget_getElem? (target : ClickTarget) (boxes : List TemplateBox) (i : Nat)
    (h : resolveTarget target boxes = some i) : ∃ b, boxes[i]? = some b := by
  unfold resolveTarget at h
  cases target with
  | container => simp at h
  | box k =>
    simp only at h
    split at h
    · rename_i hlt
      simp only [Option.some.injEq] at h
      subst h
      exact ⟨boxes[k], List.getElem?_eq_getElem hlt⟩
    · simp at h
  | child k =>
    simp only at h
    split at h
    · rename_i b hb
      split at h
      · simp only [Option.some.injEq] at h
        subst h
        exact ⟨b, hb⟩
      · simp at h
    · simp at h

/-- What a click does when it ends on the box `b` at position `i`. -/
theorem clickTemplate_of_resolved (target : ClickTarget) (boxes : List TemplateBox) (i : Nat)
    (b : TemplateBox) (hres : resolveTarget target boxes = some i) (hb : boxes[i]? = some b) :
    clickTemplate target boxes =
      if b.id ≠ "-2" then
        if b.classes.contains "rev_wiztemplistbox" then
          (boxes.map (fun u =>
            if u.classes.contains "rev_wiztemplistbox_selected" then
              { u with classes := ["rev_wiztemplistbox"] }
            else u)).set i { b with classes := ["rev_wiztemplistbox_selected"] }
        else if b.classes.contains "rev_wiztemplistbox_selected" then
          boxes.set i { b with classes := ["rev_wiztemplistbox"] }
        else boxes
      else boxes := by
  unfold clickTemplate
  simp only [hres, hb]
  rfl

theorem deselected_getElem? (boxes : List TemplateBox) (j : Nat) :
    ((boxes.map (fun u =>
        if u.classes.contains "rev_wiztemplistbox_selected" then
          { u with classes := ["rev_wiztemplistbox"] }
        else u))[j]?).map TemplateBox.isSelected = (boxes[j]?).map (fun _ => false) := by
  rw [List.getElem?_map]
  cases boxes[j]? with
  | none => rfl
  | some u =>
    simp only [Option.map_some', Option.some.injEq]
    by_cases hu : u.classes.contains "rev_wiztemplistbox_selected" = true
    · rw [if_pos hu]
      rfl
    · rw [if_neg hu]
      unfold TemplateBox.isSelected
      simpa using hu

theorem deselected_classes (boxes : List TemplateBox)
    (h : ∀ b ∈ boxes,
      b.classes = ["rev_wiztemplistbox"] ∨ b.classes = ["rev_wiztemplistbox_selected"]) :
    ∀ b ∈ boxes.map (fun u =>
        if u.classes.contains "rev_wiztemplistbox_selected" then
          { u with classes := ["rev_wiztemplistbox"] }
        else u),
      b.classes = ["rev_wiztemplistbox"] ∨ b.classes = ["rev_wiztemplistbox_selected"] := by
  intro b hb
  obtain ⟨u, hu, rfl⟩ := List.mem_map.mp hb
  split
  · exact Or.inl rfl
  · exact h u hu

theorem clickTemplate_classes (target : ClickTarget) (boxes : List TemplateBox)
    (h : ∀ b ∈ boxes,
      b.classes = ["rev_wiztemplistbox"] ∨ b.classes = ["rev_wiztemplistbox_selected"]) :
    ∀ b ∈ clickTemplate target boxes,
      b.classes = ["rev_wiztemplistbox"] ∨ b.classes = ["rev_wiztemplistbox_selected"] := by
  cases hres : resolveTarget target boxes with
  | none =>
    unfold clickTemplate
    rw [hres]
    exact h
  | some i =>
    obtain ⟨b, hb⟩ := resolveTarget_getElem? target boxes i hres
    rw [clickTemplate_of_resolved target boxes i b hres hb]
    intro x hx
    split at hx
    · split at hx
      · rcases List.mem_or_eq_of_mem_set hx with hx | rfl
        · exact deselected_classes boxes h x hx
        · exact Or.inr rfl
      · split at hx
        · rcases List.mem_or_eq_of_mem_set hx with hx | rfl
          · exact h x hx
          · exact Or.inl rfl
        · exact h x hx
    · exact h x hx

theorem clickTemplate_unique (target : ClickTarget) (boxes : List TemplateBox) (i0 : Nat)
    (h : ∀ (j : Nat) (x : TemplateBox), boxes[j]? = some x → x.isSelected = true → j = i0) :
    ∃ i1, ∀ (j : Nat) (x : TemplateBox), (clickTemplate target boxes)[j]? = some x →
      x.isSelected = true → j = i1 := by
  cases hres : resolveTarget target boxes with
  | none =>
    unfold clickTemplate
    rw [hres]
    exact ⟨i0, h⟩
  | some i =>
    obtain ⟨b, hb⟩ := resolveTarget_getElem? target boxes i hres
    rw [clickTemplate_of_resolved target boxes i b hres hb]
    split
    · split
      · refine ⟨i, ?_⟩
        intro j x hx hsel
        by_contra hne
        rw [List.getElem?_set_ne (fun e => hne e.symm)] at hx
        have h2 := deselected_getElem? boxes j
        rw [hx] at h2
        simp only [Option.map_some', hsel] at h2
        cases hj : boxes[j]? with
        | none => rw [hj] at h2; simp at h2
        | some y => rw [hj] at h2; simp at h2
      · split
        · refine ⟨i0, ?_⟩
          intro j x hx hsel
          by_cases hji : i = j
          · subst hji
            have hlt : i < boxes.length := (List.getElem?_eq_some_iff.mp hb).1
            rw [List.getElem?_set_self hlt] at hx
            simp only [Option.some.injEq] at hx
            rw [← hx] at hsel
            exact absurd hsel (by simp [TemplateBox.isSelected])
          · rw [List.getElem?_set_ne hji] at hx
            exact h j x hx hsel
        · exact ⟨i0, h⟩
    · exact ⟨i0, h⟩

theorem countP_le_one_of_unique {α : Type} (p : α → Bool) : ∀ (l : List α) (i0 : Nat),
    (∀ (j : Nat) (x : α), l[j]? = some x → p x = true → j = i0) → l.countP p ≤ 1 := by
  intro l
  induction l with
  | nil => intro i0 _; simp
  | cons a l ih =>
    intro i0 h
    by_cases ha : p a = true
    · have h0 : 0 = i0 := h 0 a (List.getElem?_cons_zero) ha
      have hz : l.countP p = 0 := by
        rw [List.countP_eq_zero]
        intro x hx hpx
        obtain ⟨j, hj⟩ := List.getElem?_of_mem hx
        have := h (j + 1) x (by rw [List.getElem?_cons_succ]; exact hj) hpx
        omega
      rw [List.countP_cons_of_pos _ _ ha, hz]
    · rw [List.countP_cons_of_neg _ _ ha]
      apply ih (i0 - 1)
      intro j x hj hpx
      have := h (j + 1) x (by rw [List.getElem?_cons_succ]; exact hj) hpx
      omega

theorem listRun_invariant (ext : Ext) (evs : List ListEvent) : ∀ boxes : List TemplateBox,
    (∃ i0, ∀ (j : Nat) (x : TemplateBox), boxes[j]? = some x → x.isSelected = true → j = i0) →
    (∀ b ∈ boxes,
      b.classes = ["rev_wiztemplistbox"] ∨ b.classes = ["rev_wiztemplistbox_selected"]) →
    (∃ i0, ∀ (j : Nat) (x : TemplateBox), (listRun ext boxes evs)[j]? = some x →
      x.isSelected = true → j = i0) ∧
    ∀ b ∈ listRun ext boxes evs,
      b.classes = ["rev_wiztemplistbox"] ∨ b.classes = ["rev_wiztemplistbox_selected"] := by
  induction evs with
  | nil => intro boxes h1 h2; exact ⟨h1, h2⟩
  | cons e evs ih =>
    intro boxes h1 h2
    show _ ∧ ∀ b ∈ listRun ext (listStep ext boxes e) evs, _
    cases e with
    | listed blank items =>
      exact ih _ ⟨0, renderTemplates_unique ext blank items⟩
        (renderTemplates_classes ext blank items)
    | clicked target =>
      obtain ⟨i0, h0⟩ := h1
      exact ih _ (clickTemplate_unique target boxes i0 h0)
        (clickTemplate_classes target boxes h2)

theorem set_map_id (boxes : List TemplateBox) (i : Nat) (b c : TemplateBox)
    (hb : boxes[i]? = some b) (hid : c.id = b.id) :
    (boxes.set i c).map (fun x => x.id) = boxes.map (fun x => x.id) := by
  apply List.ext_getElem?
  intro j
  rw [List.getElem?_map, List.getElem?_map]
  by_cases hji : i = j
  · subst hji
    have hlt : i < boxes.length := (List.getElem?_eq_some_iff.mp hb).1
    rw [List.getElem?_set_self hlt, hb]
    simp [hid]
  · rw [List.getElem?_set_ne hji]

theorem clickTemplate_placeholder (blank : Bool) (target : ClickTarget) :
    clickTemplate target [placeholderBox blank] = [placeholderBox blank] := by
  cases hres : resolveTarget target [placeholderBox blank] with
  | none =>
    unfold clickTemplate
    rw [hres]
  | some i =>
    obtain ⟨b, hb⟩ := resolveTarget_getElem? target _ i hres
    rw [clickTemplate_of_resolved target _ i b hres hb]
    have hbp : b = placeholderBox blank := by
      cases i with
      | zero => simpa using hb.symm
      | succ k => simp at hb
    rw [if_neg]
    rw [hbp]
    simp [placeholderBox]

theorem listRun_placeholder (ext : Ext) (blank : Bool) (clicks : List ClickTarget) :
    listRun ext [placeholderBox blank] (clicks.map ListEvent.clicked) = [placeholderBox blank] := by
  induction clicks with
  | nil => rfl
  | cons t ts ih =>
    show listRun ext (clickTemplate t [placeholderBox blank]) (ts.map ListEvent.clicked) = _
    rw [clickTemplate_placeholder, ih]

/-- What a click on the box at position `i`, or on one of its children, does in a list that
satisfies the invariant: the box is selected afterwards exactly when it was not selected
before, no other box is selected, and the ids are as before. -/
theorem clickTemplate_effect (boxes : List TemplateBox) (i0 i : Nat) (b : TemplateBox)
    (target : ClickTarget)
    (huniq : ∀ (j : Nat) (x : TemplateBox), boxes[j]? = some x → x.isSelected = true → j = i0)
    (hcls : ∀ x ∈ boxes,
      x.classes = ["rev_wiztemplistbox"] ∨ x.classes = ["rev_wiztemplistbox_selected"])
    (hb : boxes[i]? = some b) (hid : b.id ≠ "-2")
    (ht : target = ClickTarget.box i ∨ target = ClickTarget.child i) :
    (∀ j : Nat, ((clickTemplate target boxes)[j]?).map TemplateBox.isSelected =
        (boxes[j]?).map (fun _ => decide (j = i) && !b.isSelected)) ∧
      (clickTemplate target boxes).map (fun x => x.id) = boxes.map (fun x => x.id) := by
  have hbc := hcls b (List.getElem?_mem hb)
  have hlt : i < boxes.length := (List.getElem?_eq_some_iff.mp hb).1
  have hres : resolveTarget target boxes = some i := by
    rcases ht with rfl | rfl
    · exact resolveTarget_box boxes i b hb
    · exact resolveTarget_child boxes i b hb hbc
  rw [clickTemplate_of_resolved target boxes i b hres hb, if_pos hid]
  rcases hbc with hc | hc
  · have hsel := isSelected_of_box hc
    rw [if_pos (by rw [hc]; decide)]
    constructor
    · intro j
      by_cases hji : i = j
      · subst hji
        rw [List.getElem?_set_self (by rw [List.length_map]; exact hlt), hb]
        simp [TemplateBox.isSelected, hc]
      · rw [List.getElem?_set_ne hji, deselected_getElem?]
        have : decide (j = i) = false := by simpa using (fun e : j = i => hji e.symm)
        simp [this]
    · rw [List.map_set, List.map_map]
      have hmap : (boxes.map ((fun x : TemplateBox => x.id) ∘ fun u =>
          if u.classes.contains "rev_wiztemplistbox_selected" then
            { u with classes := ["rev_wiztemplistbox"] }
          else u)) = boxes.map (fun x => x.id) := by
        apply List.map_congr_left
        intro u _
        simp only [Function.comp]
        split <;> rfl
      rw [hmap]
      apply List.ext_getElem?
      intro j
      by_cases hji : i = j
      · subst hji
        rw [List.getElem?_set_self (by rw [List.length_map]; exact hlt), List.getElem?_map, hb]
        rfl
      · rw [List.getElem?_set_ne hji]
  · have hsel := isSelected_of_selected hc
    have hi0 : i = i0 := huniq i b hb hsel
    rw [if_neg (by rw [hc]; decide), if_pos (by rw [hc]; decide)]
    constructor
    · intro j
      by_cases hji : i = j
      · subst hji
        rw [List.getElem?_set_self hlt, hb]
        simp [TemplateBox.isSelected, hc]
      · rw [List.getElem?_set_ne hji]
        cases hj : boxes[j]? with
        | none => rfl
        | some x =>
          have hx : x.isSelected = false := by
            cases hxs : x.isSelected with
            | false => rfl
            | true => exact absurd ((huniq j x hj hxs).trans hi0.symm) (fun e => hji e.symm)
          simp [hx, hsel]
    · exact set_map_id boxes i b _ hb rfl

/-- C22: in every state of the template list reached by listing a page and then any
sequence of listings and clicks, at most one box carries the selected class. Listing a
non-empty page makes one box per item, in order, with the first selected and no other. A
click on a box that is not the placeholder, or on one of its children, leaves that box
selected exactly when it was not selected before and leaves no other box selected, and it
keeps the ids. After an empty result the list is the placeholder with id "-2", which is not
selected, and no sequence of clicks changes it. -/
theorem template_list_single_selection (ext : Ext) (blank : Bool)
    (items : Option (List TemplateItem)) (evs : List ListEvent) (it : TemplateItem)
    (rest : List TemplateItem) (clicks : List ClickTarget) :
    selectedCount (listRun ext (renderTemplates ext blank items) evs) ≤ 1 ∧
      (renderTemplates ext blank (some (it :: rest))).map TemplateBox.isSelected =
        true :: rest.map (fun _ => false) ∧
      (renderTemplates ext blank (some (it :: rest))).map (fun b => b.id) =
        (it :: rest).map (fun x => x.id) ∧
      (∀ (i : Nat) (b : TemplateBox) (target : ClickTarget),
        (listRun ext (renderTemplates ext blank items) evs)[i]? = some b → b.id ≠ "-2" →
        (target = ClickTarget.box i ∨ target = ClickTarget.child i) →
        (∀ j : Nat,
          ((clickTemplate target (listRun ext (renderTemplates ext blank items) evs))[j]?).map
              TemplateBox.isSelected =
            ((listRun ext (renderTemplates ext blank items) evs)[j]?).map
              (fun _ => decide (j = i) && !b.isSelected)) ∧
          (clickTemplate target (listRun ext (renderTemplates ext blank items) evs)).map
              (fun x => x.id) =
            (listRun ext (renderTemplates ext blank items) evs).map (fun x => x.id)) ∧
      listRun ext (renderTemplates ext blank none) (clicks.map ListEvent.clicked) =
        [placeholderBox blank] ∧
      listRun ext (renderTemplates ext blank (some [])) (clicks.map ListEvent.clicked) =
        [placeholderBox blank] ∧
      (placeholderBox blank).id = "-2" ∧ (placeholderBox blank).isSelected = false := by
  obtain ⟨⟨i0, huniq⟩, hcls⟩ := listRun_invariant ext evs (renderTemplates ext blank items)
    ⟨0, renderTemplates_unique ext blank items⟩ (renderTemplates_classes ext blank items)
  refine ⟨countP_le_one_of_unique _ _ i0 huniq, ?_, ?_, ?_, listRun_placeholder ext blank clicks,
    listRun_placeholder ext blank clicks, rfl, by cases blank <;> decide⟩
  · show (templateBoxes ext true (it :: rest)).map TemplateBox.isSelected = _
    unfold templateBoxes
    rw [List.map_cons, templateBoxes_selected]
    rfl
  · exact templateBoxes_ids ext (it :: rest) true
  · intro i b target hb hid ht
    exact clickTemplate_effect _ i0 i b target huniq hcls hb hid ht

theorem listTemplatesInVmPopup_container (ext : Ext) (server : String → AjaxResult ListJson)
    (w : Wizard) :
    (listTemplatesInVmPopup ext server w).templateContainer = w.templateContainer ∨
      ∃ blank items,
        (listTemplatesInVmPopup ext server w).templateContainer =
          renderTemplates ext blank items := by
  unfold listTemplatesInVmPopup
  split
  · exact Or.inl rfl
  · split
    · exact Or.inl rfl
    · simp only []
      split
      · unfold listTemplatesSuccess
        simp only []
        split
        · exact Or.inl rfl
        · exact Or.inr ⟨_, _, rfl⟩
      · exact Or.inl rfl

/-- Every handler of the wizard that lists (here the filter click) leaves the template list
as it was or as a listing renders it, so the states of the list are those of `listRun`. -/
theorem filterClick_container (ext : Ext) (server : String → AjaxResult ListJson)
    (t : Option String) (w : Wizard) :
    (filterClick ext server t w).templateContainer = w.templateContainer ∨
      ∃ blank items,
        (filterClick ext server t w).templateContainer = renderTemplates ext blank items := by
  unfold filterClick
  simp only []
  rcases listTemplatesInVmPopup_container ext server
    (if t = some "wiz_featured" then
      displayDiskOffering "data"
        { w with
          searchInput := ""
          currentPageInTemplateGridInVmPopup := 1
          selectedTemplateTypeInVmPopup := some "featured"
          wizFeatured := addClass "rev_wizmid_selectedtempbut" []
          wizMy := addClass "rev_wizmid_nonselectedtempbut" []
          wizCommunity := addClass "rev_wizmid_nonselectedtempbut" []
          wizBlank := addClass "rev_wizmid_nonselectedtempbut" [] }
    else if t = some "wiz_my" then
      displayDiskOffering "data"
        { w with
          searchInput := ""
          currentPageInTemplateGridInVmPopup := 1
          wizMy := addClass "rev_wizmid_selectedtempbut" []
          wizFeatured := addClass "rev_wizmid_nonselectedtempbut" []
          wizCommunity := addClass "rev_wizmid_nonselectedtempbut" []
          wizBlank := addClass "rev_wizmid_nonselectedtempbut" []
          selectedTemplateTypeInVmPopup := some "selfexecutable" }
    else if t = some "wiz_community" then
      displayDiskOffering "data"
        { w with
          searchInput := ""
          currentPageInTemplateGridInVmPopup := 1
          wizCommunity := addClass "rev_wizmid_selectedtempbut" []
          wizMy := addClass "rev_wizmid_nonselectedtempbut" []
          wizFeatured := addClass "rev_wizmid_nonselectedtempbut" []
          wizBlank := addClass "rev_wizmid_nonselectedtempbut" []
          selectedTemplateTypeInVmPopup := some "community" }
    else if t = some "wiz_blank" then
      displayDiskOffering "root"
        { w with
          searchInput := ""
          currentPageInTemplateGridInVmPopup := 1
          wizBlank := addClass "rev_wizmid_selectedtempbut" []
          wizMy := addClass "rev_wizmid_nonselectedtempbut" []
          wizCommunity := addClass "rev_wizmid_nonselectedtempbut" []
          wizFeatured := addClass "rev_wizmid_nonselectedtempbut" []
          selectedTemplateTypeInVmPopup := some "blank" }
    else { w with selectedTemplateTypeInVmPopup := some "featured" }) with h | h
  · left
    rw [h]
    split
    · rfl
    · split
      · rfl
      · split
        · rfl
        · split <;> rfl
  · exact Or.inr h

/-- Witness of C22: the two templates are listed and a child of the second box is clicked;
then the first box, which is not selected any more, is clicked. -/
theorem template_list_single_selection_witness :
    selectedCount
        (listRun Ext.sample (renderTemplates Ext.sample false (some twoTemplates))
          [ListEvent.clicked (ClickTarget.child 1)]) ≤ 1 ∧
      (listRun Ext.sample (renderTemplates Ext.sample false (some twoTemplates))
          [ListEvent.clicked (ClickTarget.child 1)]).map TemplateBox.isSelected =
        [false, true] ∧
      ∀ j : Nat,
        ((clickTemplate (ClickTarget.box 0)
            (listRun Ext.sample (renderTemplates Ext.sample false (some twoTemplates))
              [ListEvent.clicked (ClickTarget.child 1)]))[j]?).map TemplateBox.isSelected =
          ((listRun Ext.sample (renderTemplates Ext.sample false (some twoTemplates))
              [ListEvent.clicked (ClickTarget.child 1)])[j]?).map
            (fun _ => decide (j = 0) &&
              !(TemplateBox.isSelected
                { id := "5", classes := ["rev_wiztemplistbox"],
                  iconClass := some "rev_wiztemo_centosicons", text := "CentOS",
                  owner := some "system" })) :=
  ⟨(template_list_single_selection Ext.sample false (some twoTemplates)
      [ListEvent.clicked (ClickTarget.child 1)]
      { id := "5", ostypename := none, displaytext := none, account := none } [] []).1,
    by decide,
    ((template_list_single_selection Ext.sample false (some twoTemplates)
      [ListEvent.clicked (ClickTarget.child 1)]
      { id := "5", ostypename := none, displaytext := none, account := none } [] []).2.2.2.1 0
      { id := "5", classes := ["rev_wiztemplistbox"],
        iconClass := some "rev_wiztemo_centosicons", text := "CentOS", owner := some "system" }
      (ClickTarget.box 0) (by decide) (by decide) (Or.inl rfl)).1⟩

/-! ## The template filter of the wizard (lines 441-451, 623-682) -/

/-- C21, evaluated at the failing input: the wizard is opened for the first time, the blank
button is clicked and then the filter area itself, outside the four buttons (the element hit
has the id `wiz_template_filter`, or no id). After the first click the template type is
"blank", `#wiz_blank` is the highlighted button and the root disk offering section is the
one displayed. The second click runs line 645 and no case of the switch: the template type
is "featured" and the list request is the one for featured templates, while `#wiz_blank` is
still the highlighted button and the root disk offering section is still the one displayed;
the form of step 5 is then the ISO form with the id of a template. Opening the wizard again
after the first click (`vmWizardCleanup`) also leaves the root section displayed with the
type "featured". -/
theorem filter_area_click_breaks_agreement :
    Wizard.fresh.isBlank = false ∧ Wizard.fresh.blankHighlighted = false ∧
      Wizard.fresh.rootDisplayed = false ∧ Wizard.fresh.dataDisplayed = true ∧
      (filterClicks Ext.sample listServer [some "wiz_blank"] Wizard.fresh).isBlank = true ∧
      (filterClicks Ext.sample listServer [some "wiz_blank"] Wizard.fresh).blankHighlighted =
        true ∧
      (filterClicks Ext.sample listServer [some "wiz_blank"] Wizard.fresh).rootDisplayed = true ∧
      blankThenArea.selectedTemplateTypeInVmPopup = some "featured" ∧
      blankThenArea.isBlank = false ∧
      blankThenArea.blankHighlighted = true ∧
      blankThenArea.rootDisplayed = true ∧
      blankThenArea.dataDisplayed = false ∧
      blankThenArea.requests =
        [ "command=listIsos&isReady=true&bootable=true&zoneid=1&page=1&response=json",
          "command=listTemplates&templatefilter=featured&zoneid=1&page=1&response=json" ] ∧
      (filterClicks Ext.sample listServer [some "wiz_blank", none] Wizard.fresh).isBlank = false ∧
      (filterClicks Ext.sample listServer [some "wiz_blank", none]
        Wizard.fresh).blankHighlighted = true ∧
      (filterClicks Ext.sample listServer [some "wiz_blank", none] Wizard.fresh).rootDisplayed =
        true ∧
      (wizardForm blankThenArea WizardInputs.sample).isoSelected = true ∧
      (wizardForm blankThenArea WizardInputs.sample).templateId = some "5" ∧
      (vmWizardCleanup
        (filterClicks Ext.sample listServer [some "wiz_blank"] Wizard.fresh)).isBlank = false ∧
      (vmWizardCleanup
        (filterClicks Ext.sample listServer [some "wiz_blank"] Wizard.fresh)).rootDisplayed =
        true := by
  decide

theorem listTemplatesSuccess_filter (ext : Ext) (json : ListJson) (w : Wizard) :
    (listTemplatesSuccess ext json w).isBlank = w.isBlank ∧
      (listTemplatesSuccess ext json w).blankHighlighted = w.blankHighlighted ∧
      (listTemplatesSuccess ext json w).rootDisplayed = w.rootDisplayed ∧
      (listTemplatesSuccess ext json w).dataDisplayed = w.dataDisplayed := by
  unfold listTemplatesSuccess
  simp only []
  split <;> exact ⟨rfl, rfl, rfl, rfl⟩

theorem listTemplatesInVmPopup_filter (ext : Ext) (server : String → AjaxResult ListJson)
    (w : Wizard) :
    (listTemplatesInVmPopup ext server w).isBlank = w.isBlank ∧
      (listTemplatesInVmPopup ext server w).blankHighlighted = w.blankHighlighted ∧
      (listTemplatesInVmPopup ext server w).rootDisplayed = w.rootDisplayed ∧
      (listTemplatesInVmPopup ext server w).dataDisplayed = w.dataDisplayed := by
  unfold listTemplatesInVmPopup
  split
  · exact ⟨rfl, rfl, rfl, rfl⟩
  · split
    · exact ⟨rfl, rfl, rfl, rfl⟩
    · simp only []
      split
      · rename_i json _
        exact listTemplatesSuccess_filter ext json _
      · exact ⟨rfl, rfl, rfl, rfl⟩

/-- A click on one of the four buttons leaves the template type, the highlighted button and
the displayed disk offering section in agreement, whatever the state before. -/
theorem filterClick_button (ext : Ext) (server : String → AjaxResult ListJson)
    (t : Option String) (w : Wizard) (ht : t ∈ filterButtons) :
    (filterClick ext server t w).isBlank = (filterClick ext server t w).blankHighlighted ∧
      (filterClick ext server t w).isBlank = (filterClick ext server t w).rootDisplayed ∧
      (!(filterClick ext server t w).isBlank) = (filterClick ext server t w).dataDisplayed ∧
      (filterClick ext server t w).isBlank = decide (t = some "wiz_blank") := by
  unfold filterClick
  simp only []
  obtain ⟨h1, h2, h3, h4⟩ := listTemplatesInVmPopup_filter ext server
    (if t = some "wiz_featured" then
      displayDiskOffering "data"
        { w with
          searchInput := ""
          currentPageInTemplateGridInVmPopup := 1
          selectedTemplateTypeInVmPopup := some "featured"
          wizFeatured := addClass "rev_wizmid_selectedtempbut" []
          wizMy := addClass "rev_wizmid_nonselectedtempbut" []
          wizCommunity := addClass "rev_wizmid_nonselectedtempbut" []
          wizBlank := addClass "rev_wizmid_nonselectedtempbut" [] }
    else if t = some "wiz_my" then
      displayDiskOffering "data"
        { w with
          searchInput := ""
          currentPageInTemplateGridInVmPopup := 1
          wizMy := addClass "rev_wizmid_selectedtempbut" []
          wizFeatured := addClass "rev_wizmid_nonselectedtempbut" []
          wizCommunity := addClass "rev_wizmid_nonselectedtempbut" []
          wizBlank := addClass "rev_wizmid_nonselectedtempbut" []
          selectedTemplateTypeInVmPopup := some "selfexecutable" }
    else if t = some "wiz_community" then
      displayDiskOffering "data"
        { w with
          searchInput := ""
          currentPageInTemplateGridInVmPopup := 1
          wizCommunity := addClass "rev_wizmid_selectedtempbut" []
          wizMy := addClass "rev_wizmid_nonselectedtempbut" []
          wizFeatured := addClass "rev_wizmid_nonselectedtempbut" []
          wizBlank := addClass "rev_wizmid_nonselectedtempbut" []
          selectedTemplateTypeInVmPopup := some "community" }
    else if t = some "wiz_blank" then
      displayDiskOffering "root"
        { w with
          searchInput := ""
          currentPageInTemplateGridInVmPopup := 1
          wizBlank := addClass "rev_wizmid_selectedtempbut" []
          wizMy := addClass "rev_wizmid_nonselectedtempbut" []
          wizCommunity := addClass "rev_wizmid_nonselectedtempbut" []
          wizFeatured := addClass "rev_wizmid_nonselectedtempbut" []
          selectedTemplateTypeInVmPopup := some "blank" }
    else { w with selectedTemplateTypeInVmPopup := some "featured" })
  rw [h1, h2, h3, h4]
  simp only [filterButtons, List.mem_cons, List.mem_singleton, List.not_mem_nil, or_false] at ht
  rcases ht with rfl | rfl | rfl | rfl <;>
    simp [displayDiskOffering, addClass, Wizard.isBlank, Wizard.blankHighlighted,
      Wizard.rootDisplayed, Wizard.dataDisplayed]

/-- When every click in the filter area hits one of the four buttons, the template type is
"blank" exactly when `#wiz_blank` is the highlighted button and exactly when the root disk
offering section is the one displayed, and otherwise the data section is the one displayed,
from a wizard cleaned up while the data section was displayed. -/
theorem filter_buttons_keep_agreement (ext : Ext) (server : String → AjaxResult ListJson)
    (targets : List (Option String)) (w0 : Wizard) (hall : ∀ t ∈ targets, t ∈ filterButtons)
    (h0 : w0.dataDisplayed = true) :
    (filterClicks ext server targets (vmWizardCleanup w0)).isBlank =
        (filterClicks ext server targets (vmWizardCleanup w0)).blankHighlighted ∧
      (filterClicks ext server targets (vmWizardCleanup w0)).isBlank =
        (filterClicks ext server targets (vmWizardCleanup w0)).rootDisplayed ∧
      (!(filterClicks ext server targets (vmWizardCleanup w0)).isBlank) =
        (filterClicks ext server targets (vmWizardCleanup w0)).dataDisplayed := by
  rcases List.eq_nil_or_concat targets with rfl | ⟨init, t, rfl⟩
  · simp only [Wizard.dataDisplayed, Bool.and_eq_true, Bool.not_eq_true'] at h0
    obtain ⟨⟨⟨g1, g2⟩, g3⟩, g4⟩ := h0
    simp [filterClicks, vmWizardCleanup, addClass, Wizard.isBlank, Wizard.blankHighlighted,
      Wizard.rootDisplayed, Wizard.dataDisplayed, g1, g2, g3, g4]
  · rw [List.concat_eq_append] at hall ⊢
    have ht : t ∈ filterButtons := hall t (by simp)
    have hrun : filterClicks ext server (init ++ [t]) (vmWizardCleanup w0) =
        filterClick ext server t (filterClicks ext server init (vmWizardCleanup w0)) := by
      unfold filterClicks
      rw [List.foldl_append]
      rfl
    rw [hrun]
    obtain ⟨g1, g2, g3, -⟩ := filterClick_button ext server t
      (filterClicks ext server init (vmWizardCleanup w0)) ht
    exact ⟨g1, g2, g3⟩

/-! ## The step counter of the wizard (lines 684-907) -/

theorem nextStepClick_of_step (ext : Ext) (wext : WizardExt) (inp : WizardInputs)
    (c : Wizard × State) (step : Int) (h : c.1.currentStepInVmPopup = some step) :
    (nextStepClick ext wext inp c).1.currentStepInVmPopup = some (step + 1) ∧
      (nextStepClick ext wext inp c).2 =
        if step = 5 then nextStepDeploy ext wext (wizardForm c.1 inp) c.2 else c.2 := by
  unfold nextStepClick
  rw [h]
  refine ⟨rfl, ?_⟩
  by_cases h5 : step = 5
  · have h1 : ¬ step = 1 := by omega
    simp only [h5, if_true]
    rw [if_neg (by decide)]
  · simp only [h5, if_false]

theorem nextClicks_counter (ext : Ext) (wext : WizardExt) : ∀ (inps : List WizardInputs)
    (c : Wizard × State) (step : Int), c.1.currentStepInVmPopup = some step →
    (nextClicks ext wext inps c).1.currentStepInVmPopup = some (step + inps.length) := by
  intro inps
  induction inps with
  | nil => intro c step h; simpa [nextClicks] using h
  | cons inp inps ih =>
    intro c step h
    show (nextClicks ext wext inps (nextStepClick ext wext inp c)).1.currentStepInVmPopup = _
    rw [ih _ (step + 1) (nextStepClick_of_step ext wext inp c step h).1]
    simp only [List.length_cons, Nat.cast_add, Nat.cast_one]
    congr 1
    omega

theorem nextClicks_append (ext : Ext) (wext : WizardExt) (l1 l2 : List WizardInputs)
    (c : Wizard × State) :
    nextClicks ext wext (l1 ++ l2) c = nextClicks ext wext l2 (nextClicks ext wext l1 c) := by
  unfold nextClicks
  rw [List.foldl_append]

/-- C23: from the wizard that `vmWizardCleanup` leaves (counter 1), in a sequence of clicks
on `#next_step` the click number `k + 1` finds the counter at `k + 1` and leaves it at
`k + 2`; when `k + 1` is 5 it submits the deploy, sending exactly the one
`deployVirtualMachine` request built from the form, and when `k + 1` is not 5 it leaves the
console as it is, so it sends no request. After all the clicks the counter is 1 plus their
number. -/
theorem next_click_counts_and_deploys_on_fifth (ext : Ext) (wext : WizardExt) (w0 : Wizard)
    (s : State) (inps : List WizardInputs) (k : Nat) (inp : WizardInputs)
    (hk : inps[k]? = some inp) :
    (vmWizardCleanup w0).currentStepInVmPopup = some 1 ∧
      (afterNextClicks ext wext w0 s inps k).1.currentStepInVmPopup = some ((k : Int) + 1) ∧
      afterNextClicks ext wext w0 s inps (k + 1) =
        nextStepClick ext wext inp (afterNextClicks ext wext w0 s inps k) ∧
      (afterNextClicks ext wext w0 s inps (k + 1)).1.currentStepInVmPopup =
        some ((k : Int) + 2) ∧
      (afterNextClicks ext wext w0 s inps (k + 1)).2 =
        (if k + 1 = 5 then
          nextStepDeploy ext wext (wizardForm (afterNextClicks ext wext w0 s inps k).1 inp)
            (afterNextClicks ext wext w0 s inps k).2
         else (afterNextClicks ext wext w0 s inps k).2) ∧
      (afterNextClicks ext wext w0 s inps (k + 1)).2.requests =
        (afterNextClicks ext wext w0 s inps k).2.requests ++
          (if k + 1 = 5 then
            ["command=deployVirtualMachine" ++
              String.join (moreCriteria wext
                (wizardForm (afterNextClicks ext wext w0 s inps k).1 inp)) ++ "&response=json"]
           else []) ∧
      (afterNextClicks ext wext w0 s inps inps.length).1.currentStepInVmPopup =
        some (1 + (inps.length : Int)) := by
  have hlt : k < inps.length := (List.getElem?_eq_some_iff.mp hk).1
  have hbefore : (afterNextClicks ext wext w0 s inps k).1.currentStepInVmPopup =
      some ((k : Int) + 1) := by
    unfold afterNextClicks
    rw [nextClicks_counter ext wext _ _ 1 rfl, List.length_take, Nat.min_eq_left (by omega)]
    congr 1
    omega
  have hstep : afterNextClicks ext wext w0 s inps (k + 1) =
      nextStepClick ext wext inp (afterNextClicks ext wext w0 s inps k) := by
    unfold afterNextClicks
    rw [List.take_succ, hk, nextClicks_append]
    rfl
  obtain ⟨g1, g2⟩ := nextStepClick_of_step ext wext inp _ _ hbefore
  have hiff : ((k : Int) + 1 = 5) ↔ (k + 1 = 5) := by omega
  have hstate : (afterNextClicks ext wext w0 s inps (k + 1)).2 =
      (if k + 1 = 5 then
        nextStepDeploy ext wext (wizardForm (afterNextClicks ext wext w0 s inps k).1 inp)
          (afterNextClicks ext wext w0 s inps k).2
       else (afterNextClicks ext wext w0 s inps k).2) := by
    rw [hstep, g2]
    by_cases h5 : k + 1 = 5
    · rw [if_pos h5, if_pos (hiff.mpr h5)]
    · rw [if_neg h5, if_neg (fun e => h5 (hiff.mp e))]
  refine ⟨rfl, hbefore, hstep, ?_, hstate, ?_, ?_⟩
  · rw [hstep, g1]
    congr 1
  · rw [hstate]
    by_cases h5 : k + 1 = 5
    · rw [if_pos h5, if_pos h5]
      rfl
    · rw [if_neg h5, if_neg h5, List.append_nil]
  · unfold afterNextClicks
    rw [List.take_length, nextClicks_counter ext wext _ _ 1 rfl]

/-- Witness of C23: six clicks on `#next_step` with the sample inputs, at the fifth click. -/
theorem next_click_counts_and_deploys_on_fifth_witness :
    (List.replicate 6 WizardInputs.sample)[4]? = some WizardInputs.sample ∧
      ((vmWizardCleanup Wizard.loaded).currentStepInVmPopup = some 1 ∧
      (afterNextClicks Ext.sample WizardExt.sample Wizard.loaded (State.initial Panel.blank)
          (List.replicate 6 WizardInputs.sample) 4).1.currentStepInVmPopup =
        some (((4 : Nat) : Int) + 1) ∧
      afterNextClicks Ext.sample WizardExt.sample Wizard.loaded (State.initial Panel.blank)
          (List.replicate 6 WizardInputs.sample) (4 + 1) =
        nextStepClick Ext.sample WizardExt.sample WizardInputs.sample
          (afterNextClicks Ext.sample WizardExt.sample Wizard.loaded (State.initial Panel.blank)
            (List.replicate 6 WizardInputs.sample) 4) ∧
      (afterNextClicks Ext.sample WizardExt.sample Wizard.loaded (State.initial Panel.blank)
          (List.replicate 6 WizardInputs.sample) (4 + 1)).1.currentStepInVmPopup =
        some (((4 : Nat) : Int) + 2) ∧
      (afterNextClicks Ext.sample WizardExt.sample Wizard.loaded (State.initial Panel.blank)
          (List.replicate 6 WizardInputs.sample) (4 + 1)).2 =
        (if 4 + 1 = 5 then
          nextStepDeploy Ext.sample WizardExt.sample
            (wizardForm (afterNextClicks Ext.sample WizardExt.sample Wizard.loaded
              (State.initial Panel.blank) (List.replicate 6 WizardInputs.sample) 4).1
              WizardInputs.sample)
            (afterNextClicks Ext.sample WizardExt.sample Wizard.loaded (State.initial Panel.blank)
              (List.replicate 6 WizardInputs.sample) 4).2
         else (afterNextClicks Ext.sample WizardExt.sample Wizard.loaded
            (State.initial Panel.blank) (List.replicate 6 WizardInputs.sample) 4).2) ∧
      (afterNextClicks Ext.sample WizardExt.sample Wizard.loaded (State.initial Panel.blank)
          (List.replicate 6 WizardInputs.sample) (4 + 1)).2.requests =
        (afterNextClicks Ext.sample WizardExt.sample Wizard.loaded (State.initial Panel.blank)
          (List.replicate 6 WizardInputs.sample) 4).2.requests ++
          (if 4 + 1 = 5 then
            ["command=deployVirtualMachine" ++
              String.join (moreCriteria WizardExt.sample
                (wizardForm (afterNextClicks Ext.sample WizardExt.sample Wizard.loaded
                  (State.initial Panel.blank) (List.replicate 6 WizardInputs.sample) 4).1
                  WizardInputs.sample)) ++ "&response=json"]
           else []) ∧
      (afterNextClicks Ext.sample WizardExt.sample Wizard.loaded (State.initial Panel.blank)
          (List.replicate 6 WizardInputs.sample)
          (List.replicate 6 WizardInputs.sample).length).1.currentStepInVmPopup =
        some (1 + ((List.replicate 6 WizardInputs.sample).length : Int))) :=
  ⟨by decide,
    next_click_counts_and_deploys_on_fifth Ext.sample WizardExt.sample Wizard.loaded
      (State.initial Panel.blank) (List.replicate 6 WizardInputs.sample) 4 WizardInputs.sample
      (by decide)⟩

/-- The six clicks of the scenario, evaluated: the counters after the clicks and the
requests sent up to each click. Only the fifth click sends a request. -/
theorem six_next_clicks_scenario :
    (List.range 7).map (fun k =>
        ((afterNextClicks Ext.sample WizardExt.sample Wizard.loaded (State.initial Panel.blank)
            (List.replicate 6 WizardInputs.sample) k).1.currentStepInVmPopup,
          (afterNextClicks Ext.sample WizardExt.sample Wizard.loaded (State.initial Panel.blank)
            (List.replicate 6 WizardInputs.sample) k).2.requests)) =
      [ (some 1, []), (some 2, []), (some 3, []), (some 4, []), (some 5, []),
        (some 6, ["command=deployVirtualMachine&zoneId=1&displayname=vm&group=web" ++
          "&templateId=undefined&serviceOfferingId=2&diskOfferingId=9&response=json"]),
        (some 7, ["command=deployVirtualMachine&zoneId=1&displayname=vm&group=web" ++
          "&templateId=undefined&serviceOfferingId=2&diskOfferingId=9&response=json"]) ] := by
  decide

end CloudInstance
